import Mathlib

/-!
# Incremental eigCG solver (`lib/inv_eigcg_quda.cpp`): embedding and properties

The development follows the C++ source function by function.

* `double` is embedded as `ℚ` (exact arithmetic), `std::complex<double>` as `Cplx`.
* A `ColorSpinorField` is a vector of `n` complex numbers.  Fields are device
  resident: the location guard at the head of `eigCGsolve` is a property of
  where a field is stored and is not represented.
* `Eigen` dense matrices are entry functions together with their dimensions;
  every indexed access is checked against the dimensions, and an access outside
  them is the fault `Fault.indexOutOfRange`.
* `errorQuda` is a fatal fault: functions that can reach one return `Except Fault`.
* The code is the `DEFLATEDSOLVER` build.  Timers, flop counters and the
  verbosity dependent statistics lines are not represented.
* The type check `checkTypes` and the method `SpinorNorm::store_norm` of
  `include/texture.h` are embedded at the end of the definitions; `float` is
  `ℚ` there, and the traits and helpers that the header uses without defining
  them are fields or parameters.
-/

namespace quda

/-! ## Scalars and dense matrices -/

/-- Fatal conditions: an `errorQuda` call, an access outside an allocated
extent, the dereference of an unset shared pointer, or an exhausted iteration
budget of the embedding (`fuel`). -/
inductive Fault where
  | indexOutOfRange
  | nullPointer
  | unknownLibrary
  | magmaNotBuilt
  | unknownInnerSolver
  | preconditionedIncremental
  | initCGPreconditioning
  | fuel
deriving DecidableEq, Repr

/-- The scalar type `Complex` of the source (`std::complex<double>`). -/
structure Cplx where
  re : ℚ
  im : ℚ
deriving DecidableEq

namespace Cplx

/-- Conversion `double -> Complex`. -/
def ofReal (x : ℚ) : Cplx := ⟨x, 0⟩

instance : Zero Cplx := ⟨⟨0, 0⟩⟩

instance : Add Cplx := ⟨fun a b => ⟨a.re + b.re, a.im + b.im⟩⟩

instance : Mul Cplx := ⟨fun a b => ⟨a.re * b.re - a.im * b.im, a.re * b.im + a.im * b.re⟩⟩

/-- Complex conjugate. -/
def conj (a : Cplx) : Cplx := ⟨a.re, -a.im⟩

/-- Product of a complex number with a real one. -/
def scale (c : ℚ) (a : Cplx) : Cplx := ⟨c * a.re, c * a.im⟩

/-- Sum of a family of complex numbers over `0 .. len-1`. -/
def sum (len : Nat) (f : Nat → Cplx) : Cplx :=
  ⟨∑ i in Finset.range len, (f i).re, ∑ i in Finset.range len, (f i).im⟩

end Cplx

/-- Entries of an `Eigen` dense complex matrix (`MatrixXcd`). -/
abbrev DenseMatrix := Nat → Nat → Cplx

/-- Entries of an `Eigen` real vector (`VectorXd`). -/
abbrev RealVector := Nat → ℚ

/-- The result of `setZero()`. -/
def DenseMatrix.zero : DenseMatrix := fun _ _ => 0

/-- Checked write `M(i,j) = v` into a `rows x cols` matrix. -/
def setCoeff (rows cols : Nat) (M : DenseMatrix) (i j : Nat) (v : Cplx) :
    Except Fault DenseMatrix :=
  if i < rows ∧ j < cols then
    pure (fun a b => if a = i ∧ b = j then v else M a b)
  else throw Fault.indexOutOfRange

/-- Checked block write `M.col(c).segment(0, len) = s`. -/
def setColSegment (rows cols : Nat) (M : DenseMatrix) (c len : Nat) (s : Nat → Cplx) :
    Except Fault DenseMatrix :=
  if c < cols ∧ len ≤ rows then
    pure (fun a b => if b = c ∧ a < len then s a else M a b)
  else throw Fault.indexOutOfRange

/-- Checked block write `M.row(r).segment(0, len) = s`. -/
def setRowSegment (rows cols : Nat) (M : DenseMatrix) (r len : Nat) (s : Nat → Cplx) :
    Except Fault DenseMatrix :=
  if r < rows ∧ len ≤ cols then
    pure (fun a b => if a = r ∧ b < len then s b else M a b)
  else throw Fault.indexOutOfRange

/-- A bounds assertion of the dense-matrix and field-set accessors: the fault
`indexOutOfRange` unless `c` holds. -/
def inRange (c : Prop) [Decidable c] : Except Fault Unit :=
  if c then pure () else throw Fault.indexOutOfRange

/-! ## Fields and the vector algebra -/

/-- A field vector: `n` complex components. -/
abbrev ColorSpinorField (n : Nat) := Fin n → Cplx

/-- A composite field: `composite_dim` components. -/
structure ColorSpinorFieldSet (n : Nat) where
  composite_dim : Nat
  comp : Nat → ColorSpinorField n

namespace ColorSpinorFieldSet

/-- A zero-initialised composite field (`QUDA_ZERO_FIELD_CREATE`). -/
def Create (n dim : Nat) : ColorSpinorFieldSet n := ⟨dim, fun _ _ => 0⟩

/-- Checked read `Component(i)`. -/
def Component {n : Nat} (S : ColorSpinorFieldSet n) (i : Nat) :
    Except Fault (ColorSpinorField n) :=
  if i < S.composite_dim then pure (S.comp i) else throw Fault.indexOutOfRange

/-- Checked write of `Component(i)`. -/
def setComponent {n : Nat} (S : ColorSpinorFieldSet n) (i : Nat) (v : ColorSpinorField n) :
    Except Fault (ColorSpinorFieldSet n) :=
  if i < S.composite_dim then
    pure { S with comp := fun a => if a = i then v else S.comp a }
  else throw Fault.indexOutOfRange

end ColorSpinorFieldSet

namespace blas

variable {n : Nat}

/-- Modelled from the spec: the vector-algebra service (section 6) is not part
of the sources at hand; `zero` clears a field. -/
def zero : ColorSpinorField n := fun _ => 0

/-- Modelled from the spec: squared norm of a field. -/
def norm2 (x : ColorSpinorField n) : ℚ := ∑ i, ((x i).re * (x i).re + (x i).im * (x i).im)

/-- Modelled from the spec: real part of the inner product of two fields. -/
def reDotProduct (x y : ColorSpinorField n) : ℚ :=
  ∑ i, ((x i).re * (y i).re + (x i).im * (y i).im)

/-- Modelled from the spec: complex inner product, conjugate linear in `x`. -/
def cDotProduct (x y : ColorSpinorField n) : Cplx :=
  ⟨∑ i, ((x i).re * (y i).re + (x i).im * (y i).im),
   ∑ i, ((x i).re * (y i).im - (x i).im * (y i).re)⟩

/-- Modelled from the spec: `ax(a, x)` rescales, `x := a x`. -/
def ax (a : ℚ) (x : ColorSpinorField n) : ColorSpinorField n := fun i => Cplx.scale a (x i)

/-- Modelled from the spec: `xpy(x, y)` accumulates, `y := x + y`. -/
def xpy (x y : ColorSpinorField n) : ColorSpinorField n := fun i => x i + y i

/-- Modelled from the spec: `xpay(x, a, y)` sets `y := x + a y`. -/
def xpay (x : ColorSpinorField n) (a : ℚ) (y : ColorSpinorField n) : ColorSpinorField n :=
  fun i => x i + Cplx.scale a (y i)

/-- Modelled from the spec: `axpyNorm(a, x, y)` sets `y := y + a x` and returns
the new `y` with its squared norm. -/
def axpyNorm (a : ℚ) (x y : ColorSpinorField n) : ColorSpinorField n × ℚ :=
  let y' : ColorSpinorField n := fun i => y i + Cplx.scale a (x i)
  (y', norm2 y')

/-- Modelled from the spec: `xmyNorm(x, y)` sets `y := x - y` and returns the
new `y` with its squared norm. -/
def xmyNorm (x y : ColorSpinorField n) : ColorSpinorField n × ℚ :=
  let y' : ColorSpinorField n := fun i => x i + Cplx.scale (-1) (y i)
  (y', norm2 y')

/-- Modelled from the spec: the fused update `axpyZpbx(a, x, y, z, b)` sets
`y := y + a x` and then `x := z + b x`; the result is the pair of the new `x`
and the new `y`. -/
def axpyZpbx (a : ℚ) (x y z : ColorSpinorField n) (b : ℚ) :
    ColorSpinorField n × ColorSpinorField n :=
  (fun i => z i + Cplx.scale b (x i), fun i => y i + Cplx.scale a (x i))

/-- Modelled from the spec: block `caxpy(Alpha, X, Y)`, the dense linear
combination `Y_j := Y_j + sum_i Alpha(i,j) X_i` over the `rows` components of
`X`. -/
def caxpy (rows : Nat) (Alpha : DenseMatrix) (X : Nat → ColorSpinorField n)
    (Y : Nat → ColorSpinorField n) : Nat → ColorSpinorField n :=
  fun j c => Y j c + Cplx.sum rows (fun i => Alpha i j * X i c)

end blas

/-! ## Enumerations and solver parameters -/

/-- Dense linear algebra back ends (`enum class libtype`). -/
inductive libtype where
  | eigen_lib
  | magma_lib
  | lapack_lib
  | mkl_lib
deriving DecidableEq, Repr

/-- Values of `QudaExtLibType`; `QUDA_EXTLIB_INVALID` stands for every value
other than the two the solver names. -/
inductive QudaExtLibType where
  | QUDA_MAGMA_EXTLIB
  | QUDA_EIGEN_EXTLIB
  | QUDA_EXTLIB_INVALID
deriving DecidableEq, Repr

/-- Values of `QudaInverterType` named by the solver; `other` carries the
numeric code of any further inverter. -/
inductive QudaInverterType where
  | QUDA_CG_INVERTER
  | QUDA_MR_INVERTER
  | QUDA_SD_INVERTER
  | QUDA_EIGCG_INVERTER
  | QUDA_INC_EIGCG_INVERTER
  | QUDA_INVALID_INVERTER
  | other (code : Nat)
deriving DecidableEq, Repr

/-- Values of `QudaPrecision`. -/
inductive QudaPrecision where
  | QUDA_QUARTER_PRECISION
  | QUDA_HALF_PRECISION
  | QUDA_SINGLE_PRECISION
  | QUDA_DOUBLE_PRECISION
deriving DecidableEq, Repr

/-- The members of `SolverParam` that the solver reads or writes. -/
structure SolverParam where
  tol : ℚ
  tol_restart : ℚ
  tol_hq : ℚ
  tol_precondition : ℚ
  inc_tol : ℚ
  eigenval_tol : ℚ
  delta : ℚ
  maxiter : Int
  maxiter_precondition : Int
  max_restart_num : Int
  eigcg_max_restarts : Int
  m : Nat
  nev : Nat
  rhs_idx : Int
  deflation_grid : Int
  iter : Int
  true_res : ℚ
  true_res_hq : ℚ
  residual_type : Nat
  precision : QudaPrecision
  precision_sloppy : QudaPrecision
  precision_precondition : QudaPrecision
  precision_ritz : QudaPrecision
  inv_type : QudaInverterType
  inv_type_precondition : QudaInverterType
  extlib_type : QudaExtLibType
  use_init_guess : Bool
  preserve_source : Bool
  is_preconditioner : Bool
  use_sloppy_partial_accumulator : Bool

/-! ## `EigCGArgs` -/

/-- The per-cycle Lanczos state (`class EigCGArgs`). -/
structure EigCGArgs (n : Nat) where
  Tm : DenseMatrix
  ritzVecs : DenseMatrix
  Tmvals : RealVector
  H2k : DenseMatrix
  m : Nat
  k : Nat
  id : Nat
  restarts : Nat
  global_stop : ℚ
  run_residual_correction : Bool
  V2k : Option (ColorSpinorFieldSet n)

namespace EigCGArgs

variable {n : Nat}

/-- The constructor `EigCGArgs(m, k)`.  `Tmvals` and `H2k` are allocated
without initialisation in the source; their entries start as zero here. -/
def new (n m k : Nat) : EigCGArgs n :=
  { Tm := DenseMatrix.zero, ritzVecs := DenseMatrix.zero, Tmvals := fun _ => 0,
    H2k := DenseMatrix.zero, m := m, k := k, id := 0, restarts := 0, global_stop := 0,
    run_residual_correction := false, V2k := none }

/-- The method `SetLanczos(diag_val, offdiag_val)`. -/
def SetLanczos (a : EigCGArgs n) (diag_val offdiag_val : Cplx) : Except Fault (EigCGArgs n) :=
  if a.run_residual_correction then pure a
  else do
    let T0 ← setCoeff a.m a.m a.Tm a.id a.id diag_val
    let T2 ←
      if a.id < a.m - 1 then do
        let T1 ← setCoeff a.m a.m T0 a.id (a.id + 1) offdiag_val
        setCoeff a.m a.m T1 (a.id + 1) a.id offdiag_val
      else pure T0
    pure { a with Tm := T2, id := a.id + 1 }

/-- The method `ResetAccumBuffer`: a fresh zero buffer of `2k` fields. -/
def ResetAccumBuffer (a : EigCGArgs n) : EigCGArgs n :=
  { a with V2k := some (ColorSpinorFieldSet.Create n (2 * a.k)) }

/-- The method `ResetSearchIdx`. -/
def ResetSearchIdx (a : EigCGArgs n) : EigCGArgs n :=
  { a with id := 2 * a.k, restarts := a.restarts + 1 }

/-- The method `CleanArgs`. -/
def CleanArgs (a : EigCGArgs n) : EigCGArgs n :=
  { a with id := 0, Tm := DenseMatrix.zero, Tmvals := fun _ => 0,
           ritzVecs := DenseMatrix.zero, V2k := none }

/-- The loop `for (i = 0; i < count; i++) Tm(i,i) = Tmvals(i)` of
`RestartLanczos`, entries `0 .. count-1` in increasing order. -/
def loadRitzValues (m : Nat) (Tmvals : RealVector) : Nat → DenseMatrix → Except Fault DenseMatrix
  | 0, T => pure T
  | i + 1, T => do
    let T1 ← loadRitzValues m Tmvals i T
    setCoeff m m T1 i i (Cplx.ofReal (Tmvals i))

/-- The method `RestartLanczos(w, v, inv_sqrt_r2)`; `w` is the single field
that the caller passes and `v` the `2k` restarted basis fields. -/
def RestartLanczos (a : EigCGArgs n) (w : ColorSpinorField n) (v : Nat → ColorSpinorField n)
    (inv_sqrt_r2 : ℚ) : Except Fault (EigCGArgs n) := do
  let T1 ← loadRitzValues a.m a.Tmvals (2 * a.k) DenseMatrix.zero
  let s : Nat → Cplx := fun j => Cplx.scale inv_sqrt_r2 (blas.cDotProduct w (v j))
  let T2 ← setColSegment a.m a.m T1 (2 * a.k) (2 * a.k) s
  let T3 ← setRowSegment a.m a.m T2 (2 * a.k) (2 * a.k) (fun j => Cplx.conj (s j))
  pure { a with Tm := T3 }

end EigCGArgs

/-! ## External collaborators, events and the solver object -/

/-- Inner solvers that `K` can point to: the three preconditioners of the
constructor and the two `CG` objects built by `operator()` and `initCGsolve`. -/
inductive InnerSolver where
  | CG_precon
  | MR_precon
  | SD_precon
  | CG_sloppy
  | CG_full
deriving DecidableEq, Repr

/-- Diagnostic lines of the solver (`printfQuda` and `warningQuda` texts). -/
inductive Message where
  | zeroSource
  | exceededMaxIter
  | runningDCG
  | resetMaxCycles
  | rhsMismatch
  | reserveEigenvectors
  | initEigCG
  | deflationComplete
deriving DecidableEq, Repr

/-- Observable actions of a run, in the order in which they happen. -/
inductive Event where
  | matApply
  | matSloppyApply
  | precondition
  | innerSolve (tol : ℚ)
  | computeRitz (lib : libtype)
  | restartVT
  | saveAz
  | deflProject
  | deflIncrement (count : Nat)
  | deflReduce (tol : ℚ) (maxCount : Nat)
  | deflVerify
  | eigCGcycle
  | freeVm
  | printf (msg : Message)
  | warning (msg : Message)
deriving DecidableEq

/-- What the solver uses and the sources at hand do not define: the operators,
the inner solvers, the deflation object of type `D`, the dense eigensolvers,
the convergence tests of the `Solver` base class, `sqrt`, the build flag
`MAGMA_LIB` and the verbosity test `getVerbosity() >= QUDA_VERBOSE`.
An inner solver `(*K)(x, b)` run under the parameters `Kparam` yields the new
`x` and the new value of `Kparam.iter`. -/
structure Collab (n : Nat) (D : Type) where
  mat : ColorSpinorField n → ColorSpinorField n
  matSloppy : ColorSpinorField n → ColorSpinorField n
  inner : InnerSolver → SolverParam → ColorSpinorField n → ColorSpinorField n →
    ColorSpinorField n × Int
  sqrt : ℚ → ℚ
  convergence : SolverParam → ℚ → ℚ → ℚ → ℚ → Bool
  stopping : ℚ → ℚ → Nat → ℚ
  HeavyQuarkResidualNorm : ColorSpinorField n → ColorSpinorField n → ℚ
  QUDA_HEAVY_QUARK_RESIDUAL : Nat
  SelfAdjointEigenSolver : Nat → DenseMatrix → DenseMatrix × RealVector
  magma_Xheev : Nat → DenseMatrix → DenseMatrix × RealVector
  householderQ : Nat → Nat → DenseMatrix → DenseMatrix
  MAGMA_LIB : Bool
  verbose : Bool
  is_complete : D → Bool
  project : D → ColorSpinorField n → ColorSpinorField n → ColorSpinorField n
  increment : D → ColorSpinorFieldSet n → Nat → D
  reduce : D → ℚ → Nat → D
  size : D → Nat

/-- The solver object `IncEigCG` with the objects it shares with its caller:
`param`, the deflation object `defl` behind `param.deflation_op`, the file
static `max_eigcg_cycles`, and the record `log` of what has happened. -/
structure IncEigCG (n : Nat) (D : Type) where
  param : SolverParam
  Kparam : SolverParam
  K : Option InnerSolver
  Vm : Option (ColorSpinorFieldSet n)
  r_pre : Option (ColorSpinorField n)
  p_pre : Option (ColorSpinorField n)
  eigcg_args : Option (EigCGArgs n)
  init : Bool
  rp : Option (ColorSpinorField n)
  yp : Option (ColorSpinorField n)
  Ap : Option (ColorSpinorField n)
  pp : Option (ColorSpinorField n)
  tmpp : Option (ColorSpinorField n)
  Az : Option (ColorSpinorField n)
  defl : D
  max_eigcg_cycles : Int
  log : List Event

/-- Dereference of a shared pointer. -/
def deref {α : Type} : Option α → Except Fault α
  | some a => pure a
  | none => throw Fault.nullPointer

/-- Append an event to the record of a solver. -/
def IncEigCG.emit {n : Nat} {D : Type} (S : IncEigCG n D) (e : Event) : IncEigCG n D :=
  { S with log := S.log ++ [e] }

/-! ## Rayleigh-Ritz extraction -/

/-- Product `A * B` with inner dimension `inner`. -/
def matMul (inner : Nat) (A B : DenseMatrix) : DenseMatrix :=
  fun i j => Cplx.sum inner (fun l => A i l * B l j)

/-- The matrix `A.adjoint()`. -/
def adjoint (A : DenseMatrix) : DenseMatrix := fun i j => Cplx.conj (A j i)

/-- The matrix `MatrixXcd::Identity(rows, cols)`. -/
def identity : DenseMatrix := fun i j => if i = j then Cplx.ofReal 1 else 0

/-- Checked block write `M.block(r0, c0, h, w) = B`, entry `(0,0)` of `B`
going to `(r0, c0)`. -/
def setBlock (rows cols : Nat) (M : DenseMatrix) (r0 c0 h w : Nat) (B : DenseMatrix) :
    Except Fault DenseMatrix :=
  if r0 + h ≤ rows ∧ c0 + w ≤ cols then
    pure (fun a b => if r0 ≤ a ∧ a < r0 + h ∧ c0 ≤ b ∧ b < c0 + w then B (a - r0) (b - c0)
                     else M a b)
  else throw Fault.indexOutOfRange

/-- The common tail of both `ComputeRitz` specialisations: orthonormalise the
first `2k` columns of `ritzVecs`, project `Tm`, solve the small problem. -/
def ritzProjection {n : Nat} {D : Type} (C : Collab n D) (args : EigCGArgs n) :
    Except Fault (EigCGArgs n) := do
  let m := args.m
  let k := args.k
  inRange (2 * k ≤ m)
  let Q2k := matMul m (C.householderQ m (2 * k) args.ritzVecs) identity
  let H2k := matMul m (matMul m (adjoint Q2k) args.Tm) Q2k
  let es_h2k := C.SelfAdjointEigenSolver (2 * k) H2k
  let ritz ← setBlock m m args.ritzVecs 0 0 m (2 * k) (matMul (2 * k) Q2k es_h2k.1)
  pure { args with H2k := H2k, ritzVecs := ritz,
                   Tmvals := fun i => if i < 2 * k then es_h2k.2 i else args.Tmvals i }

/-- The specialisation `ComputeRitz<libtype::eigen_lib>`. -/
def ComputeRitz_eigen_lib {n : Nat} {D : Type} (C : Collab n D) (args : EigCGArgs n) :
    Except Fault (EigCGArgs n) := do
  let m := args.m
  let k := args.k
  let es_tm := C.SelfAdjointEigenSolver m args.Tm
  let R1 ← setBlock m m args.ritzVecs 0 0 m k es_tm.1
  inRange (0 < m)
  let es_tm1 := C.SelfAdjointEigenSolver (m - 1) args.Tm
  let R2 ← setBlock m m R1 0 k (m - 1) k es_tm1.1
  let R3 ← setBlock m m R2 (m - 1) k 1 k DenseMatrix.zero
  ritzProjection C { args with ritzVecs := R3 }

/-- The specialisation `ComputeRitz<libtype::magma_lib>`. -/
def ComputeRitz_magma_lib {n : Nat} {D : Type} (C : Collab n D) (args : EigCGArgs n) :
    Except Fault (EigCGArgs n) :=
  if C.MAGMA_LIB then do
    let m := args.m
    let k := args.k
    let ev := C.magma_Xheev m args.Tm
    let evecm : DenseMatrix := fun i j => if i < m ∧ j < m then ev.1 i j else args.Tm i j
    inRange (0 < m)
    let ev1 := C.magma_Xheev (m - 1) args.Tm
    let evecm1 : DenseMatrix := fun i j =>
      if i = m - 1 ∧ j < m then 0
      else if i < m - 1 ∧ j < m - 1 then ev1.1 i j else args.Tm i j
    let evalm : RealVector := fun i =>
      if i < m - 1 then ev1.2 i else if i < m then ev.2 i else args.Tmvals i
    inRange (2 * k ≤ m)
    let R : DenseMatrix := fun i j =>
      if i < m ∧ k ≤ j ∧ j < 2 * k then evecm1 i (j - k) else evecm i j
    ritzProjection C { args with ritzVecs := R, Tmvals := evalm }
  else throw Fault.magmaNotBuilt

/-- The primary template `ComputeRitz<which_lib>` with its two specialisations. -/
def ComputeRitz {n : Nat} {D : Type} (C : Collab n D) (which_lib : libtype)
    (args : EigCGArgs n) : Except Fault (EigCGArgs n) :=
  match which_lib with
  | libtype.eigen_lib => ComputeRitz_eigen_lib C args
  | libtype.magma_lib => ComputeRitz_magma_lib C args
  | _ => throw Fault.unknownLibrary

/-! ## `RestartVT` and `UpdateVm` -/

namespace IncEigCG

variable {n : Nat} {D : Type}

/-- The library dispatch at the head of `RestartVT`: the updated Lanczos state
and the back end that was used. -/
def selectRitz (C : Collab n D) (extlib_type : QudaExtLibType) (args : EigCGArgs n) :
    Except Fault (EigCGArgs n × libtype) :=
  match extlib_type with
  | QudaExtLibType.QUDA_MAGMA_EXTLIB => do
      let a ← ComputeRitz C libtype.magma_lib args
      pure (a, libtype.magma_lib)
  | QudaExtLibType.QUDA_EIGEN_EXTLIB => do
      let a ← ComputeRitz C libtype.eigen_lib args
      pure (a, libtype.eigen_lib)
  | _ => throw Fault.unknownLibrary

/-- The method `IncEigCG::RestartVT(beta, rho)`. -/
def RestartVT (C : Collab n D) (S : IncEigCG n D) (beta rho : ℚ) :
    Except Fault (IncEigCG n D) := do
  let args ← deref S.eigcg_args
  let al ← selectRitz C S.param.extlib_type args
  let args := al.1
  let S := (S.emit Event.restartVT).emit (Event.computeRitz al.2)
  -- Restart V:
  let V2k ← deref args.V2k
  let Vm ← deref S.Vm
  inRange (2 * args.k ≤ args.m)
  let V2k := { V2k with comp := blas.caxpy args.m args.ritzVecs Vm.comp (fun _ => blas.zero) }
  inRange (2 * args.k ≤ Vm.composite_dim)
  inRange (2 * args.k ≤ V2k.composite_dim)
  let Vm := { Vm with comp := fun i => if i < 2 * args.k then V2k.comp i else Vm.comp i }
  -- Restart T:
  let Ap ← deref S.Ap
  let Az ← deref S.Az
  let Az := blas.xpay Ap (-beta) Az
  inRange (0 < args.m)
  let Vm ← Vm.setComponent (args.m - 1) Az
  let omega ← Vm.Component (args.m - 1)
  let args ← args.RestartLanczos omega Vm.comp (1 / rho)
  pure { S with eigcg_args := some { args with V2k := some V2k }, Vm := some Vm, Az := some Az }

/-- The branch `if (args.id == param.m) ... else if (args.id == (param.m-1)) ...`
of `UpdateVm`: the Rayleigh-Ritz restart, or the copy of `Ap` into `Az`. -/
def restartOrSave (C : Collab n D) (S : IncEigCG n D) (args : EigCGArgs n) (beta sqrtr2 : ℚ) :
    Except Fault (IncEigCG n D) :=
  if args.id = S.param.m then do
    let S ← RestartVT C S beta sqrtr2
    let args ← deref S.eigcg_args
    pure { S with eigcg_args := some args.ResetSearchIdx }
  else if args.id = S.param.m - 1 then do
    let Ap ← deref S.Ap
    let _ ← deref S.Az
    pure ({ S with Az := some Ap }.emit Event.saveAz)
  else pure S

/-- The tail of `UpdateVm`: the Lanczos basis vector `res` is copied into
column `args.id` of `Vm` and rescaled by `1 / sqrtr2`. -/
def loadBasisVector (S : IncEigCG n D) (res : ColorSpinorField n) (sqrtr2 : ℚ) :
    Except Fault (IncEigCG n D) := do
  let args ← deref S.eigcg_args
  let Vm ← deref S.Vm
  let Vm ← Vm.setComponent args.id res
  let v ← Vm.Component args.id
  let Vm ← Vm.setComponent args.id (blas.ax (1 / sqrtr2) v)
  pure { S with Vm := some Vm }

/-- The method `IncEigCG::UpdateVm(res, beta, sqrtr2)`. -/
def UpdateVm (C : Collab n D) (S : IncEigCG n D) (res : ColorSpinorField n) (beta sqrtr2 : ℚ) :
    Except Fault (IncEigCG n D) := do
  let args ← deref S.eigcg_args
  if args.run_residual_correction then pure S
  else do
    let S ← restartOrSave C S args beta sqrtr2
    loadBasisVector S res sqrtr2

end IncEigCG

/-! ## `eigCGsolve` -/

/-- The local variables of `eigCGsolve` that live across iterations.  `z` is
the field behind `zp`; without a preconditioner `zp` is `rp` itself and the
value kept here is not used. -/
structure EigCGLocals (n : Nat) where
  x : ColorSpinorField n
  z : ColorSpinorField n
  r2 : ℚ
  k : Int
  pAp : ℚ
  alpha : ℚ
  alpha_inv : ℚ
  beta : ℚ
  alpha_old_inv : ℚ
  rMinvr : ℚ
  heavy_quark_res : ℚ
  converged : Bool

namespace IncEigCG

variable {n : Nat} {D : Type}

/-- The block `if (K) ...` that applies the preconditioner to the residual `r`
and returns the new `z`. -/
def applyPreconditioner (C : Collab n D) (S : IncEigCG n D) (K : InnerSolver)
    (r : ColorSpinorField n) : Except Fault (IncEigCG n D × ColorSpinorField n) := do
  let _ ← deref S.r_pre
  let pPre ← deref S.p_pre
  let out := C.inner K S.Kparam pPre r
  pure ({ S with r_pre := some r, p_pre := some out.1,
                  Kparam := { S.Kparam with iter := out.2 } }.emit Event.precondition,
        out.1)

/-- The preconditioner block inside the loop: with a preconditioner `z` is
recomputed from the residual `r`, without one `zp` is `rp` itself. -/
def refreshZ (C : Collab n D) (S : IncEigCG n D) (r : ColorSpinorField n) :
    Except Fault (IncEigCG n D × ColorSpinorField n) :=
  match S.K with
  | some K => applyPreconditioner C S K r
  | none => pure (S, r)

/-- The preconditioner block before the loop: when the preconditioner runs in
the sloppy precision, `r_pre` and `p_pre` are first made aliases of `rp` and of
the fresh zero field behind `zp`. -/
def firstZ (C : Collab n D) (S : IncEigCG n D) (r : ColorSpinorField n) :
    Except Fault (IncEigCG n D × ColorSpinorField n) :=
  match S.K with
  | some K =>
    applyPreconditioner C
      (if S.param.precision_precondition = S.param.precision_sloppy then
        { S with r_pre := some r, p_pre := some blas.zero }
       else S) K r
  | none => pure (S, r)

/-- One pass through the body of the `while` loop of `eigCGsolve`. -/
def eigCGiteration (C : Collab n D) (local_stop : ℚ) (SL : IncEigCG n D × EigCGLocals n) :
    Except Fault (IncEigCG n D × EigCGLocals n) := do
  let S := SL.1
  let L := SL.2
  let p ← deref S.pp
  let _ ← deref S.Ap
  let _ ← deref S.tmpp
  let Ap := C.matSloppy p
  let S := { S with Ap := some Ap }.emit Event.matSloppyApply
  let pAp := blas.reDotProduct p Ap
  let alpha_old_inv := L.alpha_inv
  let alpha := L.rMinvr / pAp
  let alpha_inv := 1 / alpha
  let lanczos_diag := alpha_inv + L.beta * alpha_old_inv
  let r ← deref S.rp
  let z := if S.K.isSome then L.z else r
  let S ← UpdateVm C S z L.beta (C.sqrt L.r2)
  let rn := blas.axpyNorm (-alpha) Ap r
  let r := rn.1
  let r2 := rn.2
  let S := { S with rp := some r }
  let Sz ← refreshZ C S r
  let S := Sz.1
  let z := Sz.2
  let rMinvr_old := L.rMinvr
  let rMinvr := if S.K.isSome then blas.reDotProduct r z else r2
  let beta := rMinvr / rMinvr_old
  let y ← deref S.yp
  let py := blas.axpyZpbx alpha p y z beta
  let S := { S with pp := some py.1, yp := some py.2 }
  let lanczos_offdiag := -(C.sqrt beta) * alpha_inv
  let args ← deref S.eigcg_args
  let args ← args.SetLanczos (Cplx.ofReal lanczos_diag) (Cplx.ofReal lanczos_offdiag)
  let S := { S with eigcg_args := some args }
  let k := L.k + 1
  let converged :=
    C.convergence S.param r2 L.heavy_quark_res args.global_stop S.param.tol_hq
      || C.convergence S.param r2 L.heavy_quark_res local_stop S.param.tol_hq
  pure (S, { L with z := z, r2 := r2, k := k, pAp := pAp, alpha := alpha,
                    alpha_inv := alpha_inv, beta := beta, alpha_old_inv := alpha_old_inv,
                    rMinvr := rMinvr, converged := converged })

/-- The loop `while (!converged && k < param.maxiter)` of `eigCGsolve`; `fuel`
bounds the number of passes the embedding may make. -/
def eigCGloop (C : Collab n D) (local_stop : ℚ) :
    Nat → IncEigCG n D × EigCGLocals n → Except Fault (IncEigCG n D × EigCGLocals n)
  | 0, SL =>
    if !SL.2.converged && decide (SL.2.k < SL.1.param.maxiter) then throw Fault.fuel
    else pure SL
  | fuel + 1, SL =>
    if !SL.2.converged && decide (SL.2.k < SL.1.param.maxiter) then do
      let SL ← eigCGiteration C local_stop SL
      eigCGloop C local_stop fuel SL
    else pure SL

/-- The first `j` passes through the loop body, without the exit test: the
states that a run of the loop goes through. -/
def eigCGiterations (C : Collab n D) (local_stop : ℚ) :
    Nat → IncEigCG n D × EigCGLocals n → Except Fault (IncEigCG n D × EigCGLocals n)
  | 0, SL => pure SL
  | j + 1, SL => do
    let SL ← eigCGiteration C local_stop SL
    eigCGiterations C local_stop j SL

/-- The block `if (!init) ...` of `eigCGsolve`. -/
def eigCGinit (C : Collab n D) (S : IncEigCG n D) (b : ColorSpinorField n) (b2 : ℚ) :
    IncEigCG n D :=
  let extra := S.K.isSome && decide (S.param.precision_precondition ≠ S.param.precision_sloppy)
  { S with
    eigcg_args := some { EigCGArgs.new n S.param.m S.param.nev with
                         global_stop := C.stopping S.param.tol b2 S.param.residual_type },
    rp := some b, yp := some blas.zero, Ap := some blas.zero, pp := some blas.zero,
    tmpp := some blas.zero, Az := some blas.zero,
    p_pre := if extra then some blas.zero else S.p_pre,
    r_pre := if extra then some blas.zero else S.r_pre,
    Vm := some (ColorSpinorFieldSet.Create n S.param.m),
    init := true }

/-- The result of `eigCGsolve`: the returned count and the field `x`. -/
structure SolveResult (n : Nat) (D : Type) where
  iters : Int
  x : ColorSpinorField n
  solver : IncEigCG n D


/-- The early return of `eigCGsolve` on a zero-field source. -/
def eigCGzeroSource (S : IncEigCG n D) (b : ColorSpinorField n) : SolveResult n D :=
  let S := S.emit (Event.printf Message.zeroSource)
  ⟨0, b, { S with param := { S.param with true_res := 0, true_res_hq := 0 } }⟩

/-- The early return of `eigCGsolve` in a correction cycle of the incremental
solver: the inner solver `K` is run on `(x, b)`. -/
def eigCGcorrection (C : Collab n D) (S : IncEigCG n D) (x b : ColorSpinorField n) :
    Except Fault (SolveResult n D) := do
  let K ← deref S.K
  let out := C.inner K S.Kparam x b
  let S := { S with Kparam := { S.Kparam with iter := out.2 } }
  pure ⟨S.Kparam.iter, out.1, S.emit (Event.innerSolve S.Kparam.tol)⟩

/-- The part of `eigCGsolve` from `ResetAccumBuffer` to the first convergence
test: the state on entry to the `while` loop. -/
def eigCGprologue (C : Collab n D) (S : IncEigCG n D) (x b : ColorSpinorField n) :
    Except Fault (IncEigCG n D × EigCGLocals n) := do
  let args ← deref S.eigcg_args
  let S := { S with eigcg_args := some args.ResetAccumBuffer }
  let _ ← deref S.rp
  let _ ← deref S.yp
  let _ ← deref S.pp
  let _ ← deref S.tmpp
  -- compute initial residual
  let rn := blas.xmyNorm b (C.matSloppy x)
  let S := { S with rp := some rn.1 }.emit Event.matSloppyApply
  let Sz ← firstZ C S rn.1
  let S := { Sz.1 with pp := some Sz.2, yp := some blas.zero }
  let heavy_quark_res :=
    if S.param.residual_type &&& C.QUDA_HEAVY_QUARK_RESIDUAL != 0 then
      C.sqrt (C.HeavyQuarkResidualNorm x rn.1)
    else 0
  -- Begin EigCG iterations:
  let args ← deref S.eigcg_args
  let S := { S with eigcg_args := some { args with restarts := 0 } }
  pure (S,
    { x := x, z := Sz.2, r2 := rn.2, k := 0, pAp := 0, alpha := 1, alpha_inv := 1, beta := 0,
      alpha_old_inv := 1, rMinvr := blas.reDotProduct rn.1 Sz.2,
      heavy_quark_res := heavy_quark_res,
      converged := C.convergence S.param rn.2 heavy_quark_res args.global_stop S.param.tol_hq })

/-- The part of `eigCGsolve` after the `while` loop. -/
def eigCGepilogue (C : Collab n D) (b : ColorSpinorField n) (b2 : ℚ)
    (SL : IncEigCG n D × EigCGLocals n) : Except Fault (SolveResult n D) := do
  let S := SL.1
  let L := SL.2
  let args ← deref S.eigcg_args
  let S := { S with eigcg_args := some args.CleanArgs }
  let y ← deref S.yp
  let x := blas.xpy y L.x
  let S := { S with param := { S.param with iter := S.param.iter + L.k } }
  let S := if L.k = S.param.maxiter then S.emit (Event.warning Message.exceededMaxIter) else S
  -- compute the true residuals
  let rn := blas.xmyNorm b (C.matSloppy x)
  let S := { S with rp := some rn.1 }.emit Event.matSloppyApply
  pure ⟨L.k, x,
    { S with param := { S.param with
        true_res := C.sqrt (rn.2 / b2),
        true_res_hq := C.sqrt (C.HeavyQuarkResidualNorm x rn.1) } }⟩

/-- The method `IncEigCG::eigCGsolve(x, b)`; `xprec` is `x.Precision()`. -/
def eigCGsolve (C : Collab n D) (fuel : Nat) (S : IncEigCG n D) (x b : ColorSpinorField n)
    (xprec : QudaPrecision) : Except Fault (SolveResult n D) :=
  -- Check to see that we are not trying to invert on a zero-field source
  if blas.norm2 b = 0 then pure (eigCGzeroSource S b)
  else do
    let b2 := blas.norm2 b
    let S := if !S.init then eigCGinit C S b b2 else S
    let local_stop :=
      if xprec = QudaPrecision.QUDA_DOUBLE_PRECISION then b2 * S.param.tol * S.param.tol
      else b2 * (1 / 100000000000)
    let args ← deref S.eigcg_args
    if args.run_residual_correction
        && decide (S.param.inv_type = QudaInverterType.QUDA_INC_EIGCG_INVERTER) then
      eigCGcorrection C S x b
    else do
      let SL ← eigCGprologue C S x b
      let SL ← eigCGloop C local_stop fuel SL
      eigCGepilogue C b b2 SL

end IncEigCG

/-! ## `initCGsolve` -/

/-- The local variables of `initCGsolve` that live across its restarts; in
exact arithmetic `xProj` holds the same values as `x`. -/
structure InitCGLocals (n : Nat) where
  x : ColorSpinorField n
  rProj : ColorSpinorField n
  restart_idx : Int

namespace IncEigCG

variable {n : Nat} {D : Type}

/-- One pass through the body of the `while` loop of `initCGsolve`. -/
def initCGrestart (C : Collab n D) (b : ColorSpinorField n) (full_tol : ℚ)
    (SL : IncEigCG n D × InitCGLocals n) : IncEigCG n D × InitCGLocals n :=
  let S := SL.1
  let L := SL.2
  let restart_idx := L.restart_idx + 1
  let xProj := C.project S.defl L.x L.rProj
  let S := S.emit Event.deflProject
  let S := { S with K := some InnerSolver.CG_full }
  let out := C.inner InnerSolver.CG_full S.Kparam xProj b
  let S := ({ S with Kparam := { S.Kparam with iter := out.2 } }).emit
    (Event.innerSolve S.Kparam.tol)
  let r := blas.xpay b (-1) (C.mat out.1)
  let S := S.emit Event.matApply
  let tol := S.Kparam.tol * S.param.inc_tol
  let tol := if restart_idx = S.param.max_restart_num - 1 then full_tol else tol
  ({ S with Kparam := { S.Kparam with tol := tol } },
   { x := out.1, rProj := r, restart_idx := restart_idx })

/-- The loop `while ((Kparam.tol >= full_tol) && (restart_idx <
param.max_restart_num))` of `initCGsolve`. -/
def initCGloop (C : Collab n D) (b : ColorSpinorField n) (full_tol : ℚ) :
    Nat → IncEigCG n D × InitCGLocals n → Except Fault (IncEigCG n D × InitCGLocals n)
  | 0, SL =>
    if decide (SL.1.Kparam.tol ≥ full_tol)
        && decide (SL.2.restart_idx < SL.1.param.max_restart_num) then throw Fault.fuel
    else pure SL
  | fuel + 1, SL =>
    if decide (SL.1.Kparam.tol ≥ full_tol)
        && decide (SL.2.restart_idx < SL.1.param.max_restart_num) then
      initCGloop C b full_tol fuel (initCGrestart C b full_tol SL)
    else pure SL

/-- The method `IncEigCG::initCGsolve(x, b)`. -/
def initCGsolve (C : Collab n D) (fuel : Nat) (S : IncEigCG n D) (x b : ColorSpinorField n) :
    Except Fault (SolveResult n D) := do
  let full_tol := S.Kparam.tol
  let S := { S with Kparam := { S.Kparam with tol := S.Kparam.tol_restart } }
  let SL ← initCGloop C b full_tol fuel (S, { x := x, rProj := b, restart_idx := 0 })
  pure ⟨0 + SL.1.Kparam.iter, SL.2.x, SL.1⟩

end IncEigCG

/-! ## `operator()` -/

/-- The local variables of `operator()` that live across refinement cycles. -/
structure CycleLocals (n : Nat) where
  out : ColorSpinorField n
  r : ColorSpinorField n
  r2 : ℚ
  logical_rhs_id : Int
  dcg_cycle : Bool

namespace IncEigCG

variable {n : Nat} {D : Type}

/-- The block `if (dcg_cycle) ...` at the head of a refinement cycle. -/
def enterCorrection (S : IncEigCG n D) : Except Fault (IncEigCG n D) := do
  let S :=
    if S.K.isNone then
      { S with Kparam := { S.Kparam with precision := S.param.precision_sloppy,
                                         tol := 5 * S.param.inc_tol },
               K := some InnerSolver.CG_sloppy }
    else S
  let args ← deref S.eigcg_args
  pure ({ S with eigcg_args := some { args with run_residual_correction := true } }.emit
    (Event.printf Message.runningDCG))

/-- The test `!dcg_cycle && (eigcg_args->restarts > 1) && !defl.is_complete()`,
evaluated left to right. -/
def updateRitz (C : Collab n D) (S : IncEigCG n D) (dcg_cycle : Bool) : Except Fault Bool :=
  if dcg_cycle then pure false
  else do
    let args ← deref S.eigcg_args
    pure (decide (args.restarts > 1) && !C.is_complete S.defl)

/-- One pass through the body of the `do ... while` loop of `operator()`. -/
def refinementCycle (C : Collab n D) (fuel : Nat) (inp : ColorSpinorField n) (b2 : ℚ)
    (SL : IncEigCG n D × CycleLocals n) : Except Fault (IncEigCG n D × CycleLocals n) := do
  let S := SL.1
  let L := SL.2
  let e := C.project S.defl blas.zero L.r
  let S := S.emit Event.deflProject
  let S ← (if L.dcg_cycle then enterCorrection S else pure S)
  let res ← eigCGsolve C fuel (S.emit Event.eigCGcycle) e L.r S.param.precision_sloppy
  let S := res.solver
  let update_ritz ← updateRitz C S L.dcg_cycle
  let SL ←
    (if update_ritz then do
      let Vm ← deref S.Vm
      let S := { S with defl := C.increment S.defl Vm S.param.nev }.emit
        (Event.deflIncrement S.param.nev)
      pure (S, L.logical_rhs_id + 1, decide (L.logical_rhs_id + 1 ≥ S.max_eigcg_cycles))
    else pure (S, L.logical_rhs_id, true))
  let S := SL.1
  let out := blas.xpy res.x L.out
  -- compute the true residuals
  let rn := blas.xmyNorm inp (C.mat out)
  let S := S.emit Event.matApply
  let S := { S with param := { S.param with
               true_res := C.sqrt (rn.2 / b2),
               true_res_hq := C.sqrt (C.HeavyQuarkResidualNorm out rn.1) } }
  let verify ← (if C.verbose then updateRitz C S SL.2.2 else pure false)
  let S := if verify then S.emit Event.deflVerify else S
  pure (S, { out := out, r := rn.1, r2 := rn.2, logical_rhs_id := SL.2.1, dcg_cycle := SL.2.2 })

/-- The loop `do ... while ((r2 > stop) && mixed_prec)` of `operator()`. -/
def refinementLoop (C : Collab n D) (fuel : Nat) (inp : ColorSpinorField n) (b2 stop : ℚ)
    (mixed_prec : Bool) :
    Nat → IncEigCG n D × CycleLocals n → Except Fault (IncEigCG n D × CycleLocals n)
  | 0, _ => throw Fault.fuel
  | cycles + 1, SL => do
    let SL ← refinementCycle C fuel inp b2 SL
    if decide (SL.2.r2 > stop) && mixed_prec then
      refinementLoop C fuel inp b2 stop mixed_prec cycles SL
    else pure SL

/-- The part of `operator()` after the refinement loop. -/
def finishCall (C : Collab n D) (mixed_prec : Bool) (SL : IncEigCG n D × CycleLocals n) :
    IncEigCG n D :=
  let S := SL.1
  let L := SL.2
  let S :=
    if mixed_prec && decide (S.max_eigcg_cycles > L.logical_rhs_id) then
      { S with max_eigcg_cycles := L.logical_rhs_id }.emit (Event.printf Message.resetMaxCycles)
    else S
  let S := { S with param := { S.param with rhs_idx := S.param.rhs_idx + L.logical_rhs_id } }
  if C.is_complete S.defl then
    let S :=
      if S.param.rhs_idx ≠ S.param.deflation_grid then S.emit (Event.warning Message.rhsMismatch)
      else S
    let S := { S with Vm := none }.emit Event.freeVm
    let max_nev := C.size S.defl
    let S := S.emit (Event.printf Message.reserveEigenvectors)
    { S with defl := C.reduce S.defl S.param.eigenval_tol max_nev }.emit
      (Event.deflReduce S.param.eigenval_tol max_nev)
  else S

/-- The method `IncEigCG::operator()(out, in)`: the solver after the call and
the field `out`.  `fuel` bounds the passes of each inner loop and `cycles` the
passes of the refinement loop. -/
def call (C : Collab n D) (fuel cycles : Nat) (S : IncEigCG n D) (out inp : ColorSpinorField n) :
    Except Fault (IncEigCG n D × ColorSpinorField n) := do
  let S :=
    if S.param.rhs_idx = 0 then { S with max_eigcg_cycles := S.param.eigcg_max_restarts } else S
  let mixed_prec := decide (S.param.precision ≠ S.param.precision_sloppy)
  let b2 := blas.norm2 inp
  -- If deflation space is complete: use initCG solver
  if C.is_complete S.defl then do
    if S.K.isSome then throw Fault.initCGPreconditioning
    let res ← initCGsolve C fuel S out inp
    let S := res.solver
    pure ({ S with param := { S.param with iter := S.param.iter + res.iters } }, res.x)
  else do
    -- Start (incremental) eigCG solver:
    let rn := blas.xmyNorm inp (C.mat out)
    let S := S.emit Event.matApply
    let stop := b2 * S.param.tol * S.param.tol
    let SL ← refinementLoop C fuel inp b2 stop mixed_prec cycles
      (S, { out := out, r := rn.1, r2 := rn.2, logical_rhs_id := 0, dcg_cycle := false })
    pure (finishCall C mixed_prec SL, SL.2.out)

end IncEigCG

/-! ## Relations between states used in the proofs -/

/-- Two Lanczos states with the same dimensions, cursor, restart count, mode
and stopping residual. -/
def EigCGArgs.SameFrame {n : Nat} (a a' : EigCGArgs n) : Prop :=
  a'.m = a.m ∧ a'.k = a.k ∧ a'.id = a.id ∧ a'.restarts = a.restarts ∧
  a'.run_residual_correction = a.run_residual_correction ∧ a'.global_stop = a.global_stop

/-- Two solver objects that differ at most in the Lanczos state, the Krylov
basis, the cached `Az` and the record of events. -/
def IncEigCG.LanczosFrame {n : Nat} {D : Type} (S S' : IncEigCG n D) : Prop :=
  S'.param = S.param ∧ S'.Kparam = S.Kparam ∧ S'.K = S.K ∧ S'.r_pre = S.r_pre ∧
  S'.p_pre = S.p_pre ∧ S'.init = S.init ∧ S'.rp = S.rp ∧ S'.yp = S.yp ∧ S'.Ap = S.Ap ∧
  S'.pp = S.pp ∧ S'.tmpp = S.tmpp ∧ S'.defl = S.defl ∧
  S'.max_eigcg_cycles = S.max_eigcg_cycles

/-- The Lanczos bookkeeping of a solver is consistent: the matrix and the
Krylov basis have the dimension `param.m`, there is room for the row and
column `2k`, and the cursor is inside the basis. -/
def IncEigCG.LanczosInv {n : Nat} {D : Type} (S : IncEigCG n D) (args : EigCGArgs n) : Prop :=
  S.eigcg_args = some args ∧ args.run_residual_correction = false ∧ args.m = S.param.m ∧
  2 * args.k < args.m ∧ args.id ≤ args.m ∧
  (∀ Vm, S.Vm = some Vm → Vm.composite_dim = S.param.m) ∧
  (∀ V, args.V2k = some V → V.composite_dim = 2 * args.k)

/-! ## A concrete test problem -/

/-- A one-component test problem: the operator is the identity, the dense
eigensolvers return the identity matrix and zero eigenvalues, the deflation
object is trivial and never complete, the convergence test is `r2 <= tol`. -/
def demoCollab : Collab 1 Unit :=
  { mat := id, matSloppy := id, inner := fun _ _ x _ => (x, 0), sqrt := id,
    convergence := fun _ r2 _ r2_tol _ => decide (r2 ≤ r2_tol),
    stopping := fun tol b2 _ => tol * tol * b2,
    HeavyQuarkResidualNorm := fun _ _ => 0, QUDA_HEAVY_QUARK_RESIDUAL := 4,
    SelfAdjointEigenSolver := fun _ _ => (identity, fun _ => 0),
    magma_Xheev := fun _ _ => (identity, fun _ => 0),
    householderQ := fun _ _ _ => identity, MAGMA_LIB := false, verbose := false,
    is_complete := fun _ => false, project := fun _ x _ => x, increment := fun d _ _ => d,
    reduce := fun d _ _ => d, size := fun _ => 0 }

/-- Test parameters with basis size `m`, `nev` Ritz pairs per restart and the
iteration cap `maxiter`: double precision throughout, no preconditioner, the
portable eigensolver, tolerance `1/2`. -/
def demoParam (m nev : Nat) (maxiter : Int) : SolverParam :=
  { tol := 1/2, tol_restart := 1, tol_hq := 0, tol_precondition := 0, inc_tol := 1/2,
    eigenval_tol := 0, delta := 0, maxiter := maxiter, maxiter_precondition := 0,
    max_restart_num := 3, eigcg_max_restarts := 2, m := m, nev := nev, rhs_idx := 0,
    deflation_grid := 4, iter := 0, true_res := 0, true_res_hq := 0, residual_type := 1,
    precision := QudaPrecision.QUDA_DOUBLE_PRECISION,
    precision_sloppy := QudaPrecision.QUDA_DOUBLE_PRECISION,
    precision_precondition := QudaPrecision.QUDA_DOUBLE_PRECISION,
    precision_ritz := QudaPrecision.QUDA_DOUBLE_PRECISION,
    inv_type := QudaInverterType.QUDA_EIGCG_INVERTER,
    inv_type_precondition := QudaInverterType.QUDA_INVALID_INVERTER,
    extlib_type := QudaExtLibType.QUDA_EIGEN_EXTLIB, use_init_guess := false,
    preserve_source := false, is_preconditioner := false,
    use_sloppy_partial_accumulator := false }

/-- A freshly constructed solver for the test parameters. -/
def demoSolver (m nev : Nat) (maxiter : Int) : IncEigCG 1 Unit :=
  { param := demoParam m nev maxiter, Kparam := demoParam m nev maxiter, K := none, Vm := none,
    r_pre := none, p_pre := none, eigcg_args := none, init := false, rp := none, yp := none,
    Ap := none, pp := none, tmpp := none, Az := none, defl := (), max_eigcg_cycles := 4,
    log := [] }

/-- The one-component field with the real value `c`. -/
def demoField (c : ℚ) : ColorSpinorField 1 := fun _ => Cplx.ofReal c

/-- The test solver on entry to the loop of `eigCGsolve` in its first cycle,
for the right-hand side `1` and the guess `0`: what `eigCGinit` and
`eigCGprologue` set up. -/
def demoLoopState (m nev : Nat) (maxiter : Int) : IncEigCG 1 Unit :=
  { demoSolver m nev maxiter with
    eigcg_args := some { (EigCGArgs.new 1 m nev).ResetAccumBuffer with global_stop := 1 / 4 },
    Vm := some (ColorSpinorFieldSet.Create 1 m), init := true,
    rp := some (demoField 1), yp := some blas.zero, Ap := some blas.zero,
    pp := some (demoField 1), tmpp := some blas.zero, Az := some blas.zero,
    log := [Event.matSloppyApply] }

/-- The local variables of `eigCGsolve` on entry to the loop in the test
problem. -/
def demoLocals : EigCGLocals 1 :=
  { x := blas.zero, z := demoField 1, r2 := 1, k := 0, pAp := 0, alpha := 1, alpha_inv := 1,
    beta := 0, alpha_old_inv := 1, rMinvr := 1, heavy_quark_res := 0, converged := false }

/-- The test solver with a full basis: the cursor stands at `m = 3`. -/
def demoFullState : IncEigCG 1 Unit :=
  { demoLoopState 3 1 10 with
    eigcg_args := some { (EigCGArgs.new 1 3 1).ResetAccumBuffer with global_stop := 1 / 4, id := 3 } }

/-- The events that a pass through the loop body of `eigCGsolve` can record. -/
def Event.inLoop (e : Event) : Prop :=
  e = Event.matSloppyApply ∨ e = Event.restartVT ∨ (∃ lib, e = Event.computeRitz lib) ∨
  e = Event.saveAz ∨ e = Event.precondition

/-! ## Names for parts of a run of `eigCGsolve` -/

namespace IncEigCG

variable {n : Nat} {D : Type}

/-- The solver is in a correction cycle of the incremental solver: it has been
initialised, `run_residual_correction` is set and the solver type is
`QUDA_INC_EIGCG_INVERTER`, so that `eigCGsolve` hands over to the inner solver
instead of running its loop. -/
def correctionMode (S : IncEigCG n D) : Bool :=
  S.init
    && (match S.eigcg_args with
        | some a => a.run_residual_correction
        | none => false)
    && decide (S.param.inv_type = QudaInverterType.QUDA_INC_EIGCG_INVERTER)

/-- The solver after the block `if (!init) ...` of `eigCGsolve`. -/
def initialised (C : Collab n D) (S : IncEigCG n D) (b : ColorSpinorField n) : IncEigCG n D :=
  if !S.init then eigCGinit C S b (blas.norm2 b) else S

/-- The value `local_stop` of `eigCGsolve`. -/
def localStop (S : IncEigCG n D) (b : ColorSpinorField n) (xprec : QudaPrecision) : ℚ :=
  if xprec = QudaPrecision.QUDA_DOUBLE_PRECISION then blas.norm2 b * S.param.tol * S.param.tol
  else blas.norm2 b * (1 / 100000000000)

/-- The first convergence test of `eigCGsolve`, made on the initial residual
before the loop. -/
def firstConvergenceTest (C : Collab n D) (S : IncEigCG n D) (x b : ColorSpinorField n) :
    Except Fault Bool := do
  let SL ← eigCGprologue C (initialised C S b) x b
  pure SL.2.converged

/-- The state in which the `while` loop of `eigCGsolve` is left. -/
def eigCGexit (C : Collab n D) (fuel : Nat) (S : IncEigCG n D) (x b : ColorSpinorField n)
    (xprec : QudaPrecision) : Except Fault (IncEigCG n D × EigCGLocals n) := do
  let SL ← eigCGprologue C (initialised C S b) x b
  eigCGloop C (localStop (initialised C S b) b xprec) fuel SL

end IncEigCG

/-! ## Symmetric positive-definite operators and a stiff test problem -/

/-- The operator `A` is symmetric and positive definite for the real inner
product `reDotProduct` of the fields. -/
def blas.IsSPD {n : Nat} (A : ColorSpinorField n → ColorSpinorField n) : Prop :=
  (∀ u v, blas.reDotProduct u (A v) = blas.reDotProduct (A u) v) ∧
  (∀ v, blas.norm2 v ≠ 0 → 0 < blas.reDotProduct v (A v))

/-- The diagonal operator `diag(1, 100)` on fields with two components. -/
def stiffOperator : ColorSpinorField 2 → ColorSpinorField 2 :=
  fun v i => if i = 0 then v 0 else Cplx.scale 100 (v 1)

/-- The source `(10, 1)`. -/
def stiffSource : ColorSpinorField 2 :=
  fun i => if i = 0 then Cplx.ofReal 10 else Cplx.ofReal 1

/-- The test problem of `demoCollab` on two components with the sloppy operator
`diag(1, 100)`. -/
def stiffCollab : Collab 2 Unit :=
  { mat := stiffOperator, matSloppy := stiffOperator, inner := fun _ _ x _ => (x, 0), sqrt := id,
    convergence := fun _ r2 _ r2_tol _ => decide (r2 ≤ r2_tol),
    stopping := fun tol b2 _ => tol * tol * b2,
    HeavyQuarkResidualNorm := fun _ _ => 0, QUDA_HEAVY_QUARK_RESIDUAL := 4,
    SelfAdjointEigenSolver := fun _ _ => (identity, fun _ => 0),
    magma_Xheev := fun _ _ => (identity, fun _ => 0),
    householderQ := fun _ _ _ => identity, MAGMA_LIB := false, verbose := false,
    is_complete := fun _ => false, project := fun _ x _ => x, increment := fun d _ _ => d,
    reduce := fun d _ _ => d, size := fun _ => 0 }

/-- A freshly constructed solver on two components: no preconditioner, basis
size `3`, one Ritz pair per restart, iteration cap `1`. -/
def stiffSolver : IncEigCG 2 Unit :=
  { param := demoParam 3 1 1, Kparam := demoParam 3 1 1, K := none, Vm := none,
    r_pre := none, p_pre := none, eigcg_args := none, init := false, rp := none, yp := none,
    Ap := none, pp := none, tmpp := none, Az := none, defl := (), max_eigcg_cycles := 4,
    log := [] }

/-! ## Names for the deflated restarts -/

/-- The events that a restart of `initCGsolve` can record. -/
def Event.inInitCG (e : Event) : Prop :=
  e = Event.deflProject ∨ (∃ tol, e = Event.innerSolve tol) ∨ e = Event.matApply

/-- The test problem of `demoCollab` with a deflation subspace that is
complete. -/
def completeCollab : Collab 1 Unit :=
  { demoCollab with is_complete := fun _ => true }

/-! ## Names for the tolerance schedule of `initCGsolve` -/

/-- The tolerance of an inner solve, if the event is one. -/
def Event.solveTol : Event → Option ℚ
  | Event.innerSolve tol => some tol
  | _ => none

/-- The events of `count` successive restarts of `initCGsolve`, the first of
which is restart number `first + 1`, when restart number `j` runs its solve at
the tolerance `tols j`. -/
def restartEvents (tols : Nat → ℚ) (first : Nat) : Nat → List Event
  | 0 => []
  | count + 1 =>
    [Event.deflProject, Event.innerSolve (tols (first + 1)), Event.matApply] ++
      restartEvents tols (first + 1) count

/-- The tolerance schedule in words: restart number `j` (counted from one) of a
run with `max_restart_num = N` solves at `tol_restart * inc_tol^(j-1)`, except
that restart number `N`, when `N >= 2`, solves at the full tolerance. -/
def restartTolerance (tol_restart inc_tol full_tol : ℚ) (N : Int) (j : Nat) : ℚ :=
  if (j : Int) = N ∧ 2 ≤ N then full_tol else tol_restart * inc_tol ^ (j - 1)

/-- The test solver with the full tolerance `1/3` in `Kparam` (restart
tolerance `1`, ratio `1/2`) and `max_restart_num = N`. -/
def scheduleSolver (N : Int) : IncEigCG 1 Unit :=
  { demoSolver 3 1 10 with
    param := { demoParam 3 1 10 with max_restart_num := N },
    Kparam := { demoParam 3 1 10 with tol := 1 / 3 } }

/-! ## The constructor -/

/-- The function `fillEigCGInnerSolverParam(inner, outer)`, called with the
default `use_sloppy_partial_accumulator = true`. -/
def fillEigCGInnerSolverParam (inner outer : SolverParam) : SolverParam :=
  { inner with
    tol := outer.tol_precondition,
    maxiter := outer.maxiter_precondition,
    delta := 1 / 100000000000000000000,
    precision := outer.precision_precondition,
    precision_sloppy := outer.precision_precondition,
    iter := 0,
    inv_type_precondition := QudaInverterType.QUDA_INVALID_INVERTER,
    is_preconditioner := true,
    use_sloppy_partial_accumulator := true,
    preserve_source :=
      if outer.inv_type = QudaInverterType.QUDA_EIGCG_INVERTER
          ∧ outer.precision_sloppy ≠ outer.precision_precondition then false
      else true }

/-- The function `fillInitCGSolverParam(inner, outer)`. -/
def fillInitCGSolverParam (inner outer : SolverParam) : SolverParam :=
  { inner with
    iter := 0,
    tol := outer.tol,
    tol_restart := outer.tol_restart,
    maxiter := outer.maxiter,
    delta := outer.delta,
    precision := outer.precision,
    precision_sloppy := outer.precision_precondition,
    inv_type := QudaInverterType.QUDA_CG_INVERTER,
    use_init_guess := true,
    use_sloppy_partial_accumulator := false }

namespace IncEigCG

/-- The block `if (param.inv_type == QUDA_EIGCG_INVERTER) ... else if
(param.inv_type == QUDA_INC_EIGCG_INVERTER) ...` of the constructor: the value
of `Kparam`, which starts as a copy of `param`. -/
def constructKparam (param : SolverParam) : Except Fault SolverParam :=
  if param.inv_type = QudaInverterType.QUDA_EIGCG_INVERTER then
    pure (fillEigCGInnerSolverParam param param)
  else if param.inv_type = QudaInverterType.QUDA_INC_EIGCG_INVERTER then
    if param.inv_type_precondition ≠ QudaInverterType.QUDA_INVALID_INVERTER then
      throw Fault.preconditionedIncremental
    else pure (fillInitCGSolverParam param param)
  else pure param

/-- The chain `if (param.inv_type_precondition == QUDA_CG_INVERTER) ...` of the
constructor: the preconditioner `K`. -/
def constructK (inv_type_precondition : QudaInverterType) : Except Fault (Option InnerSolver) :=
  if inv_type_precondition = QudaInverterType.QUDA_CG_INVERTER then
    pure (some InnerSolver.CG_precon)
  else if inv_type_precondition = QudaInverterType.QUDA_MR_INVERTER then
    pure (some InnerSolver.MR_precon)
  else if inv_type_precondition = QudaInverterType.QUDA_SD_INVERTER then
    pure (some InnerSolver.SD_precon)
  else if inv_type_precondition ≠ QudaInverterType.QUDA_INVALID_INVERTER then
    throw Fault.unknownInnerSolver
  else pure none

/-- The constructor `IncEigCG::IncEigCG(mat, matSloppy, matPrecon, param,
profile)`; `defl` is the deflation object behind `param.deflation_op` and
`max_eigcg_cycles` the current value of the file static. -/
def new (n : Nat) {D : Type} (param : SolverParam) (defl : D) (max_eigcg_cycles : Int) :
    Except Fault (IncEigCG n D) :=
  let S : IncEigCG n D :=
    { param := param, Kparam := param, K := none, Vm := none, r_pre := none, p_pre := none,
      eigcg_args := none, init := false, rp := none, yp := none, Ap := none, pp := none,
      tmpp := none, Az := none, defl := defl, max_eigcg_cycles := max_eigcg_cycles, log := [] }
  if param.rhs_idx < param.deflation_grid then do
    let S := S.emit (Event.printf Message.initEigCG)
    let Kparam ← constructKparam param
    let K ← constructK param.inv_type_precondition
    pure { S with Kparam := Kparam, K := K }
  else
    pure { S.emit (Event.printf Message.deflationComplete) with
           Kparam := fillInitCGSolverParam param param }

end IncEigCG

/-- The faults of an access: outside an allocated extent, or through an unset
pointer. -/
def Fault.isAccess (f : Fault) : Prop :=
  f = Fault.indexOutOfRange ∨ f = Fault.nullPointer

/-- The full test solver in the correction mode: the cursor stands at `m = 3`
and `run_residual_correction` is set. -/
def demoCorrectionArgs : EigCGArgs 1 :=
  { (EigCGArgs.new 1 3 1).ResetAccumBuffer with
    global_stop := 1 / 4, id := 3, run_residual_correction := true }

/-- The full test solver holding `demoCorrectionArgs`. -/
def demoCorrectionState : IncEigCG 1 Unit :=
  { demoFullState with eigcg_args := some demoCorrectionArgs }

/-- The full test solver asked for the MAGMA library. -/
def demoMagmaState : IncEigCG 1 Unit :=
  { demoFullState with
    param := { demoParam 3 1 10 with extlib_type := QudaExtLibType.QUDA_MAGMA_EXTLIB } }

/-! ## Names for parts of a call of `operator()` -/

/-- The events that a call of `eigCGsolve` can record. -/
def Event.inSolve (e : Event) : Prop :=
  e.inLoop ∨ e = Event.warning Message.exceededMaxIter ∨ e = Event.printf Message.zeroSource ∨
  ∃ tol, e = Event.innerSolve tol

/-- Two solver objects with the same deflation object, the same cap on the
eigCG cycles, and the same parameters apart from the iteration count and the
two reported residuals. -/
def IncEigCG.SolveFrame {n : Nat} {D : Type} (S S' : IncEigCG n D) : Prop :=
  S'.defl = S.defl ∧ S'.max_eigcg_cycles = S.max_eigcg_cycles ∧
  ∃ it tr thq, S'.param = { S.param with iter := it, true_res := tr, true_res_hq := thq }

namespace IncEigCG

variable {n : Nat} {D : Type}

/-- The part of a refinement cycle up to and including its call of
`eigCGsolve`. -/
def cycleSolve (C : Collab n D) (fuel : Nat) (SL : IncEigCG n D × CycleLocals n) :
    Except Fault (SolveResult n D) := do
  let S := SL.1
  let L := SL.2
  let e := C.project S.defl blas.zero L.r
  let S := S.emit Event.deflProject
  let S ← (if L.dcg_cycle then enterCorrection S else pure S)
  eigCGsolve C fuel (S.emit Event.eigCGcycle) e L.r S.param.precision_sloppy

/-- The part of a refinement cycle after its call of `eigCGsolve`, which has
returned `res`; `L` holds the local variables on entry to the cycle. -/
def cycleTail (C : Collab n D) (inp : ColorSpinorField n) (b2 : ℚ) (L : CycleLocals n)
    (res : SolveResult n D) : Except Fault (IncEigCG n D × CycleLocals n) := do
  let S := res.solver
  let update_ritz ← updateRitz C S L.dcg_cycle
  let SL ←
    (if update_ritz then do
      let Vm ← deref S.Vm
      let S := { S with defl := C.increment S.defl Vm S.param.nev }.emit
        (Event.deflIncrement S.param.nev)
      pure (S, L.logical_rhs_id + 1, decide (L.logical_rhs_id + 1 ≥ S.max_eigcg_cycles))
    else pure (S, L.logical_rhs_id, true))
  let S := SL.1
  let out := blas.xpy res.x L.out
  let rn := blas.xmyNorm inp (C.mat out)
  let S := S.emit Event.matApply
  let S := { S with param := { S.param with
               true_res := C.sqrt (rn.2 / b2),
               true_res_hq := C.sqrt (C.HeavyQuarkResidualNorm out rn.1) } }
  let verify ← (if C.verbose then updateRitz C S SL.2.2 else pure false)
  let S := if verify then S.emit Event.deflVerify else S
  pure (S, { out := out, r := rn.1, r2 := rn.2, logical_rhs_id := SL.2.1, dcg_cycle := SL.2.2 })

/-- The first `j` passes through the body of the refinement loop, without the
exit test: the states that a call goes through. -/
def refinementCycles (C : Collab n D) (fuel : Nat) (inp : ColorSpinorField n) (b2 : ℚ) :
    Nat → IncEigCG n D × CycleLocals n → Except Fault (IncEigCG n D × CycleLocals n)
  | 0, SL => pure SL
  | j + 1, SL => do
    let SL ← refinementCycle C fuel inp b2 SL
    refinementCycles C fuel inp b2 j SL

/-- The state on entry to the refinement loop of `operator()`. -/
def callEntry (C : Collab n D) (S : IncEigCG n D) (out inp : ColorSpinorField n) :
    IncEigCG n D × CycleLocals n :=
  let S :=
    if S.param.rhs_idx = 0 then { S with max_eigcg_cycles := S.param.eigcg_max_restarts } else S
  let rn := blas.xmyNorm inp (C.mat out)
  (S.emit Event.matApply,
   { out := out, r := rn.1, r2 := rn.2, logical_rhs_id := 0, dcg_cycle := false })

/-- The value `mixed_prec` of `operator()`. -/
def mixedPrec (S : IncEigCG n D) : Bool :=
  decide (S.param.precision ≠ S.param.precision_sloppy)

/-- The state in which the refinement loop of `operator()` is left, for a
subspace that is incomplete on entry. -/
def refinementExit (C : Collab n D) (fuel cycles : Nat) (S : IncEigCG n D)
    (out inp : ColorSpinorField n) : Except Fault (IncEigCG n D × CycleLocals n) :=
  refinementLoop C fuel inp (blas.norm2 inp) (blas.norm2 inp * S.param.tol * S.param.tol)
    (mixedPrec S) cycles (callEntry C S out inp)

end IncEigCG

/-- The events that the part of a refinement cycle after `eigCGsolve` can
record. -/
def Event.inCycleTail (e : Event) : Prop :=
  (∃ count, e = Event.deflIncrement count) ∨ e = Event.matApply ∨ e = Event.deflVerify

/-- The events that a refinement cycle can record. -/
def Event.inRefinement (e : Event) : Prop :=
  e.inSolve ∨ e.inCycleTail ∨ e = Event.deflProject ∨
  e = Event.printf Message.runningDCG ∨ e = Event.eigCGcycle

/-- The event is a call of `defl.increment`. -/
def Event.isIncrement : Event → Bool
  | Event.deflIncrement _ => true
  | _ => false

/-- The test problem of `demoCollab` with a convergence test that never
holds, so that every run of `eigCGsolve` makes `maxiter` passes. -/
def stubbornCollab : Collab 1 Unit :=
  { demoCollab with convergence := fun _ _ _ _ _ => false }

/-- A fresh test solver with basis size `3`, one Ritz pair per restart, the
iteration cap `5` and `eigcg_max_restarts = M`. -/
def stubbornSolver (M : Int) : IncEigCG 1 Unit :=
  { demoSolver 3 1 5 with param := { demoParam 3 1 5 with eigcg_max_restarts := M } }

/-- The result is a value for which the test `p` holds. -/
def returnsWith {α : Type} (p : α → Bool) : Except Fault α → Bool
  | .ok a => p a
  | .error _ => false

/-- The test problem that never converges, over a deflation object that counts
its increments and is complete from the first increment on. -/
def growingCollab : Collab 1 Nat :=
  { mat := id, matSloppy := id, inner := fun _ _ x _ => (x, 0), sqrt := id,
    convergence := fun _ _ _ _ _ => false,
    stopping := fun tol b2 _ => tol * tol * b2,
    HeavyQuarkResidualNorm := fun _ _ => 0, QUDA_HEAVY_QUARK_RESIDUAL := 4,
    SelfAdjointEigenSolver := fun _ _ => (identity, fun _ => 0),
    magma_Xheev := fun _ _ => (identity, fun _ => 0),
    householderQ := fun _ _ _ => identity, MAGMA_LIB := false, verbose := false,
    is_complete := fun d => decide (1 ≤ d), project := fun _ x _ => x,
    increment := fun d _ _ => d + 1, reduce := fun d _ _ => d, size := fun d => d }

/-- A fresh test solver over an empty counting deflation object: basis size
`3`, one Ritz pair per restart, iteration cap `5`. -/
def growingSolver : IncEigCG 1 Nat :=
  { param := demoParam 3 1 5, Kparam := demoParam 3 1 5, K := none, Vm := none,
    r_pre := none, p_pre := none, eigcg_args := none, init := false, rp := none, yp := none,
    Ap := none, pp := none, tmpp := none, Az := none, defl := 0, max_eigcg_cycles := 4,
    log := [] }

/-! ## A test problem on four components -/

/-- The field with the four real components `a`, `b`, `c`, `d`. -/
def vec4 (a b c d : ℚ) : ColorSpinorField 4 :=
  fun i => Cplx.ofReal (if i = 0 then a else if i = 1 then b else if i = 2 then c else d)

/-- The diagonal operator `diag(1, 2, 3, 4)`. -/
def rampOperator : ColorSpinorField 4 → ColorSpinorField 4 :=
  fun v i => Cplx.scale ((i : Nat) + 1) (v i)

/-- The test problem on four components with the operator `diag(1, 2, 3, 4)`
and a convergence test that never holds. -/
def rampCollab : Collab 4 Unit :=
  { mat := rampOperator, matSloppy := rampOperator, inner := fun _ _ x _ => (x, 0), sqrt := id,
    convergence := fun _ _ _ _ _ => false,
    stopping := fun tol b2 _ => tol * tol * b2,
    HeavyQuarkResidualNorm := fun _ _ => 0, QUDA_HEAVY_QUARK_RESIDUAL := 4,
    SelfAdjointEigenSolver := fun _ _ => (identity, fun _ => 0),
    magma_Xheev := fun _ _ => (identity, fun _ => 0),
    householderQ := fun _ _ _ => identity, MAGMA_LIB := false, verbose := false,
    is_complete := fun _ => false, project := fun _ x _ => x, increment := fun d _ _ => d,
    reduce := fun d _ _ => d, size := fun _ => 0 }

/-- A freshly constructed solver on four components: no preconditioner, basis
size `m = 3`, `k = 1` Ritz pair per restart, iteration cap `5`. -/
def rampSolver : IncEigCG 4 Unit :=
  { param := demoParam 3 1 5, Kparam := demoParam 3 1 5, K := none, Vm := none,
    r_pre := none, p_pre := none, eigcg_args := none, init := false, rp := none, yp := none,
    Ap := none, pp := none, tmpp := none, Az := none, defl := (), max_eigcg_cycles := 4,
    log := [] }

/-- The first `j` passes through the loop body of `eigCGsolve` in the run of
`rampSolver` on the source `(1, 1, 1, 1)` with zero guess. -/
def rampRun (j : Nat) : Except Fault (IncEigCG 4 Unit × EigCGLocals 4) :=
  IncEigCG.eigCGprologue rampCollab
      (IncEigCG.initialised rampCollab rampSolver (vec4 1 1 1 1)) blas.zero (vec4 1 1 1 1) >>=
    IncEigCG.eigCGiterations rampCollab
      (IncEigCG.localStop (IncEigCG.initialised rampCollab rampSolver (vec4 1 1 1 1))
        (vec4 1 1 1 1) QudaPrecision.QUDA_DOUBLE_PRECISION) j

/-! ## Sequences of method calls on the Lanczos state -/

/-- A call of one of the methods of `EigCGArgs`, with its arguments. -/
inductive LanczosCall (n : Nat) where
  | SetLanczos (diag_val offdiag_val : Cplx)
  | RestartLanczos (w : ColorSpinorField n) (v : Nat → ColorSpinorField n) (inv_sqrt_r2 : ℚ)
  | CleanArgs
  | ResetSearchIdx
  | ResetAccumBuffer

/-- The state after one method call. -/
def EigCGArgs.perform {n : Nat} (a : EigCGArgs n) : LanczosCall n → Except Fault (EigCGArgs n)
  | LanczosCall.SetLanczos d o => a.SetLanczos d o
  | LanczosCall.RestartLanczos w v c => a.RestartLanczos w v c
  | LanczosCall.CleanArgs => pure a.CleanArgs
  | LanczosCall.ResetSearchIdx => pure a.ResetSearchIdx
  | LanczosCall.ResetAccumBuffer => pure a.ResetAccumBuffer

/-- The state after a sequence of method calls, first call first. -/
def EigCGArgs.performAll {n : Nat} : List (LanczosCall n) → EigCGArgs n → Except Fault (EigCGArgs n)
  | [], a => pure a
  | c :: cs, a => do
    let a1 ← a.perform c
    EigCGArgs.performAll cs a1

/-- The call is a `RestartLanczos`. -/
def LanczosCall.isRestart {n : Nat} : LanczosCall n → Bool
  | LanczosCall.RestartLanczos _ _ _ => true
  | _ => false

/-- The scalar arguments of a `SetLanczos` call are real. -/
def LanczosCall.IsReal {n : Nat} : LanczosCall n → Prop
  | LanczosCall.SetLanczos d o => d.im = 0 ∧ o.im = 0
  | _ => True

/-- Entries outside the three central diagonals are zero. -/
def DenseMatrix.IsTridiagonal (T : DenseMatrix) : Prop :=
  ∀ i j : Nat, (i + 1 < j ∨ j + 1 < i) → T i j = 0

/-- The first `c` entries of row `c` and of column `c`. -/
def DenseMatrix.inBorder (c i j : Nat) : Prop :=
  (i = c ∧ j < c) ∨ (j = c ∧ i < c)

/-- The leading `m x m` block is Hermitian. -/
def DenseMatrix.IsHermitian (m : Nat) (T : DenseMatrix) : Prop :=
  ∀ i j : Nat, i < m → j < m → T i j = Cplx.conj (T j i)

/-- A run of calls as `eigCGsolve` makes them with `m = 4`, `k = 1` on fields
of one component: fill the matrix, restart, continue at the cursor `2k`. -/
def demoCalls : List (LanczosCall 1) :=
  [LanczosCall.SetLanczos (Cplx.ofReal 2) (Cplx.ofReal (-1)),
   LanczosCall.SetLanczos (Cplx.ofReal 2) (Cplx.ofReal (-1)),
   LanczosCall.SetLanczos (Cplx.ofReal 2) (Cplx.ofReal (-1)),
   LanczosCall.SetLanczos (Cplx.ofReal 2) (Cplx.ofReal (-1)),
   LanczosCall.RestartLanczos (demoField 1) (fun _ => demoField 1) 1,
   LanczosCall.ResetSearchIdx,
   LanczosCall.SetLanczos (Cplx.ofReal 3) (Cplx.ofReal (-1))]

/-- The same run without the restart, ended by `CleanArgs`. -/
def demoCallsPlain : List (LanczosCall 1) :=
  [LanczosCall.SetLanczos (Cplx.ofReal 2) (Cplx.ofReal (-1)),
   LanczosCall.SetLanczos (Cplx.ofReal 2) (Cplx.ofReal (-1)),
   LanczosCall.CleanArgs,
   LanczosCall.SetLanczos (Cplx.ofReal 3) (Cplx.ofReal (-1))]

/-! ## A test problem with both eigensolver back ends -/

/-- Collaborators of `demoCollab` built with `MAGMA_LIB`: the accelerated
eigensolver returns the first eigenvector of the portable one and different
further columns and values; the QR factorisation reads the block it is given. -/
def magmaCollab : Collab 1 Unit :=
  { demoCollab with
    MAGMA_LIB := true,
    magma_Xheev := fun _ _ => (fun i j => if j < 1 then identity i j else Cplx.ofReal 7,
                               fun _ => 1),
    householderQ := fun m c R => fun i j => if i < m ∧ j < c then R i j else 0 }

/-! ## Type checks and the norm array of `include/texture.h` -/

/-- Fatal conditions of `texture.h`: the three `errorQuda` texts of
`checkTypes`, and a read outside a local array. -/
inductive TextureFault where
  | precisionMismatch
  | vectorLengthMismatch
  | vectorTypeNotSupported
  | indexOutOfRange
deriving DecidableEq, Repr

/-- What `checkTypes` reads of a vector type such as `double2` or `short4`:
`sizeof` of its member `x` and the trait `vec_length<T>::value`, which the
sources at hand do not define. -/
structure VectorType where
  sizeof_x : Nat
  vec_length : Nat
deriving DecidableEq, Repr

/-- The CUDA vector type `double2`. -/
def double2 : VectorType := ⟨8, 2⟩

/-- The CUDA vector type `float2`. -/
def float2 : VectorType := ⟨4, 2⟩

/-- The CUDA vector type `float4`. -/
def float4 : VectorType := ⟨4, 4⟩

/-- The CUDA vector type `short2`. -/
def short2 : VectorType := ⟨2, 2⟩

/-- The CUDA vector type `short4`. -/
def short4 : VectorType := ⟨2, 4⟩

/-- The function template `checkTypes<RegType, InterType, StoreType>()`. -/
def checkTypes (RegType InterType StoreType : VectorType) : Except TextureFault Unit :=
  let reg_size := RegType.sizeof_x
  let inter_size := InterType.sizeof_x
  let store_size := StoreType.sizeof_x
  if reg_size ≠ inter_size ∧ store_size ≠ 2 ∧ store_size ≠ 1 ∧ inter_size ≠ 4 then
    throw TextureFault.precisionMismatch
  else if InterType.vec_length ≠ StoreType.vec_length then
    throw TextureFault.vectorLengthMismatch
  else if RegType.vec_length = 0 then throw TextureFault.vectorTypeNotSupported
  else if InterType.vec_length = 0 then throw TextureFault.vectorTypeNotSupported
  else if StoreType.vec_length = 0 then throw TextureFault.vectorTypeNotSupported
  else pure ()

/-- The rule of the comment above `checkTypes` and of the claim: the sizes of
the register and the intermediate type differ, and the types are not the one
admitted exception (storage of 2 or 1 bytes, a `double` register type, a
single-precision intermediate type). -/
def precisionRuleBroken (RegType InterType StoreType : VectorType) : Prop :=
  RegType.sizeof_x ≠ InterType.sizeof_x ∧
  ¬ ((StoreType.sizeof_x = 2 ∨ StoreType.sizeof_x = 1) ∧ RegType.sizeof_x = 8 ∧
      InterType.sizeof_x = 4)

/-- The data members of `SpinorNorm<RegType, StoreType, true>`: the array
behind the pointer `norm` and the offset of the second parity. -/
structure SpinorNorm where
  norm : Nat → ℚ
  cb_norm_offset : Nat

namespace SpinorNorm

/-- The first loop of `store_norm<M>`: the local array `c` of `M/2` entries,
`c[j] = fmaxf(max_fabs(x[2j]), max_fabs(x[2j+1]))`.  The helper `max_fabs` is
a parameter. -/
def pairMaxima {V : Type} (max_fabs : V → ℚ) (M : Nat) (x : Nat → V) : List ℚ :=
  (List.range (M / 2)).map (fun j => max (max_fabs (x (2 * j + 0))) (max_fabs (x (2 * j + 1))))

/-- The second loop of `store_norm<M>`, `c[0] = fmaxf(c[j], c[0])` for
`j = 1 .. M/2 - 1`, and the read of `c[0]` after it; the array has no entry
`c[0]` when it is empty. -/
def reduceMaxima : List ℚ → Except TextureFault ℚ
  | [] => throw TextureFault.indexOutOfRange
  | c0 :: rest => pure (rest.foldl (fun acc cj => max cj acc) c0)

/-- The method `store_norm<M>(x, i, parity)` of the fixed-precision
specialisation: the object after the write into `norm` and the returned
value.  `float` is embedded as `ℚ`, `fmaxf` as `max`, `__fdividef` as the
quotient; `fixedMaxValue` stands for `fixedMaxValue<StoreType>::value`. -/
def store_norm {V : Type} (max_fabs : V → ℚ) (fixedMaxValue : ℚ) (M : Nat) (sn : SpinorNorm)
    (x : Nat → V) (i parity : Nat) : Except TextureFault (SpinorNorm × ℚ) := do
  let c0 ← reduceMaxima (pairMaxima max_fabs M x)
  pure ({ sn with norm := fun a => if a = sn.cb_norm_offset * parity + i then c0 else sn.norm a },
        fixedMaxValue / c0)

end SpinorNorm

/-- Three intermediate elements of one component each, the last one the
largest in absolute value. -/
def demoElements : Nat → ℚ := fun j => if j = 0 then 1 else if j = 1 then -2 else 5

/-- A norm array of zeros with the offset `16` of the second parity. -/
def demoNorm : SpinorNorm := ⟨fun _ => 0, 16⟩

/-- The test solver with the full tolerance `1e-7` in `Kparam`, the restart
tolerance `5e-5`, the ratio `1e-3` and `max_restart_num = 3`. -/
def defaultScheduleSolver : IncEigCG 1 Unit :=
  { demoSolver 3 1 10 with
    param := { demoParam 3 1 10 with max_restart_num := 3, inc_tol := 1 / 1000 },
    Kparam := { demoParam 3 1 10 with tol := 1 / 10000000, tol_restart := 5 / 100000 } }

/-! ## Names for the parts of `RestartVT` -/

/-- The part of `RestartVT` after the library dispatch: the restart of the
basis and of the Lanczos matrix from the state `al.1` that the extraction of
the library `al.2` has returned. -/
def IncEigCG.restartTail {n : Nat} {D : Type} (S : IncEigCG n D)
    (al : EigCGArgs n × libtype) (beta rho : ℚ) : Except Fault (IncEigCG n D) := do
  let args := al.1
  let S := (S.emit Event.restartVT).emit (Event.computeRitz al.2)
  -- Restart V:
  let V2k ← deref args.V2k
  let Vm ← deref S.Vm
  inRange (2 * args.k ≤ args.m)
  let V2k := { V2k with comp := blas.caxpy args.m args.ritzVecs Vm.comp (fun _ => blas.zero) }
  inRange (2 * args.k ≤ Vm.composite_dim)
  inRange (2 * args.k ≤ V2k.composite_dim)
  let Vm := { Vm with comp := fun i => if i < 2 * args.k then V2k.comp i else Vm.comp i }
  -- Restart T:
  let Ap ← deref S.Ap
  let Az ← deref S.Az
  let Az := blas.xpay Ap (-beta) Az
  inRange (0 < args.m)
  let Vm ← Vm.setComponent (args.m - 1) Az
  let omega ← Vm.Component (args.m - 1)
  let args ← args.RestartLanczos omega Vm.comp (1 / rho)
  pure { S with eigcg_args := some { args with V2k := some V2k }, Vm := some Vm, Az := some Az }

/-! # Properties -/

/-! ## Basic facts about scalars and checked writes -/

@[simp] theorem Cplx.zero_re : (0 : Cplx).re = 0 := rfl
@[simp] theorem Cplx.zero_im : (0 : Cplx).im = 0 := rfl
@[simp] theorem Cplx.add_re (a b : Cplx) : (a + b).re = a.re + b.re := rfl
@[simp] theorem Cplx.add_im (a b : Cplx) : (a + b).im = a.im + b.im := rfl
@[simp] theorem Cplx.scale_re (c : ℚ) (a : Cplx) : (Cplx.scale c a).re = c * a.re := rfl
@[simp] theorem Cplx.scale_im (c : ℚ) (a : Cplx) : (Cplx.scale c a).im = c * a.im := rfl
@[simp] theorem Cplx.ofReal_re (x : ℚ) : (Cplx.ofReal x).re = x := rfl
@[simp] theorem Cplx.ofReal_im (x : ℚ) : (Cplx.ofReal x).im = 0 := rfl

theorem Cplx.eq_iff (a b : Cplx) : a = b ↔ a.re = b.re ∧ a.im = b.im := by
  cases a; cases b; simp

theorem setCoeff_ok {rows cols : Nat} (M : DenseMatrix) {i j : Nat} (v : Cplx)
    (hi : i < rows) (hj : j < cols) :
    setCoeff rows cols M i j v = .ok (fun a b => if a = i ∧ b = j then v else M a b) := by
  simp [setCoeff, hi, hj, pure, Except.pure]

theorem setCoeff_eq_ok {rows cols : Nat} {M M' : DenseMatrix} {i j : Nat} {v : Cplx}
    (h : setCoeff rows cols M i j v = .ok M') :
    i < rows ∧ j < cols ∧ M' = fun a b => if a = i ∧ b = j then v else M a b := by
  unfold setCoeff at h
  split at h
  · rename_i hc
    simp only [pure, Except.pure, Except.ok.injEq] at h
    exact ⟨hc.1, hc.2, h.symm⟩
  · simp [throw, throwThe, MonadExceptOf.throw] at h

/-- The diagonal loop of `RestartLanczos` succeeds exactly when it stays inside
the matrix, and then it has written `count` diagonal entries. -/
theorem EigCGArgs.loadRitzValues_eq_ok (m : Nat) (vals : RealVector) :
    ∀ (count : Nat) (T T' : DenseMatrix),
      EigCGArgs.loadRitzValues m vals count T = .ok T' ↔
        count ≤ m ∧ T' = fun i j => if i = j ∧ i < count then Cplx.ofReal (vals i) else T i j := by
  intro count
  induction count with
  | zero =>
    intro T T'
    simp only [EigCGArgs.loadRitzValues, pure, Except.pure, Except.ok.injEq, Nat.zero_le, true_and,
      Nat.not_lt_zero, and_false, if_false]
    exact eq_comm
  | succ c ih =>
    intro T T'
    simp only [EigCGArgs.loadRitzValues, bind, Except.bind]
    cases h1 : EigCGArgs.loadRitzValues m vals c T with
    | error e =>
      constructor
      · intro h
        cases h
      · rintro ⟨hle, _⟩
        have := (ih T (fun i j => if i = j ∧ i < c then Cplx.ofReal (vals i) else T i j)).2
          ⟨by omega, rfl⟩
        rw [h1] at this
        cases this
    | ok T1 =>
      obtain ⟨hc, rfl⟩ := (ih T T1).1 h1
      simp only
      constructor
      · intro h2
        obtain ⟨hi, _, rfl⟩ := setCoeff_eq_ok h2
        refine ⟨by omega, ?_⟩
        funext i j
        by_cases c1 : i = c ∧ j = c
        · obtain ⟨rfl, rfl⟩ := c1
          simp
        · by_cases c2 : i = j
          · subst c2
            have h4 : i ≠ c := fun h => c1 ⟨h, h⟩
            have h3 : (i < c + 1) ↔ i < c := by omega
            simp [h3, h4]
          · simp [c1, c2]
      · rintro ⟨hle, rfl⟩
        rw [setCoeff_ok _ _ (by omega) (by omega)]
        congr 1
        funext i j
        by_cases c1 : i = c ∧ j = c
        · obtain ⟨rfl, rfl⟩ := c1
          simp
        · by_cases c2 : i = j
          · subst c2
            have h4 : i ≠ c := fun h => c1 ⟨h, h⟩
            have h3 : (i < c + 1) ↔ i < c := by omega
            simp [h3, h4]
          · simp [c1, c2]

/-- `RestartLanczos` succeeds exactly when column and row `2k` exist, and then
the rebuilt matrix has the closed form below. -/
theorem EigCGArgs.RestartLanczos_eq_ok {n : Nat} (a a' : EigCGArgs n) (w : ColorSpinorField n)
    (v : Nat → ColorSpinorField n) (c : ℚ) :
    a.RestartLanczos w v c = .ok a' ↔
      2 * a.k < a.m ∧
      a' = { a with Tm := fun i j =>
              if i = 2 * a.k ∧ j < 2 * a.k then
                Cplx.conj (Cplx.scale c (blas.cDotProduct w (v j)))
              else if j = 2 * a.k ∧ i < 2 * a.k then Cplx.scale c (blas.cDotProduct w (v i))
              else if i = j ∧ i < 2 * a.k then Cplx.ofReal (a.Tmvals i)
              else 0 } := by
  unfold EigCGArgs.RestartLanczos
  simp only [bind, Except.bind]
  cases h1 : EigCGArgs.loadRitzValues a.m a.Tmvals (2 * a.k) DenseMatrix.zero with
  | error e =>
    constructor
    · intro h
      cases h
    · rintro ⟨hlt, _⟩
      have := (EigCGArgs.loadRitzValues_eq_ok a.m a.Tmvals (2 * a.k) DenseMatrix.zero _).2
        ⟨by omega, rfl⟩
      rw [h1] at this
      cases this
  | ok T1 =>
    obtain ⟨hle, rfl⟩ := (EigCGArgs.loadRitzValues_eq_ok _ _ _ _ _).1 h1
    simp only [setColSegment, setRowSegment]
    by_cases hlt : 2 * a.k < a.m
    · simp only [hlt, hle, and_self, if_true, pure, Except.pure, Except.ok.injEq, true_and]
      have : ∀ x y : EigCGArgs n, x = y → (x = a' ↔ a' = y) := by
        intro x y h; subst h; exact eq_comm
      apply this
      congr 1
    · simp [hlt, throw, throwThe, MonadExceptOf.throw]


/-! ## Reasoning about `Except` programs -/

theorem bind_eq_ok {α β : Type} (x : Except Fault α) (f : α → Except Fault β) (b : β) :
    (x >>= f) = .ok b ↔ ∃ a, x = .ok a ∧ f a = .ok b := by
  cases x with
  | error e => simp [bind, Except.bind]
  | ok a => simp [bind, Except.bind]

theorem bind_ne_error {α β : Type} (x : Except Fault α) (f : α → Except Fault β) (e : Fault)
    (hx : x ≠ .error e) (hf : ∀ a, x = .ok a → f a ≠ .error e) :
    (x >>= f) ≠ .error e := by
  cases x with
  | error e' =>
    simp only [bind, Except.bind]
    intro h
    apply hx
    cases h
    rfl
  | ok a =>
    simp only [bind, Except.bind]
    exact hf a rfl

theorem deref_eq_ok {α : Type} (o : Option α) (a : α) : deref o = .ok a ↔ o = some a := by
  cases o <;> simp [deref, pure, Except.pure, throw, throwThe, MonadExceptOf.throw]

theorem deref_ne_range {α : Type} (o : Option α) : deref o ≠ .error Fault.indexOutOfRange := by
  cases o <;> simp [deref, pure, Except.pure, throw, throwThe, MonadExceptOf.throw]

theorem setBlock_eq_ok {rows cols : Nat} {M M' B : DenseMatrix} {r0 c0 h w : Nat} :
    setBlock rows cols M r0 c0 h w B = .ok M' ↔
      (r0 + h ≤ rows ∧ c0 + w ≤ cols) ∧
      M' = fun a b => if r0 ≤ a ∧ a < r0 + h ∧ c0 ≤ b ∧ b < c0 + w then B (a - r0) (b - c0)
                      else M a b := by
  unfold setBlock
  split
  · rename_i hc
    simp only [pure, Except.pure, Except.ok.injEq, hc, and_self, true_and]
    exact eq_comm
  · rename_i hc
    simp [throw, throwThe, MonadExceptOf.throw, hc]

theorem EigCGArgs.sameFrame_refl {n : Nat} (a : EigCGArgs n) : a.SameFrame a :=
  ⟨rfl, rfl, rfl, rfl, rfl, rfl⟩

theorem EigCGArgs.sameFrame_trans {n : Nat} {a b c : EigCGArgs n} (h1 : a.SameFrame b)
    (h2 : b.SameFrame c) : a.SameFrame c := by
  obtain ⟨p1, p2, p3, p4, p5, p6⟩ := h1
  obtain ⟨q1, q2, q3, q4, q5, q6⟩ := h2
  exact ⟨q1.trans p1, q2.trans p2, q3.trans p3, q4.trans p4, q5.trans p5, q6.trans p6⟩

variable {n : Nat} {D : Type}

theorem inRange_eq_ok (c : Prop) [Decidable c] (u : Unit) : inRange c = .ok u ↔ c := by
  unfold inRange
  split <;> simp_all [pure, Except.pure, throw, throwThe, MonadExceptOf.throw]

theorem inRange_ok {c : Prop} [Decidable c] (h : c) : inRange c = .ok () := by
  simp [inRange, h, pure, Except.pure]

theorem ritzProjection_eq_ok (C : Collab n D) (a a' : EigCGArgs n)
    (h : ritzProjection C a = .ok a') :
    a.SameFrame a' ∧ a'.Tm = a.Tm ∧ a'.V2k = a.V2k := by
  unfold ritzProjection at h
  obtain ⟨_, _, h⟩ := (bind_eq_ok _ _ _).1 h
  obtain ⟨R, _, h⟩ := (bind_eq_ok _ _ _).1 h
  simp only [pure, Except.pure, Except.ok.injEq] at h
  subst h
  exact ⟨⟨rfl, rfl, rfl, rfl, rfl, rfl⟩, rfl, rfl⟩

theorem ritzProjection_total (C : Collab n D) (a : EigCGArgs n) (hk : 2 * a.k ≤ a.m) :
    ∃ a', ritzProjection C a = .ok a' := by
  unfold ritzProjection
  simp only [inRange_ok hk, bind, Except.bind, pure, Except.pure]
  rw [setBlock_eq_ok.2 ⟨⟨by omega, by omega⟩, rfl⟩]
  exact ⟨_, rfl⟩

theorem ComputeRitz_eq_ok (C : Collab n D) (lib : libtype) (a a' : EigCGArgs n)
    (h : ComputeRitz C lib a = .ok a') :
    a.SameFrame a' ∧ a'.Tm = a.Tm ∧ a'.V2k = a.V2k := by
  cases lib with
  | eigen_lib =>
    simp only [ComputeRitz, ComputeRitz_eigen_lib] at h
    obtain ⟨R1, _, h⟩ := (bind_eq_ok _ _ _).1 h
    obtain ⟨_, _, h⟩ := (bind_eq_ok _ _ _).1 h
    obtain ⟨R2, _, h⟩ := (bind_eq_ok _ _ _).1 h
    obtain ⟨R3, _, h⟩ := (bind_eq_ok _ _ _).1 h
    have h2 := ritzProjection_eq_ok C _ a' h
    exact h2
  | magma_lib =>
    simp only [ComputeRitz, ComputeRitz_magma_lib] at h
    split at h
    · obtain ⟨_, _, h⟩ := (bind_eq_ok _ _ _).1 h
      obtain ⟨_, _, h⟩ := (bind_eq_ok _ _ _).1 h
      have h2 := ritzProjection_eq_ok C _ a' h
      exact h2
    · cases h
  | lapack_lib => cases h
  | mkl_lib => cases h

theorem ComputeRitz_eigen_total (C : Collab n D) (a : EigCGArgs n) (hk : 2 * a.k < a.m) :
    ∃ a', ComputeRitz C libtype.eigen_lib a = .ok a' := by
  simp only [ComputeRitz, ComputeRitz_eigen_lib]
  rw [setBlock_eq_ok.2 ⟨⟨by omega, by omega⟩, rfl⟩, inRange_ok (by omega)]
  simp only [bind, Except.bind, pure, Except.pure]
  rw [setBlock_eq_ok.2 ⟨⟨by omega, by omega⟩, rfl⟩]
  simp only
  rw [setBlock_eq_ok.2 ⟨⟨by omega, by omega⟩, rfl⟩]
  exact ritzProjection_total C _ (by simp only; omega)

theorem ComputeRitz_magma_total (C : Collab n D) (a : EigCGArgs n) (hk : 2 * a.k < a.m)
    (hb : C.MAGMA_LIB = true) :
    ∃ a', ComputeRitz C libtype.magma_lib a = .ok a' := by
  simp only [ComputeRitz, ComputeRitz_magma_lib, hb, if_true]
  rw [inRange_ok (by omega), inRange_ok (by omega)]
  simp only [bind, Except.bind, pure, Except.pure]
  exact ritzProjection_total C _ (by simp only; omega)

theorem ComputeRitz_magma_unbuilt (C : Collab n D) (a : EigCGArgs n) (hb : C.MAGMA_LIB = false) :
    ComputeRitz C libtype.magma_lib a = .error Fault.magmaNotBuilt := by
  simp [ComputeRitz, ComputeRitz_magma_lib, hb, throw, throwThe, MonadExceptOf.throw]

theorem setComponent_eq_ok (V V' : ColorSpinorFieldSet n) (i : Nat) (v : ColorSpinorField n) :
    V.setComponent i v = .ok V' ↔
      i < V.composite_dim ∧ V' = { V with comp := fun a => if a = i then v else V.comp a } := by
  unfold ColorSpinorFieldSet.setComponent
  split
  · rename_i hc
    simp only [pure, Except.pure, Except.ok.injEq, hc, true_and]
    exact eq_comm
  · rename_i hc
    simp [throw, throwThe, MonadExceptOf.throw, hc]

theorem Component_eq_ok (V : ColorSpinorFieldSet n) (i : Nat) (v : ColorSpinorField n) :
    V.Component i = .ok v ↔ i < V.composite_dim ∧ v = V.comp i := by
  unfold ColorSpinorFieldSet.Component
  split
  · rename_i hc
    simp only [pure, Except.pure, Except.ok.injEq, hc, true_and]
    exact eq_comm
  · rename_i hc
    simp [throw, throwThe, MonadExceptOf.throw, hc]

theorem selectRitz_eq_ok (C : Collab n D) (t : QudaExtLibType) (a : EigCGArgs n)
    (al : EigCGArgs n × libtype) (h : IncEigCG.selectRitz C t a = .ok al) :
    a.SameFrame al.1 ∧ al.1.Tm = a.Tm ∧ al.1.V2k = a.V2k ∧
    ((t = QudaExtLibType.QUDA_MAGMA_EXTLIB ∧ al.2 = libtype.magma_lib ∧ C.MAGMA_LIB = true) ∨
     (t = QudaExtLibType.QUDA_EIGEN_EXTLIB ∧ al.2 = libtype.eigen_lib)) := by
  cases t with
  | QUDA_MAGMA_EXTLIB =>
    simp only [IncEigCG.selectRitz] at h
    obtain ⟨a1, h1, h2⟩ := (bind_eq_ok _ _ _).1 h
    simp only [pure, Except.pure, Except.ok.injEq] at h2
    subst h2
    obtain ⟨f1, f2, f3⟩ := ComputeRitz_eq_ok C _ _ _ h1
    refine ⟨f1, f2, f3, Or.inl ⟨rfl, rfl, ?_⟩⟩
    by_contra hb
    rw [ComputeRitz_magma_unbuilt C a (by simpa using hb)] at h1
    cases h1
  | QUDA_EIGEN_EXTLIB =>
    simp only [IncEigCG.selectRitz] at h
    obtain ⟨a1, h1, h2⟩ := (bind_eq_ok _ _ _).1 h
    simp only [pure, Except.pure, Except.ok.injEq] at h2
    subst h2
    obtain ⟨f1, f2, f3⟩ := ComputeRitz_eq_ok C _ _ _ h1
    exact ⟨f1, f2, f3, Or.inr ⟨rfl, rfl⟩⟩
  | QUDA_EXTLIB_INVALID =>
    simp [IncEigCG.selectRitz, throw, throwThe, MonadExceptOf.throw] at h

theorem selectRitz_ne_range (C : Collab n D) (t : QudaExtLibType) (a : EigCGArgs n)
    (hk : 2 * a.k < a.m) : IncEigCG.selectRitz C t a ≠ .error Fault.indexOutOfRange := by
  cases t with
  | QUDA_MAGMA_EXTLIB =>
    simp only [IncEigCG.selectRitz]
    by_cases hb : C.MAGMA_LIB = true
    · obtain ⟨a', h⟩ := ComputeRitz_magma_total C a hk hb
      rw [h]
      simp [bind, Except.bind, pure, Except.pure]
    · rw [ComputeRitz_magma_unbuilt C a (by simpa using hb)]
      simp [bind, Except.bind]
  | QUDA_EIGEN_EXTLIB =>
    simp only [IncEigCG.selectRitz]
    obtain ⟨a', h⟩ := ComputeRitz_eigen_total C a hk
    rw [h]
    simp [bind, Except.bind, pure, Except.pure]
  | QUDA_EXTLIB_INVALID =>
    simp [IncEigCG.selectRitz, throw, throwThe, MonadExceptOf.throw]

theorem RestartVT_eq_ok (C : Collab n D) (S S' : IncEigCG n D) (beta rho : ℚ)
    (h : IncEigCG.RestartVT C S beta rho = .ok S') :
    ∃ args args' Vm Vm' V V' Ap Az lib,
      S.eigcg_args = some args ∧ S'.eigcg_args = some args' ∧ args.SameFrame args' ∧
      2 * args.k < args.m ∧
      S.Vm = some Vm ∧ S'.Vm = some Vm' ∧ Vm'.composite_dim = Vm.composite_dim ∧
      args.V2k = some V ∧ args'.V2k = some V' ∧ V'.composite_dim = V.composite_dim ∧
      S.Ap = some Ap ∧ S.Az = some Az ∧ S'.Az = some (blas.xpay Ap (-beta) Az) ∧
      S'.log = S.log ++ [Event.restartVT, Event.computeRitz lib] ∧
      S.LanczosFrame S' := by
  unfold IncEigCG.RestartVT at h
  obtain ⟨args, h1, h⟩ := (bind_eq_ok _ _ _).1 h
  obtain ⟨al, h2, h⟩ := (bind_eq_ok _ _ _).1 h
  obtain ⟨V, h3, h⟩ := (bind_eq_ok _ _ _).1 h
  obtain ⟨Vm, h4, h⟩ := (bind_eq_ok _ _ _).1 h
  obtain ⟨_, h5, h⟩ := (bind_eq_ok _ _ _).1 h
  obtain ⟨_, h6, h⟩ := (bind_eq_ok _ _ _).1 h
  obtain ⟨_, h7, h⟩ := (bind_eq_ok _ _ _).1 h
  obtain ⟨Ap, h8, h⟩ := (bind_eq_ok _ _ _).1 h
  obtain ⟨Az, h9, h⟩ := (bind_eq_ok _ _ _).1 h
  obtain ⟨_, h10, h⟩ := (bind_eq_ok _ _ _).1 h
  obtain ⟨Vm1, h11, h⟩ := (bind_eq_ok _ _ _).1 h
  obtain ⟨omega, h12, h⟩ := (bind_eq_ok _ _ _).1 h
  obtain ⟨args2, h13, h⟩ := (bind_eq_ok _ _ _).1 h
  simp only [pure, Except.pure, Except.ok.injEq] at h
  subst h
  obtain ⟨f1, f2, f3, _⟩ := selectRitz_eq_ok C _ _ _ h2
  obtain ⟨hk, rfl⟩ := (EigCGArgs.RestartLanczos_eq_ok _ _ _ _ _).1 h13
  obtain ⟨_, rfl⟩ := (setComponent_eq_ok _ _ _ _).1 h11
  rw [deref_eq_ok] at h1 h3 h4 h8 h9
  rw [f3] at h3
  refine ⟨args, _, Vm, _, V, _, Ap, Az, al.2, h1, rfl, ?_, ?_, h4, rfl, rfl, h3, rfl, rfl, h8, h9,
    rfl, ?_, ?_⟩
  · exact EigCGArgs.sameFrame_trans f1 ⟨rfl, rfl, rfl, rfl, rfl, rfl⟩
  · rw [← f1.1, ← f1.2.1]
    exact hk
  · simp [IncEigCG.emit]
  · exact ⟨rfl, rfl, rfl, rfl, rfl, rfl, rfl, rfl, rfl, rfl, rfl, rfl, rfl⟩

theorem inRange_ne_range {c : Prop} [Decidable c] (h : c) :
    inRange c ≠ .error Fault.indexOutOfRange := by
  rw [inRange_ok h]
  exact fun h => nomatch h

theorem RestartVT_ne_range (C : Collab n D) (S : IncEigCG n D) (beta rho : ℚ)
    (hS : ∀ args, S.eigcg_args = some args →
      2 * args.k < args.m ∧ (∀ Vm, S.Vm = some Vm → Vm.composite_dim = args.m) ∧
      (∀ V, args.V2k = some V → 2 * args.k ≤ V.composite_dim)) :
    IncEigCG.RestartVT C S beta rho ≠ .error Fault.indexOutOfRange := by
  unfold IncEigCG.RestartVT
  refine bind_ne_error _ _ _ (deref_ne_range _) ?_
  intro args h1
  rw [deref_eq_ok] at h1
  obtain ⟨hk, hVm, hV⟩ := hS args h1
  refine bind_ne_error _ _ _ (selectRitz_ne_range C _ _ hk) ?_
  intro al h2
  obtain ⟨f1, f2, f3, _⟩ := selectRitz_eq_ok C _ _ _ h2
  have hk' : 2 * al.1.k < al.1.m := by rw [f1.1, f1.2.1]; exact hk
  refine bind_ne_error _ _ _ (deref_ne_range _) ?_
  intro V h3
  rw [deref_eq_ok, f3] at h3
  refine bind_ne_error _ _ _ (deref_ne_range _) ?_
  intro Vm h4
  rw [deref_eq_ok] at h4
  have hd : Vm.composite_dim = al.1.m := by rw [f1.1]; exact hVm Vm h4
  refine bind_ne_error _ _ _ (inRange_ne_range (by omega)) ?_
  intro _ _
  refine bind_ne_error _ _ _ (inRange_ne_range (by omega)) ?_
  intro _ _
  refine bind_ne_error _ _ _ (inRange_ne_range ?_) ?_
  · have := hV V h3
    rw [f1.2.1]
    exact this
  intro _ _
  refine bind_ne_error _ _ _ (deref_ne_range _) ?_
  intro Ap _
  refine bind_ne_error _ _ _ (deref_ne_range _) ?_
  intro Az _
  refine bind_ne_error _ _ _ (inRange_ne_range (by omega)) ?_
  intro _ _
  rw [(setComponent_eq_ok _ _ _ _).2 ⟨by simp only; omega, rfl⟩]
  simp only [bind, Except.bind]
  rw [(Component_eq_ok _ _ _).2 ⟨by simp only; omega, rfl⟩]
  simp only
  rw [(EigCGArgs.RestartLanczos_eq_ok _ _ _ _ _).2 ⟨hk', rfl⟩]
  simp [pure, Except.pure]

theorem UpdateVm_correction (C : Collab n D) (S : IncEigCG n D) (args : EigCGArgs n)
    (res : ColorSpinorField n) (beta sqrtr2 : ℚ) (hargs : S.eigcg_args = some args)
    (hrc : args.run_residual_correction = true) :
    IncEigCG.UpdateVm C S res beta sqrtr2 = .ok S := by
  simp [IncEigCG.UpdateVm, hargs, deref, hrc, bind, Except.bind, pure, Except.pure]

theorem restartOrSave_eq_ok (C : Collab n D) (S S' : IncEigCG n D) (args : EigCGArgs n)
    (beta sqrtr2 : ℚ) (hargs : S.eigcg_args = some args)
    (h : IncEigCG.restartOrSave C S args beta sqrtr2 = .ok S') :
    ∃ args', S'.eigcg_args = some args' ∧
      args'.m = args.m ∧ args'.k = args.k ∧
      args'.run_residual_correction = args.run_residual_correction ∧
      args'.global_stop = args.global_stop ∧
      (∀ V', args'.V2k = some V' → ∃ V, args.V2k = some V ∧ V'.composite_dim = V.composite_dim) ∧
      (∀ Vm, S.Vm = some Vm → ∃ Vm', S'.Vm = some Vm' ∧ Vm'.composite_dim = Vm.composite_dim) ∧
      (S.Vm = none → S'.Vm = none) ∧
      S.LanczosFrame S' ∧
      ((args.id = S.param.m ∧ args'.id = 2 * args.k ∧ args'.restarts = args.restarts + 1 ∧
          2 * args.k < args.m ∧
          ∃ lib, S'.log = S.log ++ [Event.restartVT, Event.computeRitz lib]) ∨
       (args.id ≠ S.param.m ∧ args' = args ∧
          S'.log = S.log ++ (if args.id = S.param.m - 1 then [Event.saveAz] else []))) := by
  unfold IncEigCG.restartOrSave at h
  by_cases h1 : args.id = S.param.m
  · simp only [h1, if_true] at h
    obtain ⟨S1, r1, h⟩ := (bind_eq_ok _ _ _).1 h
    obtain ⟨a1, r2, h⟩ := (bind_eq_ok _ _ _).1 h
    simp only [pure, Except.pure, Except.ok.injEq] at h
    subst h
    rw [deref_eq_ok] at r2
    obtain ⟨a0, a1', Vm, Vm', V, V', Ap, Az, lib, e1, e2, f, hk, e3, e4, e5, e6, e7, e8, _, _, _,
      e9, fr⟩ := RestartVT_eq_ok C S S1 beta sqrtr2 r1
    rw [hargs] at e1
    cases e1
    rw [r2] at e2
    cases e2
    refine ⟨_, rfl, f.1, f.2.1, f.2.2.2.2.1, f.2.2.2.2.2, ?_, ?_, ?_, fr, Or.inl ⟨h1, ?_, ?_, hk,
      lib, e9⟩⟩
    · intro V0 hV0
      have hV1 : a1.V2k = some V0 := hV0
      rw [e7] at hV1
      cases hV1
      exact ⟨V, e6, e8⟩
    · intro Vm0 hVm0
      rw [e3] at hVm0
      cases hVm0
      exact ⟨Vm', e4, e5⟩
    · intro hn
      rw [e3] at hn
      cases hn
    · simp [EigCGArgs.ResetSearchIdx, f.2.1]
    · simp [EigCGArgs.ResetSearchIdx, f.2.2.2.1]
  · simp only [h1, if_false] at h
    by_cases h2 : args.id = S.param.m - 1
    · simp only [h2, if_true] at h
      obtain ⟨Ap, r1, h⟩ := (bind_eq_ok _ _ _).1 h
      obtain ⟨Az, r2, h⟩ := (bind_eq_ok _ _ _).1 h
      simp only [pure, Except.pure, Except.ok.injEq] at h
      subst h
      refine ⟨args, hargs, rfl, rfl, rfl, rfl, fun V hV => ⟨V, hV, rfl⟩,
        fun Vm hVm => ⟨Vm, hVm, rfl⟩, fun hn => hn,
        ⟨rfl, rfl, rfl, rfl, rfl, rfl, rfl, rfl, rfl, rfl, rfl, rfl, rfl⟩,
        Or.inr ⟨h1, rfl, ?_⟩⟩
      simp [IncEigCG.emit, h2]
    · simp only [h2, if_false, pure, Except.pure, Except.ok.injEq] at h
      subst h
      refine ⟨args, hargs, rfl, rfl, rfl, rfl, fun V hV => ⟨V, hV, rfl⟩,
        fun Vm hVm => ⟨Vm, hVm, rfl⟩, fun hn => hn,
        ⟨rfl, rfl, rfl, rfl, rfl, rfl, rfl, rfl, rfl, rfl, rfl, rfl, rfl⟩,
        Or.inr ⟨h1, rfl, ?_⟩⟩
      simp [h2]

theorem loadBasisVector_eq_ok (S S' : IncEigCG n D) (res : ColorSpinorField n) (sqrtr2 : ℚ)
    (h : IncEigCG.loadBasisVector S res sqrtr2 = .ok S') :
    ∃ args Vm Vm', S.eigcg_args = some args ∧ S.Vm = some Vm ∧ S'.Vm = some Vm' ∧
      Vm'.composite_dim = Vm.composite_dim ∧ args.id < Vm.composite_dim ∧
      S'.eigcg_args = S.eigcg_args ∧ S'.log = S.log ∧ S'.Az = S.Az ∧ S.LanczosFrame S' := by
  unfold IncEigCG.loadBasisVector at h
  obtain ⟨args, r1, h⟩ := (bind_eq_ok _ _ _).1 h
  obtain ⟨Vm, r2, h⟩ := (bind_eq_ok _ _ _).1 h
  obtain ⟨Vm1, r3, h⟩ := (bind_eq_ok _ _ _).1 h
  obtain ⟨v, r4, h⟩ := (bind_eq_ok _ _ _).1 h
  obtain ⟨Vm2, r5, h⟩ := (bind_eq_ok _ _ _).1 h
  simp only [pure, Except.pure, Except.ok.injEq] at h
  subst h
  rw [deref_eq_ok] at r1 r2
  obtain ⟨hi, rfl⟩ := (setComponent_eq_ok _ _ _ _).1 r3
  obtain ⟨_, rfl⟩ := (setComponent_eq_ok _ _ _ _).1 r5
  exact ⟨args, Vm, _, r1, r2, rfl, rfl, hi, rfl, rfl, rfl,
    ⟨rfl, rfl, rfl, rfl, rfl, rfl, rfl, rfl, rfl, rfl, rfl, rfl, rfl⟩⟩

theorem loadBasisVector_ne_range (S : IncEigCG n D) (res : ColorSpinorField n) (sqrtr2 : ℚ)
    (hS : ∀ args Vm, S.eigcg_args = some args → S.Vm = some Vm → args.id < Vm.composite_dim) :
    IncEigCG.loadBasisVector S res sqrtr2 ≠ .error Fault.indexOutOfRange := by
  unfold IncEigCG.loadBasisVector
  refine bind_ne_error _ _ _ (deref_ne_range _) ?_
  intro args h1
  refine bind_ne_error _ _ _ (deref_ne_range _) ?_
  intro Vm h2
  rw [deref_eq_ok] at h1 h2
  have hi := hS args Vm h1 h2
  simp [ColorSpinorFieldSet.setComponent, ColorSpinorFieldSet.Component, hi, bind, Except.bind,
    pure, Except.pure]

theorem lanczosFrame_trans {S1 S2 S3 : IncEigCG n D} (h1 : S1.LanczosFrame S2)
    (h2 : S2.LanczosFrame S3) : S1.LanczosFrame S3 := by
  obtain ⟨a1, a2, a3, a4, a5, a6, a7, a8, a9, a10, a11, a12, a13⟩ := h1
  obtain ⟨b1, b2, b3, b4, b5, b6, b7, b8, b9, b10, b11, b12, b13⟩ := h2
  exact ⟨b1.trans a1, b2.trans a2, b3.trans a3, b4.trans a4, b5.trans a5, b6.trans a6,
    b7.trans a7, b8.trans a8, b9.trans a9, b10.trans a10, b11.trans a11, b12.trans a12,
    b13.trans a13⟩

theorem UpdateVm_eq_ok (C : Collab n D) (S S' : IncEigCG n D) (args : EigCGArgs n)
    (res : ColorSpinorField n) (beta sqrtr2 : ℚ) (hargs : S.eigcg_args = some args)
    (hrc : args.run_residual_correction = false)
    (h : IncEigCG.UpdateVm C S res beta sqrtr2 = .ok S') :
    ∃ args' Vm Vm',
      S'.eigcg_args = some args' ∧ S.Vm = some Vm ∧ S'.Vm = some Vm' ∧
      Vm'.composite_dim = Vm.composite_dim ∧ args'.id < Vm.composite_dim ∧
      args'.m = args.m ∧ args'.k = args.k ∧ args'.run_residual_correction = false ∧
      args'.global_stop = args.global_stop ∧
      (∀ V', args'.V2k = some V' → ∃ V, args.V2k = some V ∧ V'.composite_dim = V.composite_dim) ∧
      S.LanczosFrame S' ∧
      ((args.id = S.param.m ∧ args'.id = 2 * args.k ∧ args'.restarts = args.restarts + 1 ∧
          2 * args.k < args.m ∧
          ∃ lib, S'.log = S.log ++ [Event.restartVT, Event.computeRitz lib]) ∨
       (args.id ≠ S.param.m ∧ args' = args ∧
          S'.log = S.log ++ (if args.id = S.param.m - 1 then [Event.saveAz] else []))) := by
  unfold IncEigCG.UpdateVm at h
  obtain ⟨a0, r0, h⟩ := (bind_eq_ok _ _ _).1 h
  rw [deref_eq_ok, hargs] at r0
  cases r0
  simp only [hrc, Bool.false_eq_true, if_false] at h
  obtain ⟨S1, r1, h⟩ := (bind_eq_ok _ _ _).1 h
  obtain ⟨args', e1, em, ek, erc, egs, eV, eVm, eVn, fr, hcase⟩ :=
    restartOrSave_eq_ok C S S1 args beta sqrtr2 hargs r1
  obtain ⟨a1, Vm1, Vm', q1, q2, q3, q4, q5, q6, q7, q8, fr2⟩ := loadBasisVector_eq_ok S1 S' res sqrtr2 h
  rw [e1] at q1
  cases q1
  cases hVm : S.Vm with
  | none =>
    rw [eVn hVm] at q2
    cases q2
  | some Vm =>
    obtain ⟨Vm1', w1, w2⟩ := eVm Vm hVm
    rw [q2] at w1
    cases w1
    refine ⟨args', Vm, Vm', q6.trans e1, rfl, q3, q4.trans w2, by rw [← w2]; exact q5, em, ek,
      erc.trans hrc, egs, eV, lanczosFrame_trans fr fr2, ?_⟩
    rw [q7]
    exact hcase

/-- `SetLanczos` outside the correction mode with the cursor inside the matrix:
the closed form of its result. -/
theorem EigCGArgs.SetLanczos_ok {n : Nat} (a : EigCGArgs n) (d o : Cplx)
    (hrc : a.run_residual_correction = false) (hid : a.id < a.m) :
    a.SetLanczos d o = .ok
      { a with
        Tm := fun i j =>
          if i = a.id ∧ j = a.id then d
          else if a.id < a.m - 1 ∧ ((i = a.id ∧ j = a.id + 1) ∨ (i = a.id + 1 ∧ j = a.id)) then o
          else a.Tm i j,
        id := a.id + 1 } := by
  unfold EigCGArgs.SetLanczos
  simp only [hrc, Bool.false_eq_true, if_false]
  by_cases h1 : a.id < a.m - 1
  · have h2 : a.id + 1 < a.m := by omega
    simp only [setCoeff_ok _ _ hid hid, setCoeff_ok _ _ hid h2, setCoeff_ok _ _ h2 hid, h1, if_true,
      bind, Except.bind, pure, Except.pure, true_and]
    congr 2
    funext i j
    by_cases c1 : i = a.id ∧ j = a.id
    · obtain ⟨rfl, rfl⟩ := c1
      simp
    · by_cases c2 : i = a.id + 1 ∧ j = a.id
      · simp [c2]
      · by_cases c3 : i = a.id ∧ j = a.id + 1
        · simp [c3]
        · simp [c1, c2, c3]
  · simp only [setCoeff_ok _ _ hid hid, h1, if_false, bind, Except.bind, pure, Except.pure,
      false_and]



theorem EigCGArgs.SetLanczos_eq_ok {n : Nat} (a a' : EigCGArgs n) (d o : Cplx)
    (h : a.SetLanczos d o = .ok a') :
    a'.m = a.m ∧ a'.k = a.k ∧ a'.run_residual_correction = a.run_residual_correction ∧
    a'.V2k = a.V2k ∧ a'.restarts = a.restarts ∧ a'.global_stop = a.global_stop ∧
    (a.run_residual_correction = false → a.id < a.m ∧ a'.id = a.id + 1) ∧
    (a.run_residual_correction = true → a' = a) := by
  cases hrc : a.run_residual_correction with
  | true =>
    simp only [EigCGArgs.SetLanczos, hrc, if_true, pure, Except.pure, Except.ok.injEq] at h
    subst h
    simp [hrc]
  | false =>
    by_cases hid : a.id < a.m
    · rw [EigCGArgs.SetLanczos_ok a d o hrc hid] at h
      simp only [Except.ok.injEq] at h
      subst h
      simp [hrc, hid]
    · simp [EigCGArgs.SetLanczos, hrc, setCoeff, hid, bind, Except.bind, throw, throwThe,
        MonadExceptOf.throw] at h

theorem EigCGArgs.SetLanczos_ne_range {n : Nat} (a : EigCGArgs n) (d o : Cplx)
    (h : a.run_residual_correction = false → a.id < a.m) :
    a.SetLanczos d o ≠ .error Fault.indexOutOfRange := by
  cases hrc : a.run_residual_correction with
  | true => simp [EigCGArgs.SetLanczos, hrc, pure, Except.pure]
  | false =>
    rw [EigCGArgs.SetLanczos_ok a d o hrc (h hrc)]
    exact fun h => nomatch h

theorem restartOrSave_ne_range (C : Collab n D) (S : IncEigCG n D) (args : EigCGArgs n)
    (beta sqrtr2 : ℚ) (hI : S.LanczosInv args) :
    IncEigCG.restartOrSave C S args beta sqrtr2 ≠ .error Fault.indexOutOfRange := by
  obtain ⟨h1, h2, h3, h4, h5, h6, h7⟩ := hI
  unfold IncEigCG.restartOrSave
  split
  · refine bind_ne_error _ _ _ (RestartVT_ne_range C S beta sqrtr2 ?_) ?_
    · intro a ha
      rw [h1] at ha
      cases ha
      refine ⟨h4, ?_, ?_⟩
      · intro Vm hVm
        rw [h6 Vm hVm, h3]
      · intro V hV
        rw [h7 V hV]
    · intro S1 _
      refine bind_ne_error _ _ _ (deref_ne_range _) ?_
      intro _ _
      exact fun h => nomatch h
  · split
    · refine bind_ne_error _ _ _ (deref_ne_range _) ?_
      intro _ _
      refine bind_ne_error _ _ _ (deref_ne_range _) ?_
      intro _ _
      exact fun h => nomatch h
    · exact fun h => nomatch h

theorem UpdateVm_ne_range (C : Collab n D) (S : IncEigCG n D) (args : EigCGArgs n)
    (res : ColorSpinorField n) (beta sqrtr2 : ℚ) (hI : S.LanczosInv args) :
    IncEigCG.UpdateVm C S res beta sqrtr2 ≠ .error Fault.indexOutOfRange := by
  have hI' := hI
  obtain ⟨h1, h2, h3, h4, h5, h6, h7⟩ := hI
  unfold IncEigCG.UpdateVm
  simp only [h1, deref, bind, Except.bind, pure, Except.pure, h2, Bool.false_eq_true, if_false]
  cases hr : IncEigCG.restartOrSave C S args beta sqrtr2 with
  | error e =>
    simp only
    intro h
    apply restartOrSave_ne_range C S args beta sqrtr2 hI'
    rw [hr, h]
  | ok S1 =>
    simp only
    obtain ⟨args', e1, em, ek, erc, egs, eV, eVm, eVn, fr, hcase⟩ :=
      restartOrSave_eq_ok C S S1 args beta sqrtr2 h1 hr
    apply loadBasisVector_ne_range
    intro a Vm1 ha hVm1
    rw [e1] at ha
    cases ha
    cases hVm : S.Vm with
    | none =>
      rw [eVn hVm] at hVm1
      cases hVm1
    | some Vm =>
      obtain ⟨Vm', w1, w2⟩ := eVm Vm hVm
      rw [hVm1] at w1
      cases w1
      rw [w2, h6 Vm hVm, ← h3]
      rcases hcase with ⟨_, hid, _⟩ | ⟨hne, heq, _⟩
      · omega
      · rw [heq]
        have : args.id ≠ args.m := by rw [h3]; exact hne
        omega

/-- After a successful `UpdateVm` under the invariant, the cursor is strictly
inside the basis and the invariant holds again. -/
theorem UpdateVm_inv (C : Collab n D) (S S' : IncEigCG n D) (args : EigCGArgs n)
    (res : ColorSpinorField n) (beta sqrtr2 : ℚ) (hI : S.LanczosInv args)
    (h : IncEigCG.UpdateVm C S res beta sqrtr2 = .ok S') :
    ∃ args', S'.LanczosInv args' ∧ args'.id < args'.m ∧ args'.k = args.k ∧ args'.m = args.m := by
  obtain ⟨h1, h2, h3, h4, h5, h6, h7⟩ := hI
  obtain ⟨args', Vm, Vm', e1, e2, e3, e4, e5, em, ek, erc, egs, eV, fr, hcase⟩ :=
    UpdateVm_eq_ok C S S' args res beta sqrtr2 h1 h2 h
  have hlt : args'.id < args'.m := by
    rw [em, h3, ← h6 Vm e2]
    exact e5
  refine ⟨args', ⟨e1, erc, ?_, ?_, by omega, ?_, ?_⟩, hlt, ek, em⟩
  · rw [em, h3, fr.1]
  · rw [em, ek]
    exact h4
  · intro V hV
    rw [e3] at hV
    cases hV
    rw [e4, h6 Vm e2, fr.1]
  · intro V hV
    obtain ⟨V0, w1, w2⟩ := eV V hV
    rw [w2, h7 V0 w1, ek]

/-- C2: outside the correction mode and with `id < m`, `SetLanczos(diag, offdiag)`
returns, sets `T[id,id] = diag`, sets `T[id,id+1] = T[id+1,id] = offdiag` when
`id < m-1`, leaves every other entry of `T` as it was (so for `id = m-1` only
the diagonal entry is written), and increments `id` by exactly one. -/
theorem EigCGArgs.SetLanczos_spec {n : Nat} (a : EigCGArgs n) (diag offdiag : Cplx)
    (hrc : a.run_residual_correction = false) (hid : a.id < a.m) :
    ∃ a', a.SetLanczos diag offdiag = .ok a' ∧
      a'.Tm a.id a.id = diag ∧
      (a.id < a.m - 1 → a'.Tm a.id (a.id + 1) = offdiag ∧ a'.Tm (a.id + 1) a.id = offdiag) ∧
      (∀ i j, ¬ (i = a.id ∧ j = a.id) →
        ¬ (a.id < a.m - 1 ∧ ((i = a.id ∧ j = a.id + 1) ∨ (i = a.id + 1 ∧ j = a.id))) →
        a'.Tm i j = a.Tm i j) ∧
      a'.id = a.id + 1 := by
  refine ⟨_, EigCGArgs.SetLanczos_ok a diag offdiag hrc hid, ?_, ?_, ?_, rfl⟩
  · simp
  · intro h
    simp [h]
  · intro i j h1 h2
    simp only [h1, h2, if_false]

/-- Witness for C2: the first `SetLanczos` call on a fresh `3 x 3` state. -/
theorem EigCGArgs.SetLanczos_spec_witness :
    (EigCGArgs.new 1 3 1).run_residual_correction = false ∧
    (EigCGArgs.new 1 3 1).id < (EigCGArgs.new 1 3 1).m ∧
    ∃ a', (EigCGArgs.new 1 3 1).SetLanczos (Cplx.ofReal 2) (Cplx.ofReal (-1)) = .ok a' ∧
      a'.Tm 0 0 = Cplx.ofReal 2 ∧ a'.Tm 0 1 = Cplx.ofReal (-1) ∧ a'.Tm 1 0 = Cplx.ofReal (-1) ∧
      a'.Tm 2 2 = 0 ∧ a'.id = 1 := by
  refine ⟨rfl, by decide, ?_⟩
  obtain ⟨a', h, h1, h2, h3, h4⟩ :=
    EigCGArgs.SetLanczos_spec (EigCGArgs.new 1 3 1) (Cplx.ofReal 2) (Cplx.ofReal (-1)) rfl
      (by decide)
  refine ⟨a', h, h1, (h2 (by decide)).1, (h2 (by decide)).2, ?_, h4⟩
  exact h3 2 2 (by decide) (by decide)

/-- C4: `RestartLanczos` returns whenever row and column `2k` exist, and in the
rebuilt matrix every entry `T[i,j]` with `i, j < 2k` is the Ritz value
`Tmvals[i]` when `i = j` and zero when `i != j`. -/
theorem EigCGArgs.RestartLanczos_leading_block {n : Nat} (a : EigCGArgs n)
    (w : ColorSpinorField n) (v : Nat → ColorSpinorField n) (inv_sqrt_r2 : ℚ) :
    (2 * a.k < a.m → ∃ a', a.RestartLanczos w v inv_sqrt_r2 = .ok a') ∧
    ∀ a', a.RestartLanczos w v inv_sqrt_r2 = .ok a' →
      ∀ i j, i < 2 * a.k → j < 2 * a.k →
        a'.Tm i j = if i = j then Cplx.ofReal (a.Tmvals i) else 0 := by
  constructor
  · intro h
    exact ⟨_, (EigCGArgs.RestartLanczos_eq_ok a _ w v inv_sqrt_r2).2 ⟨h, rfl⟩⟩
  · intro a' h i j hi hj
    obtain ⟨_, rfl⟩ := (EigCGArgs.RestartLanczos_eq_ok a a' w v inv_sqrt_r2).1 h
    have h1 : i ≠ 2 * a.k := by omega
    have h2 : j ≠ 2 * a.k := by omega
    simp [h1, h2, hi]

theorem applyPreconditioner_eq_ok (C : Collab n D) (S S' : IncEigCG n D) (K : InnerSolver)
    (r z : ColorSpinorField n) (h : IncEigCG.applyPreconditioner C S K r = .ok (S', z)) :
    S'.eigcg_args = S.eigcg_args ∧ S'.Vm = S.Vm ∧ S'.param = S.param ∧ S'.K = S.K ∧
    S'.log = S.log ++ [Event.precondition] ∧ S'.yp = S.yp ∧ S'.pp = S.pp ∧ S'.Az = S.Az ∧
    S'.Ap = S.Ap ∧ S'.rp = S.rp ∧ S'.init = S.init ∧ S'.defl = S.defl := by
  unfold IncEigCG.applyPreconditioner at h
  obtain ⟨_, _, h⟩ := (bind_eq_ok _ _ _).1 h
  obtain ⟨_, _, h⟩ := (bind_eq_ok _ _ _).1 h
  simp only [pure, Except.pure, Except.ok.injEq, Prod.mk.injEq] at h
  obtain ⟨h, _⟩ := h
  subst h
  simp [IncEigCG.emit]

theorem applyPreconditioner_ne_range (C : Collab n D) (S : IncEigCG n D) (K : InnerSolver)
    (r : ColorSpinorField n) :
    IncEigCG.applyPreconditioner C S K r ≠ .error Fault.indexOutOfRange := by
  unfold IncEigCG.applyPreconditioner
  refine bind_ne_error _ _ _ (deref_ne_range _) ?_
  intro _ _
  refine bind_ne_error _ _ _ (deref_ne_range _) ?_
  intro _ _
  exact fun h => nomatch h

theorem refreshZ_eq_ok (C : Collab n D) (S S' : IncEigCG n D)
    (r z : ColorSpinorField n) (h : IncEigCG.refreshZ C S r = .ok (S', z)) :
    S'.eigcg_args = S.eigcg_args ∧ S'.Vm = S.Vm ∧ S'.param = S.param ∧ S'.K = S.K ∧
    (∃ evs, S'.log = S.log ++ evs ∧ ∀ e ∈ evs, e = Event.precondition) ∧ S'.yp = S.yp ∧
    S'.pp = S.pp ∧ S'.Az = S.Az ∧
    S'.Ap = S.Ap ∧ S'.rp = S.rp ∧ S'.init = S.init ∧ S'.defl = S.defl := by
  unfold IncEigCG.refreshZ at h
  split at h
  · obtain ⟨h1, h2, h3, h4, h5, h6⟩ := applyPreconditioner_eq_ok C S S' _ r z h
    exact ⟨h1, h2, h3, h4, ⟨_, h5, by simp⟩, h6⟩
  · simp only [pure, Except.pure, Except.ok.injEq, Prod.mk.injEq] at h
    obtain ⟨h, _⟩ := h
    subst h
    exact ⟨rfl, rfl, rfl, rfl, ⟨[], by simp, by simp⟩, rfl, rfl, rfl, rfl, rfl, rfl, rfl⟩

theorem refreshZ_ne_range (C : Collab n D) (S : IncEigCG n D) (r : ColorSpinorField n) :
    IncEigCG.refreshZ C S r ≠ .error Fault.indexOutOfRange := by
  unfold IncEigCG.refreshZ
  split
  · exact applyPreconditioner_ne_range C S _ r
  · exact fun h => nomatch h

/-- What a successful pass through the loop body consists of: `UpdateVm` on the
solver holding the new `Ap`, then `SetLanczos`, with everything else the
solver owns left as it was apart from the fields of the CG recurrence. -/
theorem eigCGiteration_eq_ok (C : Collab n D) (local_stop : ℚ) (S S' : IncEigCG n D)
    (L L' : EigCGLocals n) (h : IncEigCG.eigCGiteration C local_stop (S, L) = .ok (S', L')) :
    ∃ (p r : ColorSpinorField n) (S2 : IncEigCG n D) (a2 a' : EigCGArgs n) (d o : Cplx)
      (evs : List Event),
      S.pp = some p ∧ S.rp = some r ∧
      IncEigCG.UpdateVm C ({ S with Ap := some (C.matSloppy p) }.emit Event.matSloppyApply)
        (if S.K.isSome then L.z else r) L.beta (C.sqrt L.r2) = .ok S2 ∧
      S2.eigcg_args = some a2 ∧ a2.SetLanczos d o = .ok a' ∧
      S'.eigcg_args = some a' ∧ S'.Vm = S2.Vm ∧ S'.param = S2.param ∧ S'.K = S2.K ∧
      S'.init = S2.init ∧ S'.defl = S2.defl ∧
      S'.log = S2.log ++ evs ∧ (∀ e ∈ evs, e = Event.precondition) ∧
      L'.k = L.k + 1 ∧ L'.x = L.x ∧ L'.heavy_quark_res = L.heavy_quark_res ∧
      L'.r2 = (blas.axpyNorm (-(L.rMinvr / blas.reDotProduct p (C.matSloppy p)))
                (C.matSloppy p) r).2 ∧
      L'.converged =
        (C.convergence S'.param L'.r2 L.heavy_quark_res a'.global_stop S'.param.tol_hq
          || C.convergence S'.param L'.r2 L.heavy_quark_res local_stop S'.param.tol_hq) := by
  unfold IncEigCG.eigCGiteration at h
  obtain ⟨p, r1, h⟩ := (bind_eq_ok _ _ _).1 h
  obtain ⟨_, _, h⟩ := (bind_eq_ok _ _ _).1 h
  obtain ⟨_, _, h⟩ := (bind_eq_ok _ _ _).1 h
  obtain ⟨r, r2, h⟩ := (bind_eq_ok _ _ _).1 h
  obtain ⟨S2, r3, h⟩ := (bind_eq_ok _ _ _).1 h
  obtain ⟨⟨S3, z⟩, r4, h⟩ := (bind_eq_ok _ _ _).1 h
  obtain ⟨y, r5, h⟩ := (bind_eq_ok _ _ _).1 h
  obtain ⟨a2, r6, h⟩ := (bind_eq_ok _ _ _).1 h
  obtain ⟨a', r7, h⟩ := (bind_eq_ok _ _ _).1 h
  simp only [pure, Except.pure, Except.ok.injEq, Prod.mk.injEq] at h
  obtain ⟨hS, hL⟩ := h
  subst hS
  subst hL
  rw [deref_eq_ok] at r1 r2 r6
  obtain ⟨z1, z2, z3, z4, ⟨evs, z5, z5'⟩, z6⟩ := refreshZ_eq_ok C _ S3 _ z r4
  refine ⟨p, r, S2, a2, a', _, _, evs, r1, r2, r3, ?_, r7, rfl, z2, z3, z4, z6.2.2.2.2.2.1,
    z6.2.2.2.2.2.2, z5, z5', rfl, rfl, rfl, rfl, rfl⟩
  rw [← r6]
  exact z1.symm

theorem UpdateVm_frame (C : Collab n D) (S S' : IncEigCG n D) (res : ColorSpinorField n)
    (beta sqrtr2 : ℚ) (h : IncEigCG.UpdateVm C S res beta sqrtr2 = .ok S') :
    S.LanczosFrame S' ∧ ∃ evs, S'.log = S.log ++ evs ∧ ∀ e ∈ evs, e.inLoop := by
  have h0 := h
  unfold IncEigCG.UpdateVm at h0
  obtain ⟨args, r0, _⟩ := (bind_eq_ok _ _ _).1 h0
  rw [deref_eq_ok] at r0
  cases hrc : args.run_residual_correction with
  | true =>
    rw [UpdateVm_correction C S args res beta sqrtr2 r0 hrc] at h
    cases h
    exact ⟨⟨rfl, rfl, rfl, rfl, rfl, rfl, rfl, rfl, rfl, rfl, rfl, rfl, rfl⟩, [], by simp,
      by simp⟩
  | false =>
    obtain ⟨args', Vm, Vm', e1, e2, e3, e4, e5, em, ek, erc, egs, eV, fr, hcase⟩ :=
      UpdateVm_eq_ok C S S' args res beta sqrtr2 r0 hrc h
    refine ⟨fr, ?_⟩
    rcases hcase with ⟨_, _, _, _, lib, hl⟩ | ⟨_, _, hl⟩
    · refine ⟨_, hl, ?_⟩
      intro e he
      simp only [List.mem_cons, List.mem_singleton, List.not_mem_nil, or_false] at he
      rcases he with rfl | rfl
      · exact Or.inr (Or.inl rfl)
      · exact Or.inr (Or.inr (Or.inl ⟨lib, rfl⟩))
    · refine ⟨_, hl, ?_⟩
      intro e he
      split at he
      · simp only [List.mem_singleton] at he
        subst he
        exact Or.inr (Or.inr (Or.inr (Or.inl rfl)))
      · cases he

/-- A successful pass through the loop body leaves the parameters alone,
advances the counter by one and records only loop events. -/
theorem eigCGiteration_frame (C : Collab n D) (local_stop : ℚ) (S S' : IncEigCG n D)
    (L L' : EigCGLocals n) (h : IncEigCG.eigCGiteration C local_stop (S, L) = .ok (S', L')) :
    S'.param = S.param ∧ S'.K = S.K ∧ S'.init = S.init ∧ S'.defl = S.defl ∧
    L'.k = L.k + 1 ∧ L'.x = L.x ∧
    ∃ evs, S'.log = S.log ++ evs ∧ ∀ e ∈ evs, e.inLoop := by
  obtain ⟨p, r, S2, a2, a', d, o, evs, h1, h2, h3, h4, h5, h6, h7, h8, h9, h10, h11, h12, h13,
    h14, h15, _⟩ := eigCGiteration_eq_ok C local_stop S S' L L' h
  obtain ⟨fr, evs2, hl, hin⟩ := UpdateVm_frame C _ S2 _ _ _ h3
  refine ⟨h8.trans fr.1, h9.trans fr.2.2.1, h10.trans fr.2.2.2.2.2.1,
    h11.trans fr.2.2.2.2.2.2.2.2.2.2.2.1, h14, h15, Event.matSloppyApply :: (evs2 ++ evs), ?_, ?_⟩
  · rw [h12, hl]
    simp [IncEigCG.emit]
  · intro e he
    simp only [List.mem_cons, List.mem_append] at he
    rcases he with rfl | he | he
    · exact Or.inl rfl
    · exact hin e he
    · exact Or.inr (Or.inr (Or.inr (Or.inr (h13 e he))))

theorem eigCGiteration_inv (C : Collab n D) (local_stop : ℚ) (S S' : IncEigCG n D)
    (L L' : EigCGLocals n) (args : EigCGArgs n) (hI : S.LanczosInv args)
    (h : IncEigCG.eigCGiteration C local_stop (S, L) = .ok (S', L')) :
    ∃ args', S'.LanczosInv args' ∧ args'.m = args.m ∧ args'.k = args.k := by
  obtain ⟨p, r, S2, a2, a', d, o, evs, h1, h2, h3, h4, h5, h6, h7, h8, h9, _⟩ :=
    eigCGiteration_eq_ok C local_stop S S' L L' h
  have hI1 : ({ S with Ap := some (C.matSloppy p) }.emit Event.matSloppyApply).LanczosInv args :=
    hI
  obtain ⟨a2', ⟨i1, i2, i3, i4, i5, i6, i7⟩, hlt, ek, em⟩ := UpdateVm_inv C _ S2 args _ _ _ hI1 h3
  rw [h4] at i1
  cases i1
  obtain ⟨s1, s2, s3, s4, s5, s6, s7, s8⟩ := EigCGArgs.SetLanczos_eq_ok a2 a' d o h5
  refine ⟨a', ⟨h6, s3.trans i2, ?_, ?_, ?_, ?_, ?_⟩, s1.trans em, s2.trans ek⟩
  · rw [s1, i3, h8]
  · rw [s1, s2]
    exact i4
  · rw [(s7 i2).2, s1]
    omega
  · intro Vm hVm
    rw [h7] at hVm
    rw [i6 Vm hVm, h8]
  · intro V hV
    rw [s4] at hV
    rw [i7 V hV, s2]

theorem eigCGiteration_ne_range (C : Collab n D) (local_stop : ℚ) (S : IncEigCG n D)
    (L : EigCGLocals n) (args : EigCGArgs n) (hI : S.LanczosInv args) :
    IncEigCG.eigCGiteration C local_stop (S, L) ≠ .error Fault.indexOutOfRange := by
  unfold IncEigCG.eigCGiteration
  refine bind_ne_error _ _ _ (deref_ne_range _) ?_
  intro p _
  refine bind_ne_error _ _ _ (deref_ne_range _) ?_
  intro _ _
  refine bind_ne_error _ _ _ (deref_ne_range _) ?_
  intro _ _
  refine bind_ne_error _ _ _ (deref_ne_range _) ?_
  intro r _
  have hI1 : ({ S with Ap := some (C.matSloppy p) }.emit Event.matSloppyApply).LanczosInv args :=
    hI
  refine bind_ne_error _ _ _ (UpdateVm_ne_range C _ args _ _ _ hI1) ?_
  intro S2 h3
  obtain ⟨a2, ⟨i1, i2, i3, i4, i5, i6, i7⟩, hlt, ek, em⟩ := UpdateVm_inv C _ S2 args _ _ _ hI1 h3
  refine bind_ne_error _ _ _ (refreshZ_ne_range C _ _) ?_
  intro Sz h4
  obtain ⟨z1, _⟩ := refreshZ_eq_ok C _ Sz.1 _ Sz.2 h4
  refine bind_ne_error _ _ _ (deref_ne_range _) ?_
  intro y _
  refine bind_ne_error _ _ _ (deref_ne_range _) ?_
  intro a h6
  rw [deref_eq_ok] at h6
  have ha : a = a2 := by
    have h7 : Sz.1.eigcg_args = some a := h6
    rw [z1] at h7
    have h8 : S2.eigcg_args = some a := h7
    rw [i1] at h8
    cases h8
    rfl
  subst ha
  refine bind_ne_error _ _ _ (EigCGArgs.SetLanczos_ne_range a _ _ (fun _ => hlt)) ?_
  intro _ _
  exact fun h => nomatch h

/-- The cursor invariant along the passes of the loop: no pass ends in an
access outside the matrix or the basis, and every state reached satisfies the
invariant. -/
theorem eigCGiterations_inv (C : Collab n D) (local_stop : ℚ) :
    ∀ (j : Nat) (S : IncEigCG n D) (L : EigCGLocals n) (args : EigCGArgs n),
      S.LanczosInv args →
      IncEigCG.eigCGiterations C local_stop j (S, L) ≠ .error Fault.indexOutOfRange ∧
      ∀ S' L', IncEigCG.eigCGiterations C local_stop j (S, L) = .ok (S', L') →
        ∃ args', S'.LanczosInv args' ∧ args'.m = args.m ∧ args'.k = args.k := by
  intro j
  induction j with
  | zero =>
    intro S L args hI
    constructor
    · exact fun h => nomatch h
    · intro S' L' h
      simp only [IncEigCG.eigCGiterations, pure, Except.pure, Except.ok.injEq,
        Prod.mk.injEq] at h
      obtain ⟨rfl, rfl⟩ := h
      exact ⟨args, hI, rfl, rfl⟩
  | succ j ih =>
    intro S L args hI
    simp only [IncEigCG.eigCGiterations]
    constructor
    · refine bind_ne_error _ _ _ (eigCGiteration_ne_range C local_stop S L args hI) ?_
      intro SL hSL
      obtain ⟨a1, hI1, _, _⟩ := eigCGiteration_inv C local_stop S SL.1 L SL.2 args hI hSL
      exact (ih SL.1 SL.2 a1 hI1).1
    · intro S' L' h
      obtain ⟨SL, hSL, h⟩ := (bind_eq_ok _ _ _).1 h
      obtain ⟨a1, hI1, em, ek⟩ := eigCGiteration_inv C local_stop S SL.1 L SL.2 args hI hSL
      obtain ⟨a2, hI2, em2, ek2⟩ := (ih SL.1 SL.2 a1 hI1).2 S' L' h
      exact ⟨a2, hI2, em2.trans em, ek2.trans ek⟩


/-- C3: whenever `UpdateVm` returns outside the correction mode, the
Rayleigh-Ritz restart (`RestartVT` followed by `ResetSearchIdx`) has been
executed if and only if `id == m` on entry; after a restart `id` is `2k` and
`restarts` is one greater than before; without a restart `id` and `restarts`
are as before. -/
theorem IncEigCG.UpdateVm_restart_iff {n : Nat} {D : Type} (C : Collab n D) (S : IncEigCG n D)
    (args : EigCGArgs n) (res : ColorSpinorField n) (beta sqrtr2 : ℚ)
    (hargs : S.eigcg_args = some args) (hrc : args.run_residual_correction = false)
    (hok : (IncEigCG.UpdateVm C S res beta sqrtr2).toBool = true) :
    ∃ S' args' evs, IncEigCG.UpdateVm C S res beta sqrtr2 = .ok S' ∧
      S'.eigcg_args = some args' ∧ S'.log = S.log ++ evs ∧
      (Event.restartVT ∈ evs ↔ args.id = S.param.m) ∧
      (args.id = S.param.m → args'.id = 2 * args.k ∧ args'.restarts = args.restarts + 1) ∧
      (args.id ≠ S.param.m → args'.id = args.id ∧ args'.restarts = args.restarts) := by
  cases h : IncEigCG.UpdateVm C S res beta sqrtr2 with
  | error e =>
    rw [h] at hok
    cases hok
  | ok S' =>
    obtain ⟨args', Vm, Vm', e1, e2, e3, e4, e5, em, ek, erc, egs, eV, fr, hcase⟩ :=
      UpdateVm_eq_ok C S S' args res beta sqrtr2 hargs hrc h
    rcases hcase with ⟨hid, h1, h2, _, lib, hl⟩ | ⟨hid, rfl, hl⟩
    · refine ⟨S', args', _, rfl, e1, hl, ?_, fun _ => ⟨h1, h2⟩, fun hne => absurd hid hne⟩
      simp [hid]
    · refine ⟨S', args', _, rfl, e1, hl, ?_, fun he => absurd he hid, fun _ => ⟨rfl, rfl⟩⟩
      constructor
      · intro hmem
        split at hmem
        · simp at hmem
        · cases hmem
      · intro he
        exact absurd he hid

/-- Witness for C3: on the test solver with a full basis (`id = m = 3`,
`k = 1`) `UpdateVm` returns after a restart with `id = 2` and `restarts = 1`. -/
theorem IncEigCG.UpdateVm_restart_iff_witness :
    ∃ S' args' evs,
      IncEigCG.UpdateVm demoCollab demoFullState (demoField 1) 0 1 = .ok S' ∧
      S'.eigcg_args = some args' ∧ S'.log = demoFullState.log ++ evs ∧
      Event.restartVT ∈ evs ∧ args'.id = 2 ∧ args'.restarts = 1 := by
  obtain ⟨S', args', evs, h1, h2, h3, h4, h5, _⟩ :=
    IncEigCG.UpdateVm_restart_iff demoCollab demoFullState
      { (EigCGArgs.new 1 3 1).ResetAccumBuffer with global_stop := 1 / 4, id := 3 } (demoField 1) 0 1
      rfl rfl
      (by decide)
  exact ⟨S', args', evs, h1, h2, h3, h4.2 rfl, (h5 rfl).1, (h5 rfl).2⟩

/-- C1 (amended): if row and column `2k` exist (`2k < m`), then starting from a
fresh `EigCGArgs` (`id = 0`, not in correction mode) whose matrix and Krylov
basis have the size `m` and whose accumulation buffer has `2k` fields, no
number `j` of eigCG iterations ends in an access outside the matrix or the
basis, and in every state reached the cursor satisfies `id <= m`. -/
theorem IncEigCG.cursor_bound {n : Nat} {D : Type} (C : Collab n D) (local_stop : ℚ)
    (S : IncEigCG n D) (L : EigCGLocals n) (args : EigCGArgs n) (Vm : ColorSpinorFieldSet n)
    (hargs : S.eigcg_args = some args) (hid : args.id = 0)
    (hrc : args.run_residual_correction = false) (hm : args.m = S.param.m)
    (hVm : S.Vm = some Vm) (hdim : Vm.composite_dim = S.param.m)
    (hV : ∀ V, args.V2k = some V → V.composite_dim = 2 * args.k)
    (hk : 2 * args.k < args.m) (j : Nat) :
    IncEigCG.eigCGiterations C local_stop j (S, L) ≠ .error Fault.indexOutOfRange ∧
    ∀ S' L', IncEigCG.eigCGiterations C local_stop j (S, L) = .ok (S', L') →
      ∃ args', S'.eigcg_args = some args' ∧ args'.id ≤ args'.m ∧ args'.m = args.m := by
  have hI : S.LanczosInv args := by
    refine ⟨hargs, hrc, hm, hk, by omega, ?_, hV⟩
    intro Vm' hVm'
    rw [hVm] at hVm'
    cases hVm'
    exact hdim
  obtain ⟨h1, h2⟩ := eigCGiterations_inv C local_stop j S L args hI
  refine ⟨h1, ?_⟩
  intro S' L' h
  obtain ⟨args', ⟨i1, _, _, _, i5, _⟩, em, _⟩ := h2 S' L' h
  exact ⟨args', i1, i5, em⟩

/-- The loop entry state of the test problem is the one that `eigCGinit` and
`eigCGprologue` produce from the fresh test solver. -/
theorem demoLoopState_eq (m nev : Nat) (maxiter : Int) :
    IncEigCG.eigCGprologue demoCollab
        (IncEigCG.eigCGinit demoCollab (demoSolver m nev maxiter) (demoField 1) 1) blas.zero
        (demoField 1) = .ok (demoLoopState m nev maxiter, demoLocals) := by
  have hr : (fun i => demoField 1 i + Cplx.scale (-1) ((blas.zero : ColorSpinorField 1) i)) =
      demoField 1 := by
    funext i
    simp [demoField, blas.zero, Cplx.eq_iff]
  simp [IncEigCG.eigCGprologue, IncEigCG.eigCGinit, demoSolver, demoParam, demoCollab, deref,
    bind, Except.bind, pure, Except.pure, EigCGArgs.new, EigCGArgs.ResetAccumBuffer,
    IncEigCG.emit, IncEigCG.firstZ, blas.xmyNorm, demoLoopState, demoLocals, hr, blas.norm2,
    blas.reDotProduct]
  have h0 : ((blas.zero : ColorSpinorField 1) 0).re = 0 ∧
      ((blas.zero : ColorSpinorField 1) 0).im = 0 := ⟨rfl, rfl⟩
  have h1 : (demoField 1 0).re = 1 ∧ (demoField 1 0).im = 0 := ⟨rfl, rfl⟩
  rw [h0.1, h0.2, h1.1, h1.2]
  norm_num

/-- Witness for C1: five iterations of the test solver with `m = 3`, `k = 1`
run through two restarts without a fault. -/
theorem IncEigCG.cursor_bound_witness :
    (IncEigCG.eigCGiterations demoCollab 0 5 (demoLoopState 3 1 10, demoLocals)).toBool = true ∧
    IncEigCG.eigCGiterations demoCollab 0 5 (demoLoopState 3 1 10, demoLocals) ≠
      .error Fault.indexOutOfRange ∧
    ∀ S' L', IncEigCG.eigCGiterations demoCollab 0 5 (demoLoopState 3 1 10, demoLocals) =
        .ok (S', L') →
      ∃ args', S'.eigcg_args = some args' ∧ args'.id ≤ args'.m ∧ args'.m = 3 :=
  ⟨by decide,
   IncEigCG.cursor_bound demoCollab 0 (demoLoopState 3 1 10) demoLocals
    { (EigCGArgs.new 1 3 1).ResetAccumBuffer with global_stop := 1 / 4 }
    (ColorSpinorFieldSet.Create 1 3) rfl rfl rfl rfl rfl rfl
    (by intro V hV; cases hV; rfl) (by decide) 5⟩

/-- Counterexample to C1 as stated: `m = 2`, `k = 1` satisfies `k <= m/2`, the
state is fresh and allocated with these sizes, and the third iteration (the
first restart, which resets the cursor to `2k = m`) ends in an access outside
the matrix. -/
theorem IncEigCG.cursor_bound_counterexample :
    IncEigCG.eigCGprologue demoCollab
        (IncEigCG.eigCGinit demoCollab (demoSolver 2 1 10) (demoField 1) 1) blas.zero
        (demoField 1) = .ok (demoLoopState 2 1 10, demoLocals) ∧
    (demoLoopState 2 1 10).eigcg_args =
      some { (EigCGArgs.new 1 2 1).ResetAccumBuffer with global_stop := 1 / 4 } ∧
    (EigCGArgs.new 1 2 1).id = 0 ∧
    (EigCGArgs.new 1 2 1).run_residual_correction = false ∧
    (EigCGArgs.new 1 2 1).k ≤ (EigCGArgs.new 1 2 1).m / 2 ∧
    (EigCGArgs.new 1 2 1).m = (demoLoopState 2 1 10).param.m ∧
    (demoLoopState 2 1 10).Vm = some (ColorSpinorFieldSet.Create 1 2) ∧
    (EigCGArgs.new 1 2 1).ResetSearchIdx.id = (EigCGArgs.new 1 2 1).m ∧
    IncEigCG.eigCGiterations demoCollab 0 3 (demoLoopState 2 1 10, demoLocals) =
      .error Fault.indexOutOfRange :=
  ⟨demoLoopState_eq 2 1 10, rfl, rfl, rfl, by decide, rfl, rfl, rfl, rfl⟩

/-! ## No function of the solver runs out of fuel except its loops -/

theorem deref_ne_fuel {α : Type} (o : Option α) : deref o ≠ .error Fault.fuel := by
  cases o <;> simp [deref, pure, Except.pure, throw, throwThe, MonadExceptOf.throw]

theorem inRange_ne_fuel (c : Prop) [Decidable c] : inRange c ≠ .error Fault.fuel := by
  unfold inRange
  split <;> simp [pure, Except.pure, throw, throwThe, MonadExceptOf.throw]

theorem setCoeff_ne_fuel (rows cols : Nat) (M : DenseMatrix) (i j : Nat) (v : Cplx) :
    setCoeff rows cols M i j v ≠ .error Fault.fuel := by
  unfold setCoeff
  split <;> simp [pure, Except.pure, throw, throwThe, MonadExceptOf.throw]

theorem setBlock_ne_fuel (rows cols : Nat) (M : DenseMatrix) (r0 c0 h w : Nat) (B : DenseMatrix) :
    setBlock rows cols M r0 c0 h w B ≠ .error Fault.fuel := by
  unfold setBlock
  split <;> simp [pure, Except.pure, throw, throwThe, MonadExceptOf.throw]

theorem setComponent_ne_fuel (V : ColorSpinorFieldSet n) (i : Nat) (v : ColorSpinorField n) :
    V.setComponent i v ≠ .error Fault.fuel := by
  unfold ColorSpinorFieldSet.setComponent
  split <;> simp [pure, Except.pure, throw, throwThe, MonadExceptOf.throw]

theorem Component_ne_fuel (V : ColorSpinorFieldSet n) (i : Nat) :
    V.Component i ≠ .error Fault.fuel := by
  unfold ColorSpinorFieldSet.Component
  split <;> simp [pure, Except.pure, throw, throwThe, MonadExceptOf.throw]

theorem ritzProjection_ne_fuel (C : Collab n D) (a : EigCGArgs n) :
    ritzProjection C a ≠ .error Fault.fuel := by
  unfold ritzProjection
  refine bind_ne_error _ _ _ (inRange_ne_fuel _) (fun _ _ => ?_)
  refine bind_ne_error _ _ _ (setBlock_ne_fuel _ _ _ _ _ _ _ _) (fun _ _ => ?_)
  exact fun h => nomatch h

theorem ComputeRitz_ne_fuel (C : Collab n D) (lib : libtype) (a : EigCGArgs n) :
    ComputeRitz C lib a ≠ .error Fault.fuel := by
  cases lib with
  | eigen_lib =>
    simp only [ComputeRitz, ComputeRitz_eigen_lib]
    refine bind_ne_error _ _ _ (setBlock_ne_fuel _ _ _ _ _ _ _ _) (fun _ _ => ?_)
    refine bind_ne_error _ _ _ (inRange_ne_fuel _) (fun _ _ => ?_)
    refine bind_ne_error _ _ _ (setBlock_ne_fuel _ _ _ _ _ _ _ _) (fun _ _ => ?_)
    refine bind_ne_error _ _ _ (setBlock_ne_fuel _ _ _ _ _ _ _ _) (fun _ _ => ?_)
    exact ritzProjection_ne_fuel C _
  | magma_lib =>
    simp only [ComputeRitz, ComputeRitz_magma_lib]
    split
    · refine bind_ne_error _ _ _ (inRange_ne_fuel _) (fun _ _ => ?_)
      refine bind_ne_error _ _ _ (inRange_ne_fuel _) (fun _ _ => ?_)
      exact ritzProjection_ne_fuel C _
    · exact fun h => nomatch h
  | lapack_lib => exact fun h => nomatch h
  | mkl_lib => exact fun h => nomatch h

theorem selectRitz_ne_fuel (C : Collab n D) (t : QudaExtLibType) (a : EigCGArgs n) :
    IncEigCG.selectRitz C t a ≠ .error Fault.fuel := by
  cases t with
  | QUDA_MAGMA_EXTLIB =>
    simp only [IncEigCG.selectRitz]
    refine bind_ne_error _ _ _ (ComputeRitz_ne_fuel C _ _) (fun _ _ => ?_)
    exact fun h => nomatch h
  | QUDA_EIGEN_EXTLIB =>
    simp only [IncEigCG.selectRitz]
    refine bind_ne_error _ _ _ (ComputeRitz_ne_fuel C _ _) (fun _ _ => ?_)
    exact fun h => nomatch h
  | QUDA_EXTLIB_INVALID => exact fun h => nomatch h

theorem RestartLanczos_ne_fuel (a : EigCGArgs n) (w : ColorSpinorField n)
    (v : Nat → ColorSpinorField n) (c : ℚ) : a.RestartLanczos w v c ≠ .error Fault.fuel := by
  intro h
  by_cases hk : 2 * a.k < a.m
  · rw [(EigCGArgs.RestartLanczos_eq_ok a _ w v c).2 ⟨hk, rfl⟩] at h
    cases h
  · unfold EigCGArgs.RestartLanczos at h
    simp only [bind, Except.bind] at h
    cases h1 : EigCGArgs.loadRitzValues a.m a.Tmvals (2 * a.k) DenseMatrix.zero with
    | error e =>
      rw [h1] at h
      simp only at h
      -- the diagonal loop only fails through a checked write
      have : ∀ (c : Nat) (T : DenseMatrix),
          EigCGArgs.loadRitzValues a.m a.Tmvals c T ≠ .error Fault.fuel := by
        intro c
        induction c with
        | zero => intro T; exact fun h => nomatch h
        | succ c ih =>
          intro T
          simp only [EigCGArgs.loadRitzValues]
          exact bind_ne_error _ _ _ (ih T) (fun _ _ => setCoeff_ne_fuel _ _ _ _ _ _)
      have he : e = Fault.fuel := by cases h; rfl
      rw [he] at h1
      exact this _ _ h1
    | ok T1 =>
      rw [h1] at h
      simp [setColSegment, hk, throw, throwThe, MonadExceptOf.throw] at h

theorem RestartVT_ne_fuel (C : Collab n D) (S : IncEigCG n D) (beta rho : ℚ) :
    IncEigCG.RestartVT C S beta rho ≠ .error Fault.fuel := by
  unfold IncEigCG.RestartVT
  refine bind_ne_error _ _ _ (deref_ne_fuel _) (fun _ _ => ?_)
  refine bind_ne_error _ _ _ (selectRitz_ne_fuel C _ _) (fun _ _ => ?_)
  refine bind_ne_error _ _ _ (deref_ne_fuel _) (fun _ _ => ?_)
  refine bind_ne_error _ _ _ (deref_ne_fuel _) (fun _ _ => ?_)
  refine bind_ne_error _ _ _ (inRange_ne_fuel _) (fun _ _ => ?_)
  refine bind_ne_error _ _ _ (inRange_ne_fuel _) (fun _ _ => ?_)
  refine bind_ne_error _ _ _ (inRange_ne_fuel _) (fun _ _ => ?_)
  refine bind_ne_error _ _ _ (deref_ne_fuel _) (fun _ _ => ?_)
  refine bind_ne_error _ _ _ (deref_ne_fuel _) (fun _ _ => ?_)
  refine bind_ne_error _ _ _ (inRange_ne_fuel _) (fun _ _ => ?_)
  refine bind_ne_error _ _ _ (setComponent_ne_fuel _ _ _) (fun _ _ => ?_)
  refine bind_ne_error _ _ _ (Component_ne_fuel _ _) (fun _ _ => ?_)
  refine bind_ne_error _ _ _ (RestartLanczos_ne_fuel _ _ _ _) (fun _ _ => ?_)
  exact fun h => nomatch h

theorem UpdateVm_ne_fuel (C : Collab n D) (S : IncEigCG n D) (res : ColorSpinorField n)
    (beta sqrtr2 : ℚ) : IncEigCG.UpdateVm C S res beta sqrtr2 ≠ .error Fault.fuel := by
  unfold IncEigCG.UpdateVm
  refine bind_ne_error _ _ _ (deref_ne_fuel _) (fun args _ => ?_)
  split
  · exact fun h => nomatch h
  · refine bind_ne_error _ _ _ ?_ (fun _ _ => ?_)
    · unfold IncEigCG.restartOrSave
      split
      · refine bind_ne_error _ _ _ (RestartVT_ne_fuel C _ _ _) (fun _ _ => ?_)
        refine bind_ne_error _ _ _ (deref_ne_fuel _) (fun _ _ => ?_)
        exact fun h => nomatch h
      · split
        · refine bind_ne_error _ _ _ (deref_ne_fuel _) (fun _ _ => ?_)
          refine bind_ne_error _ _ _ (deref_ne_fuel _) (fun _ _ => ?_)
          exact fun h => nomatch h
        · exact fun h => nomatch h
    · unfold IncEigCG.loadBasisVector
      refine bind_ne_error _ _ _ (deref_ne_fuel _) (fun _ _ => ?_)
      refine bind_ne_error _ _ _ (deref_ne_fuel _) (fun _ _ => ?_)
      refine bind_ne_error _ _ _ (setComponent_ne_fuel _ _ _) (fun _ _ => ?_)
      refine bind_ne_error _ _ _ (Component_ne_fuel _ _) (fun _ _ => ?_)
      refine bind_ne_error _ _ _ (setComponent_ne_fuel _ _ _) (fun _ _ => ?_)
      exact fun h => nomatch h

theorem applyPreconditioner_ne_fuel (C : Collab n D) (S : IncEigCG n D) (K : InnerSolver)
    (r : ColorSpinorField n) : IncEigCG.applyPreconditioner C S K r ≠ .error Fault.fuel := by
  unfold IncEigCG.applyPreconditioner
  refine bind_ne_error _ _ _ (deref_ne_fuel _) (fun _ _ => ?_)
  refine bind_ne_error _ _ _ (deref_ne_fuel _) (fun _ _ => ?_)
  exact fun h => nomatch h

theorem SetLanczos_ne_fuel (a : EigCGArgs n) (d o : Cplx) :
    a.SetLanczos d o ≠ .error Fault.fuel := by
  intro h
  cases hrc : a.run_residual_correction with
  | true => simp [EigCGArgs.SetLanczos, hrc, pure, Except.pure] at h
  | false =>
    by_cases hid : a.id < a.m
    · rw [EigCGArgs.SetLanczos_ok a d o hrc hid] at h
      cases h
    · simp [EigCGArgs.SetLanczos, hrc, setCoeff, hid, bind, Except.bind, throw, throwThe,
        MonadExceptOf.throw] at h

theorem eigCGiteration_ne_fuel (C : Collab n D) (local_stop : ℚ)
    (SL : IncEigCG n D × EigCGLocals n) :
    IncEigCG.eigCGiteration C local_stop SL ≠ .error Fault.fuel := by
  unfold IncEigCG.eigCGiteration
  refine bind_ne_error _ _ _ (deref_ne_fuel _) (fun _ _ => ?_)
  refine bind_ne_error _ _ _ (deref_ne_fuel _) (fun _ _ => ?_)
  refine bind_ne_error _ _ _ (deref_ne_fuel _) (fun _ _ => ?_)
  refine bind_ne_error _ _ _ (deref_ne_fuel _) (fun _ _ => ?_)
  refine bind_ne_error _ _ _ (UpdateVm_ne_fuel C _ _ _ _) (fun _ _ => ?_)
  refine bind_ne_error _ _ _ ?_ (fun _ _ => ?_)
  · unfold IncEigCG.refreshZ
    split
    · exact applyPreconditioner_ne_fuel C _ _ _
    · exact fun h => nomatch h
  refine bind_ne_error _ _ _ (deref_ne_fuel _) (fun _ _ => ?_)
  refine bind_ne_error _ _ _ (deref_ne_fuel _) (fun _ _ => ?_)
  refine bind_ne_error _ _ _ (SetLanczos_ne_fuel _ _ _) (fun _ _ => ?_)
  exact fun h => nomatch h

theorem eigCGprologue_ne_fuel (C : Collab n D) (S : IncEigCG n D) (x b : ColorSpinorField n) :
    IncEigCG.eigCGprologue C S x b ≠ .error Fault.fuel := by
  unfold IncEigCG.eigCGprologue
  refine bind_ne_error _ _ _ (deref_ne_fuel _) (fun _ _ => ?_)
  refine bind_ne_error _ _ _ (deref_ne_fuel _) (fun _ _ => ?_)
  refine bind_ne_error _ _ _ (deref_ne_fuel _) (fun _ _ => ?_)
  refine bind_ne_error _ _ _ (deref_ne_fuel _) (fun _ _ => ?_)
  refine bind_ne_error _ _ _ (deref_ne_fuel _) (fun _ _ => ?_)
  refine bind_ne_error _ _ _ ?_ (fun _ _ => ?_)
  · unfold IncEigCG.firstZ
    split
    · exact applyPreconditioner_ne_fuel C _ _ _
    · exact fun h => nomatch h
  refine bind_ne_error _ _ _ (deref_ne_fuel _) (fun _ _ => ?_)
  exact fun h => nomatch h

theorem eigCGepilogue_ne_fuel (C : Collab n D) (b : ColorSpinorField n) (b2 : ℚ)
    (SL : IncEigCG n D × EigCGLocals n) :
    IncEigCG.eigCGepilogue C b b2 SL ≠ .error Fault.fuel := by
  unfold IncEigCG.eigCGepilogue
  refine bind_ne_error _ _ _ (deref_ne_fuel _) (fun _ _ => ?_)
  refine bind_ne_error _ _ _ (deref_ne_fuel _) (fun _ _ => ?_)
  exact fun h => nomatch h

/-! ## The loop of `eigCGsolve` -/

theorem eigCGloop_exit (C : Collab n D) (local_stop : ℚ) (fuel : Nat) (S : IncEigCG n D)
    (L : EigCGLocals n) (h : L.converged = true ∨ S.param.maxiter ≤ L.k) :
    IncEigCG.eigCGloop C local_stop fuel (S, L) = .ok (S, L) := by
  have hc : (!L.converged && decide (L.k < S.param.maxiter)) = false := by
    rcases h with h | h
    · simp [h]
    · simp [not_lt.2 h]
  cases fuel <;> simp [IncEigCG.eigCGloop, hc, pure, Except.pure]

theorem eigCGloop_step (C : Collab n D) (local_stop : ℚ) (fuel : Nat) (S : IncEigCG n D)
    (L : EigCGLocals n) (h1 : L.converged = false) (h2 : L.k < S.param.maxiter) :
    IncEigCG.eigCGloop C local_stop (fuel + 1) (S, L) =
      IncEigCG.eigCGiteration C local_stop (S, L) >>= IncEigCG.eigCGloop C local_stop fuel := by
  simp [IncEigCG.eigCGloop, h1, h2]

/-- What holds when the loop is left: the parameters are as on entry, the exit
test has failed, and either no pass was made or the counter has grown without
exceeding `maxiter`; only loop events have been recorded. -/
theorem eigCGloop_spec (C : Collab n D) (local_stop : ℚ) :
    ∀ (fuel : Nat) (S S' : IncEigCG n D) (L L' : EigCGLocals n),
      IncEigCG.eigCGloop C local_stop fuel (S, L) = .ok (S', L') →
      S'.param = S.param ∧ S'.K = S.K ∧ S'.init = S.init ∧ S'.defl = S.defl ∧ L'.x = L.x ∧
      (L'.converged = true ∨ S.param.maxiter ≤ L'.k) ∧
      ((L'.k = L.k ∧ (L.converged = true ∨ S.param.maxiter ≤ L.k)) ∨
       (L.k < L'.k ∧ L'.k ≤ S.param.maxiter ∧ L.converged = false)) ∧
      ∃ evs, S'.log = S.log ++ evs ∧ ∀ e ∈ evs, e.inLoop := by
  intro fuel
  induction fuel with
  | zero =>
    intro S S' L L' h
    by_cases hc : L.converged = true ∨ S.param.maxiter ≤ L.k
    · rw [eigCGloop_exit C local_stop 0 S L hc] at h
      simp only [Except.ok.injEq, Prod.mk.injEq] at h
      obtain ⟨rfl, rfl⟩ := h
      exact ⟨rfl, rfl, rfl, rfl, rfl, hc, Or.inl ⟨rfl, hc⟩, [], by simp, by simp⟩
    · simp only [not_or, Bool.not_eq_true, not_le] at hc
      simp [IncEigCG.eigCGloop, hc.1, hc.2, throw, throwThe, MonadExceptOf.throw] at h
  | succ fuel ih =>
    intro S S' L L' h
    by_cases hc : L.converged = true ∨ S.param.maxiter ≤ L.k
    · rw [eigCGloop_exit C local_stop _ S L hc] at h
      simp only [Except.ok.injEq, Prod.mk.injEq] at h
      obtain ⟨rfl, rfl⟩ := h
      exact ⟨rfl, rfl, rfl, rfl, rfl, hc, Or.inl ⟨rfl, hc⟩, [], by simp, by simp⟩
    · simp only [not_or, Bool.not_eq_true, not_le] at hc
      rw [eigCGloop_step C local_stop fuel S L hc.1 hc.2] at h
      obtain ⟨⟨S1, L1⟩, h1, h2⟩ := (bind_eq_ok _ _ _).1 h
      obtain ⟨f1, f2, f3, f4, f5, f6, evs1, f7, f8⟩ := eigCGiteration_frame C local_stop S S1 L L1 h1
      obtain ⟨g1, g2, g3, g4, g5, g6, g7, evs2, g8, g9⟩ := ih S1 S' L1 L' h2
      rw [f1] at g6 g7
      refine ⟨g1.trans f1, g2.trans f2, g3.trans f3, g4.trans f4, g5.trans f6, g6, Or.inr ?_,
        evs1 ++ evs2, ?_, ?_⟩
      · rcases g7 with ⟨e1, _⟩ | ⟨e1, e2, _⟩
        · exact ⟨by omega, by omega, hc.1⟩
        · exact ⟨by omega, e2, hc.1⟩
      · rw [g8, f7, List.append_assoc]
      · intro e he
        rcases List.mem_append.1 he with he | he
        · exact f8 e he
        · exact g9 e he

theorem eigCGloop_ne_fuel (C : Collab n D) (local_stop : ℚ) :
    ∀ (fuel : Nat) (S : IncEigCG n D) (L : EigCGLocals n),
      (S.param.maxiter - L.k).toNat ≤ fuel →
      IncEigCG.eigCGloop C local_stop fuel (S, L) ≠ .error Fault.fuel := by
  intro fuel
  induction fuel with
  | zero =>
    intro S L hf
    rw [eigCGloop_exit C local_stop 0 S L (Or.inr (by omega))]
    exact fun h => nomatch h
  | succ fuel ih =>
    intro S L hf
    by_cases hc : L.converged = true ∨ S.param.maxiter ≤ L.k
    · rw [eigCGloop_exit C local_stop _ S L hc]
      exact fun h => nomatch h
    · simp only [not_or, Bool.not_eq_true, not_le] at hc
      rw [eigCGloop_step C local_stop fuel S L hc.1 hc.2]
      refine bind_ne_error _ _ _ (eigCGiteration_ne_fuel C local_stop _) ?_
      intro SL1 h1
      obtain ⟨f1, _, _, _, f5, _⟩ := eigCGiteration_frame C local_stop S SL1.1 L SL1.2 h1
      apply ih
      rw [f1, f5]
      omega

/-! ## The parts of `eigCGsolve` before and after the loop -/

theorem eigCGinit_frame (C : Collab n D) (S : IncEigCG n D) (b : ColorSpinorField n) :
    (IncEigCG.initialised C S b).param = S.param ∧ (IncEigCG.initialised C S b).log = S.log ∧
    (IncEigCG.initialised C S b).K = S.K ∧ (IncEigCG.initialised C S b).defl = S.defl := by
  unfold IncEigCG.initialised
  split <;> simp [IncEigCG.eigCGinit]

theorem firstZ_eq_ok (C : Collab n D) (S S' : IncEigCG n D)
    (r z : ColorSpinorField n) (h : IncEigCG.firstZ C S r = .ok (S', z)) :
    S'.eigcg_args = S.eigcg_args ∧ S'.Vm = S.Vm ∧ S'.param = S.param ∧ S'.K = S.K ∧
    (∃ evs, S'.log = S.log ++ evs ∧ ∀ e ∈ evs, e = Event.precondition) ∧ S'.yp = S.yp ∧
    S'.pp = S.pp ∧ S'.Az = S.Az ∧
    S'.Ap = S.Ap ∧ S'.rp = S.rp ∧ S'.init = S.init ∧ S'.defl = S.defl ∧ (S.K = none → z = r) := by
  unfold IncEigCG.firstZ at h
  split at h
  · rename_i K hK
    by_cases hp : S.param.precision_precondition = S.param.precision_sloppy
    · simp only [hp, if_true] at h
      obtain ⟨h1, h2, h3, h4, h5, h6⟩ := applyPreconditioner_eq_ok C _ S' _ r z h
      exact ⟨h1, h2, h3, h4, ⟨_, h5, by simp⟩, h6.1, h6.2.1, h6.2.2.1, h6.2.2.2.1, h6.2.2.2.2.1,
        h6.2.2.2.2.2.1, h6.2.2.2.2.2.2, by simp [hK]⟩
    · simp only [hp, if_false] at h
      obtain ⟨h1, h2, h3, h4, h5, h6⟩ := applyPreconditioner_eq_ok C _ S' _ r z h
      exact ⟨h1, h2, h3, h4, ⟨_, h5, by simp⟩, h6.1, h6.2.1, h6.2.2.1, h6.2.2.2.1, h6.2.2.2.2.1,
        h6.2.2.2.2.2.1, h6.2.2.2.2.2.2, by simp [hK]⟩
  · simp only [pure, Except.pure, Except.ok.injEq, Prod.mk.injEq] at h
    obtain ⟨h, hz⟩ := h
    subst h
    exact ⟨rfl, rfl, rfl, rfl, ⟨[], by simp, by simp⟩, rfl, rfl, rfl, rfl, rfl, rfl, rfl,
      fun _ => hz.symm⟩

/-- The state on entry to the loop. -/
theorem eigCGprologue_eq_ok (C : Collab n D) (S S' : IncEigCG n D) (x b : ColorSpinorField n)
    (L : EigCGLocals n) (h : IncEigCG.eigCGprologue C S x b = .ok (S', L)) :
    S'.param = S.param ∧ S'.K = S.K ∧ S'.init = S.init ∧ S'.defl = S.defl ∧
    L.k = 0 ∧ L.x = x ∧
    L.r2 = (blas.xmyNorm b (C.matSloppy x)).2 ∧
    S'.rp = some (blas.xmyNorm b (C.matSloppy x)).1 ∧
    (S.K = none → S'.pp = some (blas.xmyNorm b (C.matSloppy x)).1 ∧
      L.rMinvr = blas.reDotProduct (blas.xmyNorm b (C.matSloppy x)).1
        (blas.xmyNorm b (C.matSloppy x)).1) ∧
    (∃ a, S.eigcg_args = some a ∧
      S'.eigcg_args = some { a.ResetAccumBuffer with restarts := 0 } ∧
      L.converged = C.convergence S'.param L.r2 L.heavy_quark_res a.global_stop
        S'.param.tol_hq) ∧
    S'.Vm = S.Vm ∧
    ∃ evs, S'.log = S.log ++ evs ∧ ∀ e ∈ evs, e.inLoop := by
  unfold IncEigCG.eigCGprologue at h
  obtain ⟨a, r1, h⟩ := (bind_eq_ok _ _ _).1 h
  obtain ⟨_, _, h⟩ := (bind_eq_ok _ _ _).1 h
  obtain ⟨_, _, h⟩ := (bind_eq_ok _ _ _).1 h
  obtain ⟨_, _, h⟩ := (bind_eq_ok _ _ _).1 h
  obtain ⟨_, _, h⟩ := (bind_eq_ok _ _ _).1 h
  obtain ⟨⟨S1, z⟩, r2, h⟩ := (bind_eq_ok _ _ _).1 h
  obtain ⟨a1, r3, h⟩ := (bind_eq_ok _ _ _).1 h
  simp only [pure, Except.pure, Except.ok.injEq, Prod.mk.injEq] at h
  obtain ⟨hS, hL⟩ := h
  subst hS
  subst hL
  rw [deref_eq_ok] at r1 r3
  obtain ⟨z1, z2, z3, z4, ⟨evs, z5, z5'⟩, z6, z7, z8, z9, z10, z11, z12, z13⟩ :=
    firstZ_eq_ok C _ S1 _ z r2
  have ha1 : a1 = a.ResetAccumBuffer := by
    have h3 : S1.eigcg_args = some a1 := r3
    rw [z1] at h3
    cases h3
    rfl
  subst ha1
  refine ⟨z3, z4, z11, z12, rfl, rfl, rfl, z10, ?_, ⟨a, r1, rfl, rfl⟩, z2,
    Event.matSloppyApply :: evs, ?_, ?_⟩
  · intro hK
    rw [z13 hK]
    exact ⟨rfl, rfl⟩
  · rw [z5]
    simp [IncEigCG.emit]
  · intro e he
    rcases List.mem_cons.1 he with rfl | he
    · exact Or.inl rfl
    · exact Or.inr (Or.inr (Or.inr (Or.inr (z5' e he))))

/-- What the part of `eigCGsolve` after the loop returns and records. -/
theorem eigCGepilogue_eq_ok (C : Collab n D) (b : ColorSpinorField n) (b2 : ℚ)
    (S : IncEigCG n D) (L : EigCGLocals n) (res : IncEigCG.SolveResult n D)
    (h : IncEigCG.eigCGepilogue C b b2 (S, L) = .ok res) :
    res.iters = L.k ∧ res.solver.param.maxiter = S.param.maxiter ∧
    res.solver.param.iter = S.param.iter + L.k ∧
    res.solver.param.rhs_idx = S.param.rhs_idx ∧
    res.solver.log = S.log ++
      (if L.k = S.param.maxiter then [Event.warning Message.exceededMaxIter] else []) ++
      [Event.matSloppyApply] ∧
    res.solver.defl = S.defl ∧ res.solver.K = S.K ∧
    ∃ y, S.yp = some y ∧ res.x = blas.xpy y L.x := by
  unfold IncEigCG.eigCGepilogue at h
  obtain ⟨a, r1, h⟩ := (bind_eq_ok _ _ _).1 h
  obtain ⟨y, r2, h⟩ := (bind_eq_ok _ _ _).1 h
  simp only [pure, Except.pure, Except.ok.injEq] at h
  subst h
  rw [deref_eq_ok] at r2
  refine ⟨rfl, ?_, ?_, ?_, ?_, ?_, ?_, y, r2, rfl⟩
  · simp only
    split <;> rfl
  · simp only
    split <;> rfl
  · simp only
    split <;> rfl
  · simp only
    split <;> simp [IncEigCG.emit]
  · simp only
    split <;> rfl
  · simp only
    split <;> rfl

/-- Outside a correction cycle and for a source of non-zero norm, `eigCGsolve`
is the loop between its prologue and its epilogue. -/
theorem eigCGsolve_main (C : Collab n D) (fuel : Nat) (S : IncEigCG n D)
    (x b : ColorSpinorField n) (xprec : QudaPrecision) (hb : blas.norm2 b ≠ 0)
    (hmode : S.correctionMode = false) :
    IncEigCG.eigCGsolve C fuel S x b xprec =
      IncEigCG.eigCGexit C fuel S x b xprec >>= IncEigCG.eigCGepilogue C b (blas.norm2 b) := by
  unfold IncEigCG.eigCGsolve IncEigCG.eigCGexit
  simp only [hb, if_false]
  have hS : (if (!S.init) = true then IncEigCG.eigCGinit C S b (blas.norm2 b) else S) =
      IncEigCG.initialised C S b := rfl
  simp only [hS]
  cases ha : (IncEigCG.initialised C S b).eigcg_args with
  | none =>
    simp [IncEigCG.eigCGprologue, ha, deref, bind, Except.bind, throw, throwThe,
      MonadExceptOf.throw]
  | some a =>
    have hcond : (a.run_residual_correction && decide
        ((IncEigCG.initialised C S b).param.inv_type =
          QudaInverterType.QUDA_INC_EIGCG_INVERTER)) = false := by
      unfold IncEigCG.initialised at ha ⊢
      cases hi : S.init with
      | false =>
        simp only [hi, Bool.not_false, if_true] at ha ⊢
        simp only [IncEigCG.eigCGinit, Option.some.injEq] at ha
        subst ha
        simp [EigCGArgs.new]
      | true =>
        simp only [hi, Bool.not_true, Bool.false_eq_true, if_false] at ha ⊢
        simp only [IncEigCG.correctionMode, hi, ha, Bool.true_and] at hmode
        exact hmode
    simp only [deref, bind, Except.bind, pure, Except.pure, hcond, Bool.false_eq_true, if_false,
      IncEigCG.localStop]
    cases IncEigCG.eigCGprologue C (IncEigCG.initialised C S b) x b with
    | error e => rfl
    | ok SL => rfl

/-! ## Zero-field source -/

theorem norm2_eq_zero (b : ColorSpinorField n) (h : blas.norm2 b = 0) : b = blas.zero := by
  unfold blas.norm2 at h
  have h1 := (Finset.sum_eq_zero_iff_of_nonneg (fun i _ =>
    add_nonneg (mul_self_nonneg (b i).re) (mul_self_nonneg (b i).im))).1 h
  funext i
  have h2 := h1 i (Finset.mem_univ i)
  have h3 : (b i).re * (b i).re = 0 ∧ (b i).im * (b i).im = 0 := by
    constructor
    · nlinarith [mul_self_nonneg (b i).re, mul_self_nonneg (b i).im]
    · nlinarith [mul_self_nonneg (b i).re, mul_self_nonneg (b i).im]
  rw [Cplx.eq_iff]
  exact ⟨mul_self_eq_zero.1 h3.1, mul_self_eq_zero.1 h3.2⟩

theorem norm2_zero : blas.norm2 (blas.zero : ColorSpinorField n) = 0 := by
  simp [blas.norm2, blas.zero]

/-- On a source of zero norm `eigCGsolve` takes its early return. -/
theorem eigCGsolve_of_zero (C : Collab n D) (fuel : Nat) (S : IncEigCG n D)
    (x b : ColorSpinorField n) (xprec : QudaPrecision) (hb : blas.norm2 b = 0) :
    IncEigCG.eigCGsolve C fuel S x b xprec = .ok (IncEigCG.eigCGzeroSource S b) := by
  simp [IncEigCG.eigCGsolve, hb, pure, Except.pure]

/-- C5: for a right-hand side of zero norm `eigCGsolve` returns at once with
the count `0`, sets `true_res = 0` and `true_res_hq = 0`, records nothing but
the diagnostic (so no operator application takes place), and leaves the Lanczos
state, the Krylov basis, the cached `Az` and `param.iter` as they were. -/
theorem IncEigCG.eigCGsolve_zero_source {n : Nat} {D : Type} (C : Collab n D) (fuel : Nat)
    (S : IncEigCG n D) (x b : ColorSpinorField n) (xprec : QudaPrecision)
    (hb : blas.norm2 b = 0) :
    ∃ res, IncEigCG.eigCGsolve C fuel S x b xprec = .ok res ∧ res.iters = 0 ∧
      res.solver.param.true_res = 0 ∧ res.solver.param.true_res_hq = 0 ∧
      res.solver.log = S.log ++ [Event.printf Message.zeroSource] ∧
      res.solver.eigcg_args = S.eigcg_args ∧ res.solver.Vm = S.Vm ∧ res.solver.Az = S.Az ∧
      res.solver.init = S.init ∧ res.solver.param.iter = S.param.iter := by
  exact ⟨IncEigCG.eigCGzeroSource S b, eigCGsolve_of_zero C fuel S x b xprec hb, rfl, rfl, rfl,
    rfl, rfl, rfl, rfl, rfl, rfl⟩

/-- Witness for C5: the fresh test solver on the zero source. -/
theorem IncEigCG.eigCGsolve_zero_source_witness :
    blas.norm2 (blas.zero : ColorSpinorField 1) = 0 ∧
    ∃ res, IncEigCG.eigCGsolve demoCollab 0 (demoSolver 3 1 10) (demoField 1) blas.zero
        QudaPrecision.QUDA_DOUBLE_PRECISION = .ok res ∧ res.iters = 0 ∧
      res.solver.log = [Event.printf Message.zeroSource] ∧ res.solver.eigcg_args = none := by
  refine ⟨norm2_zero, ?_⟩
  obtain ⟨res, h1, h2, _, _, h5, h6, _⟩ :=
    IncEigCG.eigCGsolve_zero_source demoCollab 0 (demoSolver 3 1 10) (demoField 1) blas.zero
      QudaPrecision.QUDA_DOUBLE_PRECISION norm2_zero
  exact ⟨res, h1, h2, h5, h6⟩

/-- C6 (amended): for a right-hand side `b` of zero norm and every guess `x`,
`eigCGsolve` returns with `x` overwritten by `b`, which is the zero field; the
returned field equals the guess only if the guess was the zero field. -/
theorem IncEigCG.eigCGsolve_zero_source_solution {n : Nat} {D : Type} (C : Collab n D)
    (fuel : Nat) (S : IncEigCG n D) (x b : ColorSpinorField n) (xprec : QudaPrecision)
    (hb : blas.norm2 b = 0) :
    ∃ res, IncEigCG.eigCGsolve C fuel S x b xprec = .ok res ∧ res.x = b ∧ res.x = blas.zero ∧
      (res.x = x ↔ x = blas.zero) := by
  refine ⟨IncEigCG.eigCGzeroSource S b, eigCGsolve_of_zero C fuel S x b xprec hb, rfl,
    norm2_eq_zero b hb, ?_⟩
  · have h0 : (IncEigCG.eigCGzeroSource S b).x = blas.zero := norm2_eq_zero b hb
    rw [h0]
    exact eq_comm

/-- Witness for C6 (amended): the zero source with the guess `1`. -/
theorem IncEigCG.eigCGsolve_zero_source_solution_witness :
    blas.norm2 (blas.zero : ColorSpinorField 1) = 0 ∧
    ∃ res, IncEigCG.eigCGsolve demoCollab 0 (demoSolver 3 1 10) (demoField 1) blas.zero
        QudaPrecision.QUDA_DOUBLE_PRECISION = .ok res ∧ res.x = blas.zero := by
  refine ⟨norm2_zero, ?_⟩
  obtain ⟨res, h1, h2, _⟩ :=
    IncEigCG.eigCGsolve_zero_source_solution demoCollab 0 (demoSolver 3 1 10) (demoField 1)
      blas.zero QudaPrecision.QUDA_DOUBLE_PRECISION norm2_zero
  exact ⟨res, h1, h2⟩

/-- Counterexample to C6 as stated: on the zero source the guess `1` is not
returned; the returned field is the zero field. -/
theorem IncEigCG.eigCGsolve_zero_source_counterexample :
    blas.norm2 (blas.zero : ColorSpinorField 1) = 0 ∧
    ∃ res, IncEigCG.eigCGsolve demoCollab 0 (demoSolver 3 1 10) (demoField 1) blas.zero
        QudaPrecision.QUDA_DOUBLE_PRECISION = .ok res ∧ res.x ≠ demoField 1 := by
  refine ⟨norm2_zero, IncEigCG.eigCGzeroSource (demoSolver 3 1 10) blas.zero,
    eigCGsolve_of_zero _ _ _ _ _ _ norm2_zero, ?_⟩
  · intro h
    have h1 := congrFun h 0
    simp [IncEigCG.eigCGzeroSource, blas.zero, demoField, Cplx.eq_iff] at h1

/-! ## The iteration cap -/

theorem eigCGexit_eq_ok (C : Collab n D) (fuel : Nat) (S S' : IncEigCG n D)
    (x b : ColorSpinorField n) (xprec : QudaPrecision) (L' : EigCGLocals n)
    (h : IncEigCG.eigCGexit C fuel S x b xprec = .ok (S', L')) :
    ∃ S0 L0, IncEigCG.eigCGprologue C (IncEigCG.initialised C S b) x b = .ok (S0, L0) ∧
      S'.param = S.param ∧ L'.x = x ∧
      (L'.converged = true ∨ S.param.maxiter ≤ L'.k) ∧
      ((L'.k = 0 ∧ (L0.converged = true ∨ S.param.maxiter ≤ 0)) ∨
       (0 < L'.k ∧ L'.k ≤ S.param.maxiter ∧ L0.converged = false)) ∧
      ∃ evs, S'.log = S.log ++ evs ∧ ∀ e ∈ evs, e.inLoop := by
  unfold IncEigCG.eigCGexit at h
  obtain ⟨⟨S0, L0⟩, h1, h2⟩ := (bind_eq_ok _ _ _).1 h
  obtain ⟨p1, p2, p3, p4, p5, p6, _, _, _, _, _, evs1, p7, p8⟩ :=
    eigCGprologue_eq_ok C _ S0 x b L0 h1
  obtain ⟨q1, q2, q3, q4, q5, q6, q7, evs2, q8, q9⟩ := eigCGloop_spec C _ fuel S0 S' L0 L' h2
  obtain ⟨i1, i2, _, _⟩ := eigCGinit_frame C S b
  rw [p1, i1] at q6 q7
  rw [p5] at q7
  refine ⟨S0, L0, h1, q1.trans (p1.trans i1), q5.trans p6, q6, q7, evs1 ++ evs2, ?_, ?_⟩
  · rw [q8, p7, i2, List.append_assoc]
  · intro e he
    rcases List.mem_append.1 he with he | he
    · exact p8 e he
    · exact q9 e he

theorem eigCGexit_ne_fuel (C : Collab n D) (fuel : Nat) (S : IncEigCG n D)
    (x b : ColorSpinorField n) (xprec : QudaPrecision) (hfuel : S.param.maxiter.toNat ≤ fuel) :
    IncEigCG.eigCGexit C fuel S x b xprec ≠ .error Fault.fuel := by
  unfold IncEigCG.eigCGexit
  refine bind_ne_error _ _ _ (eigCGprologue_ne_fuel C _ x b) ?_
  intro SL0 h1
  obtain ⟨p1, _, _, _, p5, _⟩ := eigCGprologue_eq_ok C _ SL0.1 x b SL0.2 h1
  apply eigCGloop_ne_fuel
  rw [p1, (eigCGinit_frame C S b).1, p5]
  simpa using hfuel

/-- The count that `eigCGsolve` returns and the cap: outside a correction
cycle and with `fuel` at least `maxiter`, the loop of `eigCGsolve` terminates;
the returned count `k` satisfies `0 <= k`, and `k <= maxiter` whenever
`maxiter >= 0` (for a negative cap no pass is made and `k = 0`); with
`maxiter = 1`, a source of non-zero norm and an initial residual that fails the
convergence test, a run that returns has made exactly one pass and has recorded
the warning. -/
theorem eigCGsolve_cap {n : Nat} {D : Type} (C : Collab n D) (fuel : Nat)
    (S : IncEigCG n D) (x b : ColorSpinorField n) (xprec : QudaPrecision)
    (hmode : S.correctionMode = false) (hfuel : S.param.maxiter.toNat ≤ fuel) :
    IncEigCG.eigCGsolve C fuel S x b xprec ≠ .error Fault.fuel ∧
    (∀ res, IncEigCG.eigCGsolve C fuel S x b xprec = .ok res →
      0 ≤ res.iters ∧ (0 ≤ S.param.maxiter → res.iters ≤ S.param.maxiter) ∧
      (S.param.maxiter < 0 → res.iters = 0)) ∧
    (S.param.maxiter = 1 → blas.norm2 b ≠ 0 →
      IncEigCG.firstConvergenceTest C S x b = .ok false →
      ∀ res, IncEigCG.eigCGsolve C fuel S x b xprec = .ok res →
        res.iters = 1 ∧ Event.warning Message.exceededMaxIter ∈ res.solver.log) := by
  by_cases hb : blas.norm2 b = 0
  · have h0 := eigCGsolve_of_zero C fuel S x b xprec hb
    have hi : (IncEigCG.eigCGzeroSource S b).iters = 0 := rfl
    refine ⟨?_, ?_, ?_⟩
    · rw [h0]
      exact fun h => nomatch h
    · intro res h
      rw [h0] at h
      cases h
      rw [hi]
      exact ⟨le_refl 0, fun h => h, fun _ => rfl⟩
    · intro _ hb'
      exact absurd hb hb'
  · rw [eigCGsolve_main C fuel S x b xprec hb hmode]
    refine ⟨?_, ?_, ?_⟩
    · refine bind_ne_error _ _ _ (eigCGexit_ne_fuel C fuel S x b xprec hfuel) ?_
      intro SL _
      exact eigCGepilogue_ne_fuel C b _ SL
    · intro res h
      obtain ⟨⟨S', L'⟩, h1, h2⟩ := (bind_eq_ok _ _ _).1 h
      obtain ⟨S0, L0, _, _, _, _, hk, _⟩ := eigCGexit_eq_ok C fuel S S' x b xprec L' h1
      obtain ⟨e1, _⟩ := eigCGepilogue_eq_ok C b _ S' L' res h2
      rw [e1]
      rcases hk with ⟨k0, _⟩ | ⟨k1, k2, _⟩
      · rw [k0]
        exact ⟨le_refl 0, fun h => h, fun _ => rfl⟩
      · exact ⟨by omega, fun _ => k2, fun h => by omega⟩
    · intro hm _ hconv res h
      obtain ⟨⟨S', L'⟩, h1, h2⟩ := (bind_eq_ok _ _ _).1 h
      obtain ⟨S0, L0, hp, hparam, _, _, hk, _⟩ := eigCGexit_eq_ok C fuel S S' x b xprec L' h1
      obtain ⟨e1, _, _, _, e5, _⟩ := eigCGepilogue_eq_ok C b _ S' L' res h2
      have hc0 : L0.converged = false := by
        unfold IncEigCG.firstConvergenceTest at hconv
        rw [hp] at hconv
        simp only [bind, Except.bind, pure, Except.pure, Except.ok.injEq] at hconv
        exact hconv
      have hk1 : L'.k = 1 := by
        rcases hk with ⟨_, k0 | k0⟩ | ⟨k1, k2, _⟩
        · rw [hc0] at k0
          cases k0
        · omega
        · omega
      refine ⟨by rw [e1, hk1], ?_⟩
      rw [e5, hparam, hk1, hm]
      simp

/-- C8 (amended): outside a correction cycle and for a source of non-zero norm,
a run of `eigCGsolve` that returns records the warning if and only if the
returned count equals `maxiter`, whether or not the convergence test holds at
that point; so for `maxiter >= 0` a run that ends without convergence records
it, and a run that ends before the cap has converged and does not record it. -/
theorem IncEigCG.eigCGsolve_warning_iff {n : Nat} {D : Type} (C : Collab n D) (fuel : Nat)
    (S : IncEigCG n D) (x b : ColorSpinorField n) (xprec : QudaPrecision)
    (hmode : S.correctionMode = false) (hb : blas.norm2 b ≠ 0) :
    ∀ res, IncEigCG.eigCGsolve C fuel S x b xprec = .ok res →
      ∃ S' L' evs, IncEigCG.eigCGexit C fuel S x b xprec = .ok (S', L') ∧
        res.iters = L'.k ∧ res.solver.log = S.log ++ evs ∧
        (Event.warning Message.exceededMaxIter ∈ evs ↔ res.iters = S.param.maxiter) ∧
        (0 ≤ S.param.maxiter → L'.converged = false →
          Event.warning Message.exceededMaxIter ∈ evs) ∧
        (res.iters < S.param.maxiter →
          L'.converged = true ∧ Event.warning Message.exceededMaxIter ∉ evs) := by
  intro res h
  rw [eigCGsolve_main C fuel S x b xprec hb hmode] at h
  obtain ⟨⟨S', L'⟩, h1, h2⟩ := (bind_eq_ok _ _ _).1 h
  obtain ⟨S0, L0, hp, hparam, _, hexit, hk, evs, hl, hin⟩ :=
    eigCGexit_eq_ok C fuel S S' x b xprec L' h1
  obtain ⟨e1, _, _, _, e5, _⟩ := eigCGepilogue_eq_ok C b _ S' L' res h2
  have hw : ∀ e ∈ evs, e ≠ Event.warning Message.exceededMaxIter := by
    intro e he hw
    subst hw
    rcases hin _ he with h | h | ⟨_, h⟩ | h | h <;> cases h
  have hiff : Event.warning Message.exceededMaxIter ∈
      evs ++ ((if L'.k = S.param.maxiter then [Event.warning Message.exceededMaxIter] else [])
        ++ [Event.matSloppyApply]) ↔ L'.k = S.param.maxiter := by
    constructor
    · intro hm
      rcases List.mem_append.1 hm with hm | hm
      · exact absurd rfl (hw _ hm)
      · rcases List.mem_append.1 hm with hm | hm
        · split at hm
          · assumption
          · cases hm
        · simp at hm
    · intro hk'
      simp [hk']
  refine ⟨S', L', evs ++ ((if L'.k = S.param.maxiter then
    [Event.warning Message.exceededMaxIter] else []) ++ [Event.matSloppyApply]),
    h1, e1, ?_, ?_, ?_, ?_⟩
  · rw [e5, hl, hparam, List.append_assoc, List.append_assoc]
  · rw [e1]
    exact hiff
  · intro hnn hc
    apply hiff.2
    rcases hexit with hx | hx
    · rw [hc] at hx
      cases hx
    · rcases hk with ⟨k0, _⟩ | ⟨_, k2, _⟩ <;> omega
  · intro hlt
    rw [e1] at hlt
    refine ⟨?_, fun hm => ?_⟩
    · rcases hexit with hx | hx
      · exact hx
      · omega
    · have := hiff.1 hm
      omega

/-! ## Runs of the test problem -/

theorem demoField_norm2 : blas.norm2 (demoField 1) = 1 := by
  simp [blas.norm2, demoField]

theorem demo_initialised (m nev : Nat) (maxiter : Int) :
    IncEigCG.initialised demoCollab (demoSolver m nev maxiter) (demoField 1) =
      IncEigCG.eigCGinit demoCollab (demoSolver m nev maxiter) (demoField 1) 1 := by
  simp [IncEigCG.initialised, demoSolver, demoField_norm2]

/-- With the cap `maxiter = 1` the test problem (operator `1`, source `1`,
guess `0`, tolerance `1/2`) leaves the loop after one pass with the residual
`0`: the convergence test holds on the last permitted iteration. -/
theorem demo_exit :
    ∃ S' L', IncEigCG.eigCGexit demoCollab 1 (demoSolver 3 1 1) blas.zero (demoField 1)
        QudaPrecision.QUDA_DOUBLE_PRECISION = .ok (S', L') ∧
      L'.converged = true ∧ L'.k = 1 ∧
      (IncEigCG.eigCGepilogue demoCollab (demoField 1) (blas.norm2 (demoField 1))
        (S', L')).toBool = true := by
  have hstep : (IncEigCG.eigCGiteration demoCollab
      (IncEigCG.localStop (IncEigCG.initialised demoCollab (demoSolver 3 1 1) (demoField 1))
        (demoField 1) QudaPrecision.QUDA_DOUBLE_PRECISION)
      (demoLoopState 3 1 1, demoLocals) >>=
        IncEigCG.eigCGepilogue demoCollab (demoField 1) (blas.norm2 (demoField 1))).toBool
      = true := by decide
  cases hit : IncEigCG.eigCGiteration demoCollab
      (IncEigCG.localStop (IncEigCG.initialised demoCollab (demoSolver 3 1 1) (demoField 1))
        (demoField 1) QudaPrecision.QUDA_DOUBLE_PRECISION)
      (demoLoopState 3 1 1, demoLocals) with
  | error e =>
    rw [hit] at hstep
    cases hstep
  | ok SL1 =>
    obtain ⟨S1, L1⟩ := SL1
    rw [hit] at hstep
    obtain ⟨p, r, S2, a2, a', d, o, evs, h1, h2, h3, h4, h5, h6, h7, h8, h9, h10, h11, h12, h13,
      h14, h15, h16, h17, h18⟩ := eigCGiteration_eq_ok demoCollab _ _ S1 _ L1 hit
    have hp : p = demoField 1 := by
      have : some (demoField 1) = some p := h1
      cases this
      rfl
    have hr : r = demoField 1 := by
      have : some (demoField 1) = some r := h2
      cases this
      rfl
    subst hp
    subst hr
    have hr2 : L1.r2 = 0 := by
      rw [h17]
      simp [blas.axpyNorm, blas.norm2, blas.reDotProduct, demoCollab, demoField, demoLocals]
    obtain ⟨a2', Vm, Vm', e1, _, _, _, _, _, _, _, egs, _⟩ :=
      UpdateVm_eq_ok demoCollab _ S2
        { (EigCGArgs.new 1 3 1).ResetAccumBuffer with global_stop := 1 / 4 } _ _ _ rfl rfl h3
    rw [h4] at e1
    cases e1
    obtain ⟨_, _, _, _, _, s6, _⟩ := EigCGArgs.SetLanczos_eq_ok a2 a' d o h5
    have hgs : a'.global_stop = 1 / 4 := by
      rw [s6, egs]
    have hconv : L1.converged = true := by
      rw [h18, hr2, hgs]
      simp [demoCollab]
    have hpar : S1.param = demoParam 3 1 1 := by
      have := (eigCGiteration_frame demoCollab _ _ S1 _ L1 hit).1
      exact this
    refine ⟨S1, L1, ?_, hconv, by rw [h14]; rfl, hstep⟩
    unfold IncEigCG.eigCGexit
    rw [demo_initialised, demoLoopState_eq]
    simp only [bind, Except.bind]
    rw [← demo_initialised, eigCGloop_step demoCollab _ 0 _ _ rfl (by decide), hit]
    simp only [bind, Except.bind]
    exact eigCGloop_exit demoCollab _ 0 S1 L1 (Or.inl hconv)

theorem demo_correctionMode (m nev : Nat) (maxiter : Int) :
    (demoSolver m nev maxiter).correctionMode = false := rfl

theorem demoField_norm2_ne : blas.norm2 (demoField 1) ≠ 0 := by
  rw [demoField_norm2]
  exact one_ne_zero

/-- The run of the test problem with the cap `maxiter = 1` returns. -/
theorem demo_solve :
    ∃ S' L' res, IncEigCG.eigCGexit demoCollab 1 (demoSolver 3 1 1) blas.zero (demoField 1)
        QudaPrecision.QUDA_DOUBLE_PRECISION = .ok (S', L') ∧
      L'.converged = true ∧ L'.k = 1 ∧
      IncEigCG.eigCGsolve demoCollab 1 (demoSolver 3 1 1) blas.zero (demoField 1)
        QudaPrecision.QUDA_DOUBLE_PRECISION = .ok res := by
  obtain ⟨S', L', h1, h2, h3, h4⟩ := demo_exit
  cases he : IncEigCG.eigCGepilogue demoCollab (demoField 1) (blas.norm2 (demoField 1))
      (S', L') with
  | error e =>
    rw [he] at h4
    cases h4
  | ok res =>
    refine ⟨S', L', res, h1, h2, h3, ?_⟩
    rw [eigCGsolve_main demoCollab 1 _ _ _ _ demoField_norm2_ne (demo_correctionMode 3 1 1), h1]
    exact he

theorem demo_firstConvergenceTest (m nev : Nat) (maxiter : Int) :
    IncEigCG.firstConvergenceTest demoCollab (demoSolver m nev maxiter) blas.zero (demoField 1) =
      .ok false := by
  unfold IncEigCG.firstConvergenceTest
  rw [demo_initialised, demoLoopState_eq]
  rfl

/-! ## The first pass of a fresh solver returns -/

theorem applyPreconditioner_pointers (C : Collab n D) (S S' : IncEigCG n D) (K : InnerSolver)
    (r z : ColorSpinorField n) (h : IncEigCG.applyPreconditioner C S K r = .ok (S', z)) :
    S'.tmpp = S.tmpp ∧ S'.r_pre.isSome ∧ S'.p_pre.isSome := by
  unfold IncEigCG.applyPreconditioner at h
  obtain ⟨_, _, h⟩ := (bind_eq_ok _ _ _).1 h
  obtain ⟨_, _, h⟩ := (bind_eq_ok _ _ _).1 h
  simp only [pure, Except.pure, Except.ok.injEq, Prod.mk.injEq] at h
  obtain ⟨h, _⟩ := h
  subst h
  exact ⟨rfl, rfl, rfl⟩

theorem firstZ_pointers (C : Collab n D) (S S' : IncEigCG n D)
    (r z : ColorSpinorField n) (h : IncEigCG.firstZ C S r = .ok (S', z)) :
    S'.tmpp = S.tmpp ∧ (S.K.isSome → S'.r_pre.isSome ∧ S'.p_pre.isSome) := by
  unfold IncEigCG.firstZ at h
  split at h
  · obtain ⟨h1, h2, h3⟩ := applyPreconditioner_pointers C _ S' _ r z h
    refine ⟨?_, fun _ => ⟨h2, h3⟩⟩
    rw [h1]
    split <;> rfl
  · rename_i hK
    simp only [pure, Except.pure, Except.ok.injEq, Prod.mk.injEq] at h
    obtain ⟨h, _⟩ := h
    subst h
    exact ⟨rfl, fun hs => by rw [hK] at hs; cases hs⟩

/-- The pointers of the solver on entry to the loop. -/
theorem eigCGprologue_pointers (C : Collab n D) (S S' : IncEigCG n D) (x b : ColorSpinorField n)
    (L : EigCGLocals n) (h : IncEigCG.eigCGprologue C S x b = .ok (S', L)) :
    S'.pp.isSome ∧ S'.yp.isSome ∧ S'.Ap = S.Ap ∧ S'.tmpp = S.tmpp ∧ S'.Az = S.Az ∧
    (S.K.isSome → S'.r_pre.isSome ∧ S'.p_pre.isSome) := by
  unfold IncEigCG.eigCGprologue at h
  obtain ⟨a, r1, h⟩ := (bind_eq_ok _ _ _).1 h
  obtain ⟨_, _, h⟩ := (bind_eq_ok _ _ _).1 h
  obtain ⟨_, _, h⟩ := (bind_eq_ok _ _ _).1 h
  obtain ⟨_, _, h⟩ := (bind_eq_ok _ _ _).1 h
  obtain ⟨_, _, h⟩ := (bind_eq_ok _ _ _).1 h
  obtain ⟨⟨S1, z⟩, r2, h⟩ := (bind_eq_ok _ _ _).1 h
  obtain ⟨a1, r3, h⟩ := (bind_eq_ok _ _ _).1 h
  simp only [pure, Except.pure, Except.ok.injEq, Prod.mk.injEq] at h
  obtain ⟨hS, _⟩ := h
  subst hS
  obtain ⟨_, _, _, _, _, _, _, z8, z9, _⟩ := firstZ_eq_ok C _ S1 _ z r2
  obtain ⟨w1, w2⟩ := firstZ_pointers C _ S1 _ z r2
  exact ⟨rfl, rfl, z9, w1, z8, w2⟩

theorem refreshZ_total (C : Collab n D) (S : IncEigCG n D) (r : ColorSpinorField n)
    (hpre : S.K.isSome → S.r_pre.isSome ∧ S.p_pre.isSome) :
    ∃ S' z, IncEigCG.refreshZ C S r = .ok (S', z) := by
  unfold IncEigCG.refreshZ
  split
  · rename_i K hK
    obtain ⟨h1, h2⟩ := hpre (by rw [hK]; rfl)
    obtain ⟨rp, hr⟩ := Option.isSome_iff_exists.1 h1
    obtain ⟨pp, hp⟩ := Option.isSome_iff_exists.1 h2
    simp only [IncEigCG.applyPreconditioner, hr, hp, deref, bind, Except.bind, pure, Except.pure]
    exact ⟨_, _, rfl⟩
  · exact ⟨_, _, rfl⟩

/-- Away from a restart `UpdateVm` returns when the pointers it reads are set
and the cursor is inside the basis. -/
theorem UpdateVm_total (C : Collab n D) (S : IncEigCG n D) (a : EigCGArgs n)
    (Vm : ColorSpinorFieldSet n) (res : ColorSpinorField n) (beta sqrtr2 : ℚ)
    (ha : S.eigcg_args = some a) (hid : a.id ≠ S.param.m)
    (hAp : S.Ap.isSome) (hAz : S.Az.isSome) (hVm : S.Vm = some Vm)
    (hdim : a.id < Vm.composite_dim) :
    ∃ S', IncEigCG.UpdateVm C S res beta sqrtr2 = .ok S' := by
  obtain ⟨Ap, hAp'⟩ := Option.isSome_iff_exists.1 hAp
  obtain ⟨Az, hAz'⟩ := Option.isSome_iff_exists.1 hAz
  have hload : ∀ S1 : IncEigCG n D, S1.eigcg_args = some a → S1.Vm = some Vm →
      ∃ S', IncEigCG.loadBasisVector S1 res sqrtr2 = .ok S' := by
    intro S1 h1 h2
    have hset : ∀ (V : ColorSpinorFieldSet n) (v : ColorSpinorField n),
        V.composite_dim = Vm.composite_dim →
        V.setComponent a.id v = .ok { V with comp := fun i => if i = a.id then v else V.comp i } :=
      fun V v hV => (setComponent_eq_ok _ _ _ _).2 ⟨by rw [hV]; exact hdim, rfl⟩
    have hget : ∀ V : ColorSpinorFieldSet n, V.composite_dim = Vm.composite_dim →
        V.Component a.id = .ok (V.comp a.id) :=
      fun V hV => (Component_eq_ok _ _ _).2 ⟨by rw [hV]; exact hdim, rfl⟩
    unfold IncEigCG.loadBasisVector
    simp only [h1, h2, deref, bind, Except.bind, pure, Except.pure]
    rw [hset Vm res rfl]
    simp only
    rw [hget { Vm with comp := fun i => if i = a.id then res else Vm.comp i } rfl]
    simp only
    rw [hset { Vm with comp := fun i => if i = a.id then res else Vm.comp i } _ rfl]
    exact ⟨_, rfl⟩
  unfold IncEigCG.UpdateVm
  simp only [ha, deref, bind, Except.bind, pure, Except.pure]
  split
  · exact ⟨_, rfl⟩
  · unfold IncEigCG.restartOrSave
    rw [if_neg hid]
    by_cases h2 : a.id = S.param.m - 1
    · rw [if_pos h2]
      simp only [hAp', hAz', deref, bind, Except.bind, pure, Except.pure]
      exact hload _ ha hVm
    · rw [if_neg h2]
      simp only [pure, Except.pure]
      exact hload _ ha hVm

theorem bind_total {α β : Type} {x : Except Fault α} {f : α → Except Fault β} {v : α}
    (hx : x = .ok v) (hf : ∃ b, f v = .ok b) : ∃ b, x >>= f = .ok b := by
  obtain ⟨b, hb⟩ := hf
  exact ⟨b, (bind_eq_ok _ _ _).2 ⟨v, hx, hb⟩⟩

/-- Away from a restart a pass through the loop body returns when the
pointers it reads are set and the cursor is inside the basis and the matrix. -/
theorem eigCGiteration_total (C : Collab n D) (local_stop : ℚ) (S : IncEigCG n D)
    (L : EigCGLocals n) (a : EigCGArgs n) (Vm : ColorSpinorFieldSet n)
    (hpp : S.pp.isSome) (hAp : S.Ap.isSome) (htmpp : S.tmpp.isSome) (hrp : S.rp.isSome)
    (hyp : S.yp.isSome) (hAz : S.Az.isSome) (ha : S.eigcg_args = some a)
    (hrc : a.run_residual_correction = false) (hid : a.id ≠ S.param.m) (hidm : a.id < a.m)
    (hVm : S.Vm = some Vm) (hdim : a.id < Vm.composite_dim)
    (hpre : S.K.isSome → S.r_pre.isSome ∧ S.p_pre.isSome) :
    ∃ S' L', IncEigCG.eigCGiteration C local_stop (S, L) = .ok (S', L') := by
  obtain ⟨p, hp⟩ := Option.isSome_iff_exists.1 hpp
  obtain ⟨Ap, hAp'⟩ := Option.isSome_iff_exists.1 hAp
  obtain ⟨tmp, htmp⟩ := Option.isSome_iff_exists.1 htmpp
  obtain ⟨r, hr⟩ := Option.isSome_iff_exists.1 hrp
  obtain ⟨y, hy⟩ := Option.isSome_iff_exists.1 hyp
  -- the call of `UpdateVm`
  obtain ⟨S1, hS1⟩ : ∃ S1 : IncEigCG n D,
      S1 = { S with Ap := some (C.matSloppy p) }.emit Event.matSloppyApply := ⟨_, rfl⟩
  have g1 : S1.eigcg_args = some a := by rw [hS1]; exact ha
  have g2 : S1.param = S.param := by rw [hS1]; rfl
  have g3 : S1.Ap.isSome := by rw [hS1]; rfl
  have g4 : S1.Az.isSome := by rw [hS1]; exact hAz
  have g5 : S1.Vm = some Vm := by rw [hS1]; exact hVm
  have g6 : S1.rp = some r := by rw [hS1]; exact hr
  have g7 : S1.K = S.K := by rw [hS1]; rfl
  have g8 : S1.r_pre = S.r_pre := by rw [hS1]; rfl
  have g9 : S1.p_pre = S.p_pre := by rw [hS1]; rfl
  have g10 : S1.yp = some y := by rw [hS1]; exact hy
  obtain ⟨S2, hU⟩ := UpdateVm_total C S1 a Vm (if S1.K.isSome then L.z else r) L.beta
    (C.sqrt L.r2) g1 (by rw [g2]; exact hid) g3 g4 g5 hdim
  obtain ⟨a2, _, _, e2, _, _, _, _, _, _, _, _, _, fr, hcase⟩ :=
    UpdateVm_eq_ok C S1 S2 a _ _ _ g1 hrc hU
  have ea2 : a2 = a := by
    rcases hcase with ⟨c1, _⟩ | ⟨_, c2, _⟩
    · rw [g2] at c1
      exact absurd c1 hid
    · exact c2
  subst ea2
  obtain ⟨_, _, f3, f4, f5, _, _, f8, _⟩ := fr
  -- the preconditioner block
  obtain ⟨S2r, hS2r⟩ : ∃ S2r : IncEigCG n D,
      S2r = { S2 with rp := some (blas.axpyNorm
        (-(L.rMinvr / blas.reDotProduct p (C.matSloppy p))) (C.matSloppy p) r).1 } := ⟨_, rfl⟩
  have k1 : S2r.K = S.K := by rw [hS2r]; exact f3.trans g7
  have k2 : S2r.r_pre = S.r_pre := by rw [hS2r]; exact f4.trans g8
  have k3 : S2r.p_pre = S.p_pre := by rw [hS2r]; exact f5.trans g9
  have k4 : S2r.yp = some y := by rw [hS2r]; exact f8.trans g10
  have k5 : S2r.eigcg_args = some a2 := by rw [hS2r]; exact e2
  obtain ⟨S3, z, hZ⟩ := refreshZ_total C S2r
    (blas.axpyNorm (-(L.rMinvr / blas.reDotProduct p (C.matSloppy p))) (C.matSloppy p) r).1
    (by rw [k1, k2, k3]; exact hpre)
  obtain ⟨z1, _, _, _, _, z6, _⟩ := refreshZ_eq_ok C S2r S3 _ z hZ
  have hy3 : S3.yp = some y := z6.trans k4
  have ha3 : S3.eigcg_args = some a2 := z1.trans k5
  subst hS2r
  subst hS1
  have hSL : ∃ SL, IncEigCG.eigCGiteration C local_stop (S, L) = .ok SL := by
    unfold IncEigCG.eigCGiteration
    refine bind_total ((deref_eq_ok _ _).2 hp) ?_
    refine bind_total ((deref_eq_ok _ _).2 hAp') ?_
    refine bind_total ((deref_eq_ok _ _).2 htmp) ?_
    refine bind_total ((deref_eq_ok _ _).2 g6) ?_
    refine bind_total hU ?_
    refine bind_total hZ ?_
    refine bind_total ((deref_eq_ok _ _).2 hy3) ?_
    refine bind_total ((deref_eq_ok _ _).2 ha3) ?_
    refine bind_total (EigCGArgs.SetLanczos_ok a2 _ _ hrc hidm) ?_
    exact ⟨_, rfl⟩
  obtain ⟨⟨S', L'⟩, h⟩ := hSL
  exact ⟨S', L', h⟩

theorem eigCGiteration_yp (C : Collab n D) (local_stop : ℚ) (S S' : IncEigCG n D)
    (L L' : EigCGLocals n) (h : IncEigCG.eigCGiteration C local_stop (S, L) = .ok (S', L')) :
    S'.yp.isSome ∧ S'.eigcg_args.isSome := by
  unfold IncEigCG.eigCGiteration at h
  obtain ⟨_, _, h⟩ := (bind_eq_ok _ _ _).1 h
  obtain ⟨_, _, h⟩ := (bind_eq_ok _ _ _).1 h
  obtain ⟨_, _, h⟩ := (bind_eq_ok _ _ _).1 h
  obtain ⟨_, _, h⟩ := (bind_eq_ok _ _ _).1 h
  obtain ⟨_, _, h⟩ := (bind_eq_ok _ _ _).1 h
  obtain ⟨_, _, h⟩ := (bind_eq_ok _ _ _).1 h
  obtain ⟨_, _, h⟩ := (bind_eq_ok _ _ _).1 h
  obtain ⟨_, _, h⟩ := (bind_eq_ok _ _ _).1 h
  obtain ⟨_, _, h⟩ := (bind_eq_ok _ _ _).1 h
  simp only [pure, Except.pure, Except.ok.injEq, Prod.mk.injEq] at h
  obtain ⟨hS, _⟩ := h
  subst hS
  exact ⟨rfl, rfl⟩

theorem eigCGepilogue_total (C : Collab n D) (b : ColorSpinorField n) (b2 : ℚ)
    (S : IncEigCG n D) (L : EigCGLocals n) (ha : S.eigcg_args.isSome) (hy : S.yp.isSome) :
    ∃ res, IncEigCG.eigCGepilogue C b b2 (S, L) = .ok res := by
  obtain ⟨a, ha'⟩ := Option.isSome_iff_exists.1 ha
  obtain ⟨y, hy'⟩ := Option.isSome_iff_exists.1 hy
  unfold IncEigCG.eigCGepilogue
  refine bind_total ((deref_eq_ok _ _).2 ha') ?_
  refine bind_total ((deref_eq_ok _ _).2 hy') ?_
  exact ⟨_, rfl⟩

/-- On a solver on which `eigCGsolve` has not run before, with a basis of at
least one vector, the cap `maxiter = 1`, a source of non-zero norm and an
initial residual that fails the convergence test, `eigCGsolve` returns. -/
theorem eigCGsolve_first_pass (C : Collab n D) (fuel : Nat) (S : IncEigCG n D)
    (x b : ColorSpinorField n) (xprec : QudaPrecision) (hinit : S.init = false)
    (hm : 0 < S.param.m) (hmax : S.param.maxiter = 1) (hb : blas.norm2 b ≠ 0)
    (hconv : IncEigCG.firstConvergenceTest C S x b = .ok false) (hfuel : 1 ≤ fuel) :
    ∃ res, IncEigCG.eigCGsolve C fuel S x b xprec = .ok res := by
  have hmode : S.correctionMode = false := by
    simp [IncEigCG.correctionMode, hinit]
  have hI : IncEigCG.initialised C S b = IncEigCG.eigCGinit C S b (blas.norm2 b) := by
    simp [IncEigCG.initialised, hinit]
  unfold IncEigCG.firstConvergenceTest at hconv
  obtain ⟨⟨S0, L0⟩, hpro, hc⟩ := (bind_eq_ok _ _ _).1 hconv
  simp only [pure, Except.pure, Except.ok.injEq] at hc
  have hc0 : L0.converged = false := hc
  obtain ⟨p1, p2, _, _, p5, _, _, p8, _, ⟨a, pa, pa', _⟩, pVm, _⟩ :=
    eigCGprologue_eq_ok C _ S0 x b L0 hpro
  obtain ⟨w1, w2, w3, w4, w5, w6⟩ := eigCGprologue_pointers C _ S0 x b L0 hpro
  rw [hI] at p1 p2 pa pVm w3 w4 w5 w6
  have ea : a = { EigCGArgs.new n S.param.m S.param.nev with
      global_stop := C.stopping S.param.tol (blas.norm2 b) S.param.residual_type } := by
    have e : some { EigCGArgs.new n S.param.m S.param.nev with
        global_stop := C.stopping S.param.tol (blas.norm2 b) S.param.residual_type } = some a := pa
    cases e
    rfl
  subst ea
  have hparam : S0.param = S.param := p1
  have hmax0 : S0.param.maxiter = 1 := by rw [hparam, hmax]
  obtain ⟨S1, L1, hit⟩ := eigCGiteration_total C
    (IncEigCG.localStop (IncEigCG.initialised C S b) b xprec) S0 L0 _
    (ColorSpinorFieldSet.Create n S.param.m) w1 (by rw [w3]; rfl) (by rw [w4]; rfl)
    (by rw [p8]; rfl) w2 (by rw [w5]; rfl) pa' rfl
    (by rw [hparam]; exact fun h => absurd h (Nat.ne_of_lt hm)) hm pVm hm
    (by
      intro hK
      apply w6
      have e : S0.K = (IncEigCG.eigCGinit C S b (blas.norm2 b)).K := p2
      rw [← e]
      exact hK)
  obtain ⟨f1, _, _, _, f5, _⟩ := eigCGiteration_frame C _ S0 S1 L0 L1 hit
  obtain ⟨y1, y2⟩ := eigCGiteration_yp C _ S0 S1 L0 L1 hit
  have hexit : IncEigCG.eigCGexit C fuel S x b xprec = .ok (S1, L1) := by
    unfold IncEigCG.eigCGexit
    rw [hpro]
    obtain ⟨fuel', rfl⟩ : ∃ f, fuel = f + 1 := ⟨fuel - 1, by omega⟩
    simp only [bind, Except.bind]
    rw [eigCGloop_step C _ fuel' S0 L0 hc0 (by rw [p5, hmax0]; decide), hit]
    simp only [bind, Except.bind]
    exact eigCGloop_exit C _ fuel' S1 L1 (Or.inr (by rw [f1, hmax0, f5, p5]; decide))
  rw [eigCGsolve_main C fuel S x b xprec hb hmode, hexit]
  exact eigCGepilogue_total C b _ S1 L1 y2 y1

/-- C7: outside a correction cycle, where `eigCGsolve` hands over to the inner
solver, and with `fuel` at least `maxiter`, the loop of `eigCGsolve`
terminates, and the returned count `k` satisfies `0 <= k` and stays within the
cap: `k <= maxiter`, read as a count (`k <= maxiter` for `maxiter >= 0`, and
`k = 0` for a negative value, for which no pass is made).  With `maxiter = 1`,
a source of non-zero norm and an initial residual that fails the convergence
test, a run that returns has made exactly one pass and has recorded the
warning; and the run does return, with one pass and the warning, on every
solver on which `eigCGsolve` has not run before and whose basis has at least
one vector. -/
theorem IncEigCG.eigCGsolve_iteration_cap {n : Nat} {D : Type} (C : Collab n D) (fuel : Nat)
    (S : IncEigCG n D) (x b : ColorSpinorField n) (xprec : QudaPrecision)
    (hmode : S.correctionMode = false) (hfuel : S.param.maxiter.toNat ≤ fuel) :
    IncEigCG.eigCGsolve C fuel S x b xprec ≠ .error Fault.fuel ∧
    (∀ res, IncEigCG.eigCGsolve C fuel S x b xprec = .ok res →
      0 ≤ res.iters ∧ res.iters ≤ (S.param.maxiter.toNat : Int) ∧
      (0 ≤ S.param.maxiter → res.iters ≤ S.param.maxiter) ∧
      (S.param.maxiter < 0 → res.iters = 0)) ∧
    (S.param.maxiter = 1 → blas.norm2 b ≠ 0 →
      IncEigCG.firstConvergenceTest C S x b = .ok false →
      (∀ res, IncEigCG.eigCGsolve C fuel S x b xprec = .ok res →
        res.iters = 1 ∧ Event.warning Message.exceededMaxIter ∈ res.solver.log) ∧
      (S.init = false → 0 < S.param.m →
        ∃ res, IncEigCG.eigCGsolve C fuel S x b xprec = .ok res ∧
          res.iters = 1 ∧ Event.warning Message.exceededMaxIter ∈ res.solver.log)) := by
  obtain ⟨h1, h2, h3⟩ := eigCGsolve_cap C fuel S x b xprec hmode hfuel
  refine ⟨h1, fun res hres => ?_, fun hmax hb hconv => ⟨h3 hmax hb hconv, fun hinit hm => ?_⟩⟩
  · obtain ⟨g1, g2, g3⟩ := h2 res hres
    refine ⟨g1, ?_, g2, g3⟩
    by_cases hneg : S.param.maxiter < 0
    · rw [g3 hneg]
      exact Int.ofNat_nonneg _
    · have hnn : 0 ≤ S.param.maxiter := not_lt.1 hneg
      rw [Int.toNat_of_nonneg hnn]
      exact g2 hnn
  · have hfuel1 : 1 ≤ fuel := by
      rw [hmax] at hfuel
      simpa using hfuel
    obtain ⟨res, hres⟩ := eigCGsolve_first_pass C fuel S x b xprec hinit hm hmax hb hconv hfuel1
    exact ⟨res, hres, h3 hmax hb hconv res hres⟩

/-- Witness for C7: the run of the test problem with the cap `maxiter = 1`
returns after exactly one pass with the warning recorded. -/
theorem IncEigCG.eigCGsolve_iteration_cap_witness :
    (demoSolver 3 1 1).correctionMode = false ∧ (demoSolver 3 1 1).param.maxiter.toNat ≤ 1 ∧
    ∃ res, IncEigCG.eigCGsolve demoCollab 1 (demoSolver 3 1 1) blas.zero (demoField 1)
        QudaPrecision.QUDA_DOUBLE_PRECISION = .ok res ∧
      0 ≤ res.iters ∧ res.iters ≤ 1 ∧ res.iters = 1 ∧
      Event.warning Message.exceededMaxIter ∈ res.solver.log := by
  obtain ⟨_, h2, h3⟩ :=
    IncEigCG.eigCGsolve_iteration_cap demoCollab 1 (demoSolver 3 1 1) blas.zero (demoField 1)
      QudaPrecision.QUDA_DOUBLE_PRECISION rfl (by decide)
  obtain ⟨res, hres, hk, hw⟩ :=
    (h3 rfl demoField_norm2_ne (demo_firstConvergenceTest 3 1 1)).2 rfl (by decide)
  exact ⟨rfl, by decide, res, hres, (h2 res hres).1, (h2 res hres).2.2.1 (by decide), hk, hw⟩

/-- With the negative cap `maxiter = -1` the run of the test problem makes no
pass and returns the count `0`, which lies above the value of `maxiter`. -/
theorem eigCGsolve_negative_cap :
    ∃ res, IncEigCG.eigCGsolve demoCollab 0 (demoSolver 3 1 (-1)) blas.zero (demoField 1)
        QudaPrecision.QUDA_DOUBLE_PRECISION = .ok res ∧
      res.iters = 0 ∧ ¬ (0 ≤ res.iters ∧ res.iters ≤ (demoSolver 3 1 (-1)).param.maxiter) := by
  have hep : (IncEigCG.eigCGepilogue demoCollab (demoField 1) (blas.norm2 (demoField 1))
      (demoLoopState 3 1 (-1), demoLocals)).toBool = true := by decide
  cases he : IncEigCG.eigCGepilogue demoCollab (demoField 1) (blas.norm2 (demoField 1))
      (demoLoopState 3 1 (-1), demoLocals) with
  | error e =>
    rw [he] at hep
    cases hep
  | ok res =>
    have hk : res.iters = 0 := (eigCGepilogue_eq_ok _ _ _ _ _ res he).1
    refine ⟨res, ?_, hk, ?_⟩
    · rw [eigCGsolve_main demoCollab 0 _ _ _ _ demoField_norm2_ne (demo_correctionMode 3 1 (-1))]
      unfold IncEigCG.eigCGexit
      rw [demo_initialised, demoLoopState_eq]
      simp only [bind, Except.bind]
      rw [eigCGloop_exit demoCollab _ 0 _ _ (Or.inr (by decide))]
      exact he
    · rw [hk]
      decide

/-- Witness for C8 (amended): in the run of the test problem with the cap
`maxiter = 1` the warning is recorded and the count equals the cap. -/
theorem IncEigCG.eigCGsolve_warning_iff_witness :
    (demoSolver 3 1 1).correctionMode = false ∧ blas.norm2 (demoField 1) ≠ 0 ∧
    ∃ res evs, IncEigCG.eigCGsolve demoCollab 1 (demoSolver 3 1 1) blas.zero (demoField 1)
        QudaPrecision.QUDA_DOUBLE_PRECISION = .ok res ∧
      res.solver.log = (demoSolver 3 1 1).log ++ evs ∧
      (Event.warning Message.exceededMaxIter ∈ evs ↔ res.iters = 1) := by
  obtain ⟨_, _, res, _, _, _, hres⟩ := demo_solve
  obtain ⟨_, _, evs, _, _, h3, h4, _⟩ :=
    IncEigCG.eigCGsolve_warning_iff demoCollab 1 (demoSolver 3 1 1) blas.zero (demoField 1)
      QudaPrecision.QUDA_DOUBLE_PRECISION rfl demoField_norm2_ne res hres
  exact ⟨rfl, demoField_norm2_ne, res, evs, hres, h3, h4⟩

/-- Counterexample to C8 as stated: in the run of the test problem with the cap
`maxiter = 1` the convergence test holds when the loop is left (the residual
is `0` after the one permitted pass), and the warning is recorded all the
same. -/
theorem IncEigCG.eigCGsolve_warning_iff_counterexample :
    ∃ S' L' res, IncEigCG.eigCGexit demoCollab 1 (demoSolver 3 1 1) blas.zero (demoField 1)
        QudaPrecision.QUDA_DOUBLE_PRECISION = .ok (S', L') ∧
      L'.converged = true ∧
      IncEigCG.eigCGsolve demoCollab 1 (demoSolver 3 1 1) blas.zero (demoField 1)
        QudaPrecision.QUDA_DOUBLE_PRECISION = .ok res ∧
      Event.warning Message.exceededMaxIter ∈ res.solver.log := by
  obtain ⟨S', L', res, h1, h2, h3, hres⟩ := demo_solve
  refine ⟨S', L', res, h1, h2, hres, ?_⟩
  rw [eigCGsolve_main demoCollab 1 _ _ _ _ demoField_norm2_ne (demo_correctionMode 3 1 1),
    h1] at hres
  obtain ⟨_, _, _, _, e5, _⟩ := eigCGepilogue_eq_ok _ _ _ _ _ res hres
  have hpar : S'.param.maxiter = 1 := by
    obtain ⟨_, _, _, hp, _⟩ := eigCGexit_eq_ok _ _ _ _ _ _ _ _ h1
    rw [hp]
    rfl
  rw [e5, h3, hpar]
  simp

/-! ## One step of the CG recurrence -/

theorem norm2_axpy (a : ℚ) (x y : ColorSpinorField n) :
    blas.norm2 (fun i => y i + Cplx.scale a (x i)) =
      blas.norm2 y + 2 * a * blas.reDotProduct x y + a ^ 2 * blas.norm2 x := by
  simp only [blas.norm2, blas.reDotProduct, Cplx.add_re, Cplx.add_im, Cplx.scale_re,
    Cplx.scale_im, Finset.mul_sum, ← Finset.sum_add_distrib]
  apply Finset.sum_congr rfl
  intro i _
  ring

theorem norm2_nonneg (x : ColorSpinorField n) : 0 ≤ blas.norm2 x := by
  unfold blas.norm2
  exact Finset.sum_nonneg (fun i _ =>
    add_nonneg (mul_self_nonneg (x i).re) (mul_self_nonneg (x i).im))

theorem reDotProduct_self (x : ColorSpinorField n) : blas.reDotProduct x x = blas.norm2 x := rfl

theorem reDotProduct_zero_right (x : ColorSpinorField n) : blas.reDotProduct x blas.zero = 0 := by
  simp [blas.reDotProduct, blas.zero]

/-- A symmetric operator maps the zero field to the zero field. -/
theorem symmetric_zero (A : ColorSpinorField n → ColorSpinorField n)
    (hsym : ∀ u v, blas.reDotProduct u (A v) = blas.reDotProduct (A u) v) :
    A blas.zero = blas.zero := by
  apply norm2_eq_zero
  rw [← reDotProduct_self, hsym, reDotProduct_zero_right]

theorem xmyNorm_zero (b : ColorSpinorField n) :
    blas.xmyNorm b blas.zero = (b, blas.norm2 b) := by
  have h : (fun i => b i + Cplx.scale (-1) ((blas.zero : ColorSpinorField n) i)) = b := by
    funext i
    simp [blas.zero, Cplx.eq_iff]
  simp only [blas.xmyNorm, h]

/-- The squared residual after the single pass of a run with `maxiter = 1`,
zero guess and no preconditioner is that of `r - alpha A r` with `r = b` and
`alpha = <r,r> / <r, A r>`. -/
theorem one_step_r2 (C : Collab n D) (fuel : Nat) (S : IncEigCG n D) (b : ColorSpinorField n)
    (xprec : QudaPrecision)
    (hsym : ∀ u v, blas.reDotProduct u (C.matSloppy v) = blas.reDotProduct (C.matSloppy u) v)
    (hK : S.K = none) (hmax : S.param.maxiter = 1)
    (hconv : IncEigCG.firstConvergenceTest C S blas.zero b = .ok false)
    (S' : IncEigCG n D) (L' : EigCGLocals n)
    (h : IncEigCG.eigCGexit C fuel S blas.zero b xprec = .ok (S', L')) :
    L'.k = 1 ∧
    L'.r2 = blas.norm2 (fun i => b i +
      Cplx.scale (-(blas.norm2 b / blas.reDotProduct b (C.matSloppy b))) (C.matSloppy b i)) := by
  unfold IncEigCG.eigCGexit at h
  obtain ⟨⟨S0, L0⟩, h1, h2⟩ := (bind_eq_ok _ _ _).1 h
  obtain ⟨p1, p2, p3, p4, p5, p6, p7, p8, p9, _⟩ := eigCGprologue_eq_ok C _ S0 _ b L0 h1
  obtain ⟨i1, _, i3, _⟩ := eigCGinit_frame C S b
  have hK0 : (IncEigCG.initialised C S b).K = none := by rw [i3, hK]
  obtain ⟨p9a, p9b⟩ := p9 hK0
  rw [symmetric_zero C.matSloppy hsym, xmyNorm_zero] at p8 p9a p9b
  have hc0 : L0.converged = false := by
    unfold IncEigCG.firstConvergenceTest at hconv
    rw [h1] at hconv
    simp only [bind, Except.bind, pure, Except.pure, Except.ok.injEq] at hconv
    exact hconv
  have hm0 : S0.param.maxiter = 1 := by rw [p1, i1, hmax]
  cases fuel with
  | zero =>
    simp [IncEigCG.eigCGloop, hc0, p5, hm0, throw, throwThe, MonadExceptOf.throw] at h2
  | succ fuel =>
    rw [eigCGloop_step C _ fuel S0 L0 hc0 (by rw [p5, hm0]; decide)] at h2
    obtain ⟨⟨S1, L1⟩, h3, h4⟩ := (bind_eq_ok _ _ _).1 h2
    obtain ⟨p, r, S2, a2, a', d, o, evs, q1, q2, _, _, _, _, _, _, _, _, _, _, _, q14, _, _,
      q17, _⟩ := eigCGiteration_eq_ok C _ S0 S1 L0 L1 h3
    obtain ⟨f1, _⟩ := eigCGiteration_frame C _ S0 S1 L0 L1 h3
    rw [eigCGloop_exit C _ fuel S1 L1 (Or.inr (by rw [f1, hm0, q14, p5]; decide))] at h4
    simp only [Except.ok.injEq, Prod.mk.injEq] at h4
    obtain ⟨rfl, rfl⟩ := h4
    rw [p9a] at q1
    rw [p8] at q2
    cases q1
    cases q2
    refine ⟨by rw [q14, p5]; rfl, ?_⟩
    rw [q17, p9b, reDotProduct_self]
    rfl

/-- The squared norm of `b - (N/q) A b` with `N = <b,b>` and `q = <b, A b>`
lies below `N` exactly when `N <A b, A b> < 2 q^2`. -/
theorem one_step_decrease_iff (A : ColorSpinorField n → ColorSpinorField n)
    (b : ColorSpinorField n) (hN : blas.norm2 b ≠ 0) (hq : 0 < blas.reDotProduct b (A b)) :
    blas.norm2 (fun i => b i +
      Cplx.scale (-(blas.norm2 b / blas.reDotProduct b (A b))) (A b i)) < blas.norm2 b ↔
    blas.norm2 b * blas.norm2 (A b) < 2 * blas.reDotProduct b (A b) ^ 2 := by
  have hNpos : 0 < blas.norm2 b := lt_of_le_of_ne (norm2_nonneg b) (Ne.symm hN)
  have hsymm : blas.reDotProduct (A b) b = blas.reDotProduct b (A b) := by
    simp only [blas.reDotProduct]
    apply Finset.sum_congr rfl
    intro i _
    ring
  rw [norm2_axpy, hsymm]
  have hq' : blas.reDotProduct b (A b) ≠ 0 := ne_of_gt hq
  have e : blas.norm2 b + 2 * -(blas.norm2 b / blas.reDotProduct b (A b)) *
        blas.reDotProduct b (A b) +
      (-(blas.norm2 b / blas.reDotProduct b (A b))) ^ 2 * blas.norm2 (A b) =
      blas.norm2 b * (blas.norm2 b * blas.norm2 (A b)) / blas.reDotProduct b (A b) ^ 2
        - blas.norm2 b := by
    field_simp
    ring
  rw [e]
  have hq2 : 0 < blas.reDotProduct b (A b) ^ 2 := by positivity
  rw [sub_lt_iff_lt_add, div_lt_iff₀ hq2]
  constructor
  · intro h
    nlinarith
  · intro h
    nlinarith

/-- The squared norm of `b - (N/q) A b` with `N = <b,b>` and `q = <b, A b>`
in closed form: `N^2 <A b, A b> / q^2 - N`. -/
theorem one_step_closed_form (A : ColorSpinorField n → ColorSpinorField n)
    (b : ColorSpinorField n) (hq : blas.reDotProduct b (A b) ≠ 0) :
    blas.norm2 (fun i => b i +
      Cplx.scale (-(blas.norm2 b / blas.reDotProduct b (A b))) (A b i)) =
    blas.norm2 b ^ 2 * blas.norm2 (A b) / blas.reDotProduct b (A b) ^ 2 - blas.norm2 b := by
  have hsymm : blas.reDotProduct (A b) b = blas.reDotProduct b (A b) := by
    simp only [blas.reDotProduct]
    apply Finset.sum_congr rfl
    intro i _
    ring
  rw [norm2_axpy, hsymm]
  field_simp
  ring

/-- C9 (amended): for every symmetric positive-definite operator and every
right-hand side of non-zero norm, with zero guess, no preconditioner,
`maxiter = 1` and an initial residual that fails the convergence test, the loop
of `eigCGsolve` terminates on fuel for one pass, the initial squared residual is
`<b,b>`, exactly one pass is made, the squared residual it produces is
`<b,b>^2 <A b, A b> / <b, A b>^2 - <b,b>`, and it is smaller than the initial
one if and only if `<b,b> <A b, A b> < 2 <b, A b>^2`. -/
theorem IncEigCG.one_step_residual {n : Nat} {D : Type} (C : Collab n D) (fuel : Nat)
    (S : IncEigCG n D) (b : ColorSpinorField n) (xprec : QudaPrecision)
    (hA : blas.IsSPD C.matSloppy) (hb : blas.norm2 b ≠ 0) (hK : S.K = none)
    (hmax : S.param.maxiter = 1)
    (hconv : IncEigCG.firstConvergenceTest C S blas.zero b = .ok false) (hfuel : 1 ≤ fuel) :
    IncEigCG.eigCGexit C fuel S blas.zero b xprec ≠ .error Fault.fuel ∧
    ∀ S' L', IncEigCG.eigCGexit C fuel S blas.zero b xprec = .ok (S', L') →
      ∃ S0 L0, IncEigCG.eigCGprologue C (IncEigCG.initialised C S b) blas.zero b = .ok (S0, L0) ∧
        L0.r2 = blas.norm2 b ∧ L'.k = 1 ∧
        (L'.r2 < L0.r2 ↔
          blas.norm2 b * blas.norm2 (C.matSloppy b) <
            2 * blas.reDotProduct b (C.matSloppy b) ^ 2) ∧
        L'.r2 = blas.norm2 b ^ 2 * blas.norm2 (C.matSloppy b) /
            blas.reDotProduct b (C.matSloppy b) ^ 2 - blas.norm2 b := by
  refine ⟨eigCGexit_ne_fuel C fuel S blas.zero b xprec (by rw [hmax]; simpa using hfuel), ?_⟩
  intro S' L' h
  obtain ⟨S0, L0, hp, _⟩ := eigCGexit_eq_ok C fuel S S' blas.zero b xprec L' h
  obtain ⟨_, _, _, _, _, _, p7, _⟩ := eigCGprologue_eq_ok C _ S0 _ b L0 hp
  rw [symmetric_zero C.matSloppy hA.1, xmyNorm_zero] at p7
  obtain ⟨hk, hr2⟩ := one_step_r2 C fuel S b xprec hA.1 hK hmax hconv S' L' h
  refine ⟨S0, L0, hp, p7, hk, ?_, ?_⟩
  · rw [hr2, p7]
    exact one_step_decrease_iff C.matSloppy b hb (hA.2 b hb)
  · rw [hr2]
    exact one_step_closed_form C.matSloppy b (ne_of_gt (hA.2 b hb))

theorem demo_isSPD : blas.IsSPD demoCollab.matSloppy := by
  constructor
  · intro u v
    rfl
  · intro v hv
    exact lt_of_le_of_ne (norm2_nonneg v) (Ne.symm hv)

/-- Witness for C9 (amended): in the one-component test problem the single
pass brings the squared residual from `1` down to `0`. -/
theorem IncEigCG.one_step_residual_witness :
    blas.IsSPD demoCollab.matSloppy ∧ blas.norm2 (demoField 1) ≠ 0 ∧
    (demoSolver 3 1 1).K = none ∧ (demoSolver 3 1 1).param.maxiter = 1 ∧
    IncEigCG.firstConvergenceTest demoCollab (demoSolver 3 1 1) blas.zero (demoField 1) =
      .ok false ∧ 1 ≤ 1 ∧
    ∃ S' L', IncEigCG.eigCGexit demoCollab 1 (demoSolver 3 1 1) blas.zero (demoField 1)
        QudaPrecision.QUDA_DOUBLE_PRECISION = .ok (S', L') ∧ L'.k = 1 ∧
      L'.r2 < blas.norm2 (demoField 1) ∧ L'.r2 = 0 := by
  obtain ⟨S', L', _, hex, _, _, _⟩ := demo_solve
  obtain ⟨S0, L0, _, h0, hk, hiff, hval⟩ :=
    (IncEigCG.one_step_residual demoCollab 1 (demoSolver 3 1 1) (demoField 1)
      QudaPrecision.QUDA_DOUBLE_PRECISION demo_isSPD demoField_norm2_ne rfl rfl
      (demo_firstConvergenceTest 3 1 1) (le_refl 1)).2 S' L' hex
  have h1 : blas.norm2 (demoCollab.matSloppy (demoField 1)) = 1 := demoField_norm2
  have h2 : blas.reDotProduct (demoField 1) (demoCollab.matSloppy (demoField 1)) = 1 :=
    demoField_norm2
  refine ⟨demo_isSPD, demoField_norm2_ne, rfl, rfl, demo_firstConvergenceTest 3 1 1, le_refl 1,
    S', L', hex, hk, ?_, ?_⟩
  · rw [← h0]
    apply hiff.2
    rw [h1, h2, demoField_norm2]
    norm_num
  · rw [hval, h1, h2, demoField_norm2]
    norm_num

/-! ## The stiff test problem -/

theorem stiff_isSPD : blas.IsSPD stiffOperator := by
  constructor
  · intro u v
    simp only [blas.reDotProduct, stiffOperator, Fin.sum_univ_two]
    simp
    ring
  · intro v hv
    have hpos : 0 < blas.norm2 v := lt_of_le_of_ne (norm2_nonneg v) (Ne.symm hv)
    simp only [blas.norm2, Fin.sum_univ_two] at hpos
    simp only [blas.reDotProduct, stiffOperator, Fin.sum_univ_two]
    simp
    nlinarith [mul_self_nonneg (v 1).re, mul_self_nonneg (v 1).im, mul_self_nonneg (v 0).re,
      mul_self_nonneg (v 0).im]

theorem stiff_norm2 : blas.norm2 stiffSource = 101 := by
  simp [blas.norm2, stiffSource, Fin.sum_univ_two]
  norm_num

theorem stiff_q : blas.reDotProduct stiffSource (stiffOperator stiffSource) = 200 := by
  simp [blas.reDotProduct, stiffOperator, stiffSource, Fin.sum_univ_two]
  norm_num

theorem stiff_M : blas.norm2 (stiffOperator stiffSource) = 10100 := by
  simp [blas.norm2, stiffOperator, stiffSource, Fin.sum_univ_two]
  norm_num

theorem stiff_firstConvergenceTest :
    IncEigCG.firstConvergenceTest stiffCollab stiffSolver blas.zero stiffSource = .ok false := by
  have hok : (IncEigCG.eigCGprologue stiffCollab
      (IncEigCG.initialised stiffCollab stiffSolver stiffSource) blas.zero stiffSource).toBool
      = true := by decide
  unfold IncEigCG.firstConvergenceTest
  cases hp : IncEigCG.eigCGprologue stiffCollab
      (IncEigCG.initialised stiffCollab stiffSolver stiffSource) blas.zero stiffSource with
  | error e =>
    rw [hp] at hok
    cases hok
  | ok SL0 =>
    obtain ⟨S0, L0⟩ := SL0
    obtain ⟨p1, _, _, _, _, _, p7, _, _, ⟨a, ha, _, hc⟩, _⟩ :=
      eigCGprologue_eq_ok stiffCollab _ S0 _ _ L0 hp
    rw [symmetric_zero stiffCollab.matSloppy stiff_isSPD.1, xmyNorm_zero, stiff_norm2] at p7
    have hgs : a.global_stop = 1 / 2 * (1 / 2) * 101 := by
      have ha' : some { EigCGArgs.new 2 3 1 with
          global_stop := stiffCollab.stopping (1 / 2) (blas.norm2 stiffSource) 1 } = some a := ha
      cases ha'
      show (1 / 2 : ℚ) * (1 / 2) * blas.norm2 stiffSource = _
      rw [stiff_norm2]
    simp only [bind, Except.bind, pure, Except.pure, Except.ok.injEq]
    rw [hc, p7, hgs]
    simp [stiffCollab]
    norm_num

/-- Counterexample to C9 as stated: for the symmetric positive-definite operator
`diag(1, 100)` and the source `(10, 1)` the single pass takes the squared
residual from `101` to `989901/400`, which is larger. -/
theorem IncEigCG.one_step_residual_counterexample :
    blas.IsSPD stiffCollab.matSloppy ∧ blas.norm2 stiffSource ≠ 0 ∧ stiffSolver.K = none ∧
    stiffSolver.param.maxiter = 1 ∧
    ∃ S' L', IncEigCG.eigCGexit stiffCollab 1 stiffSolver blas.zero stiffSource
        QudaPrecision.QUDA_DOUBLE_PRECISION = .ok (S', L') ∧
      L'.k = 1 ∧ L'.r2 = 989901 / 400 ∧ blas.norm2 stiffSource = 101 ∧
      ¬ (L'.r2 < blas.norm2 stiffSource) := by
  have hne : blas.norm2 stiffSource ≠ 0 := by
    rw [stiff_norm2]
    norm_num
  have hok : (IncEigCG.eigCGprologue stiffCollab
      (IncEigCG.initialised stiffCollab stiffSolver stiffSource) blas.zero stiffSource >>=
      IncEigCG.eigCGiteration stiffCollab
        (IncEigCG.localStop (IncEigCG.initialised stiffCollab stiffSolver stiffSource)
          stiffSource QudaPrecision.QUDA_DOUBLE_PRECISION)).toBool = true := by decide
  have hconv := stiff_firstConvergenceTest
  cases hp : IncEigCG.eigCGprologue stiffCollab
      (IncEigCG.initialised stiffCollab stiffSolver stiffSource) blas.zero stiffSource with
  | error e =>
    rw [hp] at hok
    cases hok
  | ok SL0 =>
    obtain ⟨S0, L0⟩ := SL0
    rw [hp] at hok
    cases hit : IncEigCG.eigCGiteration stiffCollab
        (IncEigCG.localStop (IncEigCG.initialised stiffCollab stiffSolver stiffSource)
          stiffSource QudaPrecision.QUDA_DOUBLE_PRECISION) (S0, L0) with
    | error e =>
      simp only [bind, Except.bind] at hok
      rw [hit] at hok
      cases hok
    | ok SL1 =>
      obtain ⟨S1, L1⟩ := SL1
      obtain ⟨p1, _, _, _, p5, _⟩ := eigCGprologue_eq_ok stiffCollab _ S0 _ _ L0 hp
      obtain ⟨f1, _, _, _, f5, _⟩ := eigCGiteration_frame stiffCollab _ S0 S1 L0 L1 hit
      have hc0 : L0.converged = false := by
        unfold IncEigCG.firstConvergenceTest at hconv
        rw [hp] at hconv
        simp only [bind, Except.bind, pure, Except.pure, Except.ok.injEq] at hconv
        exact hconv
      have hm0 : S0.param.maxiter = 1 := by
        rw [p1, (eigCGinit_frame stiffCollab stiffSolver stiffSource).1]
        rfl
      have hex : IncEigCG.eigCGexit stiffCollab 1 stiffSolver blas.zero stiffSource
          QudaPrecision.QUDA_DOUBLE_PRECISION = .ok (S1, L1) := by
        unfold IncEigCG.eigCGexit
        rw [hp]
        simp only [bind, Except.bind]
        rw [eigCGloop_step stiffCollab _ 0 S0 L0 hc0 (by rw [p5, hm0]; decide), hit]
        simp only [bind, Except.bind]
        exact eigCGloop_exit stiffCollab _ 0 S1 L1 (Or.inr (by rw [f1, hm0, f5, p5]; decide))
      obtain ⟨hk, hr2⟩ := one_step_r2 stiffCollab 1 stiffSolver stiffSource
        QudaPrecision.QUDA_DOUBLE_PRECISION stiff_isSPD.1 rfl rfl hconv S1 L1 hex
      have hval : L1.r2 = 989901 / 400 := by
        rw [hr2, norm2_axpy]
        have hsymm : blas.reDotProduct (stiffCollab.matSloppy stiffSource) stiffSource = 200 :=
          (stiff_isSPD.1 stiffSource stiffSource).symm.trans stiff_q
        have hq : blas.reDotProduct stiffSource (stiffCollab.matSloppy stiffSource) = 200 :=
          stiff_q
        have hM : blas.norm2 (stiffCollab.matSloppy stiffSource) = 10100 := stiff_M
        rw [hsymm, hq, hM, stiff_norm2]
        norm_num
      refine ⟨stiff_isSPD, hne, rfl, rfl, S1, L1, hex, hk, hval, stiff_norm2, ?_⟩
      rw [hval, stiff_norm2]
      norm_num

/-! ## `initCGsolve` and the complete subspace -/

theorem initCGrestart_frame (C : Collab n D) (b : ColorSpinorField n) (full_tol : ℚ)
    (SL : IncEigCG n D × InitCGLocals n) :
    (IncEigCG.initCGrestart C b full_tol SL).1.param = SL.1.param ∧
    (IncEigCG.initCGrestart C b full_tol SL).1.defl = SL.1.defl ∧
    (IncEigCG.initCGrestart C b full_tol SL).1.eigcg_args = SL.1.eigcg_args ∧
    (IncEigCG.initCGrestart C b full_tol SL).1.Vm = SL.1.Vm ∧
    (IncEigCG.initCGrestart C b full_tol SL).1.max_eigcg_cycles = SL.1.max_eigcg_cycles ∧
    (IncEigCG.initCGrestart C b full_tol SL).2.restart_idx = SL.2.restart_idx + 1 ∧
    (IncEigCG.initCGrestart C b full_tol SL).1.log =
      SL.1.log ++ [Event.deflProject, Event.innerSolve SL.1.Kparam.tol, Event.matApply] := by
  simp [IncEigCG.initCGrestart, IncEigCG.emit]

/-- What holds when the loop of `initCGsolve` is left. -/
theorem initCGloop_spec (C : Collab n D) (b : ColorSpinorField n) (full_tol : ℚ) :
    ∀ (fuel : Nat) (SL SL' : IncEigCG n D × InitCGLocals n),
      IncEigCG.initCGloop C b full_tol fuel SL = .ok SL' →
      SL'.1.param = SL.1.param ∧ SL'.1.defl = SL.1.defl ∧
      SL'.1.eigcg_args = SL.1.eigcg_args ∧ SL'.1.Vm = SL.1.Vm ∧
      SL'.1.max_eigcg_cycles = SL.1.max_eigcg_cycles ∧
      ∃ evs, SL'.1.log = SL.1.log ++ evs ∧ ∀ e ∈ evs, e.inInitCG := by
  intro fuel
  induction fuel with
  | zero =>
    intro SL SL' h
    simp only [IncEigCG.initCGloop] at h
    split at h
    · cases h
    · simp only [pure, Except.pure, Except.ok.injEq] at h
      subst h
      exact ⟨rfl, rfl, rfl, rfl, rfl, [], by simp, by simp⟩
  | succ fuel ih =>
    intro SL SL' h
    simp only [IncEigCG.initCGloop] at h
    split at h
    · obtain ⟨g1, g2, g3, g4, g5, evs, g6, g7⟩ := ih _ SL' h
      obtain ⟨f1, f2, f3, f4, f5, _, f7⟩ := initCGrestart_frame C b full_tol SL
      refine ⟨g1.trans f1, g2.trans f2, g3.trans f3, g4.trans f4, g5.trans f5,
        [Event.deflProject, Event.innerSolve SL.1.Kparam.tol, Event.matApply] ++ evs, ?_, ?_⟩
      · rw [g6, f7, List.append_assoc]
      · intro e he
        rcases List.mem_append.1 he with he | he
        · simp only [List.mem_cons, List.mem_singleton, List.not_mem_nil, or_false] at he
          rcases he with rfl | rfl | rfl
          · exact Or.inl rfl
          · exact Or.inr (Or.inl ⟨_, rfl⟩)
          · exact Or.inr (Or.inr rfl)
        · exact g7 e he
    · simp only [pure, Except.pure, Except.ok.injEq] at h
      subst h
      exact ⟨rfl, rfl, rfl, rfl, rfl, [], by simp, by simp⟩

/-- With fuel for `max_restart_num` restarts the loop of `initCGsolve`
returns. -/
theorem initCGloop_total (C : Collab n D) (b : ColorSpinorField n) (full_tol : ℚ) :
    ∀ (fuel : Nat) (SL : IncEigCG n D × InitCGLocals n),
      (SL.1.param.max_restart_num - SL.2.restart_idx).toNat ≤ fuel →
      ∃ SL', IncEigCG.initCGloop C b full_tol fuel SL = .ok SL' := by
  intro fuel
  induction fuel with
  | zero =>
    intro SL hf
    have hlt : ¬ SL.2.restart_idx < SL.1.param.max_restart_num := by omega
    simp [IncEigCG.initCGloop, hlt, pure, Except.pure]
  | succ fuel ih =>
    intro SL hf
    simp only [IncEigCG.initCGloop]
    split
    · rename_i hc
      simp only [Bool.and_eq_true, decide_eq_true_eq] at hc
      obtain ⟨f1, _, _, _, _, f6, _⟩ := initCGrestart_frame C b full_tol SL
      apply ih
      rw [f1, f6]
      omega
    · exact ⟨SL, rfl⟩

/-- What `initCGsolve` returns and records. -/
theorem initCGsolve_eq_ok (C : Collab n D) (fuel : Nat) (S : IncEigCG n D)
    (x b : ColorSpinorField n) (res : IncEigCG.SolveResult n D)
    (h : IncEigCG.initCGsolve C fuel S x b = .ok res) :
    res.solver.param = S.param ∧ res.solver.defl = S.defl ∧
    res.solver.eigcg_args = S.eigcg_args ∧ res.solver.Vm = S.Vm ∧
    res.solver.max_eigcg_cycles = S.max_eigcg_cycles ∧
    res.iters = res.solver.Kparam.iter ∧
    ∃ evs, res.solver.log = S.log ++ evs ∧ ∀ e ∈ evs, e.inInitCG := by
  unfold IncEigCG.initCGsolve at h
  obtain ⟨SL', h1, h2⟩ := (bind_eq_ok _ _ _).1 h
  simp only [pure, Except.pure, Except.ok.injEq] at h2
  subst h2
  obtain ⟨g1, g2, g3, g4, g5, evs, g6, g7⟩ := initCGloop_spec C b _ fuel _ SL' h1
  exact ⟨g1, g2, g3, g4, g5, by simp, evs, g6, g7⟩

theorem initCGsolve_total (C : Collab n D) (fuel : Nat) (S : IncEigCG n D)
    (x b : ColorSpinorField n) (hfuel : S.param.max_restart_num.toNat ≤ fuel) :
    ∃ res, IncEigCG.initCGsolve C fuel S x b = .ok res := by
  unfold IncEigCG.initCGsolve
  obtain ⟨SL', h⟩ := initCGloop_total C b S.Kparam.tol fuel
    ({ S with Kparam := { S.Kparam with tol := S.Kparam.tol_restart } },
      { x := x, rProj := b, restart_idx := 0 }) (by simpa using hfuel)
  refine ⟨⟨0 + SL'.1.Kparam.iter, SL'.2.x, SL'.1⟩, ?_⟩
  dsimp only at h ⊢
  rw [h]
  rfl

/-- C10 (amended): if the deflation subspace is complete on entry to
`operator()` and no preconditioner `K` is set, then, given fuel for
`max_restart_num` restarts, the call returns what `initCGsolve` returns: the
record of the call holds only events of `initCGsolve` (no eigCG cycle, no
`defl.increment`, no `defl.reduce`), the deflation object and `param.rhs_idx`
are as before, and `param.iter` has grown by exactly the count that
`initCGsolve` returned. -/
theorem IncEigCG.call_complete {n : Nat} {D : Type} (C : Collab n D) (fuel cycles : Nat)
    (S : IncEigCG n D) (out inp : ColorSpinorField n)
    (hc : C.is_complete S.defl = true) (hK : S.K = none)
    (hfuel : S.param.max_restart_num.toNat ≤ fuel) :
    ∃ res S' evs,
      IncEigCG.initCGsolve C fuel
        (if S.param.rhs_idx = 0 then { S with max_eigcg_cycles := S.param.eigcg_max_restarts }
         else S) out inp = .ok res ∧
      IncEigCG.call C fuel cycles S out inp = .ok (S', res.x) ∧
      S'.param.iter = S.param.iter + res.iters ∧
      S'.param.rhs_idx = S.param.rhs_idx ∧ S'.defl = S.defl ∧
      S'.eigcg_args = S.eigcg_args ∧ S'.Vm = S.Vm ∧
      S'.log = S.log ++ evs ∧
      (∀ e ∈ evs, e.inInitCG) ∧
      Event.eigCGcycle ∉ evs ∧ (∀ c, Event.deflIncrement c ∉ evs) ∧
      (∀ t c, Event.deflReduce t c ∉ evs) := by
  have hS0 : ∀ S0 : IncEigCG n D,
      S0 = (if S.param.rhs_idx = 0 then
        { S with max_eigcg_cycles := S.param.eigcg_max_restarts } else S) →
      S0.param = S.param ∧ S0.defl = S.defl ∧ S0.K = S.K ∧ S0.log = S.log ∧
      S0.eigcg_args = S.eigcg_args ∧ S0.Vm = S.Vm := by
    intro S0 h
    subst h
    split <;> exact ⟨rfl, rfl, rfl, rfl, rfl, rfl⟩
  obtain ⟨s1, s2, s3, s4, s5, s6⟩ := hS0 _ rfl
  obtain ⟨res, hres⟩ := initCGsolve_total C fuel
    (if S.param.rhs_idx = 0 then { S with max_eigcg_cycles := S.param.eigcg_max_restarts }
     else S) out inp (by rw [s1]; exact hfuel)
  obtain ⟨r1, r2, r3, r4, _, _, evs, r7, r8⟩ := initCGsolve_eq_ok C fuel _ out inp res hres
  refine ⟨res, { res.solver with
    param := { res.solver.param with iter := res.solver.param.iter + res.iters } }, evs, hres,
    ?_, ?_, ?_, ?_, ?_, ?_, ?_, r8, ?_, ?_, ?_⟩
  · unfold IncEigCG.call
    dsimp only
    rw [s2, hc, s3, hres, hK]
    rfl
  · show res.solver.param.iter + res.iters = _
    rw [r1, s1]
  · show res.solver.param.rhs_idx = _
    rw [r1, s1]
  · exact r2.trans s2
  · exact r3.trans s5
  · exact r4.trans s6
  · show res.solver.log = _
    rw [r7, s4]
  · intro he
    rcases r8 _ he with h | ⟨_, h⟩ | h <;> cases h
  · intro c he
    rcases r8 _ he with h | ⟨_, h⟩ | h <;> cases h
  · intro t c he
    rcases r8 _ he with h | ⟨_, h⟩ | h <;> cases h

/-- Witness for C10 (amended): the fresh test solver on a complete subspace. -/
theorem IncEigCG.call_complete_witness :
    completeCollab.is_complete (demoSolver 3 1 10).defl = true ∧ (demoSolver 3 1 10).K = none ∧
    (demoSolver 3 1 10).param.max_restart_num.toNat ≤ 3 ∧
    ∃ S' x, IncEigCG.call completeCollab 3 1 (demoSolver 3 1 10) blas.zero (demoField 1) =
        .ok (S', x) ∧
      S'.param.rhs_idx = 0 ∧ Event.eigCGcycle ∉ S'.log := by
  obtain ⟨res, S', evs, _, h2, _, h4, _, _, _, h8, _, h10, _⟩ :=
    IncEigCG.call_complete completeCollab 3 1 (demoSolver 3 1 10) blas.zero (demoField 1) rfl rfl
      (by decide)
  refine ⟨rfl, rfl, by decide, S', res.x, h2, h4, ?_⟩
  rw [h8]
  simpa [demoSolver] using h10

/-- Counterexample to C10 as stated: with a complete subspace and a
preconditioner `K` set, `operator()` does not reach `initCGsolve`; it stops
with the fatal error that initCG does not support preconditioning. -/
theorem IncEigCG.call_complete_counterexample :
    completeCollab.is_complete (demoSolver 3 1 10).defl = true ∧
    IncEigCG.call completeCollab 3 1
        { demoSolver 3 1 10 with K := some InnerSolver.CG_precon } blas.zero (demoField 1) =
      .error Fault.initCGPreconditioning :=
  ⟨rfl, rfl⟩

/-! ## The restarts of `initCGsolve` -/

theorem initCGloop_exit (C : Collab n D) (b : ColorSpinorField n) (full_tol : ℚ) (fuel : Nat)
    (SL : IncEigCG n D × InitCGLocals n)
    (h : SL.1.Kparam.tol < full_tol ∨ SL.1.param.max_restart_num ≤ SL.2.restart_idx) :
    IncEigCG.initCGloop C b full_tol fuel SL = .ok SL := by
  have hc : (decide (SL.1.Kparam.tol ≥ full_tol)
      && decide (SL.2.restart_idx < SL.1.param.max_restart_num)) = false := by
    rcases h with h | h
    · simp [not_le.2 h]
    · simp [not_lt.2 h]
  cases fuel <;> simp [IncEigCG.initCGloop, hc, pure, Except.pure]

theorem initCGloop_step (C : Collab n D) (b : ColorSpinorField n) (full_tol : ℚ) (fuel : Nat)
    (SL : IncEigCG n D × InitCGLocals n)
    (h1 : full_tol ≤ SL.1.Kparam.tol) (h2 : SL.2.restart_idx < SL.1.param.max_restart_num) :
    IncEigCG.initCGloop C b full_tol (fuel + 1) SL =
      IncEigCG.initCGloop C b full_tol fuel (IncEigCG.initCGrestart C b full_tol SL) := by
  simp [IncEigCG.initCGloop, h1, h2]

theorem initCGrestart_tol (C : Collab n D) (b : ColorSpinorField n) (full_tol : ℚ)
    (SL : IncEigCG n D × InitCGLocals n) :
    (IncEigCG.initCGrestart C b full_tol SL).1.Kparam.tol =
      (if SL.2.restart_idx + 1 = SL.1.param.max_restart_num - 1 then full_tol
       else SL.1.Kparam.tol * SL.1.param.inc_tol) ∧
    (IncEigCG.initCGrestart C b full_tol SL).1.Kparam.tol_restart = SL.1.Kparam.tol_restart := by
  simp [IncEigCG.initCGrestart, IncEigCG.emit]

/-- The restarts that the loop of `initCGsolve` makes from restart index `j`
on, when the tolerance on entry is the scheduled one. -/
theorem initCGloop_schedule (C : Collab n D) (b : ColorSpinorField n) (tr full_tol : ℚ) :
    ∀ (fuel j : Nat) (SL SL' : IncEigCG n D × InitCGLocals n),
      SL.2.restart_idx = (j : Int) →
      ((j : Int) < SL.1.param.max_restart_num → SL.1.Kparam.tol =
        restartTolerance tr SL.1.param.inc_tol full_tol SL.1.param.max_restart_num (j + 1)) →
      IncEigCG.initCGloop C b full_tol fuel SL = .ok SL' →
      ∃ cnt : Nat,
        SL'.1.log = SL.1.log ++ restartEvents
          (restartTolerance tr SL.1.param.inc_tol full_tol SL.1.param.max_restart_num) j cnt ∧
        SL'.2.restart_idx = ((j + cnt : Nat) : Int) ∧
        (cnt = 0 ∨ ((j + cnt : Nat) : Int) ≤ SL.1.param.max_restart_num) ∧
        (∀ i, i < cnt → full_tol ≤
          restartTolerance tr SL.1.param.inc_tol full_tol SL.1.param.max_restart_num (j + i + 1)) ∧
        (SL.1.param.max_restart_num ≤ ((j + cnt : Nat) : Int) ∨
          restartTolerance tr SL.1.param.inc_tol full_tol SL.1.param.max_restart_num
            (j + cnt + 1) < full_tol) := by
  intro fuel
  induction fuel with
  | zero =>
    intro j SL SL' hj htol h
    by_cases hc : SL.1.Kparam.tol < full_tol ∨ SL.1.param.max_restart_num ≤ SL.2.restart_idx
    · rw [initCGloop_exit C b full_tol 0 SL hc] at h
      cases h
      refine ⟨0, by simp [restartEvents], by simpa using hj, Or.inl rfl, by simp, ?_⟩
      rcases hc with hc | hc
      · by_cases hlt : (j : Int) < SL.1.param.max_restart_num
        · right
          rw [← htol hlt]
          exact hc
        · left
          simpa using not_lt.1 hlt
      · left
        rw [hj] at hc
        simpa using hc
    · simp only [not_or, not_lt, not_le] at hc
      simp [IncEigCG.initCGloop, hc.1, hc.2, throw, throwThe, MonadExceptOf.throw] at h
  | succ fuel ih =>
    intro j SL SL' hj htol h
    by_cases hc : SL.1.Kparam.tol < full_tol ∨ SL.1.param.max_restart_num ≤ SL.2.restart_idx
    · rw [initCGloop_exit C b full_tol _ SL hc] at h
      cases h
      refine ⟨0, by simp [restartEvents], by simpa using hj, Or.inl rfl, by simp, ?_⟩
      rcases hc with hc | hc
      · by_cases hlt : (j : Int) < SL.1.param.max_restart_num
        · right
          rw [← htol hlt]
          exact hc
        · left
          simpa using not_lt.1 hlt
      · left
        rw [hj] at hc
        simpa using hc
    · simp only [not_or, not_lt, not_le] at hc
      obtain ⟨hc1, hc2⟩ := hc
      rw [initCGloop_step C b full_tol fuel SL hc1 hc2] at h
      obtain ⟨f1, _, _, _, _, f6, f7⟩ := initCGrestart_frame C b full_tol SL
      obtain ⟨t1, _⟩ := initCGrestart_tol C b full_tol SL
      have hjN : (j : Int) < SL.1.param.max_restart_num := by rw [← hj]; exact hc2
      have hT := htol hjN
      have hj' : (IncEigCG.initCGrestart C b full_tol SL).2.restart_idx = ((j + 1 : Nat) : Int) := by
        rw [f6, hj]
        push_cast
        rfl
      have htol' : ((j + 1 : Nat) : Int) < (IncEigCG.initCGrestart C b full_tol SL).1.param.max_restart_num →
          (IncEigCG.initCGrestart C b full_tol SL).1.Kparam.tol =
            restartTolerance tr (IncEigCG.initCGrestart C b full_tol SL).1.param.inc_tol full_tol
              (IncEigCG.initCGrestart C b full_tol SL).1.param.max_restart_num (j + 1 + 1) := by
        rw [f1, t1, hj]
        intro hlt
        push_cast at hlt
        by_cases he : (j : Int) + 1 = SL.1.param.max_restart_num - 1
        · rw [if_pos he]
          unfold restartTolerance
          rw [if_pos]
          constructor
          · push_cast
            omega
          · omega
        · rw [if_neg he, hT]
          unfold restartTolerance
          rw [if_neg, if_neg]
          · simp only [Nat.add_sub_cancel]
            rw [pow_succ]
            ring
          · push_cast
            omega
          · push_cast
            omega
      obtain ⟨cnt, g1, g2, g3, g4, g5⟩ := ih (j + 1) _ SL' hj' htol' h
      rw [f1] at g1 g3 g4 g5
      refine ⟨cnt + 1, ?_, ?_, Or.inr ?_, ?_, ?_⟩
      · rw [g1, f7]
        have hk : SL.1.Kparam.tol = restartTolerance tr SL.1.param.inc_tol full_tol
            SL.1.param.max_restart_num (j + 1) := hT
        simp [restartEvents, hk]
      · rw [g2]
        push_cast
        ring
      · rcases g3 with g3 | g3
        · subst g3
          push_cast
          omega
        · have : j + (cnt + 1) = j + 1 + cnt := by ring
          rw [this]
          exact g3
      · intro i hi
        cases i with
        | zero =>
          rw [Nat.add_zero, ← hT]
          exact hc1
        | succ i =>
          have := g4 i (by omega)
          have e : j + (i + 1) + 1 = j + 1 + i + 1 := by ring
          rw [e]
          exact this
      · have e : j + (cnt + 1) = j + 1 + cnt := by ring
        rw [e]
        exact g5

theorem restartEvents_solveTol (tols : Nat → ℚ) :
    ∀ (cnt first : Nat), (restartEvents tols first cnt).filterMap Event.solveTol =
      (List.range cnt).map (fun i => tols (first + i + 1)) := by
  intro cnt
  induction cnt with
  | zero =>
    intro first
    simp [restartEvents]
  | succ cnt ih =>
    intro first
    rw [List.range_succ_eq_map]
    simp only [restartEvents, List.cons_append, List.nil_append, List.filterMap_cons,
      Event.solveTol, ih, List.map_cons, List.map_map, Nat.add_zero]
    congr 1
    apply List.map_congr_left
    intro i _
    simp only [Function.comp]
    congr 1
    omega

theorem restartEvents_count (tols : Nat → ℚ) :
    ∀ (cnt first : Nat),
      (restartEvents tols first cnt).count Event.deflProject = cnt ∧
      ∀ e ∈ restartEvents tols first cnt, e.inInitCG := by
  intro cnt
  induction cnt with
  | zero =>
    intro first
    simp [restartEvents]
  | succ cnt ih =>
    intro first
    obtain ⟨h1, h2⟩ := ih (first + 1)
    constructor
    · simp only [restartEvents, List.cons_append, List.nil_append]
      rw [List.count_cons_self, List.count_cons_of_ne (by simp),
        List.count_cons_of_ne (by simp), h1]
    · intro e he
      simp only [restartEvents, List.cons_append, List.nil_append, List.mem_cons] at he
      rcases he with rfl | rfl | rfl | he
      · exact Or.inl rfl
      · exact Or.inr (Or.inl ⟨_, rfl⟩)
      · exact Or.inr (Or.inr rfl)
      · exact h2 e he

/-- The restarts of a run of `initCGsolve` that returns: their number `cnt`,
the record they leave, and why the loop stopped. -/
theorem initCGsolve_restarts (C : Collab n D) (fuel : Nat) (S : IncEigCG n D)
    (x b : ColorSpinorField n) (res : IncEigCG.SolveResult n D)
    (h : IncEigCG.initCGsolve C fuel S x b = .ok res) :
    ∃ cnt : Nat,
      res.solver.log = S.log ++ restartEvents (restartTolerance S.Kparam.tol_restart
        S.param.inc_tol S.Kparam.tol S.param.max_restart_num) 0 cnt ∧
      (cnt = 0 ∨ (cnt : Int) ≤ S.param.max_restart_num) ∧
      (∀ i, i < cnt → S.Kparam.tol ≤ restartTolerance S.Kparam.tol_restart
        S.param.inc_tol S.Kparam.tol S.param.max_restart_num (i + 1)) ∧
      (S.param.max_restart_num ≤ (cnt : Int) ∨
        restartTolerance S.Kparam.tol_restart S.param.inc_tol S.Kparam.tol
          S.param.max_restart_num (cnt + 1) < S.Kparam.tol) := by
  unfold IncEigCG.initCGsolve at h
  obtain ⟨SL', h1, h2⟩ := (bind_eq_ok _ _ _).1 h
  simp only [pure, Except.pure, Except.ok.injEq] at h2
  subst h2
  obtain ⟨cnt, g1, _, g3, g4, g5⟩ := initCGloop_schedule C b S.Kparam.tol_restart S.Kparam.tol
    fuel 0 _ SL' rfl (by
      intro _
      show S.Kparam.tol_restart = _
      unfold restartTolerance
      rw [if_neg]
      · simp
      · intro hh
        have := hh.1
        have := hh.2
        push_cast at *
        omega) h1
  refine ⟨cnt, g1, ?_, ?_, ?_⟩
  · simpa using g3
  · intro i hi
    simpa using g4 i hi
  · simpa using g5

/-- C15: for every input, with fuel for `max_restart_num` passes `initCGsolve`
returns, and the run has made at most `max_restart_num` deflate-then-CG solves:
as many projections as inner solves, at most `max_restart_num` of them, and
none at all when `max_restart_num <= 0`. -/
theorem IncEigCG.initCGsolve_restart_bound {n : Nat} {D : Type} (C : Collab n D) (fuel : Nat)
    (S : IncEigCG n D) (x b : ColorSpinorField n)
    (hfuel : S.param.max_restart_num.toNat ≤ fuel) :
    ∃ res evs, IncEigCG.initCGsolve C fuel S x b = .ok res ∧
      res.solver.log = S.log ++ evs ∧
      (evs.filterMap Event.solveTol).length ≤ S.param.max_restart_num.toNat ∧
      evs.count Event.deflProject = (evs.filterMap Event.solveTol).length ∧
      (S.param.max_restart_num ≤ 0 → evs = []) := by
  obtain ⟨res, hres⟩ := initCGsolve_total C fuel S x b hfuel
  obtain ⟨cnt, g1, g2, _, _⟩ := initCGsolve_restarts C fuel S x b res hres
  refine ⟨res, _, hres, g1, ?_, ?_, ?_⟩
  · rw [restartEvents_solveTol]
    simp only [List.length_map, List.length_range]
    omega
  · rw [restartEvents_solveTol, (restartEvents_count _ cnt 0).1]
    simp
  · intro hN
    have : cnt = 0 := by omega
    subst this
    rfl

/-- Witness for C15: the test solver on a complete subspace, `max_restart_num = 3`. -/
theorem IncEigCG.initCGsolve_restart_bound_witness :
    (demoSolver 3 1 10).param.max_restart_num.toNat ≤ 3 ∧
    ∃ res evs, IncEigCG.initCGsolve completeCollab 3 (demoSolver 3 1 10) blas.zero (demoField 1) =
        .ok res ∧
      res.solver.log = (demoSolver 3 1 10).log ++ evs ∧
      (evs.filterMap Event.solveTol).length ≤ 3 := by
  obtain ⟨res, evs, h1, h2, h3, _⟩ :=
    IncEigCG.initCGsolve_restart_bound completeCollab 3 (demoSolver 3 1 10) blas.zero
      (demoField 1) (by decide)
  exact ⟨by decide, res, evs, h1, h2, h3⟩
/-- The tolerance schedule that `initCGsolve` follows: in a run that returns,
with `full_tol` the value of `Kparam.tol` on entry and `N = max_restart_num`,
solve number `j` runs
at the scheduled tolerance: `tol_restart * inc_tol^(j-1)` for `j < N` (and for
`j = N = 1`), and `full_tol` for `j = N >= 2`.  The run makes `cnt <= N` solves,
each at a tolerance not below `full_tol`, and stops either after solve `N` or
as soon as the next scheduled tolerance is below `full_tol`; it makes at least
one solve when `tol_restart >= full_tol` and `N >= 1`.  So the last solve runs
at `full_tol` when `cnt = N >= 2`, and otherwise at `tol_restart *
inc_tol^(cnt-1)`. -/
theorem IncEigCG.initCGsolve_schedule {n : Nat} {D : Type} (C : Collab n D) (fuel : Nat)
    (S : IncEigCG n D) (x b : ColorSpinorField n) (res : IncEigCG.SolveResult n D)
    (h : IncEigCG.initCGsolve C fuel S x b = .ok res) :
    ∃ (cnt : Nat) (evs : List Event),
      res.solver.log = S.log ++ evs ∧
      evs.filterMap Event.solveTol = (List.range cnt).map (fun i =>
        restartTolerance S.Kparam.tol_restart S.param.inc_tol S.Kparam.tol
          S.param.max_restart_num (i + 1)) ∧
      (cnt = 0 ∨ (cnt : Int) ≤ S.param.max_restart_num) ∧
      (∀ j, 1 ≤ j → j ≤ cnt → S.Kparam.tol ≤ restartTolerance S.Kparam.tol_restart
        S.param.inc_tol S.Kparam.tol S.param.max_restart_num j) ∧
      (S.param.max_restart_num ≤ (cnt : Int) ∨
        restartTolerance S.Kparam.tol_restart S.param.inc_tol S.Kparam.tol
          S.param.max_restart_num (cnt + 1) < S.Kparam.tol) ∧
      (S.Kparam.tol ≤ S.Kparam.tol_restart → 1 ≤ S.param.max_restart_num → 1 ≤ cnt) ∧
      (∀ j, 1 ≤ j → j ≤ cnt → ((j : Int) < S.param.max_restart_num ∨ S.param.max_restart_num = 1) →
        restartTolerance S.Kparam.tol_restart S.param.inc_tol S.Kparam.tol
          S.param.max_restart_num j = S.Kparam.tol_restart * S.param.inc_tol ^ (j - 1)) ∧
      ((cnt : Int) = S.param.max_restart_num → 2 ≤ S.param.max_restart_num →
        restartTolerance S.Kparam.tol_restart S.param.inc_tol S.Kparam.tol
          S.param.max_restart_num cnt = S.Kparam.tol) := by
  obtain ⟨cnt, g1, g2, g3, g4⟩ := initCGsolve_restarts C fuel S x b res h
  refine ⟨cnt, _, g1, ?_, g2, ?_, g4, ?_, ?_, ?_⟩
  · rw [restartEvents_solveTol]
    apply List.map_congr_left
    intro i _
    simp
  · intro j h1 h2
    have := g3 (j - 1) (by omega)
    rwa [Nat.sub_add_cancel h1] at this
  · intro ht hN
    by_contra hc
    have h0 : cnt = 0 := by omega
    subst h0
    rcases g4 with g4 | g4
    · simp only [Nat.cast_zero] at g4
      omega
    · have e : restartTolerance S.Kparam.tol_restart S.param.inc_tol S.Kparam.tol
          S.param.max_restart_num (0 + 1) = S.Kparam.tol_restart := by
        unfold restartTolerance
        rw [if_neg]
        · simp
        · intro hh
          have := hh.1
          have := hh.2
          push_cast at *
          omega
      rw [e] at g4
      exact absurd ht (not_le.2 g4)
  · intro j h1 _ hj
    unfold restartTolerance
    rw [if_neg]
    intro hh
    have := hh.1
    have := hh.2
    omega
  · intro hc hN
    unfold restartTolerance
    rw [if_pos ⟨hc, hN⟩]

/-- An instance of the schedule: the test solver on a complete subspace. -/
theorem IncEigCG.initCGsolve_schedule_witness :
    ∃ res, IncEigCG.initCGsolve completeCollab 3 (demoSolver 3 1 10) blas.zero (demoField 1) =
        .ok res ∧
      ∃ (cnt : Nat) (evs : List Event), res.solver.log = (demoSolver 3 1 10).log ++ evs ∧
        evs.filterMap Event.solveTol = (List.range cnt).map (fun i =>
          restartTolerance (demoSolver 3 1 10).Kparam.tol_restart (demoSolver 3 1 10).param.inc_tol
            (demoSolver 3 1 10).Kparam.tol (demoSolver 3 1 10).param.max_restart_num (i + 1)) := by
  obtain ⟨res, hres⟩ := initCGsolve_total completeCollab 3 (demoSolver 3 1 10) blas.zero
    (demoField 1) (by decide)
  obtain ⟨cnt, evs, h1, h2, _⟩ :=
    IncEigCG.initCGsolve_schedule completeCollab 3 (demoSolver 3 1 10) blas.zero (demoField 1)
      res hres
  exact ⟨res, hres, cnt, evs, h1, h2⟩

theorem scheduleSolver_tolerance (N : Int) (j : Nat) :
    restartTolerance (scheduleSolver N).Kparam.tol_restart (scheduleSolver N).param.inc_tol
      (scheduleSolver N).Kparam.tol (scheduleSolver N).param.max_restart_num j =
    if (j : Int) = N ∧ 2 ≤ N then 1 / 3 else (1 / 2) ^ (j - 1) := by
  simp [restartTolerance, scheduleSolver, demoSolver, demoParam]

theorem defaultSchedule_tolerance (j : Nat) :
    restartTolerance defaultScheduleSolver.Kparam.tol_restart defaultScheduleSolver.param.inc_tol
      defaultScheduleSolver.Kparam.tol defaultScheduleSolver.param.max_restart_num j =
    if (j : Int) = 3 ∧ (2 : Int) ≤ 3 then 1 / 10000000
    else 5 / 100000 * (1 / 1000) ^ (j - 1) := by
  simp [restartTolerance, defaultScheduleSolver, demoSolver, demoParam]

/-- The run of `initCGsolve` with the full tolerance `1e-7`, the restart
tolerance `5e-5`, the ratio `1e-3` and `max_restart_num = 3` makes one solve,
at `5e-5`. -/
theorem defaultSchedule_run :
    ∃ res, IncEigCG.initCGsolve completeCollab 3 defaultScheduleSolver blas.zero (demoField 1) =
        .ok res ∧
      res.solver.log = [Event.deflProject, Event.innerSolve (5 / 100000), Event.matApply] := by
  obtain ⟨res, hres⟩ := initCGsolve_total completeCollab 3 defaultScheduleSolver blas.zero
    (demoField 1) (by decide)
  obtain ⟨cnt, g1, g2, g3, g4⟩ := initCGsolve_restarts _ _ _ _ _ res hres
  have hN : defaultScheduleSolver.param.max_restart_num = 3 := rfl
  have hT : defaultScheduleSolver.Kparam.tol = 1 / 10000000 := rfl
  simp only [defaultSchedule_tolerance] at g1 g3 g4
  rw [hN] at g2 g4
  rw [hT] at g3 g4
  have hle : cnt ≤ 1 := by
    by_contra hc
    have := g3 1 (by omega)
    norm_num at this
  have hge : 1 ≤ cnt := by
    rcases g4 with g4 | g4
    · omega
    · by_contra hc
      have h0 : cnt = 0 := by omega
      subst h0
      norm_num at g4
  have h1 : cnt = 1 := by omega
  subst h1
  refine ⟨res, hres, ?_⟩
  rw [g1]
  simp only [restartEvents]
  norm_num [defaultScheduleSolver, demoSolver, demoParam, restartTolerance]

/-- C16 (the code at the failing inputs): with full tolerance `1/3`, restart
tolerance `1`, ratio `1/2` and `max_restart_num = 4` the run makes two solves,
at the tolerances `1` and `1/2`, and returns because the next scheduled
tolerance `1/4` is below `1/3`: the loop test `Kparam.tol >= full_tol` ends
the run before the restart `max_restart_num - 1` that sets `Kparam.tol` to the
full tolerance, so no solve has run at it.  With `max_restart_num = 1` the
only solve runs at `1`.  With full tolerance `1e-7`, restart tolerance `5e-5`,
ratio `1e-3` and `max_restart_num = 3` the only solve runs at `5e-5`. -/
theorem IncEigCG.initCGsolve_schedule_underconverged :
    (0 : ℚ) < (scheduleSolver 4).Kparam.tol ∧
    (scheduleSolver 4).Kparam.tol ≤ (scheduleSolver 4).Kparam.tol_restart ∧
    0 < (scheduleSolver 4).param.inc_tol ∧ (scheduleSolver 4).param.inc_tol < 1 ∧
    (scheduleSolver 4).Kparam.tol = 1 / 3 ∧
    (∃ res, IncEigCG.initCGsolve completeCollab 4 (scheduleSolver 4) blas.zero (demoField 1) =
        .ok res ∧
      res.solver.log = [Event.deflProject, Event.innerSolve 1, Event.matApply,
        Event.deflProject, Event.innerSolve (1 / 2), Event.matApply]) ∧
    (∃ res, IncEigCG.initCGsolve completeCollab 4 (scheduleSolver 1) blas.zero (demoField 1) =
        .ok res ∧
      res.solver.log = [Event.deflProject, Event.innerSolve 1, Event.matApply]) ∧
    (∃ res, IncEigCG.initCGsolve completeCollab 3 defaultScheduleSolver blas.zero (demoField 1) =
        .ok res ∧
      res.solver.log = [Event.deflProject, Event.innerSolve (5 / 100000), Event.matApply]) := by
  refine ⟨?_, ?_, ?_, ?_, rfl, ?_, ?_, defaultSchedule_run⟩
  · simp [scheduleSolver, demoParam]
  · simp [scheduleSolver, demoParam]
    norm_num
  · simp [scheduleSolver, demoParam]
  · simp [scheduleSolver, demoParam]
    norm_num
  · obtain ⟨res, hres⟩ := initCGsolve_total completeCollab 4 (scheduleSolver 4) blas.zero
      (demoField 1) (by decide)
    obtain ⟨cnt, g1, g2, g3, g4⟩ := initCGsolve_restarts _ _ _ _ _ res hres
    have hN : (scheduleSolver 4).param.max_restart_num = 4 := rfl
    have hT : (scheduleSolver 4).Kparam.tol = 1 / 3 := rfl
    simp only [scheduleSolver_tolerance] at g1 g3 g4
    rw [hN] at g2 g4
    rw [hT] at g3 g4
    have hle : cnt ≤ 2 := by
      by_contra hc
      have := g3 2 (by omega)
      norm_num at this
    have hge : 2 ≤ cnt := by
      rcases g4 with g4 | g4
      · omega
      · by_contra hc
        have h01 : cnt = 0 ∨ cnt = 1 := by omega
        rcases h01 with rfl | rfl <;> norm_num at g4
    have h2 : cnt = 2 := by omega
    subst h2
    refine ⟨res, hres, ?_⟩
    rw [g1]
    simp only [restartEvents]
    norm_num [scheduleSolver, demoSolver, demoParam, restartTolerance]
  · obtain ⟨res, hres⟩ := initCGsolve_total completeCollab 4 (scheduleSolver 1) blas.zero
      (demoField 1) (by decide)
    obtain ⟨cnt, g1, g2, g3, g4⟩ := initCGsolve_restarts _ _ _ _ _ res hres
    have hN : (scheduleSolver 1).param.max_restart_num = 1 := rfl
    have hT : (scheduleSolver 1).Kparam.tol = 1 / 3 := rfl
    simp only [scheduleSolver_tolerance] at g1 g3 g4
    rw [hN] at g2 g4
    rw [hT] at g3 g4
    have hle : cnt ≤ 1 := by omega
    have hge : 1 ≤ cnt := by
      rcases g4 with g4 | g4
      · omega
      · by_contra hc
        have h0 : cnt = 0 := by omega
        subst h0
        norm_num at g4
    have h1 : cnt = 1 := by omega
    subst h1
    refine ⟨res, hres, ?_⟩
    rw [g1]
    simp only [restartEvents]
    norm_num [scheduleSolver, demoSolver, demoParam, restartTolerance]

/-! ## The constructor and the choice of the eigensolver -/

theorem constructK_unknown (t : QudaInverterType)
    (hcg : t ≠ QudaInverterType.QUDA_CG_INVERTER) (hmr : t ≠ QudaInverterType.QUDA_MR_INVERTER)
    (hsd : t ≠ QudaInverterType.QUDA_SD_INVERTER)
    (hinv : t ≠ QudaInverterType.QUDA_INVALID_INVERTER) :
    IncEigCG.constructK t = .error Fault.unknownInnerSolver := by
  simp [IncEigCG.constructK, hcg, hmr, hsd, hinv, throw, throwThe, MonadExceptOf.throw]

/-- C17 (amended): for a preconditioner type that is none of CG, MR, SD and
'invalid', the constructor raises a fatal error whenever `param.rhs_idx <
param.deflation_grid`: the unknown-inner-solver error, or, for the incremental
solver type, the error that preconditioning is not supported.  When
`param.rhs_idx >= param.deflation_grid` the constructor returns without
looking at the preconditioner type: no error is raised and `K` stays unset. -/
theorem IncEigCG.new_unknown_preconditioner {D : Type} (n : Nat) (param : SolverParam)
    (defl : D) (cycles : Int)
    (hcg : param.inv_type_precondition ≠ QudaInverterType.QUDA_CG_INVERTER)
    (hmr : param.inv_type_precondition ≠ QudaInverterType.QUDA_MR_INVERTER)
    (hsd : param.inv_type_precondition ≠ QudaInverterType.QUDA_SD_INVERTER)
    (hinv : param.inv_type_precondition ≠ QudaInverterType.QUDA_INVALID_INVERTER) :
    (param.rhs_idx < param.deflation_grid →
      IncEigCG.new n param defl cycles =
        .error (if param.inv_type = QudaInverterType.QUDA_INC_EIGCG_INVERTER then
          Fault.preconditionedIncremental else Fault.unknownInnerSolver)) ∧
    (param.deflation_grid ≤ param.rhs_idx →
      ∃ S, IncEigCG.new n param defl cycles = .ok S ∧ S.K = none ∧
        S.log = [Event.printf Message.deflationComplete]) := by
  constructor
  · intro hlt
    unfold IncEigCG.new
    simp only [hlt, if_true]
    rw [constructK_unknown _ hcg hmr hsd hinv]
    by_cases h1 : param.inv_type = QudaInverterType.QUDA_EIGCG_INVERTER
    · have h2 : param.inv_type ≠ QudaInverterType.QUDA_INC_EIGCG_INVERTER := by
        rw [h1]
        exact fun h => nomatch h
      simp [IncEigCG.constructKparam, h1, bind, Except.bind, pure, Except.pure]
    · by_cases h2 : param.inv_type = QudaInverterType.QUDA_INC_EIGCG_INVERTER
      · simp [IncEigCG.constructKparam, h2, hinv, bind, Except.bind, throw, throwThe,
          MonadExceptOf.throw]
      · simp [IncEigCG.constructKparam, h1, h2, bind, Except.bind, pure, Except.pure]
  · intro hge
    unfold IncEigCG.new
    simp only [not_lt.2 hge, if_false]
    exact ⟨_, rfl, rfl, rfl⟩

/-- Witness for C17 (amended): the test parameters with the preconditioner
type of numeric code 7. -/
theorem IncEigCG.new_unknown_preconditioner_witness :
    IncEigCG.new 1 { demoParam 3 1 10 with inv_type_precondition := QudaInverterType.other 7 }
      () 4 = .error Fault.unknownInnerSolver :=
  (IncEigCG.new_unknown_preconditioner 1
    { demoParam 3 1 10 with inv_type_precondition := QudaInverterType.other 7 } () 4
    (fun h => nomatch h) (fun h => nomatch h) (fun h => nomatch h) (fun h => nomatch h)).1
    (by decide)

/-- Counterexample to C17 as stated: with `rhs_idx = deflation_grid = 4` the
constructor accepts the preconditioner type of numeric code 7 and returns a
solver. -/
theorem IncEigCG.new_unknown_preconditioner_counterexample :
    ∃ S : IncEigCG 1 Unit,
      IncEigCG.new 1 { demoParam 3 1 10 with
        inv_type_precondition := QudaInverterType.other 7, rhs_idx := 4 } () 4 = .ok S ∧
      S.K = none :=
  ⟨_, rfl, rfl⟩

/-! ## Which faults the restart can raise -/

theorem bind_error_of {α β : Type} (P : Fault → Prop) (x : Except Fault α)
    (f : α → Except Fault β) (hx : ∀ e, x = .error e → P e)
    (hf : ∀ a, x = .ok a → ∀ e, f a = .error e → P e) :
    ∀ e, (x >>= f) = .error e → P e := by
  intro e h
  cases x with
  | error e' =>
    apply hx
    cases h
    rfl
  | ok a => exact hf a rfl e h

theorem deref_fault {α : Type} (o : Option α) : ∀ e, deref o = .error e → e.isAccess := by
  intro e h
  cases o with
  | none =>
    cases h
    exact Or.inr rfl
  | some a => cases h

theorem inRange_fault (c : Prop) [Decidable c] : ∀ e, inRange c = .error e → e.isAccess := by
  intro e h
  unfold inRange at h
  split at h
  · cases h
  · cases h
    exact Or.inl rfl

theorem setCoeff_fault (rows cols : Nat) (M : DenseMatrix) (i j : Nat) (v : Cplx) :
    ∀ e, setCoeff rows cols M i j v = .error e → e.isAccess := by
  intro e h
  unfold setCoeff at h
  split at h
  · cases h
  · cases h
    exact Or.inl rfl

theorem setBlock_fault (rows cols : Nat) (M : DenseMatrix) (r0 c0 h w : Nat) (B : DenseMatrix) :
    ∀ e, setBlock rows cols M r0 c0 h w B = .error e → e.isAccess := by
  intro e h
  unfold setBlock at h
  split at h
  · cases h
  · cases h
    exact Or.inl rfl

theorem setColSegment_fault (rows cols : Nat) (M : DenseMatrix) (c len : Nat) (s : Nat → Cplx) :
    ∀ e, setColSegment rows cols M c len s = .error e → e.isAccess := by
  intro e h
  unfold setColSegment at h
  split at h
  · cases h
  · cases h
    exact Or.inl rfl

theorem setRowSegment_fault (rows cols : Nat) (M : DenseMatrix) (r len : Nat) (s : Nat → Cplx) :
    ∀ e, setRowSegment rows cols M r len s = .error e → e.isAccess := by
  intro e h
  unfold setRowSegment at h
  split at h
  · cases h
  · cases h
    exact Or.inl rfl

theorem setComponent_fault (V : ColorSpinorFieldSet n) (i : Nat) (v : ColorSpinorField n) :
    ∀ e, V.setComponent i v = .error e → e.isAccess := by
  intro e h
  unfold ColorSpinorFieldSet.setComponent at h
  split at h
  · cases h
  · cases h
    exact Or.inl rfl

theorem Component_fault (V : ColorSpinorFieldSet n) (i : Nat) :
    ∀ e, V.Component i = .error e → e.isAccess := by
  intro e h
  unfold ColorSpinorFieldSet.Component at h
  split at h
  · cases h
  · cases h
    exact Or.inl rfl

theorem pure_fault {α : Type} (a : α) (P : Fault → Prop) :
    ∀ e, (pure a : Except Fault α) = .error e → P e :=
  fun _ h => nomatch h

theorem ritzProjection_fault (C : Collab n D) (a : EigCGArgs n) :
    ∀ e, ritzProjection C a = .error e → e.isAccess := by
  unfold ritzProjection
  refine bind_error_of _ _ _ (inRange_fault _) (fun _ _ => ?_)
  refine bind_error_of _ _ _ (setBlock_fault _ _ _ _ _ _ _ _) (fun _ _ => ?_)
  exact pure_fault _ _

theorem ComputeRitz_eigen_fault (C : Collab n D) (a : EigCGArgs n) :
    ∀ e, ComputeRitz_eigen_lib C a = .error e → e.isAccess := by
  unfold ComputeRitz_eigen_lib
  refine bind_error_of _ _ _ (setBlock_fault _ _ _ _ _ _ _ _) (fun _ _ => ?_)
  refine bind_error_of _ _ _ (inRange_fault _) (fun _ _ => ?_)
  refine bind_error_of _ _ _ (setBlock_fault _ _ _ _ _ _ _ _) (fun _ _ => ?_)
  refine bind_error_of _ _ _ (setBlock_fault _ _ _ _ _ _ _ _) (fun _ _ => ?_)
  exact ritzProjection_fault C _

theorem loadRitzValues_fault (m : Nat) (vals : RealVector) :
    ∀ (c : Nat) (T : DenseMatrix) (e : Fault),
      EigCGArgs.loadRitzValues m vals c T = .error e → e.isAccess := by
  intro c
  induction c with
  | zero =>
    intro T e h
    cases h
  | succ c ih =>
    intro T
    simp only [EigCGArgs.loadRitzValues]
    exact bind_error_of _ _ _ (ih T) (fun _ _ => setCoeff_fault _ _ _ _ _ _)

theorem RestartLanczos_fault (a : EigCGArgs n) (w : ColorSpinorField n)
    (v : Nat → ColorSpinorField n) (c : ℚ) :
    ∀ e, a.RestartLanczos w v c = .error e → e.isAccess := by
  unfold EigCGArgs.RestartLanczos
  refine bind_error_of _ _ _ (loadRitzValues_fault _ _ _ _) (fun _ _ => ?_)
  refine bind_error_of _ _ _ (setColSegment_fault _ _ _ _ _ _) (fun _ _ => ?_)
  refine bind_error_of _ _ _ (setRowSegment_fault _ _ _ _ _ _) (fun _ _ => ?_)
  exact pure_fault _ _

/-- With the portable library selected, `RestartVT` fails only through an
access. -/
theorem RestartVT_eigen_fault (C : Collab n D) (S : IncEigCG n D) (beta rho : ℚ)
    (ht : S.param.extlib_type = QudaExtLibType.QUDA_EIGEN_EXTLIB) :
    ∀ e, IncEigCG.RestartVT C S beta rho = .error e → e.isAccess := by
  unfold IncEigCG.RestartVT
  refine bind_error_of _ _ _ (deref_fault _) (fun _ _ => ?_)
  refine bind_error_of _ _ _ ?_ (fun _ _ => ?_)
  · rw [ht]
    simp only [IncEigCG.selectRitz, ComputeRitz]
    exact bind_error_of _ _ _ (ComputeRitz_eigen_fault C _) (fun _ _ => pure_fault _ _)
  refine bind_error_of _ _ _ (deref_fault _) (fun _ _ => ?_)
  refine bind_error_of _ _ _ (deref_fault _) (fun _ _ => ?_)
  refine bind_error_of _ _ _ (inRange_fault _) (fun _ _ => ?_)
  refine bind_error_of _ _ _ (inRange_fault _) (fun _ _ => ?_)
  refine bind_error_of _ _ _ (inRange_fault _) (fun _ _ => ?_)
  refine bind_error_of _ _ _ (deref_fault _) (fun _ _ => ?_)
  refine bind_error_of _ _ _ (deref_fault _) (fun _ _ => ?_)
  refine bind_error_of _ _ _ (inRange_fault _) (fun _ _ => ?_)
  refine bind_error_of _ _ _ (setComponent_fault _ _ _) (fun _ _ => ?_)
  refine bind_error_of _ _ _ (Component_fault _ _) (fun _ _ => ?_)
  refine bind_error_of _ _ _ (RestartLanczos_fault _ _ _ _) (fun _ _ => ?_)
  exact pure_fault _ _

theorem constructKparam_extlib (param : SolverParam) (lib : QudaExtLibType) :
    IncEigCG.constructKparam { param with extlib_type := lib } =
      match IncEigCG.constructKparam param with
      | .error f => .error f
      | .ok k => .ok { k with extlib_type := lib } := by
  cases param
  simp only [IncEigCG.constructKparam]
  split_ifs <;> rfl

/-- The constructor reads `param.extlib_type` nowhere: changing it changes the
result only in the two copies of the parameters. -/
theorem new_extlib {D : Type} (n : Nat) (param : SolverParam) (defl : D) (cycles : Int)
    (lib : QudaExtLibType) :
    IncEigCG.new n { param with extlib_type := lib } defl cycles =
      match IncEigCG.new n param defl cycles with
      | .error f => .error f
      | .ok S => .ok { S with param := { S.param with extlib_type := lib },
                              Kparam := { S.Kparam with extlib_type := lib } } := by
  unfold IncEigCG.new
  by_cases hlt : param.rhs_idx < param.deflation_grid
  · simp only [hlt, if_true]
    rw [constructKparam_extlib]
    cases IncEigCG.constructKparam param with
    | error f => rfl
    | ok k =>
      cases hK : IncEigCG.constructK param.inv_type_precondition with
      | error f =>
        simp only [bind, Except.bind, hK]
      | ok K =>
        simp only [bind, Except.bind, hK]
        rfl
  · simp only [hlt, if_false]
    rfl

/-- The method `RestartVT` is the library dispatch followed by `restartTail`. -/
theorem RestartVT_eq_tail (C : Collab n D) (S : IncEigCG n D) (beta rho : ℚ) :
    IncEigCG.RestartVT C S beta rho =
      (deref S.eigcg_args >>= fun args =>
        IncEigCG.selectRitz C S.param.extlib_type args >>= fun al =>
          IncEigCG.restartTail S al beta rho) := rfl

/-- What `restartTail` returns. -/
theorem restartTail_eq_ok (S S' : IncEigCG n D) (al : EigCGArgs n × libtype)
    (beta rho : ℚ) (h : IncEigCG.restartTail S al beta rho = .ok S') :
    ∃ a', S'.eigcg_args = some a' ∧ a'.ritzVecs = al.1.ritzVecs ∧ a'.Tmvals = al.1.Tmvals ∧
      a'.H2k = al.1.H2k ∧ S'.log = S.log ++ [Event.restartVT, Event.computeRitz al.2] := by
  unfold IncEigCG.restartTail at h
  obtain ⟨V, _, h⟩ := (bind_eq_ok _ _ _).1 h
  obtain ⟨Vm, _, h⟩ := (bind_eq_ok _ _ _).1 h
  obtain ⟨_, _, h⟩ := (bind_eq_ok _ _ _).1 h
  obtain ⟨_, _, h⟩ := (bind_eq_ok _ _ _).1 h
  obtain ⟨_, _, h⟩ := (bind_eq_ok _ _ _).1 h
  obtain ⟨Ap, _, h⟩ := (bind_eq_ok _ _ _).1 h
  obtain ⟨Az, _, h⟩ := (bind_eq_ok _ _ _).1 h
  obtain ⟨_, _, h⟩ := (bind_eq_ok _ _ _).1 h
  obtain ⟨Vm1, _, h⟩ := (bind_eq_ok _ _ _).1 h
  obtain ⟨omega, _, h⟩ := (bind_eq_ok _ _ _).1 h
  obtain ⟨a1, r1, h⟩ := (bind_eq_ok _ _ _).1 h
  simp only [pure, Except.pure, Except.ok.injEq] at h
  subst h
  obtain ⟨_, e⟩ := (EigCGArgs.RestartLanczos_eq_ok _ a1 _ _ _).1 r1
  refine ⟨_, rfl, ?_, ?_, ?_, ?_⟩
  · rw [e]
  · rw [e]
  · rw [e]
  · simp [IncEigCG.emit]

/-- On a state with room for the restart, `restartTail` returns. -/
theorem restartTail_total (S : IncEigCG n D) (al : EigCGArgs n × libtype)
    (beta rho : ℚ) (V Vm : ColorSpinorFieldSet n) (Ap Az : ColorSpinorField n)
    (hk : 2 * al.1.k < al.1.m) (hV : al.1.V2k = some V) (hVd : 2 * al.1.k ≤ V.composite_dim)
    (hVm : S.Vm = some Vm) (hVmd : al.1.m ≤ Vm.composite_dim)
    (hAp : S.Ap = some Ap) (hAz : S.Az = some Az) :
    ∃ S', IncEigCG.restartTail S al beta rho = .ok S' := by
  unfold IncEigCG.restartTail
  have e1 : ((S.emit Event.restartVT).emit (Event.computeRitz al.2)).Vm = some Vm := hVm
  have e2 : ((S.emit Event.restartVT).emit (Event.computeRitz al.2)).Ap = some Ap := hAp
  have e3 : ((S.emit Event.restartVT).emit (Event.computeRitz al.2)).Az = some Az := hAz
  simp only [hV, e1, e2, e3, deref, bind, Except.bind, pure, Except.pure]
  rw [inRange_ok (by omega), inRange_ok (by omega)]
  simp only
  rw [inRange_ok (by simpa using hVd)]
  simp only
  rw [inRange_ok (by omega)]
  simp only
  rw [(setComponent_eq_ok _ _ _ _).2 ⟨by simp only; omega, rfl⟩]
  simp only
  rw [(Component_eq_ok _ _ _).2 ⟨by simp only; omega, rfl⟩]
  simp only
  rw [(EigCGArgs.RestartLanczos_eq_ok _ _ _ _ _).2 ⟨hk, rfl⟩]
  exact ⟨_, rfl⟩

/-- When the dispatch of `RestartVT` picks the specialisation `lib` of
`ComputeRitz`, then `RestartVT` is that extraction followed by `restartTail`;
what it returns holds the Ritz vectors, Ritz values and `H2k` of that
extraction, whose run it has recorded; and it returns whenever the extraction
does and the state has room for the restart. -/
theorem RestartVT_runs (C : Collab n D) (S : IncEigCG n D) (args : EigCGArgs n)
    (lib : libtype) (beta rho : ℚ) (ha : S.eigcg_args = some args)
    (hsel : IncEigCG.selectRitz C S.param.extlib_type args =
      (ComputeRitz C lib args >>= fun a => pure (a, lib))) :
    IncEigCG.RestartVT C S beta rho =
      (ComputeRitz C lib args >>= fun a => IncEigCG.restartTail S (a, lib) beta rho) ∧
    (∀ S', IncEigCG.RestartVT C S beta rho = .ok S' →
      ∃ a1 a', ComputeRitz C lib args = .ok a1 ∧ S'.eigcg_args = some a' ∧
        a'.ritzVecs = a1.ritzVecs ∧ a'.Tmvals = a1.Tmvals ∧ a'.H2k = a1.H2k ∧
        S'.log = S.log ++ [Event.restartVT, Event.computeRitz lib]) ∧
    (∀ (a1 : EigCGArgs n) (V Vm : ColorSpinorFieldSet n) (Ap Az : ColorSpinorField n),
      ComputeRitz C lib args = .ok a1 →
      2 * args.k < args.m → args.V2k = some V → 2 * args.k ≤ V.composite_dim →
      S.Vm = some Vm → args.m ≤ Vm.composite_dim → S.Ap = some Ap → S.Az = some Az →
      ∃ S', IncEigCG.RestartVT C S beta rho = .ok S') := by
  have key : IncEigCG.RestartVT C S beta rho =
      (ComputeRitz C lib args >>= fun a => IncEigCG.restartTail S (a, lib) beta rho) := by
    rw [RestartVT_eq_tail, ha]
    simp only [deref, bind, Except.bind, pure, Except.pure, hsel]
    cases ComputeRitz C lib args <;> rfl
  refine ⟨key, ?_, ?_⟩
  · intro S' h
    rw [key] at h
    obtain ⟨a1, h1, h2⟩ := (bind_eq_ok _ _ _).1 h
    obtain ⟨a', e1, e2, e3, e4, e5⟩ := restartTail_eq_ok S S' (a1, lib) beta rho h2
    exact ⟨a1, a', h1, e1, e2, e3, e4, e5⟩
  · intro a1 V Vm Ap Az h1 hk hV hVd hVm hVmd hAp hAz
    obtain ⟨f1, _, f3⟩ := ComputeRitz_eq_ok C lib args a1 h1
    rw [key, h1]
    refine restartTail_total S (a1, lib) beta rho V Vm Ap Az ?_ ?_ ?_ hVm ?_ hAp hAz
    · show 2 * a1.k < a1.m
      rw [f1.1, f1.2.1]
      exact hk
    · show a1.V2k = some V
      rw [f3, hV]
    · show 2 * a1.k ≤ V.composite_dim
      rw [f1.2.1]
      exact hVd
    · show a1.m ≤ Vm.composite_dim
      rw [f1.1]
      exact hVmd

/-- C18: the failures of the constructor do not depend on `param.extlib_type`.
The dispatch of `RestartVT` runs the MAGMA `ComputeRitz` for
`QUDA_MAGMA_EXTLIB`, the Eigen one for `QUDA_EIGEN_EXTLIB`, and raises the
unsupported-library error for any other type.  In a build without MAGMA,
`RestartVT` with `QUDA_MAGMA_EXTLIB` raises the not-built error, and with
`QUDA_EIGEN_EXTLIB` it can only fail through an access, never with a library
error.  For `QUDA_MAGMA_EXTLIB`, `RestartVT` is the MAGMA `ComputeRitz`
followed by the restart of the basis and of the matrix: what it returns holds
the Ritz vectors, Ritz values and `H2k` of the MAGMA extraction and records
its run, and on a build with MAGMA it returns on every state with room for
the restart; for `QUDA_EIGEN_EXTLIB` the same holds with the Eigen
`ComputeRitz`, on every build. -/
theorem IncEigCG.backend_selection {n : Nat} {D : Type} (C : Collab n D) (S : IncEigCG n D)
    (param : SolverParam) (defl : D) (cycles : Int) (lib : QudaExtLibType)
    (args : EigCGArgs n) (beta rho : ℚ) :
    (∀ f, IncEigCG.new n { param with extlib_type := lib } defl cycles = .error f ↔
      IncEigCG.new n param defl cycles = .error f) ∧
    IncEigCG.selectRitz C QudaExtLibType.QUDA_MAGMA_EXTLIB args =
      (ComputeRitz_magma_lib C args >>= fun a => pure (a, libtype.magma_lib)) ∧
    IncEigCG.selectRitz C QudaExtLibType.QUDA_EIGEN_EXTLIB args =
      (ComputeRitz_eigen_lib C args >>= fun a => pure (a, libtype.eigen_lib)) ∧
    IncEigCG.selectRitz C QudaExtLibType.QUDA_EXTLIB_INVALID args = .error Fault.unknownLibrary ∧
    (S.eigcg_args = some args → S.param.extlib_type = QudaExtLibType.QUDA_EXTLIB_INVALID →
      IncEigCG.RestartVT C S beta rho = .error Fault.unknownLibrary) ∧
    (C.MAGMA_LIB = false → S.eigcg_args = some args →
      S.param.extlib_type = QudaExtLibType.QUDA_MAGMA_EXTLIB →
      IncEigCG.RestartVT C S beta rho = .error Fault.magmaNotBuilt) ∧
    (S.param.extlib_type = QudaExtLibType.QUDA_EIGEN_EXTLIB →
      IncEigCG.RestartVT C S beta rho ≠ .error Fault.magmaNotBuilt ∧
      IncEigCG.RestartVT C S beta rho ≠ .error Fault.unknownLibrary) ∧
    (S.eigcg_args = some args → S.param.extlib_type = QudaExtLibType.QUDA_MAGMA_EXTLIB →
      IncEigCG.RestartVT C S beta rho =
        (ComputeRitz_magma_lib C args >>= fun a =>
          IncEigCG.restartTail S (a, libtype.magma_lib) beta rho) ∧
      (∀ S', IncEigCG.RestartVT C S beta rho = .ok S' →
        ∃ a1 a', ComputeRitz_magma_lib C args = .ok a1 ∧ S'.eigcg_args = some a' ∧
          a'.ritzVecs = a1.ritzVecs ∧ a'.Tmvals = a1.Tmvals ∧ a'.H2k = a1.H2k ∧
          S'.log = S.log ++ [Event.restartVT, Event.computeRitz libtype.magma_lib]) ∧
      (C.MAGMA_LIB = true →
        ∀ (V Vm : ColorSpinorFieldSet n) (Ap Az : ColorSpinorField n),
          2 * args.k < args.m → args.V2k = some V → 2 * args.k ≤ V.composite_dim →
          S.Vm = some Vm → args.m ≤ Vm.composite_dim → S.Ap = some Ap → S.Az = some Az →
          ∃ S', IncEigCG.RestartVT C S beta rho = .ok S')) ∧
    (S.eigcg_args = some args → S.param.extlib_type = QudaExtLibType.QUDA_EIGEN_EXTLIB →
      IncEigCG.RestartVT C S beta rho =
        (ComputeRitz_eigen_lib C args >>= fun a =>
          IncEigCG.restartTail S (a, libtype.eigen_lib) beta rho) ∧
      (∀ S', IncEigCG.RestartVT C S beta rho = .ok S' →
        ∃ a1 a', ComputeRitz_eigen_lib C args = .ok a1 ∧ S'.eigcg_args = some a' ∧
          a'.ritzVecs = a1.ritzVecs ∧ a'.Tmvals = a1.Tmvals ∧ a'.H2k = a1.H2k ∧
          S'.log = S.log ++ [Event.restartVT, Event.computeRitz libtype.eigen_lib]) ∧
      (∀ (V Vm : ColorSpinorFieldSet n) (Ap Az : ColorSpinorField n),
          2 * args.k < args.m → args.V2k = some V → 2 * args.k ≤ V.composite_dim →
          S.Vm = some Vm → args.m ≤ Vm.composite_dim → S.Ap = some Ap → S.Az = some Az →
          ∃ S', IncEigCG.RestartVT C S beta rho = .ok S')) := by
  refine ⟨?_, rfl, rfl, rfl, ?_, ?_, ?_, ?_, ?_⟩
  · intro f
    rw [new_extlib]
    cases IncEigCG.new n param defl cycles with
    | error e => exact Iff.rfl
    | ok S0 => exact ⟨fun h => (nomatch h), fun h => (nomatch h)⟩
  · intro ha ht
    unfold IncEigCG.RestartVT
    rw [ha, ht]
    rfl
  · intro hb ha ht
    unfold IncEigCG.RestartVT
    rw [ha, ht]
    simp only [deref, IncEigCG.selectRitz, ComputeRitz_magma_unbuilt C args hb, bind, Except.bind,
      pure, Except.pure]
  · intro ht
    constructor
    · intro h
      rcases RestartVT_eigen_fault C S beta rho ht _ h with h | h <;> cases h
    · intro h
      rcases RestartVT_eigen_fault C S beta rho ht _ h with h | h <;> cases h
  · intro ha ht
    obtain ⟨k1, k2, k3⟩ := RestartVT_runs C S args libtype.magma_lib beta rho ha (by rw [ht]; rfl)
    refine ⟨k1, k2, fun hb V Vm Ap Az hk hV hVd hVm hVmd hAp hAz => ?_⟩
    obtain ⟨a1, h1⟩ := ComputeRitz_magma_total C args hk hb
    exact k3 a1 V Vm Ap Az h1 hk hV hVd hVm hVmd hAp hAz
  · intro ha ht
    obtain ⟨k1, k2, k3⟩ := RestartVT_runs C S args libtype.eigen_lib beta rho ha (by rw [ht]; rfl)
    refine ⟨k1, k2, fun V Vm Ap Az hk hV hVd hVm hVmd hAp hAz => ?_⟩
    obtain ⟨a1, h1⟩ := ComputeRitz_eigen_total C args hk
    exact k3 a1 V Vm Ap Az h1 hk hV hVd hVm hVmd hAp hAz

/-- Witness for C18: the full test solver asked for the MAGMA library at its
first restart.  Built without MAGMA, `RestartVT` raises the not-built error;
built with MAGMA, it returns with the Ritz vectors of the MAGMA extraction and
the record of its run. -/
theorem IncEigCG.backend_selection_witness :
    (demoCollab.MAGMA_LIB = false ∧
      IncEigCG.RestartVT demoCollab demoMagmaState 0 1 = .error Fault.magmaNotBuilt) ∧
    (magmaCollab.MAGMA_LIB = true ∧
      ∃ S' a1 a', IncEigCG.RestartVT magmaCollab demoMagmaState 0 1 = .ok S' ∧
        ComputeRitz_magma_lib magmaCollab
          { (EigCGArgs.new 1 3 1).ResetAccumBuffer with global_stop := 1 / 4, id := 3 } = .ok a1 ∧
        S'.eigcg_args = some a' ∧ a'.ritzVecs = a1.ritzVecs ∧ a'.Tmvals = a1.Tmvals ∧
        S'.log = [Event.matSloppyApply, Event.restartVT, Event.computeRitz libtype.magma_lib]) := by
  refine ⟨⟨rfl, (IncEigCG.backend_selection demoCollab demoMagmaState (demoParam 3 1 10) () 4
    QudaExtLibType.QUDA_MAGMA_EXTLIB
    { (EigCGArgs.new 1 3 1).ResetAccumBuffer with global_stop := 1 / 4, id := 3 } 0 1).2.2.2.2.2.1
    rfl rfl rfl⟩, rfl, ?_⟩
  obtain ⟨_, k2, k3⟩ := (IncEigCG.backend_selection magmaCollab demoMagmaState (demoParam 3 1 10)
    () 4 QudaExtLibType.QUDA_MAGMA_EXTLIB
    { (EigCGArgs.new 1 3 1).ResetAccumBuffer with global_stop := 1 / 4, id := 3 } 0 1).2.2.2.2.2.2.2.1
    rfl rfl
  obtain ⟨S', hS'⟩ := k3 rfl (ColorSpinorFieldSet.Create 1 2) (ColorSpinorFieldSet.Create 1 3)
    blas.zero blas.zero (by decide) rfl (by decide) rfl (by decide) rfl rfl
  obtain ⟨a1, a', h1, h2, h3, h4, _, h6⟩ := k2 S' hS'
  exact ⟨S', a1, a', hS', h1, h2, h3, h4, h6⟩

/-- C19: when `run_residual_correction` is set, `SetLanczos` returns the
Lanczos state it was given and `UpdateVm` returns the solver it was given, for
every argument: `Tm`, `id`, `restarts`, the basis `Vm` and the cached `Az` are
unchanged, and nothing is recorded, so no restart has run. -/
theorem IncEigCG.residual_correction_noop {n : Nat} {D : Type} (C : Collab n D)
    (S : IncEigCG n D) (args : EigCGArgs n) (diag offdiag : Cplx) (res : ColorSpinorField n)
    (beta sqrtr2 : ℚ) (hargs : S.eigcg_args = some args)
    (hrc : args.run_residual_correction = true) :
    args.SetLanczos diag offdiag = .ok args ∧
    IncEigCG.UpdateVm C S res beta sqrtr2 = .ok S ∧
    ∀ S', IncEigCG.UpdateVm C S res beta sqrtr2 = .ok S' →
      S'.eigcg_args = some args ∧ S'.Vm = S.Vm ∧ S'.Az = S.Az ∧ S'.log = S.log ∧
      Event.restartVT ∉ S'.log.drop S.log.length := by
  have hU := UpdateVm_correction C S args res beta sqrtr2 hargs hrc
  refine ⟨?_, hU, ?_⟩
  · simp [EigCGArgs.SetLanczos, hrc, pure, Except.pure]
  · intro S' h
    rw [hU] at h
    cases h
    exact ⟨hargs, rfl, rfl, rfl, by simp⟩

/-- Witness for C19: the full test solver switched to the correction mode; the
cursor stands at `m`, where `UpdateVm` would otherwise restart. -/
theorem IncEigCG.residual_correction_noop_witness :
    demoCorrectionState.eigcg_args = some demoCorrectionArgs ∧
    demoCorrectionArgs.run_residual_correction = true ∧
    demoCorrectionArgs.id = demoCorrectionState.param.m ∧
    IncEigCG.UpdateVm demoCollab demoCorrectionState (demoField 1) 0 1 =
      .ok demoCorrectionState :=
  ⟨rfl, rfl, rfl, (IncEigCG.residual_correction_noop demoCollab demoCorrectionState
    demoCorrectionArgs 0 0 (demoField 1) 0 1 rfl rfl).2.1⟩

/-! ## What `eigCGsolve` leaves alone -/

theorem solveFrame_refl (S : IncEigCG n D) : S.SolveFrame S :=
  ⟨rfl, rfl, S.param.iter, S.param.true_res, S.param.true_res_hq, rfl⟩

theorem solveFrame_trans {S1 S2 S3 : IncEigCG n D} (h1 : S1.SolveFrame S2)
    (h2 : S2.SolveFrame S3) : S1.SolveFrame S3 := by
  obtain ⟨a1, a2, it1, tr1, th1, a3⟩ := h1
  obtain ⟨b1, b2, it2, tr2, th2, b3⟩ := h2
  refine ⟨b1.trans a1, b2.trans a2, it2, tr2, th2, ?_⟩
  rw [b3, a3]

theorem solveFrame_of_eq {S S' : IncEigCG n D} (h1 : S'.defl = S.defl)
    (h2 : S'.max_eigcg_cycles = S.max_eigcg_cycles) (h3 : S'.param = S.param) :
    S.SolveFrame S' :=
  ⟨h1, h2, S.param.iter, S.param.true_res, S.param.true_res_hq, by rw [h3]⟩

theorem applyPreconditioner_cycles (C : Collab n D) (S S' : IncEigCG n D) (K : InnerSolver)
    (r z : ColorSpinorField n) (h : IncEigCG.applyPreconditioner C S K r = .ok (S', z)) :
    S'.max_eigcg_cycles = S.max_eigcg_cycles := by
  unfold IncEigCG.applyPreconditioner at h
  obtain ⟨_, _, h⟩ := (bind_eq_ok _ _ _).1 h
  obtain ⟨_, _, h⟩ := (bind_eq_ok _ _ _).1 h
  simp only [pure, Except.pure, Except.ok.injEq, Prod.mk.injEq] at h
  obtain ⟨h, _⟩ := h
  subst h
  rfl

theorem refreshZ_cycles (C : Collab n D) (S S' : IncEigCG n D)
    (r z : ColorSpinorField n) (h : IncEigCG.refreshZ C S r = .ok (S', z)) :
    S'.max_eigcg_cycles = S.max_eigcg_cycles := by
  unfold IncEigCG.refreshZ at h
  split at h
  · exact applyPreconditioner_cycles C S S' _ r z h
  · simp only [pure, Except.pure, Except.ok.injEq, Prod.mk.injEq] at h
    obtain ⟨h, _⟩ := h
    subst h
    rfl

theorem firstZ_cycles (C : Collab n D) (S S' : IncEigCG n D)
    (r z : ColorSpinorField n) (h : IncEigCG.firstZ C S r = .ok (S', z)) :
    S'.max_eigcg_cycles = S.max_eigcg_cycles := by
  unfold IncEigCG.firstZ at h
  split at h
  · by_cases hp : S.param.precision_precondition = S.param.precision_sloppy
    · simp only [hp, if_true] at h
      have e := applyPreconditioner_cycles C _ S' _ r z h
      exact e
    · simp only [hp, if_false] at h
      have e := applyPreconditioner_cycles C _ S' _ r z h
      exact e
  · simp only [pure, Except.pure, Except.ok.injEq, Prod.mk.injEq] at h
    obtain ⟨h, _⟩ := h
    subst h
    rfl

theorem eigCGiteration_cycles (C : Collab n D) (local_stop : ℚ) (S S' : IncEigCG n D)
    (L L' : EigCGLocals n) (h : IncEigCG.eigCGiteration C local_stop (S, L) = .ok (S', L')) :
    S'.max_eigcg_cycles = S.max_eigcg_cycles := by
  unfold IncEigCG.eigCGiteration at h
  obtain ⟨p, r1, h⟩ := (bind_eq_ok _ _ _).1 h
  obtain ⟨_, _, h⟩ := (bind_eq_ok _ _ _).1 h
  obtain ⟨_, _, h⟩ := (bind_eq_ok _ _ _).1 h
  obtain ⟨r, r2, h⟩ := (bind_eq_ok _ _ _).1 h
  obtain ⟨S2, r3, h⟩ := (bind_eq_ok _ _ _).1 h
  obtain ⟨⟨S3, z⟩, r4, h⟩ := (bind_eq_ok _ _ _).1 h
  obtain ⟨y, r5, h⟩ := (bind_eq_ok _ _ _).1 h
  obtain ⟨a2, r6, h⟩ := (bind_eq_ok _ _ _).1 h
  obtain ⟨a', r7, h⟩ := (bind_eq_ok _ _ _).1 h
  simp only [pure, Except.pure, Except.ok.injEq, Prod.mk.injEq] at h
  obtain ⟨hS, hL⟩ := h
  subst hS
  have e1 := refreshZ_cycles C _ S3 _ z r4
  have e2 := (UpdateVm_frame C _ S2 _ _ _ r3).1.2.2.2.2.2.2.2.2.2.2.2.2
  show S3.max_eigcg_cycles = _
  rw [e1]
  exact e2

theorem eigCGloop_cycles (C : Collab n D) (local_stop : ℚ) :
    ∀ (fuel : Nat) (S S' : IncEigCG n D) (L L' : EigCGLocals n),
      IncEigCG.eigCGloop C local_stop fuel (S, L) = .ok (S', L') →
      S'.max_eigcg_cycles = S.max_eigcg_cycles := by
  intro fuel
  induction fuel with
  | zero =>
    intro S S' L L' h
    by_cases hc : L.converged = true ∨ S.param.maxiter ≤ L.k
    · rw [eigCGloop_exit C local_stop 0 S L hc] at h
      simp only [Except.ok.injEq, Prod.mk.injEq] at h
      obtain ⟨rfl, rfl⟩ := h
      rfl
    · simp only [not_or, Bool.not_eq_true, not_le] at hc
      simp [IncEigCG.eigCGloop, hc.1, hc.2, throw, throwThe, MonadExceptOf.throw] at h
  | succ fuel ih =>
    intro S S' L L' h
    by_cases hc : L.converged = true ∨ S.param.maxiter ≤ L.k
    · rw [eigCGloop_exit C local_stop _ S L hc] at h
      simp only [Except.ok.injEq, Prod.mk.injEq] at h
      obtain ⟨rfl, rfl⟩ := h
      rfl
    · simp only [not_or, Bool.not_eq_true, not_le] at hc
      rw [eigCGloop_step C local_stop fuel S L hc.1 hc.2] at h
      obtain ⟨⟨S1, L1⟩, h1, h2⟩ := (bind_eq_ok _ _ _).1 h
      exact (ih S1 S' L1 L' h2).trans (eigCGiteration_cycles C local_stop S S1 L L1 h1)

theorem eigCGprologue_cycles (C : Collab n D) (S S' : IncEigCG n D) (x b : ColorSpinorField n)
    (L : EigCGLocals n) (h : IncEigCG.eigCGprologue C S x b = .ok (S', L)) :
    S'.max_eigcg_cycles = S.max_eigcg_cycles := by
  unfold IncEigCG.eigCGprologue at h
  obtain ⟨a, r1, h⟩ := (bind_eq_ok _ _ _).1 h
  obtain ⟨_, _, h⟩ := (bind_eq_ok _ _ _).1 h
  obtain ⟨_, _, h⟩ := (bind_eq_ok _ _ _).1 h
  obtain ⟨_, _, h⟩ := (bind_eq_ok _ _ _).1 h
  obtain ⟨_, _, h⟩ := (bind_eq_ok _ _ _).1 h
  obtain ⟨⟨S1, z⟩, r2, h⟩ := (bind_eq_ok _ _ _).1 h
  obtain ⟨a1, r3, h⟩ := (bind_eq_ok _ _ _).1 h
  simp only [pure, Except.pure, Except.ok.injEq, Prod.mk.injEq] at h
  obtain ⟨hS, hL⟩ := h
  subst hS
  have e := firstZ_cycles C _ S1 _ z r2
  exact e

theorem initialised_cycles (C : Collab n D) (S : IncEigCG n D) (b : ColorSpinorField n) :
    (IncEigCG.initialised C S b).max_eigcg_cycles = S.max_eigcg_cycles := by
  unfold IncEigCG.initialised
  split <;> simp [IncEigCG.eigCGinit]

theorem eigCGexit_cycles (C : Collab n D) (fuel : Nat) (S S' : IncEigCG n D)
    (x b : ColorSpinorField n) (xprec : QudaPrecision) (L' : EigCGLocals n)
    (h : IncEigCG.eigCGexit C fuel S x b xprec = .ok (S', L')) :
    S'.max_eigcg_cycles = S.max_eigcg_cycles ∧ S'.defl = S.defl := by
  unfold IncEigCG.eigCGexit at h
  obtain ⟨⟨S0, L0⟩, h1, h2⟩ := (bind_eq_ok _ _ _).1 h
  obtain ⟨_, _, _, p4, _⟩ := eigCGprologue_eq_ok C _ S0 x b L0 h1
  obtain ⟨_, _, _, q4, _⟩ := eigCGloop_spec C _ fuel S0 S' L0 L' h2
  exact ⟨((eigCGloop_cycles C _ fuel S0 S' L0 L' h2).trans
    (eigCGprologue_cycles C _ S0 x b L0 h1)).trans (initialised_cycles C S b),
    q4.trans (p4.trans (eigCGinit_frame C S b).2.2.2)⟩

theorem eigCGepilogue_frame (C : Collab n D) (b : ColorSpinorField n) (b2 : ℚ)
    (S : IncEigCG n D) (L : EigCGLocals n) (res : IncEigCG.SolveResult n D)
    (h : IncEigCG.eigCGepilogue C b b2 (S, L) = .ok res) :
    S.SolveFrame res.solver ∧ res.solver.Vm = S.Vm ∧
    ∃ a, S.eigcg_args = some a ∧ res.solver.eigcg_args = some a.CleanArgs := by
  unfold IncEigCG.eigCGepilogue at h
  obtain ⟨a, r1, h⟩ := (bind_eq_ok _ _ _).1 h
  obtain ⟨y, r2, h⟩ := (bind_eq_ok _ _ _).1 h
  simp only [pure, Except.pure, Except.ok.injEq] at h
  subst h
  rw [deref_eq_ok] at r1
  refine ⟨⟨?_, ?_, ?_⟩, ?_, a, r1, ?_⟩
  · simp only
    split <;> rfl
  · simp only
    split <;> rfl
  · simp only
    split <;> exact ⟨_, _, _, rfl⟩
  · simp only
    split <;> rfl
  · simp only
    split <;> rfl

/-- In a correction cycle of the incremental solver and for a source of
non-zero norm, `eigCGsolve` is the run of the inner solver. -/
theorem eigCGsolve_correction (C : Collab n D) (fuel : Nat) (S : IncEigCG n D)
    (x b : ColorSpinorField n) (xprec : QudaPrecision) (hb : blas.norm2 b ≠ 0)
    (hmode : S.correctionMode = true) :
    IncEigCG.eigCGsolve C fuel S x b xprec = IncEigCG.eigCGcorrection C S x b := by
  unfold IncEigCG.eigCGsolve
  simp only [hb, if_false]
  unfold IncEigCG.correctionMode at hmode
  simp only [Bool.and_eq_true, decide_eq_true_eq] at hmode
  obtain ⟨⟨hi, ha⟩, ht⟩ := hmode
  cases hargs : S.eigcg_args with
  | none =>
    rw [hargs] at ha
    cases ha
  | some a =>
    rw [hargs] at ha
    simp only at ha
    simp [hi, hargs, deref, bind, Except.bind, pure, Except.pure, ha, ht]

theorem eigCGcorrection_eq_ok (C : Collab n D) (S : IncEigCG n D) (x b : ColorSpinorField n)
    (res : IncEigCG.SolveResult n D) (h : IncEigCG.eigCGcorrection C S x b = .ok res) :
    S.SolveFrame res.solver ∧ res.solver.Vm = S.Vm ∧ res.solver.eigcg_args = S.eigcg_args ∧
    res.solver.K = S.K ∧ ∃ tol, res.solver.log = S.log ++ [Event.innerSolve tol] := by
  unfold IncEigCG.eigCGcorrection at h
  obtain ⟨K, _, h⟩ := (bind_eq_ok _ _ _).1 h
  simp only [pure, Except.pure, Except.ok.injEq] at h
  subst h
  exact ⟨solveFrame_of_eq rfl rfl rfl, rfl, rfl, rfl, _, rfl⟩

/-- What a call of `eigCGsolve` that returns has left as it was, and what it
can have recorded. -/
theorem eigCGsolve_frame (C : Collab n D) (fuel : Nat) (S : IncEigCG n D)
    (x b : ColorSpinorField n) (xprec : QudaPrecision) (res : IncEigCG.SolveResult n D)
    (h : IncEigCG.eigCGsolve C fuel S x b xprec = .ok res) :
    S.SolveFrame res.solver ∧ ∃ evs, res.solver.log = S.log ++ evs ∧ ∀ e ∈ evs, e.inSolve := by
  by_cases hb : blas.norm2 b = 0
  · rw [eigCGsolve_of_zero C fuel S x b xprec hb] at h
    cases h
    refine ⟨⟨rfl, rfl, _, _, _, rfl⟩, [Event.printf Message.zeroSource], rfl, ?_⟩
    intro e he
    rw [List.mem_singleton.1 he]
    exact Or.inr (Or.inr (Or.inl rfl))
  · cases hmode : S.correctionMode with
    | true =>
      rw [eigCGsolve_correction C fuel S x b xprec hb hmode] at h
      obtain ⟨f, _, _, _, tol, hl⟩ := eigCGcorrection_eq_ok C S x b res h
      refine ⟨f, _, hl, ?_⟩
      intro e he
      rw [List.mem_singleton.1 he]
      exact Or.inr (Or.inr (Or.inr ⟨tol, rfl⟩))
    | false =>
      rw [eigCGsolve_main C fuel S x b xprec hb hmode] at h
      obtain ⟨⟨S1, L1⟩, h1, h2⟩ := (bind_eq_ok _ _ _).1 h
      obtain ⟨_, _, _, hp, _, _, _, evs, hl, hin⟩ := eigCGexit_eq_ok C fuel S S1 x b xprec L1 h1
      obtain ⟨c1, c2⟩ := eigCGexit_cycles C fuel S S1 x b xprec L1 h1
      obtain ⟨f, _⟩ := eigCGepilogue_frame C b _ S1 L1 res h2
      obtain ⟨_, _, _, _, e5, _⟩ := eigCGepilogue_eq_ok C b _ S1 L1 res h2
      refine ⟨solveFrame_trans (solveFrame_of_eq c2 c1 hp) f,
        evs ++ ((if L1.k = S1.param.maxiter then [Event.warning Message.exceededMaxIter] else [])
          ++ [Event.matSloppyApply]), ?_, ?_⟩
      · rw [e5, hl, List.append_assoc, List.append_assoc]
      · intro e he
        simp only [List.mem_append, List.mem_singleton] at he
        rcases he with he | he | he
        · exact Or.inl (hin e he)
        · split at he
          · rw [List.mem_singleton.1 he]
            exact Or.inr (Or.inl rfl)
          · cases he
        · rw [he]
          exact Or.inl (Or.inl rfl)

theorem eigCGsolve_ne_fuel (C : Collab n D) (fuel : Nat) (S : IncEigCG n D)
    (x b : ColorSpinorField n) (xprec : QudaPrecision) (hfuel : S.param.maxiter.toNat ≤ fuel) :
    IncEigCG.eigCGsolve C fuel S x b xprec ≠ .error Fault.fuel := by
  by_cases hb : blas.norm2 b = 0
  · rw [eigCGsolve_of_zero C fuel S x b xprec hb]
    exact fun h => nomatch h
  · cases hmode : S.correctionMode with
    | true =>
      rw [eigCGsolve_correction C fuel S x b xprec hb hmode]
      unfold IncEigCG.eigCGcorrection
      refine bind_ne_error _ _ _ (deref_ne_fuel _) (fun _ _ => ?_)
      exact fun h => nomatch h
    | false =>
      rw [eigCGsolve_main C fuel S x b xprec hb hmode]
      refine bind_ne_error _ _ _ (eigCGexit_ne_fuel C fuel S x b xprec hfuel) ?_
      intro SL _
      exact eigCGepilogue_ne_fuel C b _ SL

/-! ## One refinement cycle of `operator()` -/

theorem enterCorrection_eq_ok (S S' : IncEigCG n D) (h : IncEigCG.enterCorrection S = .ok S') :
    S.SolveFrame S' ∧ S'.Vm = S.Vm ∧ S'.log = S.log ++ [Event.printf Message.runningDCG] ∧
    ∃ a, S.eigcg_args = some a ∧
      S'.eigcg_args = some { a with run_residual_correction := true } := by
  unfold IncEigCG.enterCorrection at h
  obtain ⟨a, r1, h⟩ := (bind_eq_ok _ _ _).1 h
  simp only [pure, Except.pure, Except.ok.injEq] at h
  subst h
  rw [deref_eq_ok] at r1
  by_cases hK : S.K.isNone = true
  · simp only [hK, if_true] at r1 ⊢
    exact ⟨solveFrame_of_eq rfl rfl rfl, rfl, rfl, a, r1, rfl⟩
  · simp only [hK, if_false] at r1 ⊢
    exact ⟨solveFrame_of_eq rfl rfl rfl, rfl, rfl, a, r1, rfl⟩

theorem enterCorrection_ne_fuel (S : IncEigCG n D) :
    IncEigCG.enterCorrection S ≠ .error Fault.fuel := by
  unfold IncEigCG.enterCorrection
  refine bind_ne_error _ _ _ (deref_ne_fuel _) (fun _ _ => ?_)
  exact fun h => nomatch h

theorem updateRitz_eq_ok (C : Collab n D) (S : IncEigCG n D) (dcg : Bool) (u : Bool)
    (h : IncEigCG.updateRitz C S dcg = .ok u) :
    (u = true ↔ dcg = false ∧ (∃ a, S.eigcg_args = some a ∧ 1 < a.restarts) ∧
      C.is_complete S.defl = false) := by
  unfold IncEigCG.updateRitz at h
  cases dcg with
  | true =>
    simp only [if_true, pure, Except.pure, Except.ok.injEq] at h
    subst h
    simp
  | false =>
    simp only [Bool.false_eq_true, if_false] at h
    obtain ⟨a, r1, h⟩ := (bind_eq_ok _ _ _).1 h
    rw [deref_eq_ok] at r1
    simp only [pure, Except.pure, Except.ok.injEq] at h
    subst h
    simp only [Bool.and_eq_true, decide_eq_true_eq, Bool.not_eq_true', true_and, gt_iff_lt]
    constructor
    · intro hh
      exact ⟨⟨a, r1, hh.1⟩, hh.2⟩
    · rintro ⟨⟨a', ha', hr⟩, hc⟩
      rw [r1] at ha'
      cases ha'
      exact ⟨hr, hc⟩

theorem updateRitz_ne_fuel (C : Collab n D) (S : IncEigCG n D) (dcg : Bool) :
    IncEigCG.updateRitz C S dcg ≠ .error Fault.fuel := by
  unfold IncEigCG.updateRitz
  split
  · exact fun h => nomatch h
  · refine bind_ne_error _ _ _ (deref_ne_fuel _) (fun _ _ => ?_)
    exact fun h => nomatch h

/-- What the first part of a refinement cycle leaves as it was and records. -/
theorem cycleSolve_eq_ok (C : Collab n D) (fuel : Nat) (S : IncEigCG n D) (L : CycleLocals n)
    (res : IncEigCG.SolveResult n D) (h : IncEigCG.cycleSolve C fuel (S, L) = .ok res) :
    S.SolveFrame res.solver ∧
    ∃ evs, res.solver.log = S.log ++ ([Event.deflProject] ++
        (if L.dcg_cycle then [Event.printf Message.runningDCG] else []) ++
        [Event.eigCGcycle] ++ evs) ∧
      ∀ e ∈ evs, e.inSolve := by
  unfold IncEigCG.cycleSolve at h
  obtain ⟨S1, r1, h⟩ := (bind_eq_ok _ _ _).1 h
  obtain ⟨f2, evs, hl, hin⟩ := eigCGsolve_frame C fuel _ _ _ _ res h
  cases hd : L.dcg_cycle with
  | true =>
    simp only [hd, if_true] at r1 ⊢
    obtain ⟨f1, _, l1, _⟩ := enterCorrection_eq_ok _ S1 r1
    refine ⟨solveFrame_trans (solveFrame_trans (solveFrame_of_eq rfl rfl rfl) f1)
      (solveFrame_trans (solveFrame_of_eq rfl rfl rfl) f2), evs, ?_, hin⟩
    rw [hl]
    simp [IncEigCG.emit, l1]
  | false =>
    simp only [hd, Bool.false_eq_true, if_false, pure, Except.pure, Except.ok.injEq] at r1 ⊢
    subst r1
    refine ⟨solveFrame_trans (solveFrame_of_eq rfl rfl rfl) f2, evs, ?_, hin⟩
    rw [hl]
    simp [IncEigCG.emit]

/-- What a refinement cycle that returns consists of: the call of `eigCGsolve`,
the test `update_ritz`, the increment of the subspace when the test holds, and
the new residual. -/
theorem refinementCycle_eq_ok (C : Collab n D) (fuel : Nat) (inp : ColorSpinorField n) (b2 : ℚ)
    (S S' : IncEigCG n D) (L L' : CycleLocals n)
    (h : IncEigCG.refinementCycle C fuel inp b2 (S, L) = .ok (S', L')) :
    ∃ (res : IncEigCG.SolveResult n D) (upd : Bool) (vs : List Event),
      IncEigCG.cycleSolve C fuel (S, L) = .ok res ∧
      IncEigCG.updateRitz C res.solver L.dcg_cycle = .ok upd ∧
      L'.logical_rhs_id = (if upd then L.logical_rhs_id + 1 else L.logical_rhs_id) ∧
      L'.dcg_cycle =
        (if upd then decide (L.logical_rhs_id + 1 ≥ res.solver.max_eigcg_cycles) else true) ∧
      (upd = true → ∃ Vm, res.solver.Vm = some Vm ∧
        S'.defl = C.increment res.solver.defl Vm res.solver.param.nev) ∧
      (upd = false → S'.defl = res.solver.defl) ∧
      S'.max_eigcg_cycles = res.solver.max_eigcg_cycles ∧
      S'.Vm = res.solver.Vm ∧ S'.eigcg_args = res.solver.eigcg_args ∧
      (∃ tr thq, S'.param = { res.solver.param with true_res := tr, true_res_hq := thq }) ∧
      S'.log = res.solver.log ++
        ((if upd then [Event.deflIncrement res.solver.param.nev] else []) ++
          [Event.matApply] ++ vs) ∧
      (∀ e ∈ vs, e = Event.deflVerify) ∧
      L'.out = blas.xpy res.x L.out ∧
      L'.r2 = (blas.xmyNorm inp (C.mat (blas.xpy res.x L.out))).2 := by
  have h0 := h
  unfold IncEigCG.refinementCycle at h
  obtain ⟨S1, r1, h⟩ := (bind_eq_ok _ _ _).1 h
  obtain ⟨res, r2, h⟩ := (bind_eq_ok _ _ _).1 h
  obtain ⟨upd, r3, h⟩ := (bind_eq_ok _ _ _).1 h
  obtain ⟨⟨S2, l2, d2⟩, r4, h⟩ := (bind_eq_ok _ _ _).1 h
  obtain ⟨verify, r5, h⟩ := (bind_eq_ok _ _ _).1 h
  simp only [pure, Except.pure, Except.ok.injEq, Prod.mk.injEq] at h
  obtain ⟨hS, hL⟩ := h
  subst hS
  subst hL
  have hcs : IncEigCG.cycleSolve C fuel (S, L) = .ok res := by
    unfold IncEigCG.cycleSolve
    simp only [bind, Except.bind]
    simp only at r1
    rw [r1]
    exact r2
  cases hu : upd with
  | true =>
    subst hu
    simp only [if_true] at r4
    obtain ⟨Vm, q1, r4⟩ := (bind_eq_ok _ _ _).1 r4
    rw [deref_eq_ok] at q1
    simp only [pure, Except.pure, Except.ok.injEq, Prod.mk.injEq] at r4
    obtain ⟨rfl, rfl, rfl⟩ := r4
    refine ⟨res, true, if verify then [Event.deflVerify] else [], hcs, r3, rfl, rfl,
      fun _ => ⟨Vm, q1, ?_⟩, (fun hh => nomatch hh), ?_, ?_, ?_, ?_, ?_, ?_, rfl, rfl⟩
    · split <;> rfl
    · split <;> rfl
    · split <;> rfl
    · split <;> rfl
    · split <;> exact ⟨_, _, rfl⟩
    · split <;> simp [IncEigCG.emit]
    · intro e he
      split at he
      · exact List.mem_singleton.1 he
      · cases he
  | false =>
    subst hu
    simp only [Bool.false_eq_true, if_false, pure, Except.pure, Except.ok.injEq,
      Prod.mk.injEq] at r4
    obtain ⟨rfl, rfl, rfl⟩ := r4
    refine ⟨res, false, if verify then [Event.deflVerify] else [], hcs, r3, rfl, rfl,
      (fun hh => nomatch hh), fun _ => ?_, ?_, ?_, ?_, ?_, ?_, ?_, rfl, rfl⟩
    · split <;> rfl
    · split <;> rfl
    · split <;> rfl
    · split <;> rfl
    · split <;> exact ⟨_, _, rfl⟩
    · split <;> simp [IncEigCG.emit]
    · intro e he
      split at he
      · exact List.mem_singleton.1 he
      · cases he

/-! ## The refinement loop of `operator()` -/

theorem refinementCycle_split (C : Collab n D) (fuel : Nat) (inp : ColorSpinorField n) (b2 : ℚ)
    (SL : IncEigCG n D × CycleLocals n) :
    IncEigCG.refinementCycle C fuel inp b2 SL =
      IncEigCG.cycleSolve C fuel SL >>= IncEigCG.cycleTail C inp b2 SL.2 := by
  unfold IncEigCG.refinementCycle IncEigCG.cycleSolve
  simp only [bind_assoc]
  rfl

theorem refinementLoop_single (C : Collab n D) (fuel : Nat) (inp : ColorSpinorField n)
    (b2 stop : ℚ) (cycles : Nat) (SL : IncEigCG n D × CycleLocals n) :
    IncEigCG.refinementLoop C fuel inp b2 stop false (cycles + 1) SL =
      IncEigCG.refinementCycle C fuel inp b2 SL := by
  simp only [IncEigCG.refinementLoop, Bool.and_false, Bool.false_eq_true, if_false]
  cases IncEigCG.refinementCycle C fuel inp b2 SL <;> rfl

/-- A property that every refinement cycle preserves holds when the refinement
loop is left. -/
theorem refinementLoop_induct (C : Collab n D) (fuel : Nat) (inp : ColorSpinorField n)
    (b2 stop : ℚ) (mixed_prec : Bool) (P : IncEigCG n D × CycleLocals n → Prop)
    (hstep : ∀ SL SL', P SL → IncEigCG.refinementCycle C fuel inp b2 SL = .ok SL' → P SL') :
    ∀ (cycles : Nat) (SL SL' : IncEigCG n D × CycleLocals n), P SL →
      IncEigCG.refinementLoop C fuel inp b2 stop mixed_prec cycles SL = .ok SL' → P SL' := by
  intro cycles
  induction cycles with
  | zero =>
    intro SL SL' _ h
    cases h
  | succ cycles ih =>
    intro SL SL' hP h
    simp only [IncEigCG.refinementLoop] at h
    obtain ⟨SL1, h1, h2⟩ := (bind_eq_ok _ _ _).1 h
    have hP1 := hstep SL SL1 hP h1
    split at h2
    · exact ih SL1 SL' hP1 h2
    · cases h2
      exact hP1

/-- The refinement loop makes at least one pass: the state in which it is left
is the result of a cycle. -/
theorem refinementLoop_last (C : Collab n D) (fuel : Nat) (inp : ColorSpinorField n)
    (b2 stop : ℚ) (mixed_prec : Bool) :
    ∀ (cycles : Nat) (SL SL' : IncEigCG n D × CycleLocals n),
      IncEigCG.refinementLoop C fuel inp b2 stop mixed_prec cycles SL = .ok SL' →
      ∃ j SL0, j < cycles ∧ IncEigCG.refinementCycles C fuel inp b2 j SL = .ok SL0 ∧
        IncEigCG.refinementCycle C fuel inp b2 SL0 = .ok SL' ∧
        ¬ (decide (SL'.2.r2 > stop) && mixed_prec) = true := by
  intro cycles
  induction cycles with
  | zero =>
    intro SL SL' h
    cases h
  | succ cycles ih =>
    intro SL SL' h
    simp only [IncEigCG.refinementLoop] at h
    obtain ⟨SL1, h1, h2⟩ := (bind_eq_ok _ _ _).1 h
    split at h2
    · obtain ⟨j, SL0, hj, g1, g2, g3⟩ := ih SL1 SL' h2
      refine ⟨j + 1, SL0, by omega, ?_, g2, g3⟩
      simp only [IncEigCG.refinementCycles, h1, bind, Except.bind]
      exact g1
    · rename_i hc
      cases h2
      exact ⟨0, SL, by omega, rfl, h1, hc⟩

/-- On a subspace that is incomplete on entry, `operator()` is the refinement
loop followed by the closing block. -/
theorem call_incomplete (C : Collab n D) (fuel cycles : Nat) (S : IncEigCG n D)
    (out inp : ColorSpinorField n) (hinc : C.is_complete S.defl = false) :
    IncEigCG.call C fuel cycles S out inp =
      IncEigCG.refinementExit C fuel cycles S out inp >>=
        fun SL => pure (IncEigCG.finishCall C (IncEigCG.mixedPrec S) SL, SL.2.out) := by
  unfold IncEigCG.call IncEigCG.refinementExit IncEigCG.callEntry IncEigCG.mixedPrec
  by_cases h0 : S.param.rhs_idx = 0
  · simp only [h0, if_true, hinc, Bool.false_eq_true, if_false]
    rfl
  · simp only [h0, if_false, hinc, Bool.false_eq_true]
    rfl

theorem callEntry_frame (C : Collab n D) (S : IncEigCG n D) (out inp : ColorSpinorField n) :
    (IncEigCG.callEntry C S out inp).1.param = S.param ∧
    (IncEigCG.callEntry C S out inp).1.defl = S.defl ∧
    (IncEigCG.callEntry C S out inp).1.log = S.log ++ [Event.matApply] ∧
    (IncEigCG.callEntry C S out inp).1.max_eigcg_cycles =
      (if S.param.rhs_idx = 0 then S.param.eigcg_max_restarts else S.max_eigcg_cycles) ∧
    (IncEigCG.callEntry C S out inp).2.logical_rhs_id = 0 ∧
    (IncEigCG.callEntry C S out inp).2.dcg_cycle = false := by
  by_cases h0 : S.param.rhs_idx = 0
  · simp [IncEigCG.callEntry, h0, IncEigCG.emit]
  · simp [IncEigCG.callEntry, h0, IncEigCG.emit]

/-- What a refinement cycle leaves as it was, and what it can record. -/
theorem refinementCycle_frame (C : Collab n D) (fuel : Nat) (inp : ColorSpinorField n) (b2 : ℚ)
    (S S' : IncEigCG n D) (L L' : CycleLocals n)
    (h : IncEigCG.refinementCycle C fuel inp b2 (S, L) = .ok (S', L')) :
    S'.max_eigcg_cycles = S.max_eigcg_cycles ∧
    (∃ it tr thq, S'.param = { S.param with iter := it, true_res := tr, true_res_hq := thq }) ∧
    ∃ evs, S'.log = S.log ++ evs ∧ evs.count Event.eigCGcycle = 1 ∧
      (∀ e ∈ evs, e.inRefinement) := by
  obtain ⟨res, upd, vs, h1, _, _, _, _, _, h7, _, _, ⟨tr, thq, h10⟩, h11, h12, _⟩ :=
    refinementCycle_eq_ok C fuel inp b2 S S' L L' h
  obtain ⟨⟨_, f2, it, tr0, thq0, f3⟩, evs, hl, hin⟩ := cycleSolve_eq_ok C fuel S L res h1
  have hnot : ∀ l : List Event, (∀ e ∈ l, e.inSolve) → l.count Event.eigCGcycle = 0 := by
    intro l hl'
    apply List.count_eq_zero.2
    intro hmem
    rcases hl' _ hmem with hh | hh | hh | ⟨_, hh⟩
    · rcases hh with hh | hh | ⟨_, hh⟩ | hh | hh <;> cases hh
    · cases hh
    · cases hh
    · cases hh
  have hvs : vs.count Event.eigCGcycle = 0 := by
    apply List.count_eq_zero.2
    intro hmem
    cases h12 _ hmem
  refine ⟨h7.trans f2, ⟨it, tr, thq, ?_⟩,
    ([Event.deflProject] ++ (if L.dcg_cycle then [Event.printf Message.runningDCG] else []) ++
      [Event.eigCGcycle] ++ evs) ++
    ((if upd then [Event.deflIncrement res.solver.param.nev] else []) ++ [Event.matApply] ++ vs),
    ?_, ?_, ?_⟩
  · rw [h10, f3]
  · rw [h11, hl, List.append_assoc]
  · simp only [List.count_append, hnot evs hin, hvs]
    cases L.dcg_cycle <;> cases upd <;> simp
  · intro e he
    simp only [List.mem_append, List.mem_singleton] at he
    rcases he with (((he | he) | he) | he) | ((he | he) | he)
    · exact Or.inr (Or.inr (Or.inl he))
    · split at he
      · rw [List.mem_singleton.1 he]
        exact Or.inr (Or.inr (Or.inr (Or.inl rfl)))
      · cases he
    · exact Or.inr (Or.inr (Or.inr (Or.inr he)))
    · exact Or.inl (hin e he)
    · split at he
      · rw [List.mem_singleton.1 he]
        exact Or.inr (Or.inl (Or.inl ⟨_, rfl⟩))
      · cases he
    · exact Or.inr (Or.inl (Or.inr (Or.inl he)))
    · exact Or.inr (Or.inl (Or.inr (Or.inr (h12 e he))))

/-! ## The closing block of `operator()` -/

/-- What the closing block of `operator()` does: `param.rhs_idx` grows by the
number of increments; on a complete subspace the basis is released and the
subspace is reduced, and on an incomplete one both are kept. -/
theorem finishCall_spec (C : Collab n D) (mixed_prec : Bool) (S : IncEigCG n D)
    (L : CycleLocals n) :
    (IncEigCG.finishCall C mixed_prec (S, L)).param.rhs_idx =
      S.param.rhs_idx + L.logical_rhs_id ∧
    ∃ pre, (∀ e ∈ pre, e = Event.printf Message.resetMaxCycles) ∧
      (C.is_complete S.defl = true →
        (IncEigCG.finishCall C mixed_prec (S, L)).Vm = none ∧
        (IncEigCG.finishCall C mixed_prec (S, L)).defl =
          C.reduce S.defl S.param.eigenval_tol (C.size S.defl) ∧
        ∃ w, (∀ e ∈ w, e = Event.warning Message.rhsMismatch) ∧
          (IncEigCG.finishCall C mixed_prec (S, L)).log = S.log ++ (pre ++ w ++
            [Event.freeVm, Event.printf Message.reserveEigenvectors,
             Event.deflReduce S.param.eigenval_tol (C.size S.defl)])) ∧
      (C.is_complete S.defl = false →
        (IncEigCG.finishCall C mixed_prec (S, L)).Vm = S.Vm ∧
        (IncEigCG.finishCall C mixed_prec (S, L)).defl = S.defl ∧
        (IncEigCG.finishCall C mixed_prec (S, L)).log = S.log ++ pre) := by
  unfold IncEigCG.finishCall
  by_cases h1 : (mixed_prec && decide (S.max_eigcg_cycles > L.logical_rhs_id)) = true
  · cases hc : C.is_complete S.defl with
    | true =>
      by_cases h2 : S.param.rhs_idx + L.logical_rhs_id ≠ S.param.deflation_grid
      · refine ⟨?_, [Event.printf Message.resetMaxCycles], by simp, fun _ => ⟨?_, ?_,
          [Event.warning Message.rhsMismatch], by simp, ?_⟩, (fun hh => nomatch hh)⟩ <;>
          simp [h1, hc, h2, IncEigCG.emit]
      · refine ⟨?_, [Event.printf Message.resetMaxCycles], by simp, fun _ => ⟨?_, ?_,
          [], by simp, ?_⟩, (fun hh => nomatch hh)⟩ <;>
          simp [h1, hc, h2, IncEigCG.emit]
    | false =>
      refine ⟨?_, [Event.printf Message.resetMaxCycles], by simp, (fun hh => nomatch hh),
        fun _ => ⟨?_, ?_, ?_⟩⟩ <;> simp [h1, hc, IncEigCG.emit]
  · cases hc : C.is_complete S.defl with
    | true =>
      by_cases h2 : S.param.rhs_idx + L.logical_rhs_id ≠ S.param.deflation_grid
      · refine ⟨?_, [], by simp, fun _ => ⟨?_, ?_,
          [Event.warning Message.rhsMismatch], by simp, ?_⟩, (fun hh => nomatch hh)⟩ <;>
          simp [h1, hc, h2, IncEigCG.emit]
      · refine ⟨?_, [], by simp, fun _ => ⟨?_, ?_,
          [], by simp, ?_⟩, (fun hh => nomatch hh)⟩ <;>
          simp [h1, hc, h2, IncEigCG.emit]
    | false =>
      refine ⟨?_, [], by simp, (fun hh => nomatch hh),
        fun _ => ⟨?_, ?_, ?_⟩⟩ <;> simp [h1, hc, IncEigCG.emit]

theorem refinementCycle_ne_fuel (C : Collab n D) (fuel : Nat) (inp : ColorSpinorField n)
    (b2 : ℚ) (SL : IncEigCG n D × CycleLocals n) (hfuel : SL.1.param.maxiter.toNat ≤ fuel) :
    IncEigCG.refinementCycle C fuel inp b2 SL ≠ .error Fault.fuel := by
  rw [refinementCycle_split]
  refine bind_ne_error _ _ _ ?_ (fun res _ => ?_)
  · unfold IncEigCG.cycleSolve
    refine bind_ne_error _ _ _ ?_ (fun S1 h1 => ?_)
    · split
      · exact enterCorrection_ne_fuel _
      · exact fun h => nomatch h
    · apply eigCGsolve_ne_fuel
      have hp : S1.param.maxiter = SL.1.param.maxiter := by
        split at h1
        · obtain ⟨⟨_, _, it, tr, thq, f⟩, _⟩ := enterCorrection_eq_ok _ S1 h1
          rw [f]
          rfl
        · cases h1
          rfl
      show S1.param.maxiter.toNat ≤ fuel
      rw [hp]
      exact hfuel
  · unfold IncEigCG.cycleTail
    refine bind_ne_error _ _ _ (updateRitz_ne_fuel C _ _) (fun u _ => ?_)
    refine bind_ne_error _ _ _ ?_ (fun _ _ => ?_)
    · split
      · refine bind_ne_error _ _ _ (deref_ne_fuel _) (fun _ _ => ?_)
        exact fun h => nomatch h
      · exact fun h => nomatch h
    refine bind_ne_error _ _ _ ?_ (fun _ _ => ?_)
    · split
      · exact updateRitz_ne_fuel C _ _
      · exact fun h => nomatch h
    exact fun h => nomatch h

/-- C11: when `param.precision == param.precision_sloppy` and the subspace is
incomplete on entry, `operator()` is one pass through the body of the
refinement loop followed by the closing block, whatever residual that pass
leaves: with fuel for `maxiter` iterations the call does not run out of fuel,
and a call that returns has recorded exactly one eigCG cycle. -/
theorem IncEigCG.call_single_cycle {n : Nat} {D : Type} (C : Collab n D) (fuel cycles : Nat)
    (S : IncEigCG n D) (out inp : ColorSpinorField n)
    (hprec : S.param.precision = S.param.precision_sloppy)
    (hinc : C.is_complete S.defl = false) (hcyc : 0 < cycles) :
    IncEigCG.call C fuel cycles S out inp =
      (IncEigCG.refinementCycle C fuel inp (blas.norm2 inp) (IncEigCG.callEntry C S out inp) >>=
        fun SL => pure (IncEigCG.finishCall C false SL, SL.2.out)) ∧
    (S.param.maxiter.toNat ≤ fuel → IncEigCG.call C fuel cycles S out inp ≠ .error Fault.fuel) ∧
    ∀ S' out', IncEigCG.call C fuel cycles S out inp = .ok (S', out') →
      ∃ evs, S'.log = S.log ++ evs ∧ evs.count Event.eigCGcycle = 1 := by
  have hm : IncEigCG.mixedPrec S = false := by
    simp [IncEigCG.mixedPrec, hprec]
  obtain ⟨c, rfl⟩ : ∃ c, cycles = c + 1 := ⟨cycles - 1, by omega⟩
  have heq : IncEigCG.call C fuel (c + 1) S out inp =
      (IncEigCG.refinementCycle C fuel inp (blas.norm2 inp) (IncEigCG.callEntry C S out inp) >>=
        fun SL => pure (IncEigCG.finishCall C false SL, SL.2.out)) := by
    rw [call_incomplete C fuel _ S out inp hinc]
    unfold IncEigCG.refinementExit
    rw [hm, refinementLoop_single]
  obtain ⟨e1, _, e3, _⟩ := callEntry_frame C S out inp
  refine ⟨heq, ?_, ?_⟩
  · intro hfuel
    rw [heq]
    refine bind_ne_error _ _ _ (refinementCycle_ne_fuel C fuel inp _ _ ?_) (fun _ _ => ?_)
    · rw [e1]
      exact hfuel
    · exact fun h => nomatch h
  · intro S' out' h
    rw [heq] at h
    obtain ⟨⟨S1, L1⟩, h1, h2⟩ := (bind_eq_ok _ _ _).1 h
    simp only [pure, Except.pure, Except.ok.injEq, Prod.mk.injEq] at h2
    obtain ⟨rfl, _⟩ := h2
    have h1' : IncEigCG.refinementCycle C fuel inp (blas.norm2 inp)
        ((IncEigCG.callEntry C S out inp).1, (IncEigCG.callEntry C S out inp).2) =
        .ok (S1, L1) := h1
    obtain ⟨_, _, evs, g1, g2, _⟩ := refinementCycle_frame C fuel inp _
      (IncEigCG.callEntry C S out inp).1 S1 (IncEigCG.callEntry C S out inp).2 L1 h1'
    obtain ⟨_, pre, hpre, hT, hF⟩ := finishCall_spec C false S1 L1
    have hpre0 : pre.count Event.eigCGcycle = 0 := by
      apply List.count_eq_zero.2
      intro hmem
      cases hpre _ hmem
    cases hc : C.is_complete S1.defl with
    | true =>
      obtain ⟨_, _, w, hw, hl⟩ := hT hc
      have hw0 : w.count Event.eigCGcycle = 0 := by
        apply List.count_eq_zero.2
        intro hmem
        cases hw _ hmem
      refine ⟨[Event.matApply] ++ (evs ++ (pre ++ w ++
        [Event.freeVm, Event.printf Message.reserveEigenvectors,
         Event.deflReduce S1.param.eigenval_tol (C.size S1.defl)])), ?_, ?_⟩
      · rw [hl, g1, e3]
        simp only [List.append_assoc]
      · simp [List.count_append, g2, hpre0, hw0]
    | false =>
      obtain ⟨_, _, hl⟩ := hF hc
      refine ⟨[Event.matApply] ++ (evs ++ pre), ?_, ?_⟩
      · rw [hl, g1, e3]
        simp only [List.append_assoc]
      · simp [List.count_append, g2, hpre0]

/-! ## A call of the test problem that never converges -/

theorem returnsWith_iff {α : Type} (p : α → Bool) (r : Except Fault α) :
    returnsWith p r = true ↔ ∃ a, r = .ok a ∧ p a = true := by
  cases r with
  | ok a => simp [returnsWith]
  | error e => simp [returnsWith]

/-- The call of the test problem that never converges is one refinement cycle,
whose `eigCGsolve` runs its loop. -/
theorem stubborn_cycle (M : Int) :
    IncEigCG.refinementExit stubbornCollab 5 1 (stubbornSolver M) blas.zero (demoField 1) =
      (IncEigCG.eigCGexit stubbornCollab 5
          (((IncEigCG.callEntry stubbornCollab (stubbornSolver M) blas.zero (demoField 1)).1.emit
            Event.deflProject).emit Event.eigCGcycle)
          blas.zero (demoField 1) QudaPrecision.QUDA_DOUBLE_PRECISION >>=
        IncEigCG.eigCGepilogue stubbornCollab (demoField 1) (blas.norm2 (demoField 1))) >>=
      IncEigCG.cycleTail stubbornCollab (demoField 1) (blas.norm2 (demoField 1))
        (IncEigCG.callEntry stubbornCollab (stubbornSolver M) blas.zero (demoField 1)).2 := by
  unfold IncEigCG.refinementExit
  have hm : IncEigCG.mixedPrec (stubbornSolver M) = false := rfl
  rw [hm, refinementLoop_single, refinementCycle_split]
  congr 1
  have hr : (IncEigCG.callEntry stubbornCollab (stubbornSolver M) blas.zero (demoField 1)).2.r =
      demoField 1 := by
    show (blas.xmyNorm (demoField 1) blas.zero).1 = _
    rw [xmyNorm_zero]
  have hcs : IncEigCG.cycleSolve stubbornCollab 5
      (IncEigCG.callEntry stubbornCollab (stubbornSolver M) blas.zero (demoField 1)) =
      IncEigCG.eigCGsolve stubbornCollab 5
        (((IncEigCG.callEntry stubbornCollab (stubbornSolver M) blas.zero (demoField 1)).1.emit
          Event.deflProject).emit Event.eigCGcycle)
        blas.zero
        (IncEigCG.callEntry stubbornCollab (stubbornSolver M) blas.zero (demoField 1)).2.r
        QudaPrecision.QUDA_DOUBLE_PRECISION := rfl
  rw [hcs, hr]
  exact eigCGsolve_main _ _ _ _ _ _ demoField_norm2_ne rfl

set_option maxRecDepth 100000 in
theorem stubborn_exit_zero :
    returnsWith (fun SL => decide (SL.2.logical_rhs_id = 1 ∧ SL.1.max_eigcg_cycles = 0))
      (IncEigCG.refinementExit stubbornCollab 5 1 (stubbornSolver 0) blas.zero (demoField 1)) =
      true := by
  rw [stubborn_cycle]
  decide

set_option maxRecDepth 100000 in
theorem stubborn_exit_two :
    returnsWith (fun SL => decide (SL.2.logical_rhs_id = 1 ∧ SL.1.max_eigcg_cycles = 2 ∧
        SL.2.dcg_cycle = false))
      (IncEigCG.refinementExit stubbornCollab 5 1 (stubbornSolver 2) blas.zero (demoField 1)) =
      true := by
  rw [stubborn_cycle]
  decide

/-! ## The count of the subspace increments -/

theorem countP_isIncrement_inSolve (l : List Event) (h : ∀ e ∈ l, e.inSolve) :
    l.countP Event.isIncrement = 0 := by
  apply List.countP_eq_zero.2
  intro e he
  rcases h e he with hh | hh | hh | ⟨_, hh⟩
  · rcases hh with hh | hh | ⟨_, hh⟩ | hh | hh <;> subst hh <;> simp [Event.isIncrement]
  · subst hh
    simp [Event.isIncrement]
  · subst hh
    simp [Event.isIncrement]
  · subst hh
    simp [Event.isIncrement]

/-- The events of one refinement cycle hold one call of `defl.increment` when
the test `update_ritz` holds, and none when it fails. -/
theorem refinementCycle_increments (C : Collab n D) (fuel : Nat) (inp : ColorSpinorField n)
    (b2 : ℚ) (S S' : IncEigCG n D) (L L' : CycleLocals n)
    (h : IncEigCG.refinementCycle C fuel inp b2 (S, L) = .ok (S', L')) :
    ∃ (res : IncEigCG.SolveResult n D) (upd : Bool) (evs : List Event),
      IncEigCG.cycleSolve C fuel (S, L) = .ok res ∧
      IncEigCG.updateRitz C res.solver L.dcg_cycle = .ok upd ∧
      S'.log = S.log ++ evs ∧
      evs.countP Event.isIncrement = (if upd then 1 else 0) ∧
      (∀ c, Event.deflIncrement c ∈ evs → upd = true) := by
  obtain ⟨res, upd, vs, h1, h2, _, _, _, _, _, _, _, _, h11, h12, _⟩ :=
    refinementCycle_eq_ok C fuel inp b2 S S' L L' h
  obtain ⟨_, evs, hl, hin⟩ := cycleSolve_eq_ok C fuel S L res h1
  have hvs : vs.countP Event.isIncrement = 0 := by
    apply List.countP_eq_zero.2
    intro e he
    rw [h12 e he]
    simp [Event.isIncrement]
  have hcount : (([Event.deflProject] ++
      (if L.dcg_cycle then [Event.printf Message.runningDCG] else []) ++
      [Event.eigCGcycle] ++ evs) ++
      ((if upd then [Event.deflIncrement res.solver.param.nev] else []) ++
        [Event.matApply] ++ vs)).countP Event.isIncrement = (if upd then 1 else 0) := by
    simp only [List.countP_append, countP_isIncrement_inSolve evs hin, hvs]
    cases L.dcg_cycle <;> cases upd <;> simp [Event.isIncrement]
  refine ⟨res, upd, _, h1, h2, ?_, hcount, ?_⟩
  · rw [h11, hl, List.append_assoc]
  · intro c hc
    by_contra hu
    have hu' : upd = false := by simpa using hu
    subst hu'
    have := List.countP_eq_zero.1 hcount _ hc
    simp [Event.isIncrement] at this

/-- C12 (amended): when the refinement loop of `operator()` is left, the
number of cycles that have incremented the subspace (`logical_rhs_id`, which is
the number of recorded calls of `defl.increment`) is at least zero and at most
`max(1, max_eigcg_cycles)`, with `max_eigcg_cycles` the value on entry to the
loop; so it is at most `max_eigcg_cycles` whenever that value is at least one. -/
theorem IncEigCG.cycle_count_bound {n : Nat} {D : Type} (C : Collab n D) (fuel cycles : Nat)
    (S : IncEigCG n D) (out inp : ColorSpinorField n) (SL : IncEigCG n D × CycleLocals n)
    (h : IncEigCG.refinementExit C fuel cycles S out inp = .ok SL) :
    0 ≤ SL.2.logical_rhs_id ∧
    SL.2.logical_rhs_id ≤ max 1 (IncEigCG.callEntry C S out inp).1.max_eigcg_cycles ∧
    (1 ≤ (IncEigCG.callEntry C S out inp).1.max_eigcg_cycles →
      SL.2.logical_rhs_id ≤ (IncEigCG.callEntry C S out inp).1.max_eigcg_cycles) ∧
    ∃ evs, SL.1.log = (IncEigCG.callEntry C S out inp).1.log ++ evs ∧
      ((evs.countP Event.isIncrement : Nat) : Int) = SL.2.logical_rhs_id := by
  obtain ⟨_, _, _, _, e5, e6⟩ := callEntry_frame C S out inp
  have hP := refinementLoop_induct C fuel inp (blas.norm2 inp)
    (blas.norm2 inp * S.param.tol * S.param.tol) (IncEigCG.mixedPrec S)
    (fun X => X.1.max_eigcg_cycles = (IncEigCG.callEntry C S out inp).1.max_eigcg_cycles ∧
      0 ≤ X.2.logical_rhs_id ∧
      X.2.logical_rhs_id ≤ max 1 (IncEigCG.callEntry C S out inp).1.max_eigcg_cycles ∧
      (X.2.dcg_cycle = false → X.2.logical_rhs_id = 0 ∨
        X.2.logical_rhs_id < (IncEigCG.callEntry C S out inp).1.max_eigcg_cycles) ∧
      ∃ evs, X.1.log = (IncEigCG.callEntry C S out inp).1.log ++ evs ∧
        ((evs.countP Event.isIncrement : Nat) : Int) = X.2.logical_rhs_id)
    (by
      rintro ⟨S1, L1⟩ ⟨S2, L2⟩ ⟨p1, p2, p3, p4, evs, p5, p6⟩ hc
      obtain ⟨res, upd, vs, h1, h2, h3, h4, _, _, h7, _⟩ :=
        refinementCycle_eq_ok C fuel inp _ S1 S2 L1 L2 hc
      obtain ⟨res', upd', evs2, h1', h2', q1, q2, _⟩ :=
        refinementCycle_increments C fuel inp _ S1 S2 L1 L2 hc
      rw [h1] at h1'
      cases h1'
      rw [h2] at h2'
      cases h2'
      obtain ⟨⟨_, f2, _⟩, _⟩ := cycleSolve_eq_ok C fuel S1 L1 res h1
      have hu := updateRitz_eq_ok C res.solver L1.dcg_cycle upd h2
      simp only at p1 p2 p3 p4 p5 p6 ⊢
      rw [f2, p1] at h4
      refine ⟨(h7.trans f2).trans p1, ?_, ?_, ?_, evs ++ evs2, ?_, ?_⟩
      · rw [h3]
        split <;> omega
      · rw [h3]
        cases hupd : upd with
        | true =>
          have hd := (hu.1 hupd).1
          simp only [if_true]
          rcases p4 hd with p4 | p4
          · rw [p4]
            exact le_max_left _ _
          · exact le_trans (by omega) (le_max_right _ _)
        | false =>
          simpa using p3
      · intro hd
        rw [h4] at hd
        cases hupd : upd with
        | true =>
          rw [hupd] at hd
          simp only [if_true, decide_eq_false_iff_not, ge_iff_le, not_le] at hd
          rw [h3, hupd]
          right
          simpa using hd
        | false =>
          rw [hupd] at hd
          simp at hd
      · rw [q1, p5, List.append_assoc]
      · rw [List.countP_append, q2, h3]
        push_cast
        rw [p6]
        cases upd <;> simp)
    cycles (IncEigCG.callEntry C S out inp) SL
    ⟨rfl, by rw [e5], by rw [e5]; exact le_trans zero_le_one (le_max_left _ _),
      fun _ => Or.inl e5, [], by simp, by simp [e5]⟩ h
  obtain ⟨_, p2, p3, _, p5⟩ := hP
  refine ⟨p2, p3, ?_, p5⟩
  intro hM
  rw [max_eq_right hM] at p3
  exact p3

/-- Witness for C12 (amended): the call of the test problem that never
converges, with `eigcg_max_restarts = 2`, leaves the loop after one increment. -/
theorem IncEigCG.cycle_count_bound_witness :
    ∃ SL, IncEigCG.refinementExit stubbornCollab 5 1 (stubbornSolver 2) blas.zero (demoField 1) =
        .ok SL ∧ SL.2.logical_rhs_id = 1 ∧
      SL.2.logical_rhs_id ≤
        (IncEigCG.callEntry stubbornCollab (stubbornSolver 2) blas.zero (demoField 1)).1.max_eigcg_cycles := by
  obtain ⟨SL, h1, h2⟩ := (returnsWith_iff _ _).1 stubborn_exit_two
  simp only [decide_eq_true_eq] at h2
  exact ⟨SL, h1, h2.1,
    (IncEigCG.cycle_count_bound stubbornCollab 5 1 (stubbornSolver 2) blas.zero (demoField 1)
      SL h1).2.2.1 (by decide)⟩

/-- Counterexample to C12 as stated: with `param.rhs_idx = 0` and
`eigcg_max_restarts = 0` the cap `max_eigcg_cycles` is zero, yet the first
cycle of the call, which makes two restarts on an incomplete subspace,
increments the subspace: `logical_rhs_id` is `1` when the loop is left. -/
theorem IncEigCG.cycle_count_bound_counterexample :
    ∃ SL, IncEigCG.refinementExit stubbornCollab 5 1 (stubbornSolver 0) blas.zero (demoField 1) =
        .ok SL ∧ SL.1.max_eigcg_cycles = 0 ∧ SL.2.logical_rhs_id = 1 ∧
      ¬ (SL.2.logical_rhs_id ≤ SL.1.max_eigcg_cycles) := by
  obtain ⟨SL, h1, h2⟩ := (returnsWith_iff _ _).1 stubborn_exit_zero
  simp only [decide_eq_true_eq] at h2
  refine ⟨SL, h1, h2.2, h2.1, ?_⟩
  rw [h2.1, h2.2]
  decide

/-- Witness for C11: the call of the test problem that never converges runs in
double precision throughout on a subspace that is never complete; it returns
after its one cycle although the residual has not met the tolerance. -/
theorem IncEigCG.call_single_cycle_witness :
    (stubbornSolver 2).param.precision = (stubbornSolver 2).param.precision_sloppy ∧
    stubbornCollab.is_complete (stubbornSolver 2).defl = false ∧
    ∃ S' x evs, IncEigCG.call stubbornCollab 5 1 (stubbornSolver 2) blas.zero (demoField 1) =
        .ok (S', x) ∧
      S'.log = (stubbornSolver 2).log ++ evs ∧ evs.count Event.eigCGcycle = 1 := by
  obtain ⟨h1, _, h3⟩ := IncEigCG.call_single_cycle stubbornCollab 5 1 (stubbornSolver 2) blas.zero
    (demoField 1) rfl rfl (by decide)
  obtain ⟨SL, g1, _⟩ := (returnsWith_iff _ _).1 stubborn_exit_two
  have hcall : IncEigCG.call stubbornCollab 5 1 (stubbornSolver 2) blas.zero (demoField 1) =
      .ok (IncEigCG.finishCall stubbornCollab (IncEigCG.mixedPrec (stubbornSolver 2)) SL,
        SL.2.out) := by
    rw [call_incomplete stubbornCollab 5 1 (stubbornSolver 2) blas.zero (demoField 1) rfl, g1]
    rfl
  obtain ⟨evs, e1, e2⟩ := h3 _ _ hcall
  exact ⟨rfl, rfl, _, _, evs, hcall, e1, e2⟩

/-! ## When the subspace is incremented -/

/-- What the refinement loop leaves as it was, and what it can record. -/
theorem refinementLoop_frame (C : Collab n D) (fuel : Nat) (inp : ColorSpinorField n)
    (b2 stop : ℚ) (mixed_prec : Bool) (cycles : Nat) (SL SL' : IncEigCG n D × CycleLocals n)
    (h : IncEigCG.refinementLoop C fuel inp b2 stop mixed_prec cycles SL = .ok SL') :
    SL'.1.max_eigcg_cycles = SL.1.max_eigcg_cycles ∧
    (∃ it tr thq, SL'.1.param =
      { SL.1.param with iter := it, true_res := tr, true_res_hq := thq }) ∧
    ∃ evs, SL'.1.log = SL.1.log ++ evs ∧ ∀ e ∈ evs, e.inRefinement := by
  refine refinementLoop_induct C fuel inp b2 stop mixed_prec
    (fun X => X.1.max_eigcg_cycles = SL.1.max_eigcg_cycles ∧
      (∃ it tr thq, X.1.param =
        { SL.1.param with iter := it, true_res := tr, true_res_hq := thq }) ∧
      ∃ evs, X.1.log = SL.1.log ++ evs ∧ ∀ e ∈ evs, e.inRefinement)
    ?_ cycles SL SL' ⟨rfl, ⟨_, _, _, rfl⟩, [], by simp, by simp⟩ h
  rintro ⟨S1, L1⟩ ⟨S2, L2⟩ ⟨p1, ⟨it, tr, thq, p2⟩, evs, p3, p4⟩ hc
  obtain ⟨q1, ⟨it2, tr2, thq2, q2⟩, evs2, q3, _, q5⟩ :=
    refinementCycle_frame C fuel inp b2 S1 S2 L1 L2 hc
  simp only at p1 p2 p3 ⊢
  refine ⟨q1.trans p1, ⟨it2, tr2, thq2, ?_⟩, evs ++ evs2, ?_, ?_⟩
  · rw [q2, p2]
  · rw [q3, p3, List.append_assoc]
  · intro e he
    rcases List.mem_append.1 he with he | he
    · exact p4 e he
    · exact q5 e he

theorem inRefinement_ne_reduce (e : Event) (h : e.inRefinement) :
    (∀ t c, e ≠ Event.deflReduce t c) ∧ e ≠ Event.freeVm := by
  rcases h with hh | hh | hh | hh | hh
  · rcases hh with hh | hh | hh | ⟨_, hh⟩
    · rcases hh with hh | hh | ⟨_, hh⟩ | hh | hh <;> subst hh <;>
        exact ⟨fun _ _ h => (nomatch h), fun h => (nomatch h)⟩
    · subst hh
      exact ⟨fun _ _ h => (nomatch h), fun h => (nomatch h)⟩
    · subst hh
      exact ⟨fun _ _ h => (nomatch h), fun h => (nomatch h)⟩
    · subst hh
      exact ⟨fun _ _ h => (nomatch h), fun h => (nomatch h)⟩
  · rcases hh with ⟨_, hh⟩ | hh | hh <;> subst hh <;>
      exact ⟨fun _ _ h => (nomatch h), fun h => (nomatch h)⟩
  · subst hh
    exact ⟨fun _ _ h => (nomatch h), fun h => (nomatch h)⟩
  · subst hh
    exact ⟨fun _ _ h => (nomatch h), fun h => (nomatch h)⟩
  · subst hh
    exact ⟨fun _ _ h => (nomatch h), fun h => (nomatch h)⟩

/-- C14: in a call of `operator()` that started on an incomplete subspace and
returns, with `SL` the state in which the refinement loop was left: if the
subspace is complete then, the call has invoked `defl.reduce` exactly once,
with the tolerance `param.eigenval_tol` and `maxCount = defl.size()`, and has
released the basis `Vm` (once); if the subspace is still incomplete, the call
has invoked no `defl.reduce`, and `Vm` and the subspace are as the loop left
them. -/
theorem IncEigCG.call_reduce {n : Nat} {D : Type} (C : Collab n D) (fuel cycles : Nat)
    (S S' : IncEigCG n D) (out inp out' : ColorSpinorField n)
    (hinc : C.is_complete S.defl = false)
    (h : IncEigCG.call C fuel cycles S out inp = .ok (S', out')) :
    ∃ (SL : IncEigCG n D × CycleLocals n) (evs : List Event),
      IncEigCG.refinementExit C fuel cycles S out inp = .ok SL ∧ S'.log = S.log ++ evs ∧
      (C.is_complete SL.1.defl = true →
        evs.count (Event.deflReduce S.param.eigenval_tol (C.size SL.1.defl)) = 1 ∧
        (∀ t c, Event.deflReduce t c ∈ evs →
          t = S.param.eigenval_tol ∧ c = C.size SL.1.defl) ∧
        evs.count Event.freeVm = 1 ∧ S'.Vm = none ∧
        S'.defl = C.reduce SL.1.defl S.param.eigenval_tol (C.size SL.1.defl)) ∧
      (C.is_complete SL.1.defl = false →
        (∀ t c, Event.deflReduce t c ∉ evs) ∧ Event.freeVm ∉ evs ∧
        S'.Vm = SL.1.Vm ∧ S'.defl = SL.1.defl) := by
  rw [call_incomplete C fuel cycles S out inp hinc] at h
  obtain ⟨⟨S1, L1⟩, h1, h2⟩ := (bind_eq_ok _ _ _).1 h
  simp only [pure, Except.pure, Except.ok.injEq, Prod.mk.injEq] at h2
  obtain ⟨rfl, _⟩ := h2
  obtain ⟨e1, _, e3, _⟩ := callEntry_frame C S out inp
  obtain ⟨_, ⟨it, tr, thq, f2⟩, evs, f3, f4⟩ := refinementLoop_frame C fuel inp _ _ _ cycles _ _ h1
  simp only at f2 f3
  rw [e1] at f2
  rw [e3] at f3
  have htol : S1.param.eigenval_tol = S.param.eigenval_tol := by rw [f2]
  obtain ⟨_, pre, hpre, hT, hF⟩ := finishCall_spec C (IncEigCG.mixedPrec S) S1 L1
  have hevs : (∀ t c, Event.deflReduce t c ∉ evs) ∧ Event.freeVm ∉ evs :=
    ⟨fun t c hm => (inRefinement_ne_reduce _ (f4 _ hm)).1 t c rfl,
      fun hm => (inRefinement_ne_reduce _ (f4 _ hm)).2 rfl⟩
  have hpre' : (∀ t c, Event.deflReduce t c ∉ pre) ∧ Event.freeVm ∉ pre :=
    ⟨fun t c hm => (nomatch hpre _ hm), fun hm => (nomatch hpre _ hm)⟩
  cases hc : C.is_complete S1.defl with
  | true =>
    obtain ⟨v1, v2, w, hw, hl⟩ := hT hc
    have hw' : (∀ t c, Event.deflReduce t c ∉ w) ∧ Event.freeVm ∉ w :=
      ⟨fun t c hm => (nomatch hw _ hm), fun hm => (nomatch hw _ hm)⟩
    rw [htol] at hl v2
    refine ⟨(S1, L1), [Event.matApply] ++ (evs ++ (pre ++ w ++
      [Event.freeVm, Event.printf Message.reserveEigenvectors,
       Event.deflReduce S.param.eigenval_tol (C.size S1.defl)])), h1, ?_,
      fun _ => ⟨?_, ?_, ?_, v1, v2⟩, fun hh => absurd (hc.symm.trans hh) (by decide)⟩
    · rw [hl, f3]
      simp only [List.append_assoc]
    · simp only [List.count_append, List.count_eq_zero.2 (hevs.1 _ _),
        List.count_eq_zero.2 (hpre'.1 _ _), List.count_eq_zero.2 (hw'.1 _ _)]
      simp
    · intro t c hm
      simp only [List.mem_append, List.mem_cons, List.mem_singleton, List.not_mem_nil,
        or_false] at hm
      rcases hm with hm | hm | (hm | hm) | hm | hm | hm
      · cases hm
      · exact absurd hm (hevs.1 t c)
      · exact absurd hm (hpre'.1 t c)
      · exact absurd hm (hw'.1 t c)
      · cases hm
      · cases hm
      · cases hm
        exact ⟨rfl, rfl⟩
    · simp only [List.count_append, List.count_eq_zero.2 hevs.2,
        List.count_eq_zero.2 hpre'.2, List.count_eq_zero.2 hw'.2]
      simp
  | false =>
    obtain ⟨v1, v2, hl⟩ := hF hc
    refine ⟨(S1, L1), [Event.matApply] ++ (evs ++ pre), h1, ?_,
      (fun hh => absurd (hc.symm.trans hh) (by decide)),
      fun _ => ⟨?_, ?_, v1, v2⟩⟩
    · rw [hl, f3]
      simp only [List.append_assoc]
    · intro t c hm
      simp only [List.mem_append, List.mem_singleton] at hm
      rcases hm with hm | hm | hm
      · cases hm
      · exact hevs.1 t c hm
      · exact hpre'.1 t c hm
    · intro hm
      simp only [List.mem_append, List.mem_singleton] at hm
      rcases hm with hm | hm | hm
      · cases hm
      · exact hevs.2 hm
      · exact hpre'.2 hm

/-- The call of the test problem over the counting deflation object is one
refinement cycle, whose `eigCGsolve` runs its loop. -/
theorem growing_cycle :
    IncEigCG.refinementExit growingCollab 5 1 growingSolver blas.zero (demoField 1) =
      (IncEigCG.eigCGexit growingCollab 5
          (((IncEigCG.callEntry growingCollab growingSolver blas.zero (demoField 1)).1.emit
            Event.deflProject).emit Event.eigCGcycle)
          blas.zero (demoField 1) QudaPrecision.QUDA_DOUBLE_PRECISION >>=
        IncEigCG.eigCGepilogue growingCollab (demoField 1) (blas.norm2 (demoField 1))) >>=
      IncEigCG.cycleTail growingCollab (demoField 1) (blas.norm2 (demoField 1))
        (IncEigCG.callEntry growingCollab growingSolver blas.zero (demoField 1)).2 := by
  unfold IncEigCG.refinementExit
  have hm : IncEigCG.mixedPrec growingSolver = false := rfl
  rw [hm, refinementLoop_single, refinementCycle_split]
  congr 1
  have hr : (IncEigCG.callEntry growingCollab growingSolver blas.zero (demoField 1)).2.r =
      demoField 1 := by
    show (blas.xmyNorm (demoField 1) blas.zero).1 = _
    rw [xmyNorm_zero]
  have hcs : IncEigCG.cycleSolve growingCollab 5
      (IncEigCG.callEntry growingCollab growingSolver blas.zero (demoField 1)) =
      IncEigCG.eigCGsolve growingCollab 5
        (((IncEigCG.callEntry growingCollab growingSolver blas.zero (demoField 1)).1.emit
          Event.deflProject).emit Event.eigCGcycle)
        blas.zero
        (IncEigCG.callEntry growingCollab growingSolver blas.zero (demoField 1)).2.r
        QudaPrecision.QUDA_DOUBLE_PRECISION := rfl
  rw [hcs, hr]
  exact eigCGsolve_main _ _ _ _ _ _ demoField_norm2_ne rfl

set_option maxRecDepth 100000 in
theorem growing_exit :
    returnsWith (fun SL => decide (SL.1.defl = 1 ∧ SL.2.logical_rhs_id = 1))
      (IncEigCG.refinementExit growingCollab 5 1 growingSolver blas.zero (demoField 1)) =
      true := by
  rw [growing_cycle]
  decide

/-- Witness for C14: the call of the test problem over the counting deflation
object completes the subspace in its one cycle; it reduces the subspace once,
with `eigenval_tol = 0` and `maxCount = 1`, and releases the basis. -/
theorem IncEigCG.call_reduce_witness :
    growingCollab.is_complete growingSolver.defl = false ∧
    ∃ S' x evs, IncEigCG.call growingCollab 5 1 growingSolver blas.zero (demoField 1) =
        .ok (S', x) ∧
      S'.log = growingSolver.log ++ evs ∧
      evs.count (Event.deflReduce 0 1) = 1 ∧ S'.Vm = none := by
  obtain ⟨SL, g1, g2⟩ := (returnsWith_iff _ _).1 growing_exit
  simp only [decide_eq_true_eq] at g2
  have hcall : IncEigCG.call growingCollab 5 1 growingSolver blas.zero (demoField 1) =
      .ok (IncEigCG.finishCall growingCollab (IncEigCG.mixedPrec growingSolver) SL,
        SL.2.out) := by
    rw [call_incomplete growingCollab 5 1 growingSolver blas.zero (demoField 1) rfl, g1]
    rfl
  obtain ⟨SL', evs, e1, e2, e3, _⟩ :=
    IncEigCG.call_reduce growingCollab 5 1 growingSolver _ blas.zero (demoField 1) _ rfl hcall
  rw [g1] at e1
  cases e1
  have hd : growingCollab.is_complete SL.1.defl = true := by
    rw [g2.1]
    rfl
  obtain ⟨c1, _, _, c4, _⟩ := e3 hd
  refine ⟨rfl, _, _, evs, hcall, e2, ?_, c4⟩
  have hs : growingCollab.size SL.1.defl = 1 := by
    rw [g2.1]
    rfl
  rw [hs] at c1
  exact c1

/-! ## The cached `Az` -/

theorem restartOrSave_Az (C : Collab n D) (S S' : IncEigCG n D) (a : EigCGArgs n)
    (beta sqrtr2 : ℚ) (h : IncEigCG.restartOrSave C S a beta sqrtr2 = .ok S') :
    (a.id = S.param.m → ∃ Ap az, S.Ap = some Ap ∧ S.Az = some az ∧
      S'.Az = some (blas.xpay Ap (-beta) az)) ∧
    (a.id ≠ S.param.m → a.id = S.param.m - 1 → S'.Az = S.Ap) ∧
    (a.id ≠ S.param.m → a.id ≠ S.param.m - 1 → S'.Az = S.Az) := by
  unfold IncEigCG.restartOrSave at h
  by_cases h1 : a.id = S.param.m
  · rw [if_pos h1] at h
    obtain ⟨S1, r1, h⟩ := (bind_eq_ok _ _ _).1 h
    obtain ⟨a1, _, h⟩ := (bind_eq_ok _ _ _).1 h
    simp only [pure, Except.pure, Except.ok.injEq] at h
    subst h
    obtain ⟨_, _, _, _, _, _, Ap, Az, _, _, _, _, _, _, _, _, _, _, _, q1, q2, q3, _⟩ :=
      RestartVT_eq_ok C S S1 beta sqrtr2 r1
    exact ⟨fun _ => ⟨Ap, Az, q1, q2, q3⟩, fun hn => absurd h1 hn, fun hn => absurd h1 hn⟩
  · by_cases h2 : a.id = S.param.m - 1
    · rw [if_neg h1, if_pos h2] at h
      obtain ⟨Ap, r1, h⟩ := (bind_eq_ok _ _ _).1 h
      obtain ⟨_, _, h⟩ := (bind_eq_ok _ _ _).1 h
      simp only [pure, Except.pure, Except.ok.injEq] at h
      subst h
      rw [deref_eq_ok] at r1
      exact ⟨fun hh => absurd hh h1, fun _ _ => r1.symm, fun _ hn => absurd h2 hn⟩
    · rw [if_neg h1, if_neg h2] at h
      simp only [pure, Except.pure, Except.ok.injEq] at h
      subst h
      exact ⟨fun hh => absurd hh h1, fun _ hh => absurd hh h2, fun _ _ => rfl⟩

/-- What a pass through the loop body outside the correction mode does to the
cached `Az` and to the cursor: a restart replaces `Az` by `Ap - beta Az`, a
pass with the cursor at `m - 1` replaces it by `Ap`, any other pass keeps it;
`Ap` is the operator applied to the search direction of this pass. -/
theorem eigCGiteration_Az (C : Collab n D) (local_stop : ℚ) (S S' : IncEigCG n D)
    (L L' : EigCGLocals n) (a : EigCGArgs n) (p : ColorSpinorField n)
    (h : IncEigCG.eigCGiteration C local_stop (S, L) = .ok (S', L'))
    (ha : S.eigcg_args = some a) (hrc : a.run_residual_correction = false)
    (hp : S.pp = some p) :
    (a.id = S.param.m → ∃ az, S.Az = some az ∧
      S'.Az = some (blas.xpay (C.matSloppy p) (-L.beta) az)) ∧
    (a.id ≠ S.param.m → a.id = S.param.m - 1 → S'.Az = some (C.matSloppy p)) ∧
    (a.id ≠ S.param.m → a.id ≠ S.param.m - 1 → S'.Az = S.Az) ∧
    ∃ a', S'.eigcg_args = some a' ∧ a'.run_residual_correction = false ∧ a'.k = a.k ∧
      a'.id = (if a.id = S.param.m then 2 * a.k else a.id) + 1 ∧
      a'.restarts = (if a.id = S.param.m then a.restarts + 1 else a.restarts) ∧
      S'.param = S.param := by
  have h0 := h
  unfold IncEigCG.eigCGiteration at h
  obtain ⟨p', r1, h⟩ := (bind_eq_ok _ _ _).1 h
  obtain ⟨_, _, h⟩ := (bind_eq_ok _ _ _).1 h
  obtain ⟨_, _, h⟩ := (bind_eq_ok _ _ _).1 h
  obtain ⟨r, r2, h⟩ := (bind_eq_ok _ _ _).1 h
  obtain ⟨S2, r3, h⟩ := (bind_eq_ok _ _ _).1 h
  obtain ⟨⟨S3, z⟩, r4, h⟩ := (bind_eq_ok _ _ _).1 h
  obtain ⟨y, r5, h⟩ := (bind_eq_ok _ _ _).1 h
  obtain ⟨a2, r6, h⟩ := (bind_eq_ok _ _ _).1 h
  obtain ⟨a', r7, h⟩ := (bind_eq_ok _ _ _).1 h
  simp only [pure, Except.pure, Except.ok.injEq, Prod.mk.injEq] at h
  obtain ⟨hS, hL⟩ := h
  subst hS
  rw [deref_eq_ok] at r1 r6
  have hpp : p' = p := by
    have e : S.pp = some p' := r1
    rw [hp] at e
    cases e
    rfl
  subst hpp
  obtain ⟨z1, _, z3, _, _, _, _, z8, _⟩ := refreshZ_eq_ok C _ S3 _ z r4
  -- the call of `UpdateVm`
  have hU := r3
  unfold IncEigCG.UpdateVm at hU
  obtain ⟨a0, u0, hU⟩ := (bind_eq_ok _ _ _).1 hU
  rw [deref_eq_ok] at u0
  have ea : a0 = a := by
    have e : S.eigcg_args = some a0 := u0
    rw [ha] at e
    cases e
    rfl
  subst ea
  simp only [hrc, Bool.false_eq_true, if_false] at hU
  obtain ⟨S1, u1, u2⟩ := (bind_eq_ok _ _ _).1 hU
  obtain ⟨w1, w2, w3⟩ := restartOrSave_Az C
    ({ S with Ap := some (C.matSloppy p') }.emit Event.matSloppyApply) S1 a0 _ _ u1
  obtain ⟨_, _, _, _, _, _, _, _, l6, _, l8, _⟩ := loadBasisVector_eq_ok S1 S2 _ _ u2
  obtain ⟨args', e1, _, ek, erc, _, _, _, _, fr, hcase⟩ :=
    restartOrSave_eq_ok C ({ S with Ap := some (C.matSloppy p') }.emit Event.matSloppyApply)
      S1 a0 _ _ ha u1
  have hAz : S3.Az = S1.Az := by
    have e : S3.Az = S2.Az := z8
    rw [e, l8]
  have ha2 : a2 = args' := by
    have e : S3.eigcg_args = some a2 := r6
    have e2 : S3.eigcg_args = S2.eigcg_args := z1
    rw [e2, l6, e1] at e
    cases e
    rfl
  subst ha2
  obtain ⟨s1, s2, s3, _, s5, _, s7, _⟩ := EigCGArgs.SetLanczos_eq_ok a2 a' _ _ r7
  have hrc2 : a2.run_residual_correction = false := erc.trans hrc
  have hparam : S3.param = S.param := by
    have e : S3.param = S2.param := z3
    have e2 := (UpdateVm_frame C _ S2 _ _ _ r3).1.1
    rw [e, e2]
    rfl
  refine ⟨?_, ?_, ?_, a', rfl, s3.trans hrc2, s2.trans ek, ?_, ?_, hparam⟩
  · intro hid
    obtain ⟨Ap, az, q1, q2, q3⟩ := w1 hid
    have e : some (C.matSloppy p') = some Ap := q1
    cases e
    exact ⟨az, q2, by show S3.Az = _; rw [hAz, q3]⟩
  · intro hid hid2
    show S3.Az = _
    rw [hAz, w2 hid hid2]
    rfl
  · intro hid hid2
    show S3.Az = _
    rw [hAz, w3 hid hid2]
    rfl
  · rw [(s7 hrc2).2]
    rcases hcase with ⟨c1, c2, _⟩ | ⟨c1, c2, _⟩
    · have c1' : a0.id = S.param.m := c1
      rw [if_pos c1', c2]
    · have c1' : a0.id ≠ S.param.m := c1
      rw [if_neg c1', c2]
  · rw [s5]
    rcases hcase with ⟨c1, _, c3, _⟩ | ⟨c1, c2, _⟩
    · have c1' : a0.id = S.param.m := c1
      rw [if_pos c1', c3]
    · have c1' : a0.id ≠ S.param.m := c1
      rw [if_neg c1', c2]

/-- Where the cached vector is the one the restart needs: let a pass through
the loop body of `eigCGsolve` outside the correction mode leave the cursor at
`m`, so that the next pass restarts.  If that pass was not itself a restart,
which is the case for every `m` different from `2k + 1` and, for every `m`,
before the first restart, then it found the cursor at `m - 1` and `Az` on
entry to the restart is the `Ap` it computed.  If it was itself a restart,
then `m = 2k + 1` and `Az` on entry to the next restart is `Ap - beta Az` as
the previous restart left it. -/
theorem eigCGiteration_restart_Az {n : Nat} {D : Type} (C : Collab n D) (local_stop : ℚ)
    (S S1 : IncEigCG n D) (L L1 : EigCGLocals n) (a a1 : EigCGArgs n) (p : ColorSpinorField n)
    (h : IncEigCG.eigCGiteration C local_stop (S, L) = .ok (S1, L1))
    (ha : S.eigcg_args = some a) (hrc : a.run_residual_correction = false)
    (hp : S.pp = some p) (ha1 : S1.eigcg_args = some a1) (hrestart : a1.id = S1.param.m) :
    (a.id ≠ S.param.m → a.id = S.param.m - 1 ∧ S1.Az = some (C.matSloppy p)) ∧
    (S.param.m ≠ 2 * a.k + 1 → a.id ≠ S.param.m) ∧
    (a1.restarts = 0 → a.id ≠ S.param.m) ∧
    (a.id = S.param.m → S.param.m = 2 * a.k + 1 ∧ ∃ az, S.Az = some az ∧
      S1.Az = some (blas.xpay (C.matSloppy p) (-L.beta) az)) := by
  obtain ⟨w1, w2, _, a', e1, _, _, e4, e5, e6⟩ :=
    eigCGiteration_Az C local_stop S S1 L L1 a p h ha hrc hp
  rw [ha1] at e1
  cases e1
  rw [e6] at hrestart
  have hA : a.id = S.param.m → S.param.m = 2 * a.k + 1 := by
    intro hid
    rw [if_pos hid] at e4
    omega
  refine ⟨?_, ?_, ?_, ?_⟩
  · intro hid
    rw [if_neg hid] at e4
    have hm1 : a.id = S.param.m - 1 := by omega
    exact ⟨hm1, w2 hid hm1⟩
  · intro hm hid
    exact hm (hA hid)
  · intro hr hid
    rw [if_pos hid] at e5
    omega
  · intro hid
    exact ⟨hA hid, w1 hid⟩

/-! ## The CG recurrence in the loop body -/

/-- Without a preconditioner a pass through the loop body makes one step of
the CG recurrence: `r' = r - alpha A p` with `alpha = rMinvr / <p, A p>`,
`beta' = <r', r'> / rMinvr` and `p' = r' + beta' p`. -/
theorem eigCGiteration_cg (C : Collab n D) (local_stop : ℚ) (S S' : IncEigCG n D)
    (L L' : EigCGLocals n) (p r : ColorSpinorField n)
    (h : IncEigCG.eigCGiteration C local_stop (S, L) = .ok (S', L'))
    (hK : S.K = none) (hp : S.pp = some p) (hr : S.rp = some r) :
    S'.K = none ∧
    S'.rp = some (blas.axpyNorm (-(L.rMinvr / blas.reDotProduct p (C.matSloppy p)))
      (C.matSloppy p) r).1 ∧
    L'.rMinvr = (blas.axpyNorm (-(L.rMinvr / blas.reDotProduct p (C.matSloppy p)))
      (C.matSloppy p) r).2 ∧
    L'.beta = (blas.axpyNorm (-(L.rMinvr / blas.reDotProduct p (C.matSloppy p)))
      (C.matSloppy p) r).2 / L.rMinvr ∧
    S'.pp = some (fun i =>
      (blas.axpyNorm (-(L.rMinvr / blas.reDotProduct p (C.matSloppy p))) (C.matSloppy p) r).1 i +
      Cplx.scale ((blas.axpyNorm (-(L.rMinvr / blas.reDotProduct p (C.matSloppy p)))
        (C.matSloppy p) r).2 / L.rMinvr) (p i)) := by
  unfold IncEigCG.eigCGiteration at h
  obtain ⟨p', r1, h⟩ := (bind_eq_ok _ _ _).1 h
  obtain ⟨_, _, h⟩ := (bind_eq_ok _ _ _).1 h
  obtain ⟨_, _, h⟩ := (bind_eq_ok _ _ _).1 h
  obtain ⟨r', r2, h⟩ := (bind_eq_ok _ _ _).1 h
  obtain ⟨S2, r3, h⟩ := (bind_eq_ok _ _ _).1 h
  obtain ⟨⟨S3, z⟩, r4, h⟩ := (bind_eq_ok _ _ _).1 h
  obtain ⟨y, r5, h⟩ := (bind_eq_ok _ _ _).1 h
  obtain ⟨a2, r6, h⟩ := (bind_eq_ok _ _ _).1 h
  obtain ⟨a', r7, h⟩ := (bind_eq_ok _ _ _).1 h
  simp only [pure, Except.pure, Except.ok.injEq, Prod.mk.injEq] at h
  obtain ⟨hS, hL⟩ := h
  subst hS
  subst hL
  rw [deref_eq_ok] at r1 r2
  have hpp : p' = p := by
    have e : S.pp = some p' := r1
    rw [hp] at e
    cases e
    rfl
  subst hpp
  have hrr : r' = r := by
    have e : S.rp = some r' := r2
    rw [hr] at e
    cases e
    rfl
  subst hrr
  have hK2 : S2.K = none := by
    have e := (UpdateVm_frame C _ S2 _ _ _ r3).1.2.2.1
    rw [e]
    exact hK
  have hz : IncEigCG.refreshZ C
      { S2 with rp := some (blas.axpyNorm (-(L.rMinvr / blas.reDotProduct p' (C.matSloppy p')))
        (C.matSloppy p') r').1 }
      (blas.axpyNorm (-(L.rMinvr / blas.reDotProduct p' (C.matSloppy p'))) (C.matSloppy p') r').1 =
      .ok (S3, z) := r4
  unfold IncEigCG.refreshZ at hz
  simp only [hK2, pure, Except.pure, Except.ok.injEq, Prod.mk.injEq] at hz
  obtain ⟨hS3, hzz⟩ := hz
  subst hS3
  subst hzz
  simp only [hK2, Option.isSome_none, Bool.false_eq_true, if_false]
  refine ⟨?_, ?_, ?_, ?_, ?_⟩ <;> trivial

/-! ## The run on four components -/

theorem vec4_eq (a b c d a' b' c' d' : ℚ) (h : vec4 a b c d = vec4 a' b' c' d') :
    a = a' ∧ b = b' ∧ c = c' ∧ d = d' := by
  have h0 := congrFun h 0
  have h1 := congrFun h 1
  have h2 := congrFun h 2
  have h3 := congrFun h 3
  simp only [vec4, Cplx.ofReal, Cplx.mk.injEq, and_true] at h0 h1 h2 h3
  exact ⟨by simpa using h0, by simpa using h1, by simpa using h2, by simpa using h3⟩

theorem rampOperator_vec4 (a b c d : ℚ) :
    rampOperator (vec4 a b c d) = vec4 a (2 * b) (3 * c) (4 * d) := by
  funext i
  fin_cases i <;> simp [rampOperator, vec4, Cplx.scale, Cplx.ofReal] <;> norm_num

theorem reDotProduct_vec4 (a b c d a' b' c' d' : ℚ) :
    blas.reDotProduct (vec4 a b c d) (vec4 a' b' c' d') = a * a' + b * b' + c * c' + d * d' := by
  simp [blas.reDotProduct, vec4, Cplx.ofReal, Fin.sum_univ_four]

theorem axpyNorm_vec4 (s a b c d a' b' c' d' : ℚ) :
    blas.axpyNorm s (vec4 a b c d) (vec4 a' b' c' d') =
      (vec4 (a' + s * a) (b' + s * b) (c' + s * c) (d' + s * d),
        (a' + s * a) ^ 2 + (b' + s * b) ^ 2 + (c' + s * c) ^ 2 + (d' + s * d) ^ 2) := by
  have hv : (fun i => vec4 a' b' c' d' i + Cplx.scale s (vec4 a b c d i)) =
      vec4 (a' + s * a) (b' + s * b) (c' + s * c) (d' + s * d) := by
    funext i
    fin_cases i <;> simp [vec4, Cplx.scale, Cplx.ofReal, Cplx.eq_iff]
  simp only [blas.axpyNorm, hv, Prod.mk.injEq, true_and]
  simp [blas.norm2, vec4, Cplx.ofReal, Fin.sum_univ_four]
  ring

theorem xpay_vec4 (s a b c d a' b' c' d' : ℚ) :
    (fun i => vec4 a b c d i + Cplx.scale s (vec4 a' b' c' d' i)) =
      vec4 (a + s * a') (b + s * b') (c + s * c') (d + s * d') := by
  funext i
  fin_cases i <;> simp [vec4, Cplx.scale, Cplx.ofReal, Cplx.eq_iff]

theorem eigCGiterations_succ (C : Collab n D) (local_stop : ℚ) :
    ∀ (j : Nat) (SL : IncEigCG n D × EigCGLocals n),
      IncEigCG.eigCGiterations C local_stop (j + 1) SL =
        IncEigCG.eigCGiterations C local_stop j SL >>= IncEigCG.eigCGiteration C local_stop := by
  intro j
  induction j with
  | zero =>
    intro SL
    simp only [IncEigCG.eigCGiterations, bind, Except.bind, pure, Except.pure]
    cases IncEigCG.eigCGiteration C local_stop SL <;> rfl
  | succ j ih =>
    intro SL
    have e : IncEigCG.eigCGiterations C local_stop (j + 1 + 1) SL =
        IncEigCG.eigCGiteration C local_stop SL >>=
          IncEigCG.eigCGiterations C local_stop (j + 1) := rfl
    rw [e]
    cases h : IncEigCG.eigCGiteration C local_stop SL with
    | error e => simp [IncEigCG.eigCGiterations, h, bind, Except.bind]
    | ok SL1 =>
      simp only [bind, Except.bind]
      have e2 : IncEigCG.eigCGiterations C local_stop (j + 1) SL =
          IncEigCG.eigCGiterations C local_stop j SL1 := by
        simp only [IncEigCG.eigCGiterations, h, bind, Except.bind]
      rw [e2, ih SL1]
      rfl

theorem rampRun_succ (j : Nat) :
    rampRun (j + 1) = rampRun j >>= IncEigCG.eigCGiteration rampCollab
      (IncEigCG.localStop (IncEigCG.initialised rampCollab rampSolver (vec4 1 1 1 1))
        (vec4 1 1 1 1) QudaPrecision.QUDA_DOUBLE_PRECISION) := by
  unfold rampRun
  cases IncEigCG.eigCGprologue rampCollab
      (IncEigCG.initialised rampCollab rampSolver (vec4 1 1 1 1)) blas.zero (vec4 1 1 1 1) with
  | error e => rfl
  | ok SL =>
    simp only [bind, Except.bind]
    exact eigCGiterations_succ rampCollab _ j SL

/-- One pass of the run on four components in closed form: from the search
direction `(a, b, c, d)`, the residual `(a', b', c', d')` and `rMinvr = rho`. -/
theorem ramp_step (local_stop : ℚ) (S S' : IncEigCG 4 Unit) (L L' : EigCGLocals 4)
    (a b c d a' b' c' d' rho alpha x1 x2 x3 x4 rho' beta' y1 y2 y3 y4 : ℚ)
    (h : IncEigCG.eigCGiteration rampCollab local_stop (S, L) = .ok (S', L'))
    (hK : S.K = none) (hp : S.pp = some (vec4 a b c d)) (hr : S.rp = some (vec4 a' b' c' d'))
    (hrho : L.rMinvr = rho)
    (halpha : alpha = rho / (a * a + b * (2 * b) + c * (3 * c) + d * (4 * d)))
    (h1 : x1 = a' + -alpha * a) (h2 : x2 = b' + -alpha * (2 * b))
    (h3 : x3 = c' + -alpha * (3 * c)) (h4 : x4 = d' + -alpha * (4 * d))
    (hrho' : rho' = x1 ^ 2 + x2 ^ 2 + x3 ^ 2 + x4 ^ 2) (hbeta : beta' = rho' / rho)
    (g1 : y1 = x1 + beta' * a) (g2 : y2 = x2 + beta' * b)
    (g3 : y3 = x3 + beta' * c) (g4 : y4 = x4 + beta' * d) :
    S'.K = none ∧ S'.pp = some (vec4 y1 y2 y3 y4) ∧ S'.rp = some (vec4 x1 x2 x3 x4) ∧
    L'.rMinvr = rho' ∧ L'.beta = beta' := by
  obtain ⟨c1, c2, c3, c4, c5⟩ := eigCGiteration_cg rampCollab local_stop S S' L L' _ _ h hK hp hr
  have hA : rampCollab.matSloppy (vec4 a b c d) = vec4 a (2 * b) (3 * c) (4 * d) :=
    rampOperator_vec4 a b c d
  rw [hA, reDotProduct_vec4, axpyNorm_vec4, hrho, ← halpha, ← h1, ← h2, ← h3, ← h4] at c2 c3 c4 c5
  simp only at c2 c3 c4 c5
  rw [← hrho', ← hbeta] at c4 c5
  rw [← hrho'] at c3
  rw [xpay_vec4, ← g1, ← g2, ← g3, ← g4] at c5
  exact ⟨c1, c5, c2, c3, c4⟩

theorem rampOperator_zero : rampOperator blas.zero = blas.zero := by
  funext i
  simp [rampOperator, blas.zero, Cplx.eq_iff]

set_option maxRecDepth 100000 in
theorem rampRun_returns : returnsWith (fun _ => true) (rampRun 5) = true := by
  decide

/-- The states of the run on four components around its first restart: the
third pass finds the cursor at `m - 1 = 2` and caches its `Ap`, the fourth
pass is the first restart and leaves the cursor at `m = 3` again, and the
fifth pass is the second restart. -/
theorem ramp_trace :
    ∃ (S2 : IncEigCG 4 Unit) (L2 : EigCGLocals 4) (S3 : IncEigCG 4 Unit) (L3 : EigCGLocals 4)
      (S4 : IncEigCG 4 Unit) (L4 : EigCGLocals 4) (S5 : IncEigCG 4 Unit) (L5 : EigCGLocals 4)
      (a2 a3 a4 a5 : EigCGArgs 4),
      rampRun 2 = .ok (S2, L2) ∧ rampRun 3 = .ok (S3, L3) ∧
      IncEigCG.eigCGiteration rampCollab
        (IncEigCG.localStop (IncEigCG.initialised rampCollab rampSolver (vec4 1 1 1 1))
          (vec4 1 1 1 1) QudaPrecision.QUDA_DOUBLE_PRECISION) (S2, L2) = .ok (S3, L3) ∧
      IncEigCG.eigCGiteration rampCollab
        (IncEigCG.localStop (IncEigCG.initialised rampCollab rampSolver (vec4 1 1 1 1))
          (vec4 1 1 1 1) QudaPrecision.QUDA_DOUBLE_PRECISION) (S3, L3) = .ok (S4, L4) ∧
      IncEigCG.eigCGiteration rampCollab
        (IncEigCG.localStop (IncEigCG.initialised rampCollab rampSolver (vec4 1 1 1 1))
          (vec4 1 1 1 1) QudaPrecision.QUDA_DOUBLE_PRECISION) (S4, L4) = .ok (S5, L5) ∧
      S5.eigcg_args = some a5 ∧ a5.restarts = 2 ∧
      S2.pp = some (vec4 (9 / 25) (-3 / 25) (-1 / 5) (3 / 25)) ∧
      S3.pp = some (vec4 (16 / 245) (-24 / 245) (16 / 245) (-4 / 245)) ∧
      L3.beta = 5 / 49 ∧
      S2.eigcg_args = some a2 ∧ a2.run_residual_correction = false ∧ a2.id = 2 ∧ a2.k = 1 ∧
      S3.eigcg_args = some a3 ∧ a3.run_residual_correction = false ∧ a3.id = 3 ∧ a3.k = 1 ∧
      a3.restarts = 0 ∧
      S4.eigcg_args = some a4 ∧ a4.id = 3 ∧ a4.k = 1 ∧ a4.restarts = 1 ∧
      S2.param.m = 3 ∧ S3.param.m = 3 ∧ S4.param.m = 3 ∧
      S3.Az = some (vec4 (9 / 25) (-6 / 25) (-3 / 5) (12 / 25)) ∧
      S4.Az = some (vec4 (1 / 35) (-6 / 35) (9 / 35) (-4 / 35)) := by
  obtain ⟨⟨S5, L5⟩, h5, _⟩ := (returnsWith_iff _ _).1 rampRun_returns
  rw [rampRun_succ] at h5
  obtain ⟨⟨S4, L4⟩, h4, i5⟩ := (bind_eq_ok _ _ _).1 h5
  have h4' := h4
  rw [rampRun_succ] at h4'
  obtain ⟨⟨S3, L3⟩, h3, i4⟩ := (bind_eq_ok _ _ _).1 h4'
  have h3' := h3
  rw [rampRun_succ] at h3'
  obtain ⟨⟨S2, L2⟩, h2, i3⟩ := (bind_eq_ok _ _ _).1 h3'
  have h2' := h2
  rw [rampRun_succ] at h2'
  obtain ⟨⟨S1, L1⟩, h1, i2⟩ := (bind_eq_ok _ _ _).1 h2'
  have h1' := h1
  rw [rampRun_succ] at h1'
  obtain ⟨⟨S0, L0⟩, h0, i1⟩ := (bind_eq_ok _ _ _).1 h1'
  -- the state on entry to the loop
  unfold rampRun at h0
  obtain ⟨⟨S0', L0'⟩, hpro, h0⟩ := (bind_eq_ok _ _ _).1 h0
  simp only [IncEigCG.eigCGiterations, pure, Except.pure, Except.ok.injEq, Prod.mk.injEq] at h0
  obtain ⟨rfl, rfl⟩ := h0
  obtain ⟨p1, p2, _, _, _, _, _, p8, p9, ⟨a, pa, pa', _⟩, _⟩ :=
    eigCGprologue_eq_ok rampCollab _ S0' _ _ L0' hpro
  have hK0 : S0'.K = none := p2
  have hm0 : S0'.param.m = 3 := by rw [p1]; rfl
  have ha : a = { EigCGArgs.new 4 3 1 with
      global_stop := rampCollab.stopping (1 / 2) (blas.norm2 (vec4 1 1 1 1)) 1 } := by
    have e : some { EigCGArgs.new 4 3 1 with
        global_stop := rampCollab.stopping (1 / 2) (blas.norm2 (vec4 1 1 1 1)) 1 } = some a := pa
    cases e
    rfl
  subst ha
  have hA0 : rampCollab.matSloppy blas.zero = (blas.zero : ColorSpinorField 4) := rampOperator_zero
  rw [hA0, xmyNorm_zero] at p8 p9
  obtain ⟨p9a, p9b⟩ := p9 rfl
  simp only at p8 p9a p9b
  rw [reDotProduct_vec4] at p9b
  -- first pass
  obtain ⟨k1, q1, r1, m1, _⟩ := ramp_step _ S0' S1 L0' L1 1 1 1 1 1 1 1 1 4 (2 / 5)
    (3 / 5) (1 / 5) (-1 / 5) (-3 / 5) (4 / 5) (1 / 5) (4 / 5) (2 / 5) 0 (-2 / 5) i1 hK0 p9a p8
    (by rw [p9b]; norm_num) (by norm_num) (by norm_num) (by norm_num) (by norm_num)
    (by norm_num) (by norm_num) (by norm_num) (by norm_num) (by norm_num) (by norm_num)
    (by norm_num)
  obtain ⟨_, _, _, a1, e1, c1, d1, f1, g1, n1⟩ :=
    eigCGiteration_Az rampCollab _ S0' S1 L0' L1 _ _ i1 pa' rfl p9a
  have hm1 : S1.param.m = 3 := by rw [n1, hm0]
  have hid1 : a1.id = 1 := by
    rw [f1, hm0]
    rfl
  have hr1 : a1.restarts = 0 := by
    rw [g1, hm0]
    rfl
  have hk1 : a1.k = 1 := d1
  -- second pass
  obtain ⟨k2, q2, r2, m2, _⟩ := ramp_step _ S1 S2 L1 L2 (4 / 5) (2 / 5) 0 (-2 / 5)
    (3 / 5) (1 / 5) (-1 / 5) (-3 / 5) (4 / 5) (1 / 2)
    (1 / 5) (-1 / 5) (-1 / 5) (1 / 5) (4 / 25) (1 / 5) (9 / 25) (-3 / 25) (-1 / 5) (3 / 25)
    i2 k1 q1 r1 m1 (by norm_num) (by norm_num) (by norm_num) (by norm_num) (by norm_num)
    (by norm_num) (by norm_num) (by norm_num) (by norm_num) (by norm_num) (by norm_num)
  obtain ⟨_, _, _, a2, e2, c2, d2, f2, g2, n2⟩ :=
    eigCGiteration_Az rampCollab _ S1 S2 L1 L2 _ _ i2 e1 c1 q1
  have hm2 : S2.param.m = 3 := by rw [n2, hm1]
  have hid2 : a2.id = 2 := by
    rw [f2, hm1, hid1]
    rfl
  have hr2 : a2.restarts = 0 := by
    rw [g2, hm1, hid1, hr1]
    rfl
  have hk2 : a2.k = 1 := d2.trans hk1
  -- third pass: the cursor stands at `m - 1`
  obtain ⟨k3, q3, r3, m3, b3⟩ := ramp_step _ S2 S3 L2 L3 (9 / 25) (-3 / 25) (-1 / 5) (3 / 25)
    (1 / 5) (-1 / 5) (-1 / 5) (1 / 5) (4 / 25) (10 / 21)
    (1 / 35) (-3 / 35) (3 / 35) (-1 / 35) (4 / 245) (5 / 49)
    (16 / 245) (-24 / 245) (16 / 245) (-4 / 245)
    i3 k2 q2 r2 m2 (by norm_num) (by norm_num) (by norm_num) (by norm_num) (by norm_num)
    (by norm_num) (by norm_num) (by norm_num) (by norm_num) (by norm_num) (by norm_num)
  obtain ⟨_, w3, _, a3, e3, c3, d3, f3, g3, n3⟩ :=
    eigCGiteration_Az rampCollab _ S2 S3 L2 L3 _ _ i3 e2 c2 q2
  have hm3 : S3.param.m = 3 := by rw [n3, hm2]
  have hid3 : a3.id = 3 := by
    rw [f3, hm2, hid2]
    rfl
  have hr3 : a3.restarts = 0 := by
    rw [g3, hm2, hid2, hr2]
    rfl
  have hk3 : a3.k = 1 := d3.trans hk2
  have hAz3 : S3.Az = some (vec4 (9 / 25) (-6 / 25) (-3 / 5) (12 / 25)) := by
    rw [w3 (by rw [hid2, hm2]; decide) (by rw [hid2, hm2])]
    have hA : rampCollab.matSloppy (vec4 (9 / 25) (-3 / 25) (-1 / 5) (3 / 25)) =
        vec4 (9 / 25) (2 * (-3 / 25)) (3 * (-1 / 5)) (4 * (3 / 25)) := rampOperator_vec4 _ _ _ _
    rw [hA]
    norm_num
  -- fourth pass: the first restart
  obtain ⟨w4, _, _, a4, e4, c4, d4, f4, g4, n4⟩ :=
    eigCGiteration_Az rampCollab _ S3 S4 L3 L4 _ _ i4 e3 c3 q3
  have hm4 : S4.param.m = 3 := by rw [n4, hm3]
  have hid4 : a4.id = 3 := by
    rw [f4, hm3, hid3, hk3]
    rfl
  have hk4 : a4.k = 1 := d4.trans hk3
  have hr4 : a4.restarts = 1 := by
    rw [g4, hm3, hid3, hr3]
    rfl
  have hAz4 : S4.Az = some (vec4 (1 / 35) (-6 / 35) (9 / 35) (-4 / 35)) := by
    obtain ⟨az, z1, z2⟩ := w4 (by rw [hid3, hm3])
    rw [hAz3] at z1
    cases z1
    rw [z2, b3]
    have hA : rampCollab.matSloppy (vec4 (16 / 245) (-24 / 245) (16 / 245) (-4 / 245)) =
        vec4 (16 / 245) (2 * (-24 / 245)) (3 * (16 / 245)) (4 * (-4 / 245)) :=
      rampOperator_vec4 _ _ _ _
    rw [hA]
    have hx : blas.xpay (vec4 (16 / 245) (2 * (-24 / 245)) (3 * (16 / 245)) (4 * (-4 / 245)))
        (-(5 / 49)) (vec4 (9 / 25) (-6 / 25) (-3 / 5) (12 / 25)) = _ := xpay_vec4 _ _ _ _ _ _ _ _ _
    rw [hx]
    norm_num
  obtain ⟨_, _, _, _, q5⟩ := eigCGiteration_cg rampCollab _ S3 S4 L3 L4 _ _ i4 k3 q3 r3
  obtain ⟨_, _, _, a5, e5, _, _, _, g5, _⟩ :=
    eigCGiteration_Az rampCollab _ S4 S5 L4 L5 _ _ i5 e4 c4 q5
  have hr5 : a5.restarts = 2 := by
    rw [g5, hm4, hid4, hr4]
    rfl
  exact ⟨S2, L2, S3, L3, S4, L4, S5, L5, a2, a3, a4, a5, h2, h3, i3, i4, i5, e5, hr5, q2, q3, b3, e2, c2, hid2, hk2,
    e3, c3, hid3, hk3, hr3, e4, hid4, hk4, hr4, hm2, hm3, hm4, hAz3, hAz4⟩

/-- In the run of the solver with `m = 3`, `k = 1` on the diagonal operator
`diag(1, 2, 3, 4)` the third pass finds the cursor at `m - 1 = 2` and leaves
it at `m`; `Az` on entry to the first restart is the `Ap` of that pass. -/
theorem ramp_first_restart :
    ∃ (S2 S3 : IncEigCG 4 Unit) (L2 L3 : EigCGLocals 4) (a2 a3 : EigCGArgs 4),
      rampRun 2 = .ok (S2, L2) ∧ rampRun 3 = .ok (S3, L3) ∧
      S2.eigcg_args = some a2 ∧ a2.run_residual_correction = false ∧
      S2.pp = some (vec4 (9 / 25) (-3 / 25) (-1 / 5) (3 / 25)) ∧
      S3.eigcg_args = some a3 ∧ a3.id = S3.param.m ∧ a3.restarts = 0 ∧
      a2.id = S2.param.m - 1 ∧
      S3.Az = some (rampCollab.matSloppy (vec4 (9 / 25) (-3 / 25) (-1 / 5) (3 / 25))) := by
  obtain ⟨S2, L2, S3, L3, S4, L4, S5, L5, a2, a3, a4, a5, h2, h3, i3, i4, i5, e5, hr5, q2, q3,
    b3, e2, c2, hid2, hk2, e3, c3, hid3, hk3, hr3, e4, hid4, hk4, hr4, hm2, hm3, hm4, hAz3,
    hAz4⟩ := ramp_trace
  have hrestart : a3.id = S3.param.m := by rw [hid3, hm3]
  have key := (eigCGiteration_restart_Az rampCollab _ S2 S3 L2 L3 a2 a3 _ i3 e2 c2 q2 e3 hrestart).1
    (by rw [hid2, hm2]; decide)
  exact ⟨S2, S3, L2, L3, a2, a3, h2, h3, e2, c2, q2, e3, hrestart, hr3, key.1, key.2⟩

/-- C20 (the code at the failing input): for `m = 3`, `k = 1` (so
`k ≤ m / 2`) on the diagonal operator `diag(1, 2, 3, 4)` with source
`(1, 1, 1, 1)` the fourth pass is the first restart and leaves the cursor at
`m` again, so the fifth pass is the second restart.  On entry to it `Az` is
neither the `Ap` of the fourth pass nor the `Ap` cached at cursor `m - 1`,
but the vector `Ap - beta Az` written by the first restart: the branch of
`UpdateVm` that caches `Ap` is the `else` of the restart branch and is not
taken by a restart that leaves the cursor at `m - 1 = 2k`. -/
theorem IncEigCG.restart_Az_stale :
    ∃ (S3 S4 S5 : IncEigCG 4 Unit) (L3 L4 L5 : EigCGLocals 4) (a3 a4 a5 : EigCGArgs 4)
      (p : ColorSpinorField 4),
      rampRun 3 = .ok (S3, L3) ∧
      IncEigCG.eigCGiteration rampCollab
        (IncEigCG.localStop (IncEigCG.initialised rampCollab rampSolver (vec4 1 1 1 1))
          (vec4 1 1 1 1) QudaPrecision.QUDA_DOUBLE_PRECISION) (S3, L3) = .ok (S4, L4) ∧
      IncEigCG.eigCGiteration rampCollab
        (IncEigCG.localStop (IncEigCG.initialised rampCollab rampSolver (vec4 1 1 1 1))
          (vec4 1 1 1 1) QudaPrecision.QUDA_DOUBLE_PRECISION) (S4, L4) = .ok (S5, L5) ∧
      S3.eigcg_args = some a3 ∧ S4.eigcg_args = some a4 ∧ S5.eigcg_args = some a5 ∧
      S4.param.m = 3 ∧ a4.k = 1 ∧ a4.k ≤ S4.param.m / 2 ∧
      a3.id = S3.param.m ∧ a3.restarts = 0 ∧
      a4.id = S4.param.m ∧ a4.restarts = 1 ∧ a5.restarts = 2 ∧
      S3.pp = some p ∧
      S4.Az = some (vec4 (1 / 35) (-6 / 35) (9 / 35) (-4 / 35)) ∧
      S4.Az ≠ some (rampCollab.matSloppy p) ∧ S4.Az ≠ S3.Az := by
  obtain ⟨S2, L2, S3, L3, S4, L4, S5, L5, a2, a3, a4, a5, h2, h3, i3, i4, i5, e5, hr5, q2, q3,
    b3, e2, c2, hid2, hk2, e3, c3, hid3, hk3, hr3, e4, hid4, hk4, hr4, hm2, hm3, hm4, hAz3,
    hAz4⟩ := ramp_trace
  refine ⟨S3, S4, S5, L3, L4, L5, a3, a4, a5, _, h3, i4, i5, e3, e4, e5, hm4, hk4, ?_, ?_, hr3,
    ?_, hr4, hr5, q3, hAz4, ?_, ?_⟩
  · rw [hk4, hm4]
  · rw [hid3, hm3]
  · rw [hid4, hm4]
  · rw [hAz4]
    have hA : rampCollab.matSloppy (vec4 (16 / 245) (-24 / 245) (16 / 245) (-4 / 245)) =
        vec4 (16 / 245) (2 * (-24 / 245)) (3 * (16 / 245)) (4 * (-4 / 245)) :=
      rampOperator_vec4 _ _ _ _
    rw [hA]
    intro hcon
    have hcon' := vec4_eq _ _ _ _ _ _ _ _ (Option.some.inj hcon)
    norm_num at hcon'
  · rw [hAz4, hAz3]
    intro hcon
    have hcon' := vec4_eq _ _ _ _ _ _ _ _ (Option.some.inj hcon)
    norm_num at hcon'

/-! ## The shape of the Lanczos matrix -/

theorem perform_frame {n : Nat} (a a' : EigCGArgs n) (c : LanczosCall n)
    (h : a.perform c = .ok a') : a'.m = a.m ∧ a'.k = a.k := by
  cases c with
  | SetLanczos d o =>
    obtain ⟨h1, h2, _⟩ := EigCGArgs.SetLanczos_eq_ok a a' d o h
    exact ⟨h1, h2⟩
  | RestartLanczos w v r =>
    obtain ⟨_, h2⟩ := (EigCGArgs.RestartLanczos_eq_ok a a' w v r).1 h
    rw [h2]
    exact ⟨rfl, rfl⟩
  | CleanArgs => cases h; exact ⟨rfl, rfl⟩
  | ResetSearchIdx => cases h; exact ⟨rfl, rfl⟩
  | ResetAccumBuffer => cases h; exact ⟨rfl, rfl⟩

/-- What `SetLanczos` leaves in `Tm`. -/
theorem SetLanczos_Tm {n : Nat} (a a' : EigCGArgs n) (d o : Cplx)
    (h : a.SetLanczos d o = .ok a') :
    a'.Tm = a.Tm ∨
    (a.id < a.m ∧ a'.Tm = fun i j =>
      if i = a.id ∧ j = a.id then d
      else if a.id < a.m - 1 ∧ ((i = a.id ∧ j = a.id + 1) ∨ (i = a.id + 1 ∧ j = a.id)) then o
      else a.Tm i j) := by
  obtain ⟨_, _, _, _, _, _, h7, h8⟩ := EigCGArgs.SetLanczos_eq_ok a a' d o h
  cases hrc : a.run_residual_correction with
  | true => left; rw [h8 hrc]
  | false =>
    right
    obtain ⟨hid, _⟩ := h7 hrc
    rw [EigCGArgs.SetLanczos_ok a d o hrc hid] at h
    cases h
    exact ⟨hid, rfl⟩

/-- One method call keeps the entries outside the three central diagonals and
outside the border of the leading `2k x 2k` block zero; a call other than
`RestartLanczos` keeps a tridiagonal matrix tridiagonal. -/
theorem perform_shape {n : Nat} (a a' : EigCGArgs n) (c : LanczosCall n)
    (h : a.perform c = .ok a') :
    ((∀ i j : Nat, (i + 1 < j ∨ j + 1 < i) → ¬ DenseMatrix.inBorder (2 * a.k) i j →
        a.Tm i j = 0) →
      ∀ i j : Nat, (i + 1 < j ∨ j + 1 < i) → ¬ DenseMatrix.inBorder (2 * a.k) i j →
        a'.Tm i j = 0) ∧
    (c.isRestart = false → a.Tm.IsTridiagonal → a'.Tm.IsTridiagonal) := by
  cases c with
  | SetLanczos d o =>
    have h' : a.SetLanczos d o = .ok a' := h
    rcases SetLanczos_Tm a a' d o h' with e | ⟨_, e⟩
    · rw [e]
      exact ⟨fun H => H, fun _ H => H⟩
    · rw [e]
      refine ⟨fun H i j hij hb => ?_, fun _ H i j hij => ?_⟩
      · have := H i j hij hb
        simp only
        rw [if_neg (by omega), if_neg (by omega)]
        exact this
      · have := H i j hij
        simp only
        rw [if_neg (by omega), if_neg (by omega)]
        exact this
  | RestartLanczos w v r =>
    have h' : a.RestartLanczos w v r = .ok a' := h
    obtain ⟨_, e⟩ := (EigCGArgs.RestartLanczos_eq_ok a a' w v r).1 h'
    rw [e]
    refine ⟨fun _ i j hij hb => ?_, fun hc => by simp [LanczosCall.isRestart] at hc⟩
    simp only [DenseMatrix.inBorder, not_or, not_and] at hb
    simp only
    rw [if_neg (fun hh => hb.1 hh.1 hh.2), if_neg (fun hh => hb.2 hh.1 hh.2),
      if_neg (by omega)]
  | CleanArgs =>
    cases h
    exact ⟨fun _ _ _ _ _ => rfl, fun _ _ _ _ _ => rfl⟩
  | ResetSearchIdx =>
    cases h
    exact ⟨fun H => H, fun _ H => H⟩
  | ResetAccumBuffer =>
    cases h
    exact ⟨fun H => H, fun _ H => H⟩

theorem performAll_cons {n : Nat} (c : LanczosCall n) (cs : List (LanczosCall n))
    (a a' : EigCGArgs n) :
    EigCGArgs.performAll (c :: cs) a = .ok a' ↔
      ∃ a1, a.perform c = .ok a1 ∧ EigCGArgs.performAll cs a1 = .ok a' := by
  exact bind_eq_ok _ _ _

theorem performAll_shape {n : Nat} :
    ∀ (cs : List (LanczosCall n)) (a a' : EigCGArgs n),
      EigCGArgs.performAll cs a = .ok a' →
      a'.k = a.k ∧
      ((∀ i j : Nat, (i + 1 < j ∨ j + 1 < i) → ¬ DenseMatrix.inBorder (2 * a.k) i j →
          a.Tm i j = 0) →
        ∀ i j : Nat, (i + 1 < j ∨ j + 1 < i) → ¬ DenseMatrix.inBorder (2 * a.k) i j →
          a'.Tm i j = 0) ∧
      ((∀ c ∈ cs, c.isRestart = false) → a.Tm.IsTridiagonal → a'.Tm.IsTridiagonal) := by
  intro cs
  induction cs with
  | nil =>
    intro a a' h
    cases h
    exact ⟨rfl, fun H => H, fun _ H => H⟩
  | cons c cs ih =>
    intro a a' h
    obtain ⟨a1, h1, h2⟩ := (performAll_cons c cs a a').1 h
    obtain ⟨_, hk⟩ := perform_frame a a1 c h1
    obtain ⟨s1, s2⟩ := perform_shape a a1 c h1
    obtain ⟨k2, t1, t2⟩ := ih a1 a' h2
    rw [hk] at t1 k2
    exact ⟨k2, fun H => t1 (s1 H),
      fun hc H => t2 (fun c' hc' => hc c' (List.mem_cons_of_mem _ hc'))
        (s2 (hc c (List.mem_cons_self _ _)) H)⟩

theorem demoCalls_returns :
    returnsWith (fun _ => true) ((EigCGArgs.new 1 4 1).performAll demoCalls) = true := by
  decide

theorem demoCallsPlain_returns :
    returnsWith (fun _ => true) ((EigCGArgs.new 1 4 1).performAll demoCallsPlain) = true := by
  decide

/-- C21 (amended): after any sequence of method calls of `EigCGArgs` starting
from the zero matrix, every entry `T[i,j]` with `|i - j| > 1` is zero unless
it is one of the first `2k` entries of row `2k` or of column `2k`, where
`RestartLanczos` stores the coupling to the restarted basis; if the sequence
holds no `RestartLanczos`, every entry with `|i - j| > 1` is zero. -/
theorem EigCGArgs.tridiagonal_or_border {n : Nat} (cs : List (LanczosCall n))
    (a a' : EigCGArgs n) (hzero : a.Tm = DenseMatrix.zero)
    (h : EigCGArgs.performAll cs a = .ok a') :
    (∀ i j : Nat, (i + 1 < j ∨ j + 1 < i) → ¬ DenseMatrix.inBorder (2 * a.k) i j →
      a'.Tm i j = 0) ∧
    ((∀ c ∈ cs, c.isRestart = false) → a'.Tm.IsTridiagonal) := by
  obtain ⟨_, t1, t2⟩ := performAll_shape cs a a' h
  refine ⟨t1 (fun i j _ _ => ?_), fun hc => t2 hc (fun i j _ => ?_)⟩
  · rw [hzero]; rfl
  · rw [hzero]; rfl

/-- C21 (witness): the run `demoCalls` with a restart and the run
`demoCallsPlain` without one, both from the freshly constructed state. -/
theorem EigCGArgs.tridiagonal_or_border_witness :
    (∃ a', (EigCGArgs.new 1 4 1).performAll demoCalls = .ok a' ∧
      ∀ i j : Nat, (i + 1 < j ∨ j + 1 < i) → ¬ DenseMatrix.inBorder 2 i j → a'.Tm i j = 0) ∧
    (∃ a', (EigCGArgs.new 1 4 1).performAll demoCallsPlain = .ok a' ∧
      a'.Tm.IsTridiagonal) := by
  obtain ⟨a1, h1, _⟩ := (returnsWith_iff _ _).1 demoCalls_returns
  obtain ⟨a2, h2, _⟩ := (returnsWith_iff _ _).1 demoCallsPlain_returns
  exact ⟨⟨a1, h1, (EigCGArgs.tridiagonal_or_border demoCalls _ a1 rfl h1).1⟩,
    ⟨a2, h2, (EigCGArgs.tridiagonal_or_border demoCallsPlain _ a2 rfl h2).2 (by decide)⟩⟩

/-- C21 (counterexample): with `m = 4`, `k = 1` one `RestartLanczos` call on
the zero matrix writes the entry `T[0,2]`, two places off the diagonal. -/
theorem EigCGArgs.tridiagonal_or_border_counterexample :
    ∃ a', (EigCGArgs.new 1 4 1).performAll
        [LanczosCall.RestartLanczos (demoField 1) (fun _ => demoField 1) 1] = .ok a' ∧
      (EigCGArgs.new 1 4 1).Tm = DenseMatrix.zero ∧
      a'.Tm 0 2 = Cplx.ofReal 1 ∧ ¬ a'.Tm.IsTridiagonal := by
  have h : (EigCGArgs.new 1 4 1).RestartLanczos (demoField 1) (fun _ => demoField 1) 1 =
      .ok _ := (EigCGArgs.RestartLanczos_eq_ok _ _ _ _ _).2 ⟨by decide, rfl⟩
  have v : Cplx.scale 1 (blas.cDotProduct (demoField 1) (demoField 1)) = Cplx.ofReal 1 := by
    simp [Cplx.scale, blas.cDotProduct, demoField, Cplx.ofReal]
  refine ⟨_, (performAll_cons _ _ _ _).2 ⟨_, h, rfl⟩, rfl, ?_, ?_⟩
  · simp [EigCGArgs.new, v]
  · intro H
    have := H 0 2 (Or.inl (by decide))
    simp [EigCGArgs.new, v, Cplx.ofReal, Cplx.eq_iff] at this

/-! ## The Lanczos matrix is Hermitian -/

theorem Cplx.conj_conj (x : Cplx) : Cplx.conj (Cplx.conj x) = x := by
  simp [Cplx.conj, Cplx.eq_iff]

theorem Cplx.conj_of_im_zero (x : Cplx) (h : x.im = 0) : Cplx.conj x = x := by
  simp [Cplx.conj, Cplx.eq_iff, h]

theorem Cplx.conj_ofReal (x : ℚ) : Cplx.conj (Cplx.ofReal x) = Cplx.ofReal x := by
  simp [Cplx.conj, Cplx.ofReal]

theorem Cplx.conj_zero : Cplx.conj 0 = 0 := by
  simp [Cplx.conj, Cplx.eq_iff]

/-- The matrix that `RestartLanczos` builds is Hermitian. -/
theorem RestartLanczos_hermitian {n : Nat} (a a' : EigCGArgs n) (w : ColorSpinorField n)
    (v : Nat → ColorSpinorField n) (c : ℚ) (h : a.RestartLanczos w v c = .ok a') :
    a'.m = a.m ∧ a'.Tm.IsHermitian a'.m := by
  obtain ⟨_, e⟩ := (EigCGArgs.RestartLanczos_eq_ok a a' w v c).1 h
  rw [e]
  refine ⟨rfl, fun i j _ _ => ?_⟩
  simp only
  split_ifs <;> first
    | (exfalso; omega)
    | (have hij : i = j := by omega
       subst hij
       simp only [Cplx.conj_ofReal])
    | simp only [Cplx.conj_conj, Cplx.conj_ofReal, Cplx.conj_zero]

/-- `SetLanczos` with real scalars keeps the matrix Hermitian. -/
theorem SetLanczos_hermitian {n : Nat} (a a' : EigCGArgs n) (d o : Cplx)
    (hd : d.im = 0) (ho : o.im = 0) (hH : a.Tm.IsHermitian a.m)
    (h : a.SetLanczos d o = .ok a') :
    a'.m = a.m ∧ a'.Tm.IsHermitian a'.m := by
  obtain ⟨hm, _⟩ := EigCGArgs.SetLanczos_eq_ok a a' d o h
  refine ⟨hm, ?_⟩
  rw [hm]
  rcases SetLanczos_Tm a a' d o h with e | ⟨_, e⟩
  · rw [e]
    exact hH
  · rw [e]
    intro i j hi hj
    have hij := hH i j hi hj
    simp only
    split_ifs <;> first
      | (exfalso; omega)
      | exact hij
      | exact (Cplx.conj_of_im_zero d hd).symm
      | exact (Cplx.conj_of_im_zero o ho).symm

theorem zero_hermitian (m : Nat) : DenseMatrix.zero.IsHermitian m := by
  intro i j _ _
  exact Cplx.conj_zero.symm

theorem perform_hermitian {n : Nat} (a a' : EigCGArgs n) (c : LanczosCall n)
    (hc : c.IsReal) (hH : a.Tm.IsHermitian a.m) (h : a.perform c = .ok a') :
    a'.Tm.IsHermitian a'.m := by
  cases c with
  | SetLanczos d o => exact (SetLanczos_hermitian a a' d o hc.1 hc.2 hH h).2
  | RestartLanczos w v r => exact (RestartLanczos_hermitian a a' w v r h).2
  | CleanArgs =>
    cases h
    exact zero_hermitian _
  | ResetSearchIdx =>
    cases h
    exact hH
  | ResetAccumBuffer =>
    cases h
    exact hH

theorem performAll_hermitian {n : Nat} :
    ∀ (cs : List (LanczosCall n)) (a a' : EigCGArgs n),
      (∀ c ∈ cs, c.IsReal) → a.Tm.IsHermitian a.m →
      EigCGArgs.performAll cs a = .ok a' → a'.Tm.IsHermitian a'.m := by
  intro cs
  induction cs with
  | nil =>
    intro a a' _ hH h
    cases h
    exact hH
  | cons c cs ih =>
    intro a a' hc hH h
    obtain ⟨a1, h1, h2⟩ := (performAll_cons c cs a a').1 h
    exact ih a1 a' (fun c' hc' => hc c' (List.mem_cons_of_mem _ hc'))
      (perform_hermitian a a1 c (hc c (List.mem_cons_self _ _)) hH h1) h2

theorem RestartVT_hermitian (C : Collab n D) (S S' : IncEigCG n D) (beta rho : ℚ)
    (h : IncEigCG.RestartVT C S beta rho = .ok S') :
    ∃ a', S'.eigcg_args = some a' ∧ a'.Tm.IsHermitian a'.m := by
  unfold IncEigCG.RestartVT at h
  obtain ⟨a0, _, h⟩ := (bind_eq_ok _ _ _).1 h
  obtain ⟨al, _, h⟩ := (bind_eq_ok _ _ _).1 h
  obtain ⟨V, _, h⟩ := (bind_eq_ok _ _ _).1 h
  obtain ⟨Vm, _, h⟩ := (bind_eq_ok _ _ _).1 h
  obtain ⟨_, _, h⟩ := (bind_eq_ok _ _ _).1 h
  obtain ⟨_, _, h⟩ := (bind_eq_ok _ _ _).1 h
  obtain ⟨_, _, h⟩ := (bind_eq_ok _ _ _).1 h
  obtain ⟨Ap, _, h⟩ := (bind_eq_ok _ _ _).1 h
  obtain ⟨Az, _, h⟩ := (bind_eq_ok _ _ _).1 h
  obtain ⟨_, _, h⟩ := (bind_eq_ok _ _ _).1 h
  obtain ⟨Vm1, _, h⟩ := (bind_eq_ok _ _ _).1 h
  obtain ⟨omega, _, h⟩ := (bind_eq_ok _ _ _).1 h
  obtain ⟨a1, r1, h⟩ := (bind_eq_ok _ _ _).1 h
  simp only [pure, Except.pure, Except.ok.injEq] at h
  subst h
  exact ⟨_, rfl, (RestartLanczos_hermitian _ a1 _ _ _ r1).2⟩

theorem restartOrSave_hermitian (C : Collab n D) (S S' : IncEigCG n D) (a : EigCGArgs n)
    (beta sqrtr2 : ℚ) (ha : S.eigcg_args = some a) (hH : a.Tm.IsHermitian a.m)
    (h : IncEigCG.restartOrSave C S a beta sqrtr2 = .ok S') :
    ∃ a', S'.eigcg_args = some a' ∧ a'.Tm.IsHermitian a'.m := by
  unfold IncEigCG.restartOrSave at h
  by_cases h1 : a.id = S.param.m
  · rw [if_pos h1] at h
    obtain ⟨S1, r1, h⟩ := (bind_eq_ok _ _ _).1 h
    obtain ⟨a1, r2, h⟩ := (bind_eq_ok _ _ _).1 h
    simp only [pure, Except.pure, Except.ok.injEq] at h
    subst h
    obtain ⟨a2, e2, H2⟩ := RestartVT_hermitian C S S1 beta sqrtr2 r1
    rw [deref_eq_ok, e2] at r2
    cases r2
    exact ⟨_, rfl, H2⟩
  · by_cases h2 : a.id = S.param.m - 1
    · rw [if_neg h1, if_pos h2] at h
      obtain ⟨Ap, _, h⟩ := (bind_eq_ok _ _ _).1 h
      obtain ⟨_, _, h⟩ := (bind_eq_ok _ _ _).1 h
      simp only [pure, Except.pure, Except.ok.injEq] at h
      subst h
      exact ⟨a, ha, hH⟩
    · rw [if_neg h1, if_neg h2] at h
      simp only [pure, Except.pure, Except.ok.injEq] at h
      subst h
      exact ⟨a, ha, hH⟩

theorem UpdateVm_hermitian (C : Collab n D) (S S' : IncEigCG n D) (a : EigCGArgs n)
    (res : ColorSpinorField n) (beta sqrtr2 : ℚ) (ha : S.eigcg_args = some a)
    (hH : a.Tm.IsHermitian a.m) (h : IncEigCG.UpdateVm C S res beta sqrtr2 = .ok S') :
    ∃ a', S'.eigcg_args = some a' ∧ a'.Tm.IsHermitian a'.m := by
  unfold IncEigCG.UpdateVm at h
  obtain ⟨a0, u0, h⟩ := (bind_eq_ok _ _ _).1 h
  rw [deref_eq_ok, ha] at u0
  cases u0
  split at h
  · simp only [pure, Except.pure, Except.ok.injEq] at h
    subst h
    exact ⟨a, ha, hH⟩
  · obtain ⟨S1, u1, u2⟩ := (bind_eq_ok _ _ _).1 h
    obtain ⟨a1, e1, H1⟩ := restartOrSave_hermitian C S S1 a beta sqrtr2 ha hH u1
    obtain ⟨_, _, _, _, _, _, _, _, l6, _⟩ := loadBasisVector_eq_ok S1 S' _ _ u2
    exact ⟨a1, l6.trans e1, H1⟩

/-- A pass through the loop body of `eigCGsolve` keeps the Lanczos matrix
Hermitian: the scalars it hands to `SetLanczos` are of type `double`. -/
theorem eigCGiteration_hermitian (C : Collab n D) (local_stop : ℚ) (S S' : IncEigCG n D)
    (L L' : EigCGLocals n) (a : EigCGArgs n)
    (h : IncEigCG.eigCGiteration C local_stop (S, L) = .ok (S', L'))
    (ha : S.eigcg_args = some a) (hH : a.Tm.IsHermitian a.m) :
    ∃ a', S'.eigcg_args = some a' ∧ a'.Tm.IsHermitian a'.m := by
  unfold IncEigCG.eigCGiteration at h
  obtain ⟨p', r1, h⟩ := (bind_eq_ok _ _ _).1 h
  obtain ⟨_, _, h⟩ := (bind_eq_ok _ _ _).1 h
  obtain ⟨_, _, h⟩ := (bind_eq_ok _ _ _).1 h
  obtain ⟨r, r2, h⟩ := (bind_eq_ok _ _ _).1 h
  obtain ⟨S2, r3, h⟩ := (bind_eq_ok _ _ _).1 h
  obtain ⟨⟨S3, z⟩, r4, h⟩ := (bind_eq_ok _ _ _).1 h
  obtain ⟨y, r5, h⟩ := (bind_eq_ok _ _ _).1 h
  obtain ⟨a2, r6, h⟩ := (bind_eq_ok _ _ _).1 h
  obtain ⟨a', r7, h⟩ := (bind_eq_ok _ _ _).1 h
  simp only [pure, Except.pure, Except.ok.injEq, Prod.mk.injEq] at h
  obtain ⟨hS, _⟩ := h
  subst hS
  rw [deref_eq_ok] at r6
  obtain ⟨z1, _⟩ := refreshZ_eq_ok C _ S3 _ z r4
  obtain ⟨a1, e1, H1⟩ := UpdateVm_hermitian C
    ({ S with Ap := some (C.matSloppy p') }.emit Event.matSloppyApply) S2 a _ _ _ ha hH r3
  have e2 : a2 = a1 := by
    have e : S3.eigcg_args = some a2 := r6
    have e' : S3.eigcg_args = S2.eigcg_args := z1
    rw [e', e1] at e
    cases e
    rfl
  subst e2
  exact ⟨a', rfl, (SetLanczos_hermitian a2 a' _ _ rfl rfl H1 r7).2⟩

/-- C25: starting from the zero matrix, `Tm` is Hermitian after every sequence
of method calls of `EigCGArgs` in which the scalars of each `SetLanczos` call
are real; `RestartLanczos` with `2k < m` returns and leaves a Hermitian
matrix whatever it starts from; and a pass through the loop body of
`eigCGsolve`, which hands real scalars to `SetLanczos`, keeps a Hermitian
`Tm` Hermitian. -/
theorem EigCGArgs.hermitian_invariant {n : Nat} {D : Type} :
    (∀ (cs : List (LanczosCall n)) (a a' : EigCGArgs n), a.Tm = DenseMatrix.zero →
      (∀ c ∈ cs, c.IsReal) → EigCGArgs.performAll cs a = .ok a' →
      a'.Tm.IsHermitian a'.m) ∧
    (∀ (a : EigCGArgs n) (w : ColorSpinorField n) (v : Nat → ColorSpinorField n) (c : ℚ),
      2 * a.k < a.m → ∃ a', a.RestartLanczos w v c = .ok a' ∧ a'.Tm.IsHermitian a'.m) ∧
    (∀ (C : Collab n D) (local_stop : ℚ) (S S' : IncEigCG n D) (L L' : EigCGLocals n)
      (a : EigCGArgs n), IncEigCG.eigCGiteration C local_stop (S, L) = .ok (S', L') →
      S.eigcg_args = some a → a.Tm.IsHermitian a.m →
      ∃ a', S'.eigcg_args = some a' ∧ a'.Tm.IsHermitian a'.m) := by
  refine ⟨fun cs a a' hz hc h => ?_, fun a w v c hk => ?_, fun C ls S S' L L' a h ha hH =>
    eigCGiteration_hermitian C ls S S' L L' a h ha hH⟩
  · refine performAll_hermitian cs a a' hc ?_ h
    rw [hz]
    exact zero_hermitian _
  · have e := (EigCGArgs.RestartLanczos_eq_ok a _ w v c).2 ⟨hk, rfl⟩
    exact ⟨_, e, (RestartLanczos_hermitian a _ w v c e).2⟩

/-- The Lanczos matrix is Hermitian in every state of the run on four
components. -/
theorem rampRun_hermitian :
    ∀ (j : Nat) (S : IncEigCG 4 Unit) (L : EigCGLocals 4), rampRun j = .ok (S, L) →
      ∃ a, S.eigcg_args = some a ∧ a.Tm.IsHermitian a.m := by
  intro j
  induction j with
  | zero =>
    intro S L h
    unfold rampRun at h
    obtain ⟨⟨S0, L0⟩, hpro, h0⟩ := (bind_eq_ok _ _ _).1 h
    simp only [IncEigCG.eigCGiterations, pure, Except.pure, Except.ok.injEq, Prod.mk.injEq] at h0
    obtain ⟨rfl, rfl⟩ := h0
    obtain ⟨_, _, _, _, _, _, _, _, _, ⟨a, pa, pa', _⟩, _⟩ :=
      eigCGprologue_eq_ok rampCollab _ S0 _ _ L0 hpro
    have e : some { EigCGArgs.new 4 3 1 with
        global_stop := rampCollab.stopping (1 / 2) (blas.norm2 (vec4 1 1 1 1)) 1 } = some a := pa
    cases e
    exact ⟨_, pa', zero_hermitian _⟩
  | succ j ih =>
    intro S L h
    rw [rampRun_succ] at h
    obtain ⟨⟨S1, L1⟩, h1, h2⟩ := (bind_eq_ok _ _ _).1 h
    obtain ⟨a1, e1, H1⟩ := ih S1 L1 h1
    exact eigCGiteration_hermitian rampCollab _ S1 S L1 L a1 h2 e1 H1

theorem demoCalls_real : ∀ c ∈ demoCalls, c.IsReal := by
  simp [demoCalls, LanczosCall.IsReal, Cplx.ofReal]

/-- C25 (witness): the run `demoCalls` from the freshly constructed state, a
`RestartLanczos` call with `m = 4`, `k = 1`, and the first restart pass of
the run on four components. -/
theorem EigCGArgs.hermitian_invariant_witness :
    (∃ a', (EigCGArgs.new 1 4 1).performAll demoCalls = .ok a' ∧ a'.Tm.IsHermitian a'.m) ∧
    (∃ a', (EigCGArgs.new 1 4 1).RestartLanczos (demoField 1) (fun _ => demoField 1) 1 = .ok a' ∧
      a'.Tm.IsHermitian a'.m) ∧
    (∃ (S3 S4 : IncEigCG 4 Unit) (L3 L4 : EigCGLocals 4) (a3 a4 : EigCGArgs 4),
      rampRun 3 = .ok (S3, L3) ∧
      IncEigCG.eigCGiteration rampCollab
        (IncEigCG.localStop (IncEigCG.initialised rampCollab rampSolver (vec4 1 1 1 1))
          (vec4 1 1 1 1) QudaPrecision.QUDA_DOUBLE_PRECISION) (S3, L3) = .ok (S4, L4) ∧
      S3.eigcg_args = some a3 ∧ a3.id = S3.param.m ∧
      S4.eigcg_args = some a4 ∧ a4.Tm.IsHermitian a4.m) := by
  obtain ⟨a1, h1, _⟩ := (returnsWith_iff _ _).1 demoCalls_returns
  obtain ⟨S2, L2, S3, L3, S4, L4, S5, L5, a2, a3, a4, a5, h2, h3, i3, i4, i5, e5, hr5, q2, q3,
    b3, e2, c2, hid2, hk2, e3, c3, hid3, hk3, hr3, e4, hid4, hk4, hr4, hm2, hm3, hm4, hAz3,
    hAz4⟩ := ramp_trace
  obtain ⟨a, ea, Ha⟩ := rampRun_hermitian 3 S3 L3 h3
  rw [e3] at ea
  cases ea
  obtain ⟨a4', e4', H4⟩ :=
    (@EigCGArgs.hermitian_invariant 4 Unit).2.2 rampCollab _ S3 S4 L3 L4 a3 i4 e3 Ha
  exact ⟨⟨a1, h1, (@EigCGArgs.hermitian_invariant 1 Unit).1 demoCalls _ a1 rfl demoCalls_real h1⟩,
    (@EigCGArgs.hermitian_invariant 1 Unit).2.1 (EigCGArgs.new 1 4 1) (demoField 1)
      (fun _ => demoField 1) 1 (by decide),
    ⟨S3, S4, L3, L4, a3, a4', h3, i4, e3, by rw [hid3, hm3], e4', H4⟩⟩

/-! ## The two back ends of the Rayleigh-Ritz extraction -/

/-- The common tail of both `ComputeRitz` specialisations gives the same
Ritz values and vectors on two states with the same `Tm` and dimensions whose
`ritzVecs` have the same QR factor. -/
theorem ritzProjection_congr (C : Collab n D) (a1 a2 : EigCGArgs n)
    (hm : a2.m = a1.m) (hk : a2.k = a1.k) (hT : a2.Tm = a1.Tm) (hdim : 2 * a1.k ≤ a1.m)
    (hq : C.householderQ a1.m (2 * a1.k) a1.ritzVecs =
      C.householderQ a1.m (2 * a1.k) a2.ritzVecs) :
    ∃ b1 b2, ritzProjection C a1 = .ok b1 ∧ ritzProjection C a2 = .ok b2 ∧
      (∀ i, i < 2 * a1.k → b1.Tmvals i = b2.Tmvals i) ∧
      (∀ i j, i < a1.m → j < 2 * a1.k → b1.ritzVecs i j = b2.ritzVecs i j) ∧
      b1.H2k = b2.H2k ∧ b1.Tm = a1.Tm ∧ b2.Tm = a1.Tm := by
  unfold ritzProjection
  simp only [hm, hk, hT, ← hq]
  rw [inRange_ok hdim]
  simp only [bind, Except.bind, pure, Except.pure]
  rw [setBlock_eq_ok.2 ⟨⟨by omega, by omega⟩, rfl⟩, setBlock_eq_ok.2 ⟨⟨by omega, by omega⟩, rfl⟩]
  refine ⟨_, _, rfl, rfl, ?_, ?_, rfl, rfl, rfl⟩
  · intro i hi
    simp only [hi, if_true]
  · intro i j hi hj
    have hc : 0 ≤ i ∧ i < 0 + a1.m ∧ 0 ≤ j ∧ j < 0 + 2 * a1.k :=
      ⟨by omega, by omega, by omega, by omega⟩
    simp only [hc, and_self, if_true]

/-- C22: on a build with `MAGMA_LIB`, for every matrix `Tm` of a state with
`0 < m` and `2k ≤ m`, if the two dense eigensolvers agree on the leading `k`
eigenvectors of `Tm` and of its leading `(m-1) x (m-1)` block, and the QR
factorisation depends only on the `m x 2k` block it is handed, then both
specialisations of `ComputeRitz` return, with the same `2k` Ritz values, the
same `m x 2k` block of Ritz vectors, the same `H2k` and an unchanged `Tm`. -/
theorem ComputeRitz_backends_agree (C : Collab n D) (args : EigCGArgs n)
    (hb : C.MAGMA_LIB = true) (hm0 : 0 < args.m) (hdim : 2 * args.k ≤ args.m)
    (hqr : ∀ R R' : DenseMatrix,
      (∀ i j, i < args.m → j < 2 * args.k → R i j = R' i j) →
      C.householderQ args.m (2 * args.k) R = C.householderQ args.m (2 * args.k) R')
    (hfull : ∀ i j, i < args.m → j < args.k →
      (C.SelfAdjointEigenSolver args.m args.Tm).1 i j = (C.magma_Xheev args.m args.Tm).1 i j)
    (hlead : ∀ i j, i < args.m - 1 → j < args.k →
      (C.SelfAdjointEigenSolver (args.m - 1) args.Tm).1 i j =
        (C.magma_Xheev (args.m - 1) args.Tm).1 i j) :
    ∃ ae am, ComputeRitz C libtype.eigen_lib args = .ok ae ∧
      ComputeRitz C libtype.magma_lib args = .ok am ∧
      (∀ i, i < 2 * args.k → ae.Tmvals i = am.Tmvals i) ∧
      (∀ i j, i < args.m → j < 2 * args.k → ae.ritzVecs i j = am.ritzVecs i j) ∧
      ae.H2k = am.H2k ∧ ae.Tm = args.Tm ∧ am.Tm = args.Tm := by
  simp only [ComputeRitz, ComputeRitz_eigen_lib, ComputeRitz_magma_lib, hb, if_true]
  rw [setBlock_eq_ok.2 ⟨⟨by omega, by omega⟩, rfl⟩, inRange_ok hm0, inRange_ok hdim]
  simp only [bind, Except.bind, pure, Except.pure]
  rw [setBlock_eq_ok.2 ⟨⟨by omega, by omega⟩, rfl⟩]
  simp only
  rw [setBlock_eq_ok.2 ⟨⟨by omega, by omega⟩, rfl⟩]
  simp only
  refine ritzProjection_congr C _ _ rfl rfl rfl hdim (hqr _ _ ?_)
  intro i j hi hj
  simp only
  by_cases hjk : j < args.k
  · have e := hfull i j hi hjk
    rw [if_neg (by omega), if_neg (by omega), if_pos (by omega), if_neg (by omega),
      if_pos (by omega)]
    simpa using e
  · by_cases him : i = args.m - 1
    · rw [if_pos (by omega), if_pos (by omega), if_pos (by omega)]
      rfl
    · have e := hlead i (j - args.k) (by omega) (by omega)
      rw [if_neg (by omega), if_pos (by omega), if_pos (by omega), if_neg (by omega),
        if_pos (by omega)]
      simpa using e

/-- C22 (witness): the freshly constructed state with `m = 4`, `k = 1` under
the collaborators `magmaCollab`. -/
theorem ComputeRitz_backends_agree_witness :
    ∃ ae am, ComputeRitz magmaCollab libtype.eigen_lib (EigCGArgs.new 1 4 1) = .ok ae ∧
      ComputeRitz magmaCollab libtype.magma_lib (EigCGArgs.new 1 4 1) = .ok am ∧
      (∀ i, i < 2 → ae.Tmvals i = am.Tmvals i) ∧
      (∀ i j, i < 4 → j < 2 → ae.ritzVecs i j = am.ritzVecs i j) ∧
      ae.H2k = am.H2k ∧ ae.Tm = DenseMatrix.zero ∧ am.Tm = DenseMatrix.zero := by
  refine ComputeRitz_backends_agree magmaCollab (EigCGArgs.new 1 4 1) rfl (by decide) (by decide)
    ?_ ?_ ?_
  · intro R R' h
    funext i j
    simp only [magmaCollab]
    split
    · rename_i hc
      exact h i j hc.1 hc.2
    · rfl
  · intro i j _ hj
    have hj' : j < 1 := hj
    have hj0 : j = 0 := by omega
    subst hj0
    simp [magmaCollab, demoCollab]
  · intro i j _ hj
    have hj' : j < 1 := hj
    have hj0 : j = 0 := by omega
    subst hj0
    simp [magmaCollab, demoCollab]

/-! ## A call whose initial residual is zero -/

theorem new_fresh {D : Type} (n : Nat) (param : SolverParam) (defl : D) (cycles : Int)
    (S : IncEigCG n D) (h : IncEigCG.new n param defl cycles = .ok S) :
    S.eigcg_args = none ∧ S.init = false ∧ S.defl = defl := by
  unfold IncEigCG.new at h
  split at h
  · obtain ⟨_, _, h⟩ := (bind_eq_ok _ _ _).1 h
    obtain ⟨_, _, h⟩ := (bind_eq_ok _ _ _).1 h
    simp only [pure, Except.pure, Except.ok.injEq] at h
    subst h
    exact ⟨rfl, rfl, rfl⟩
  · simp only [pure, Except.pure, Except.ok.injEq] at h
    subst h
    exact ⟨rfl, rfl, rfl⟩

/-- The first refinement cycle of a solver without Lanczos state on a zero
residual ends in the dereference of the unset `eigcg_args`. -/
theorem refinementCycle_zero_residual (C : Collab n D) (fuel : Nat) (inp : ColorSpinorField n)
    (b2 : ℚ) (S : IncEigCG n D) (L : CycleLocals n) (he : S.eigcg_args = none)
    (hd : L.dcg_cycle = false) (hr : blas.norm2 L.r = 0) :
    IncEigCG.refinementCycle C fuel inp b2 (S, L) = .error Fault.nullPointer := by
  unfold IncEigCG.refinementCycle
  simp only [hd, Bool.false_eq_true, if_false]
  simp only [bind, Except.bind, pure, Except.pure]
  rw [eigCGsolve_of_zero C fuel _ _ _ _ hr]
  simp only [IncEigCG.updateRitz, Bool.false_eq_true, if_false, IncEigCG.eigCGzeroSource,
    IncEigCG.emit, he, deref, bind, Except.bind, throw, throwThe, MonadExceptOf.throw]

/-- On a solver without Lanczos state and with an incomplete subspace, a call
of `operator()` whose initial residual `in - A out` has norm zero ends in the
dereference of the unset `eigcg_args`. -/
theorem call_zero_residual (C : Collab n D) (fuel cycles : Nat) (S : IncEigCG n D)
    (out inp : ColorSpinorField n) (he : S.eigcg_args = none)
    (hinc : C.is_complete S.defl = false)
    (hres : blas.norm2 (blas.xmyNorm inp (C.mat out)).1 = 0) :
    IncEigCG.call C fuel (cycles + 1) S out inp = .error Fault.nullPointer := by
  unfold IncEigCG.call
  have hinc' : C.is_complete
      (if S.param.rhs_idx = 0 then
        { S with max_eigcg_cycles := S.param.eigcg_max_restarts } else S).defl = false := by
    split <;> exact hinc
  simp only [hinc', Bool.false_eq_true, if_false]
  unfold IncEigCG.refinementLoop
  rw [refinementCycle_zero_residual C fuel inp _ _ _ (by
    simp only [IncEigCG.emit]
    split <;> exact he) rfl hres]
  rfl

theorem demo_new_returns :
    returnsWith (fun _ => true) (IncEigCG.new 1 (demoParam 3 1 5) () 4) = true := by
  decide

/-- C24 (the code at the failing input): on the solver that the constructor
returns for the test parameters, with an incomplete subspace, the call with
the zero right-hand side and the zero guess does not complete: `eigCGsolve`
returns at its zero-source test before it creates `eigcg_args`, and the test
`eigcg_args->restarts > 1` of `operator()` then dereferences the unset
pointer.  The same happens for the right-hand side `1` with the exact
solution `1` as the guess, where the initial residual is zero as well. -/
theorem IncEigCG.call_zero_source_fault :
    ∃ S : IncEigCG 1 Unit, IncEigCG.new 1 (demoParam 3 1 5) () 4 = .ok S ∧
      S.eigcg_args = none ∧ demoCollab.is_complete S.defl = false ∧
      (∀ fuel cycles : Nat, IncEigCG.call demoCollab fuel (cycles + 1) S blas.zero blas.zero =
        .error Fault.nullPointer) ∧
      (∀ fuel cycles : Nat,
        IncEigCG.call demoCollab fuel (cycles + 1) S (demoField 1) (demoField 1) =
          .error Fault.nullPointer) := by
  obtain ⟨S, hS, _⟩ := (returnsWith_iff _ _).1 demo_new_returns
  obtain ⟨he, _, _⟩ := new_fresh 1 _ _ _ S hS
  refine ⟨S, hS, he, rfl, fun fuel cycles => ?_, fun fuel cycles => ?_⟩
  · refine call_zero_residual demoCollab fuel cycles S _ _ he rfl ?_
    simp [blas.xmyNorm, blas.norm2, blas.zero, demoCollab, Cplx.scale]
  · refine call_zero_residual demoCollab fuel cycles S _ _ he rfl ?_
    simp [blas.xmyNorm, blas.norm2, demoField, demoCollab, Cplx.scale, Cplx.ofReal]

/-! ## `checkTypes` -/

/-- When `checkTypes` returns. -/
theorem checkTypes_eq_ok (R I S : VectorType) :
    checkTypes R I S = .ok () ↔
      ¬ (R.sizeof_x ≠ I.sizeof_x ∧ S.sizeof_x ≠ 2 ∧ S.sizeof_x ≠ 1 ∧ I.sizeof_x ≠ 4) ∧
      I.vec_length = S.vec_length ∧ R.vec_length ≠ 0 ∧ I.vec_length ≠ 0 ∧ S.vec_length ≠ 0 := by
  unfold checkTypes
  simp only
  split_ifs <;>
    simp only [throw, throwThe, MonadExceptOf.throw, pure, Except.pure, reduceCtorEq,
      false_iff, true_iff] <;> tauto

/-- The part of the claim that the code keeps: differing vector lengths of
the intermediate and the storage type, or a vector length zero, are errors. -/
theorem checkTypes_lengths (R I S : VectorType)
    (h : I.vec_length ≠ S.vec_length ∨ R.vec_length = 0 ∨ I.vec_length = 0 ∨ S.vec_length = 0) :
    ∃ f, checkTypes R I S = .error f := by
  cases hc : checkTypes R I S with
  | error f => exact ⟨f, rfl⟩
  | ok u =>
    cases u
    obtain ⟨_, h1, h2, h3, h4⟩ := (checkTypes_eq_ok R I S).1 hc
    rcases h with h | h | h | h
    · exact absurd h1 h
    · exact absurd h h2
    · exact absurd h h3
    · exact absurd h h4

/-- C23 (the code at the failing inputs): `checkTypes` returns without an
error for a `double2` register type with a `float2` intermediate type and
`float2` storage, which is not fixed-precision storage, and for a `float2`
register type with a `double2` intermediate type and `short2` storage, where
the register type is not `double`: in both the element sizes of the register
and the intermediate type differ and the types are not the admitted
exception.  The test joins its four conditions by `&&`, so either a storage
size of 2 or 1 bytes or an intermediate size of 4 bytes alone lets differing
sizes pass. -/
theorem checkTypes_accepts_mismatch :
    checkTypes double2 float2 float2 = .ok () ∧ precisionRuleBroken double2 float2 float2 ∧
    checkTypes float2 double2 short2 = .ok () ∧ precisionRuleBroken float2 double2 short2 := by
  refine ⟨(checkTypes_eq_ok _ _ _).2 (by decide), ?_,
    (checkTypes_eq_ok _ _ _).2 (by decide), ?_⟩
  · simp [precisionRuleBroken, double2, float2]
  · simp [precisionRuleBroken, double2, float2, short2]

/-! ## `SpinorNorm::store_norm` -/

theorem foldl_max_spec :
    ∀ (rest : List ℚ) (c0 : ℚ),
      c0 ≤ rest.foldl (fun acc cj => max cj acc) c0 ∧
      (∀ c ∈ rest, c ≤ rest.foldl (fun acc cj => max cj acc) c0) ∧
      (rest.foldl (fun acc cj => max cj acc) c0 = c0 ∨
        rest.foldl (fun acc cj => max cj acc) c0 ∈ rest) := by
  intro rest
  induction rest with
  | nil =>
    intro c0
    simp
  | cons c cs ih =>
    intro c0
    obtain ⟨h1, h2, h3⟩ := ih (max c c0)
    simp only [List.foldl_cons, List.mem_cons]
    refine ⟨le_trans (le_max_right c c0) h1, ?_, ?_⟩
    · intro d hd
      rcases hd with rfl | hd
      · exact le_trans (le_max_left _ c0) h1
      · exact h2 d hd
    · rcases h3 with h3 | h3
      · rw [h3]
        rcases max_choice c c0 with e | e
        · exact Or.inr (Or.inl e)
        · exact Or.inl e
      · exact Or.inr (Or.inr h3)

/-- What `store_norm<M>` does for `M ≥ 2`: it returns, writes one entry of
`norm` and leaves the others, and the value written is the largest
`max_fabs` among the first `2 (M/2)` elements of `x`, which are all `M`
elements exactly when `M` is even; the returned value is `fixedMaxValue`
divided by it. -/
theorem store_norm_spec {V : Type} (max_fabs : V → ℚ) (fixedMaxValue : ℚ) (M : Nat)
    (sn : SpinorNorm) (x : Nat → V) (i parity : Nat) (hM : 2 ≤ M) :
    ∃ sn' c0, SpinorNorm.store_norm max_fabs fixedMaxValue M sn x i parity =
        .ok (sn', fixedMaxValue / c0) ∧
      sn'.norm (sn.cb_norm_offset * parity + i) = c0 ∧
      (∀ a, a ≠ sn.cb_norm_offset * parity + i → sn'.norm a = sn.norm a) ∧
      sn'.cb_norm_offset = sn.cb_norm_offset ∧
      (∀ j, j < 2 * (M / 2) → max_fabs (x j) ≤ c0) ∧
      (∃ j, j < 2 * (M / 2) ∧ max_fabs (x j) = c0) := by
  obtain ⟨h, hh⟩ : ∃ h, M / 2 = h + 1 := ⟨M / 2 - 1, by omega⟩
  have hc : SpinorNorm.pairMaxima max_fabs M x =
      max (max_fabs (x 0)) (max_fabs (x 1)) ::
        (List.range h).map (fun j =>
          max (max_fabs (x (2 * (j + 1) + 0))) (max_fabs (x (2 * (j + 1) + 1)))) := by
    unfold SpinorNorm.pairMaxima
    rw [hh, List.range_succ_eq_map, List.map_cons, List.map_map]
    rfl
  obtain ⟨f1, f2, f3⟩ := foldl_max_spec
    ((List.range h).map (fun j =>
      max (max_fabs (x (2 * (j + 1) + 0))) (max_fabs (x (2 * (j + 1) + 1)))))
    (max (max_fabs (x 0)) (max_fabs (x 1)))
  obtain ⟨c0, hr⟩ : ∃ c0, c0 = List.foldl (fun acc cj => max cj acc)
      (max (max_fabs (x 0)) (max_fabs (x 1)))
      ((List.range h).map (fun j =>
        max (max_fabs (x (2 * (j + 1) + 0))) (max_fabs (x (2 * (j + 1) + 1))))) := ⟨_, rfl⟩
  rw [← hr] at f1 f2 f3
  refine ⟨{ sn with norm := fun a =>
      if a = sn.cb_norm_offset * parity + i then c0 else sn.norm a }, c0, ?_, ?_, ?_, rfl, ?_, ?_⟩
  · unfold SpinorNorm.store_norm
    rw [hc, hr]
    rfl
  · simp only [if_true]
  · intro a ha
    simp only [ha, if_false]
  · intro j hj
    by_cases hj2 : j < 2
    · refine le_trans ?_ f1
      have : j = 0 ∨ j = 1 := by omega
      rcases this with rfl | rfl
      · exact le_max_left _ _
      · exact le_max_right _ _
    · have hmem : max (max_fabs (x (2 * (j / 2 - 1 + 1) + 0)))
          (max_fabs (x (2 * (j / 2 - 1 + 1) + 1))) ∈
          (List.range h).map (fun j =>
            max (max_fabs (x (2 * (j + 1) + 0))) (max_fabs (x (2 * (j + 1) + 1)))) :=
        List.mem_map.2 ⟨j / 2 - 1, List.mem_range.2 (by omega), rfl⟩
      refine le_trans ?_ (f2 _ hmem)
      have : j = 2 * (j / 2 - 1 + 1) + 0 ∨ j = 2 * (j / 2 - 1 + 1) + 1 := by omega
      rcases this with e | e
      · exact e ▸ le_max_left _ _
      · exact e ▸ le_max_right _ _
  · rcases f3 with e | e
    · rw [e]
      rcases max_choice (max_fabs (x 0)) (max_fabs (x 1)) with e' | e'
      · exact ⟨0, by omega, e'.symm⟩
      · exact ⟨1, by omega, e'.symm⟩
    · obtain ⟨j, hj, e'⟩ := List.mem_map.1 e
      rw [← e']
      have hj' := List.mem_range.1 hj
      rcases max_choice (max_fabs (x (2 * (j + 1) + 0))) (max_fabs (x (2 * (j + 1) + 1)))
        with e2 | e2
      · exact ⟨2 * (j + 1) + 0, by omega, e2.symm⟩
      · exact ⟨2 * (j + 1) + 1, by omega, e2.symm⟩

/-- C26 (the code at the failing inputs): for `M = 3` and the elements
`1, -2, 5`, `store_norm` writes `2` into `norm` and returns
`fixedMaxValue / 2`, although the largest absolute value among the three
elements is `5`: the pairs `x[2j], x[2j+1]` for `j < M/2` leave out the last
element of an odd `M`.  For `M = 1` the local array `c` has no entry and the
read of `c[0]` is outside it. -/
theorem SpinorNorm.store_norm_odd :
    (∃ sn', SpinorNorm.store_norm (fun v : ℚ => |v|) 32767 3 demoNorm demoElements 5 1 =
        .ok (sn', 32767 / 2) ∧ sn'.norm (16 * 1 + 5) = 2) ∧
    |demoElements 2| = 5 ∧
    SpinorNorm.store_norm (fun v : ℚ => |v|) 32767 1 demoNorm demoElements 5 1 =
      .error TextureFault.indexOutOfRange := by
  have hc : SpinorNorm.pairMaxima (fun v : ℚ => |v|) 3 demoElements = [2] := by
    have e : List.range (3 / 2) = [0] := rfl
    simp only [SpinorNorm.pairMaxima, e, List.map_cons, List.map_nil, demoElements]
    norm_num
  refine ⟨⟨{ demoNorm with norm := fun a =>
      if a = demoNorm.cb_norm_offset * 1 + 5 then 2 else demoNorm.norm a }, ?_, ?_⟩, ?_, ?_⟩
  · unfold SpinorNorm.store_norm
    rw [hc]
    rfl
  · simp [demoNorm]
  · simp [demoElements]
  · rfl

end quda
